import Mathlib

/-!
# minidb: a verification development

A shallow embedding of the storage, index and write-ahead-log code of minidb
(`src/storage`, `src/index`, `src/transaction`, `src/main.c`), followed by
theorems about it.

Conventions of the embedding

* A byte is a `Nat` below 256; a `uint32_t` is a `Nat` below `2 ^ 32`, and
  every C operation that can wrap is written with an explicit `% 2 ^ 32`.
* A memory buffer (`void*`, `char[n]`) is a `List Nat` of bytes.  A pointer
  into a buffer is the buffer together with an offset.
* A C function that mutates through a pointer returns the new value of what
  it mutates.
* `exit(EXIT_FAILURE)` and accesses outside an array are results
  (`Except Fault`), not silent behaviour.
-/

set_option maxRecDepth 100000

namespace MiniDB

/-! ## Bytes and words -/

/-- The four bytes of a `uint32_t` as they lie in memory (x86, little-endian). -/
def u32_bytes (x : Nat) : List Nat :=
  [x % 256, x / 256 % 256, x / 65536 % 256, x / 16777216 % 256]

/-- The `uint32_t` read from the four bytes of `buf` that start at `off`. -/
def read_u32 (buf : List Nat) (off : Nat) : Nat :=
  buf.getD off 0 + 256 * buf.getD (off + 1) 0 + 65536 * buf.getD (off + 2) 0
    + 16777216 * buf.getD (off + 3) 0

/-- The C call `memcpy(dst + off, src, n)`: bytes `off .. off + n - 1` of `dst` become the
first `n` bytes of `src`, every other byte of `dst` stays. -/
def memcpy (dst : List Nat) (off : Nat) (src : List Nat) (n : Nat) : List Nat :=
  dst.take off ++ src.take n ++ dst.drop (off + n)

/-! ## Row codec (`src/storage/table.h`, `src/storage/table.c`) -/

def COLUMN_USERNAME_SIZE : Nat := 32
def COLUMN_EMAIL_SIZE : Nat := 255
def TABLE_MAX_PAGES : Nat := 100
def ID_SIZE : Nat := 4
def USERNAME_SIZE : Nat := COLUMN_USERNAME_SIZE
def EMAIL_SIZE : Nat := COLUMN_EMAIL_SIZE
def ID_OFFSET : Nat := 0
def USERNAME_OFFSET : Nat := ID_OFFSET + ID_SIZE
def EMAIL_OFFSET : Nat := USERNAME_OFFSET + USERNAME_SIZE
def ROW_SIZE : Nat := ID_SIZE + USERNAME_SIZE + EMAIL_SIZE

/-- The C struct `Row`: a `uint32_t` and two fixed `char` arrays. -/
structure Row where
  id : Nat
  username : List Nat
  email : List Nat
deriving DecidableEq, Repr

/-- A `Row` value the C type can hold: the id fits 32 bits and the arrays have their
declared lengths. -/
def Row.wf (r : Row) : Prop :=
  r.id < 4294967296 ∧ r.username.length = COLUMN_USERNAME_SIZE ∧
    r.email.length = COLUMN_EMAIL_SIZE

instance (r : Row) : Decidable r.wf := by
  unfold Row.wf; infer_instance

/-- The function `serialize_row(source, destination)`: three `memcpy` calls into the
destination buffer, whose new contents are returned. -/
def serialize_row (source : Row) (destination : List Nat) : List Nat :=
  let d1 := memcpy destination 0 (u32_bytes source.id) ID_SIZE
  let d2 := memcpy d1 ID_SIZE source.username USERNAME_SIZE
  memcpy d2 (ID_SIZE + USERNAME_SIZE) source.email EMAIL_SIZE

/-- The function `deserialize_row(source, destination)`: the three fields are copied out of
the buffer; the row written to `destination` is returned. -/
def deserialize_row (source : List Nat) : Row :=
  { id := read_u32 source 0
    username := (source.drop ID_SIZE).take USERNAME_SIZE
    email := (source.drop (ID_SIZE + USERNAME_SIZE)).take EMAIL_SIZE }

/-! ## C strings (`<string.h>`) -/

/-- The C string a `char*` points to: the bytes before the first NUL.  A buffer that ends
without a NUL is read up to its end. -/
def cstr (buf : List Nat) : List Nat :=
  buf.takeWhile (fun b => b != 0)

/-- Comparison of two strings byte by byte, as unsigned bytes: negative, zero or positive
like the result of `strcmp`. -/
def strcmp_aux : List Nat → List Nat → Int
  | [], [] => 0
  | [], _ :: _ => -1
  | _ :: _, [] => 1
  | a :: as, b :: bs => if a < b then -1 else if b < a then 1 else strcmp_aux as bs

/-- The C call `strcmp(a, b)` on two `char*`. -/
def strcmp (a b : List Nat) : Int :=
  strcmp_aux (cstr a) (cstr b)

/-- The `n` bytes `strncpy(dst, src, n)` writes: the string at `src` cut to `n` bytes and
filled up with NUL bytes to exactly `n`. -/
def strncpy_bytes (src : List Nat) (n : Nat) : List Nat :=
  (cstr src).take n ++ List.replicate (n - ((cstr src).take n).length) 0

/-- The C call `strncpy(dst, src, n)`. -/
def strncpy (dst : List Nat) (src : List Nat) (n : Nat) : List Nat :=
  memcpy dst 0 (strncpy_bytes src n) n

/-! ## Secondary index (`src/index/secondary_index.h`, `src/index/secondary_index.c`) -/

def MAX_INDEXES : Nat := 4
def INDEX_KEY_SIZE : Nat := 64

/-- The C struct `IndexEntry`: a `char key[INDEX_KEY_SIZE]` and a `uint32_t`. -/
structure IndexEntry where
  key : List Nat
  primary_key : Nat
deriving DecidableEq, Repr

instance : Inhabited IndexEntry := ⟨⟨List.replicate 64 0, 0⟩⟩

/-- The C struct `SecondaryIndex`.  `entries` holds the `num_entries` live elements of the
heap array; the slots between `num_entries` and `capacity` are not part of the value. -/
structure SecondaryIndex where
  column_name : List Nat
  table_name : List Nat
  entries : List IndexEntry
  capacity : Nat
deriving DecidableEq, Repr

/-- The field `num_entries`. -/
def SecondaryIndex.num_entries (index : SecondaryIndex) : Nat :=
  index.entries.length

/-- The search loop of `secondary_index_insert`: the first position whose key is greater
than `key`, or `num_entries` when the loop runs to its end.  `i` is the loop counter. -/
def insert_pos_loop (key : List Nat) : List IndexEntry → Nat → Nat
  | [], i => i
  | e :: es, i => if strcmp key e.key < 0 then i else insert_pos_loop key es (i + 1)

/-- The shift loop of `secondary_index_insert`,
`for (i = num_entries; i > insert_pos; i--) entries[i] = entries[i - 1];`
on the array `arr`, started at `i`. -/
def shift_right_loop (insert_pos : Nat) : Nat → List IndexEntry → List IndexEntry
  | 0, arr => arr
  | i + 1, arr =>
    if i + 1 > insert_pos then shift_right_loop insert_pos i (arr.set (i + 1) (arr.getD i default))
    else arr

/-- The function `secondary_index_insert(index, key, primary_key)`.  It always returns
`true`; the new value of `*index` is returned.  The array gets one more slot to hold the
new element (the code doubles `capacity` when all slots are in use). -/
def secondary_index_insert (index : SecondaryIndex) (key : List Nat) (primary_key : Nat) :
    SecondaryIndex :=
  let capacity :=
    if index.num_entries ≥ index.capacity then index.capacity * 2 % 4294967296
    else index.capacity
  let insert_pos := insert_pos_loop key index.entries 0
  let arr := shift_right_loop insert_pos index.num_entries (index.entries ++ [default])
  let slot := arr.getD insert_pos default
  let key1 := strncpy slot.key key (INDEX_KEY_SIZE - 1)
  let key2 := key1.set (INDEX_KEY_SIZE - 1) 0
  { index with
    entries := arr.set insert_pos { key := key2, primary_key := primary_key }
    capacity := capacity }

/-- The conversion of a `uint32_t` value to `int` (two's complement, as gcc and clang do it). -/
def to_int32 (x : Nat) : Int :=
  if x % 4294967296 < 2147483648 then (x % 4294967296 : Nat)
  else ((x % 4294967296 : Nat) : Int) - 4294967296

/-- The binary-search loop of `secondary_index_lookup`: the value of `found_pos` when the
loop ends.  `fuel` bounds the number of iterations. -/
def lookup_search (entries : List IndexEntry) (key : List Nat) : Nat → Int → Int → Int
  | 0, _, _ => -1
  | fuel + 1, left, right =>
    if left ≤ right then
      let mid := left + (right - left) / 2
      let cmp := strcmp key (entries.getD mid.toNat default).key
      if cmp = 0 then mid
      else if cmp < 0 then lookup_search entries key fuel left (mid - 1)
      else lookup_search entries key fuel (mid + 1) right
    else -1

/-- The loop `while (start > 0 && strcmp(entries[start - 1].key, key) == 0) start--;`. -/
def lookup_start (entries : List IndexEntry) (key : List Nat) : Nat → Nat
  | 0 => 0
  | start + 1 =>
    if strcmp (entries.getD start default).key key = 0 then lookup_start entries key start
    else start + 1

/-- The loop `while (end < num_entries - 1 && strcmp(entries[end + 1].key, key) == 0) end++;`
with `fuel` bounding the number of iterations.  The loop is reached only after a match was
found, so `num_entries` is at least 1 and the unsigned `num_entries - 1` does not wrap. -/
def lookup_end (entries : List IndexEntry) (key : List Nat) : Nat → Nat → Nat
  | 0, e => e
  | fuel + 1, e =>
    if e < entries.length - 1 ∧
        strcmp (entries.getD (e + 1) default).key key = 0 then
      lookup_end entries key fuel (e + 1)
    else e

/-- The function `secondary_index_lookup(index, key, count)`: the returned array (`none`
for `NULL`) and the value stored in `*count`. -/
def secondary_index_lookup (index : SecondaryIndex) (key : List Nat) :
    Option (List Nat) × Nat :=
  let left : Int := 0
  let right : Int := to_int32 ((index.num_entries + 4294967296 - 1) % 4294967296)
  let found_pos := lookup_search index.entries key (index.num_entries + 1) left right
  if found_pos = -1 then (none, 0)
  else
    let start := lookup_start index.entries key found_pos.toNat
    let e := lookup_end index.entries key index.num_entries found_pos.toNat
    let count := (e + 4294967296 - start + 1) % 4294967296
    (some ((List.range count).map fun i => (index.entries.getD (start + i) default).primary_key),
      count)

/-- The inner loop of `secondary_index_delete`,
`for (j = i; j < num_entries - 1; j++) entries[j] = entries[j + 1];`
on the array `arr`, with `fuel` bounding the number of iterations.  The loop is reached only
at a matching entry, so `num_entries` is at least 1 and the unsigned `num_entries - 1` does
not wrap. -/
def shift_left_loop : Nat → Nat → List IndexEntry → List IndexEntry
  | 0, _, arr => arr
  | fuel + 1, j, arr =>
    if j < arr.length - 1 then
      shift_left_loop fuel (j + 1) (arr.set j (arr.getD (j + 1) default))
    else arr

/-- The outer loop of `secondary_index_delete`, started at position `i` on the entries
`rest` that follow position `i - 1`: the position of the first entry that matches both
fields, if there is one. -/
def delete_pos_loop (key : List Nat) (primary_key : Nat) : List IndexEntry → Nat → Option Nat
  | [], _ => none
  | e :: es, i =>
    if strcmp e.key key = 0 ∧ e.primary_key = primary_key then some i
    else delete_pos_loop key primary_key es (i + 1)

/-- The function `secondary_index_delete(index, key, primary_key)`; the new value of
`*index` is returned. -/
def secondary_index_delete (index : SecondaryIndex) (key : List Nat) (primary_key : Nat) :
    SecondaryIndex :=
  match delete_pos_loop key primary_key index.entries 0 with
  | none => index
  | some i =>
    let arr := shift_left_loop index.num_entries i index.entries
    { index with entries := arr.take (index.num_entries - 1) }

/-- The index as `index_manager_create_index` leaves it: no entries, capacity 100. -/
def new_index (table_name column_name : List Nat) : SecondaryIndex :=
  { column_name := strncpy (List.replicate 32 0) column_name 31
    table_name := strncpy (List.replicate 64 0) table_name 63
    entries := []
    capacity := 100 }

/-- The entries of an index are sorted by key: every entry comes before every entry with a
greater key, keys compared as `strcmp` does. -/
def index_sorted (index : SecondaryIndex) : Prop :=
  index.entries.Pairwise (fun a b => strcmp a.key b.key ≤ 0)

instance (index : SecondaryIndex) : Decidable (index_sorted index) := by
  unfold index_sorted; infer_instance

/-- A call of one of the two functions that change the entries of an index. -/
inductive IndexOp where
  | insert (key : List Nat) (primary_key : Nat)
  | delete (key : List Nat) (primary_key : Nat)
deriving DecidableEq, Repr

/-- The index after one call. -/
def apply_index_op (index : SecondaryIndex) : IndexOp → SecondaryIndex
  | .insert key pk => secondary_index_insert index key pk
  | .delete key pk => secondary_index_delete index key pk

/-- The index after a sequence of calls, first to last. -/
def apply_index_ops (index : SecondaryIndex) (ops : List IndexOp) : SecondaryIndex :=
  ops.foldl apply_index_op index

/-- Every stored key is a string of at most 63 bytes. -/
def index_keys_short (index : SecondaryIndex) : Prop :=
  ∀ e ∈ index.entries, (cstr e.key).length ≤ 63

/-- A small index on `users.username`: bob, alice, bob, carol, alice inserted with the
primary keys 1 to 5. -/
def example_index : SecondaryIndex :=
  apply_index_ops (new_index [117, 115, 101, 114, 115] [117, 115, 101, 114, 110, 97, 109, 101])
    [.insert [98, 111, 98] 1, .insert [97, 108, 105, 99, 101] 2, .insert [98, 111, 98] 3,
      .insert [99, 97, 114, 111, 108] 4, .insert [97, 108, 105, 99, 101] 5]

/-! ## Pager (`src/storage/pager.h`, `src/storage/pager.c`) -/

def PAGE_SIZE : Nat := 4096

/-- The ways a call can end other than by returning. -/
inductive Fault where
  /-- The call `exit(EXIT_FAILURE)`. -/
  | exit_failure
  /-- An access to `pages[i]` with `i` outside the `TABLE_MAX_PAGES` slots of the array
  (undefined behaviour in C). -/
  | out_of_bounds
  /-- The call does not return: a descent or a walk that goes round a cycle of pages. -/
  | never_returns
  /-- An access through a `NULL` pointer (undefined behaviour in C). -/
  | null_dereference
deriving DecidableEq, Repr

instance {ε α : Type} [DecidableEq ε] [DecidableEq α] : DecidableEq (Except ε α) := by
  intro a b
  cases a with
  | error e1 =>
    cases b with
    | error e2 =>
      exact if h : e1 = e2 then isTrue (by rw [h]) else isFalse (by intro hc; cases hc; exact h rfl)
    | ok _ => exact isFalse (by intro hc; cases hc)
  | ok a1 =>
    cases b with
    | error _ => exact isFalse (by intro hc; cases hc)
    | ok a2 =>
      exact if h : a1 = a2 then isTrue (by rw [h]) else isFalse (by intro hc; cases hc; exact h rfl)

/-- A page buffer: `PAGE_SIZE` bytes. -/
abbrev Page := List Nat

/-- The C struct `Pager`.  `file` is the content of the file behind `file_descriptor`.
`fresh` is not a field of the C struct: it stands for the bytes a buffer returned by
`malloc(sizeof(Page))` holds before anything is stored into it; C leaves them
indeterminate, and every theorem below holds for every value of `fresh`. -/
structure Pager where
  file : List Nat
  file_length : Nat
  num_pages : Nat
  pages : List (Option Page)
  fresh : Page
deriving DecidableEq, Repr

/-- The file after `lseek(fd, off, SEEK_SET); write(fd, data, data.length)`: a write that
starts beyond the end of the file leaves a hole of zero bytes. -/
def file_write (file : List Nat) (off : Nat) (data : List Nat) : List Nat :=
  (file ++ List.replicate (off - file.length) 0).take off ++ data ++ file.drop (off + data.length)

/-- The bytes `lseek(fd, off, SEEK_SET); read(fd, buf, n)` delivers: fewer than `n` at the
end of the file. -/
def file_read (file : List Nat) (off n : Nat) : List Nat :=
  (file.drop off).take n

/-- The function `pager_open(filename)` on a file with the content `file` (a file that does
not exist is created empty). -/
def pager_open (file : List Nat) (fresh : Page) : Except Fault Pager :=
  if file.length % PAGE_SIZE ≠ 0 then .error .exit_failure
  else
    .ok { file := file
          file_length := file.length % 4294967296
          num_pages := file.length / PAGE_SIZE % 4294967296
          pages := List.replicate TABLE_MAX_PAGES none
          fresh := fresh }

/-- The function `pager_get_page(pager, page_num)`: the page the returned pointer points to,
and the pager after the call. -/
def pager_get_page (pager : Pager) (page_num : Nat) : Except Fault (Page × Pager) :=
  if page_num > TABLE_MAX_PAGES then .error .exit_failure
  else if page_num ≥ TABLE_MAX_PAGES then .error .out_of_bounds
  else
    match pager.pages.getD page_num none with
    | some page => .ok (page, pager)
    | none =>
      let num_pages :=
        if pager.file_length % PAGE_SIZE ≠ 0 then pager.file_length / PAGE_SIZE + 1
        else pager.file_length / PAGE_SIZE
      let page :=
        if page_num ≤ num_pages then
          let data := file_read pager.file (page_num * PAGE_SIZE) PAGE_SIZE
          data ++ pager.fresh.drop data.length
        else pager.fresh
      .ok (page,
        { pager with
          pages := pager.pages.set page_num (some page)
          num_pages := if page_num ≥ pager.num_pages then page_num + 1 else pager.num_pages })

/-- A store through the pointer `pager_get_page(pager, page_num)` returned: the cached page
`page_num` becomes `page`. -/
def pager_set_page (pager : Pager) (page_num : Nat) (page : Page) : Pager :=
  { pager with pages := pager.pages.set page_num (some page) }

/-- The function `pager_flush(pager, page_num)`. -/
def pager_flush (pager : Pager) (page_num : Nat) : Except Fault Pager :=
  match pager.pages.getD page_num none with
  | none => .error .exit_failure
  | some page =>
    .ok { pager with file := file_write pager.file (page_num * PAGE_SIZE) (page.take PAGE_SIZE) }

/-- The loop `for (i = 0; i < pager->num_pages; i++) if (pager->pages[i] != NULL)
pager_flush(pager, i);` of `wal_checkpoint`, over the page numbers still to visit. -/
def flush_pages_loop (pager : Pager) : List Nat → Except Fault Pager
  | [] => .ok pager
  | i :: rest =>
    if i ≥ TABLE_MAX_PAGES then .error .out_of_bounds
    else
      match pager.pages.getD i none with
      | none => flush_pages_loop pager rest
      | some _ =>
        match pager_flush pager i with
        | .error f => .error f
        | .ok pager1 => flush_pages_loop pager1 rest

/-! ## Write-ahead log (`src/transaction/wal.h`, `src/transaction/wal.c`) -/

def WAL_HEADER_SIZE : Nat := 32
def WAL_FRAME_HEADER_SIZE : Nat := 24
def WAL_MAGIC : Nat := 0x377F0682
def WAL_VERSION : Nat := 1

/-- The C struct `WALHeader`: eight `uint32_t`. -/
structure WALHeader where
  magic : Nat
  version : Nat
  page_size : Nat
  checkpoint_seq : Nat
  salt1 : Nat
  salt2 : Nat
  checksum1 : Nat
  checksum2 : Nat
deriving DecidableEq, Repr

/-- The C struct `WALFrameHeader`: six `uint32_t`. -/
structure WALFrameHeader where
  page_number : Nat
  db_size : Nat
  salt1 : Nat
  salt2 : Nat
  checksum1 : Nat
  checksum2 : Nat
deriving DecidableEq, Repr

/-- The C struct `WAL`.  `file` is the content of the file behind `fd`. -/
structure WAL where
  file : List Nat
  header : WALHeader
  frame_count : Nat
  is_open : Bool
deriving DecidableEq, Repr

/-- The 32 bytes of a `WALHeader` in memory. -/
def wal_header_bytes (h : WALHeader) : List Nat :=
  u32_bytes h.magic ++ u32_bytes h.version ++ u32_bytes h.page_size ++
    u32_bytes h.checkpoint_seq ++ u32_bytes h.salt1 ++ u32_bytes h.salt2 ++
    u32_bytes h.checksum1 ++ u32_bytes h.checksum2

/-- The `WALHeader` whose memory holds the bytes `b`. -/
def wal_header_of_bytes (b : List Nat) : WALHeader :=
  { magic := read_u32 b 0, version := read_u32 b 4, page_size := read_u32 b 8,
    checkpoint_seq := read_u32 b 12, salt1 := read_u32 b 16, salt2 := read_u32 b 20,
    checksum1 := read_u32 b 24, checksum2 := read_u32 b 28 }

/-- The 24 bytes of a `WALFrameHeader` in memory. -/
def frame_header_bytes (h : WALFrameHeader) : List Nat :=
  u32_bytes h.page_number ++ u32_bytes h.db_size ++ u32_bytes h.salt1 ++ u32_bytes h.salt2 ++
    u32_bytes h.checksum1 ++ u32_bytes h.checksum2

/-- The `WALFrameHeader` whose memory holds the bytes `b`. -/
def frame_header_of_bytes (b : List Nat) : WALFrameHeader :=
  { page_number := read_u32 b 0, db_size := read_u32 b 4, salt1 := read_u32 b 8,
    salt2 := read_u32 b 12, checksum1 := read_u32 b 16, checksum2 := read_u32 b 20 }

/-- A byte buffer seen through a `uint32_t*`: one word per four bytes. -/
def words_of_bytes : List Nat → List Nat
  | a :: b :: c :: d :: rest => (a + 256 * b + 65536 * c + 16777216 * d) :: words_of_bytes rest
  | _ => []

/-- The loop of `wal_checksum` over the words still to visit: the final `(sum1, sum2)`. -/
def wal_checksum_loop : List Nat → Nat → Nat → Nat × Nat
  | [], sum1, sum2 => (sum1, sum2)
  | w :: ws, sum1, sum2 =>
    let sum1 := (sum1 + (w + sum2) % 4294967296) % 4294967296
    let sum2 := (sum2 + (w + sum1) % 4294967296) % 4294967296
    wal_checksum_loop ws sum1 sum2

/-- The function `wal_checksum(data, count, s1, s2)`. -/
def wal_checksum (data : List Nat) (count : Nat) (s1 s2 : Nat) : Nat :=
  let sums := wal_checksum_loop (data.take count) s1 s2
  sums.1 ^^^ sums.2

/-- The function `wal_open(filename)`.  `file` is the content of `<filename>-wal` (empty
when the file is created by the call), `none` when `open` fails; `time` and `pid` are what
`time(NULL)` and `getpid()` return.  The result is `none` for `NULL`. -/
def wal_open (file : Option (List Nat)) (time pid : Nat) : Option WAL :=
  match file with
  | none => none
  | some file =>
    let bytes := file_read file 0 WAL_HEADER_SIZE
    let header := wal_header_of_bytes bytes
    if bytes.length < WAL_HEADER_SIZE ∨ header.magic ≠ WAL_MAGIC then
      let header : WALHeader :=
        { magic := WAL_MAGIC, version := WAL_VERSION, page_size := PAGE_SIZE, checkpoint_seq := 0,
          salt1 := time % 4294967296, salt2 := pid % 4294967296, checksum1 := 0, checksum2 := 0 }
      some { file := file_write file 0 (wal_header_bytes header), header := header,
             frame_count := 0, is_open := true }
    else
      some { file := file, header := header, frame_count := 0, is_open := true }

/-- The header `wal_write_frame` builds for a page image. -/
def make_frame_header (wal : WAL) (page_num : Nat) (page_data : Page) (db_size : Nat) :
    WALFrameHeader :=
  let salt1 := wal.header.salt1
  let salt2 := wal.header.salt2
  let checksum1 := wal_checksum (words_of_bytes page_data) (PAGE_SIZE / 4) salt1 salt2
  let checksum2 := wal_checksum [page_num, db_size, salt1, salt2] (WAL_FRAME_HEADER_SIZE / 4 - 2)
    checksum1 0
  { page_number := page_num, db_size := db_size, salt1 := salt1, salt2 := salt2,
    checksum1 := checksum1, checksum2 := checksum2 }

/-- The function `wal_write_frame(wal, page_num, page_data, db_size)` on a `wal` that is not
`NULL`: the returned flag and the WAL after the call.  Both `write` calls are taken to write
all their bytes. -/
def wal_write_frame (wal : WAL) (page_num : Nat) (page_data : Page) (db_size : Nat) :
    Bool × WAL :=
  if !wal.is_open then (false, wal)
  else
    let header := make_frame_header wal page_num page_data db_size
    (true,
      { wal with
        file := wal.file ++ frame_header_bytes header ++ page_data.take PAGE_SIZE
        frame_count := (wal.frame_count + 1) % 4294967296 })

/-- The function `wal_checkpoint(wal, pager)` on pointers that are not `NULL`. -/
def wal_checkpoint (wal : WAL) (pager : Pager) : Except Fault (Bool × WAL × Pager) :=
  if !wal.is_open then .ok (false, wal, pager)
  else
    match flush_pages_loop pager (List.range pager.num_pages) with
    | .error f => .error f
    | .ok pager1 =>
      let header := { wal.header with
        checkpoint_seq := (wal.header.checkpoint_seq + 1) % 4294967296 }
      let truncated := (wal.file ++ List.replicate (WAL_HEADER_SIZE - wal.file.length) 0).take
        WAL_HEADER_SIZE
      .ok (true,
        { wal with file := file_write truncated 0 (wal_header_bytes header), frame_count := 0,
                   header := header },
        pager1)

/-- The `while (true)` loop of `wal_recover`.  `rest` is the part of the file from the
current position on, `frames_recovered` the counter; `fuel` bounds the iterations. -/
def wal_recover_loop : Nat → List Nat → Pager → Nat → Except Fault (Pager × Nat)
  | 0, _, pager, frames_recovered => .ok (pager, frames_recovered)
  | fuel + 1, rest, pager, frames_recovered =>
    let header_bytes := rest.take WAL_FRAME_HEADER_SIZE
    if header_bytes.length < WAL_FRAME_HEADER_SIZE then .ok (pager, frames_recovered)
    else
      let frame_header := frame_header_of_bytes header_bytes
      let page_data := (rest.drop WAL_FRAME_HEADER_SIZE).take PAGE_SIZE
      if page_data.length < PAGE_SIZE then .ok (pager, frames_recovered)
      else
        let checksum := wal_checksum (words_of_bytes page_data) (PAGE_SIZE / 4)
          frame_header.salt1 frame_header.salt2
        if checksum = frame_header.checksum1 then
          match pager_get_page pager frame_header.page_number with
          | .error f => .error f
          | .ok (page, pager1) =>
            let pager2 := pager_set_page pager1 frame_header.page_number
              (memcpy page 0 page_data PAGE_SIZE)
            wal_recover_loop fuel (rest.drop (WAL_FRAME_HEADER_SIZE + PAGE_SIZE)) pager2
              ((frames_recovered + 1) % 4294967296)
        else .ok (pager, frames_recovered)

/-- The function `wal_recover(wal, pager)` on pointers that are not `NULL`.  Every iteration
of the loop consumes a whole frame of the file, so the length of the file is enough fuel. -/
def wal_recover (wal : WAL) (pager : Pager) : Except Fault (Bool × WAL × Pager) :=
  if !wal.is_open then .ok (false, wal, pager)
  else
    match wal_recover_loop wal.file.length (wal.file.drop WAL_HEADER_SIZE) pager 0 with
    | .error f => .error f
    | .ok (pager1, _) =>
      match wal_checkpoint wal pager1 with
      | .error f => .error f
      | .ok (_, wal1, pager2) => .ok (true, wal1, pager2)

/-! ## B+tree node layout and search

`src/index/btree.h` and `src/index/btree.c` are not among the sources.  The definitions of
this section follow the data model and the component design of the specification: a common
node header (node type, root flag, parent page number), then for a leaf `num_cells`,
`next_leaf_page_num` and the cells (a `uint32` key followed by the row bytes), for an
internal node `num_keys`, `right_child_page_num` and the `(child_page_num, key)` pairs.
Counters and page numbers are `uint32`, node type and root flag take one byte each, which
gives `LEAF_NODE_MAX_CELLS = 13` as the specification states. -/

/-- Modelled from the spec: the node type tag of an internal node (`btree.h` is missing). -/
def NODE_INTERNAL : Nat := 0
/-- Modelled from the spec: the node type tag of a leaf node (`btree.h` is missing). -/
def NODE_LEAF : Nat := 1
/-- Modelled from the spec: offset of `node_type` in the common header (`btree.h` is missing). -/
def NODE_TYPE_OFFSET : Nat := 0
/-- Modelled from the spec: offset of `is_root` in the common header (`btree.h` is missing). -/
def IS_ROOT_OFFSET : Nat := 1
/-- Modelled from the spec: offset of `parent_page_num` (`btree.h` is missing). -/
def PARENT_POINTER_OFFSET : Nat := 2
/-- Modelled from the spec: size of the common node header (`btree.h` is missing). -/
def COMMON_NODE_HEADER_SIZE : Nat := 6
/-- Modelled from the spec: offset of a leaf's `num_cells` (`btree.h` is missing). -/
def LEAF_NODE_NUM_CELLS_OFFSET : Nat := COMMON_NODE_HEADER_SIZE
/-- Modelled from the spec: offset of a leaf's `next_leaf_page_num` (`btree.h` is missing). -/
def LEAF_NODE_NEXT_LEAF_OFFSET : Nat := LEAF_NODE_NUM_CELLS_OFFSET + 4
/-- Modelled from the spec: size of the leaf header (`btree.h` is missing). -/
def LEAF_NODE_HEADER_SIZE : Nat := COMMON_NODE_HEADER_SIZE + 4 + 4
/-- Modelled from the spec: size of a leaf cell's key (`btree.h` is missing). -/
def LEAF_NODE_KEY_SIZE : Nat := 4
/-- Modelled from the spec: size of a leaf cell, key and row (`btree.h` is missing). -/
def LEAF_NODE_CELL_SIZE : Nat := LEAF_NODE_KEY_SIZE + ROW_SIZE
/-- Modelled from the spec: `(PAGE_SIZE - LEAF_NODE_HEADER_SIZE) / LEAF_NODE_CELL_SIZE`
(`btree.h` is missing). -/
def LEAF_NODE_MAX_CELLS : Nat := (PAGE_SIZE - LEAF_NODE_HEADER_SIZE) / LEAF_NODE_CELL_SIZE
/-- Modelled from the spec: offset of an internal node's `num_keys` (`btree.h` is missing). -/
def INTERNAL_NODE_NUM_KEYS_OFFSET : Nat := COMMON_NODE_HEADER_SIZE
/-- Modelled from the spec: offset of `right_child_page_num` (`btree.h` is missing). -/
def INTERNAL_NODE_RIGHT_CHILD_OFFSET : Nat := INTERNAL_NODE_NUM_KEYS_OFFSET + 4
/-- Modelled from the spec: size of the internal node header (`btree.h` is missing). -/
def INTERNAL_NODE_HEADER_SIZE : Nat := COMMON_NODE_HEADER_SIZE + 4 + 4
/-- Modelled from the spec: size of a `(child_page_num, key)` pair (`btree.h` is missing). -/
def INTERNAL_NODE_CELL_SIZE : Nat := 8

/-- The buffer after a `uint32_t` store at offset `off`. -/
def write_u32 (buf : List Nat) (off : Nat) (x : Nat) : List Nat :=
  memcpy buf off (u32_bytes x) 4

/-- Modelled from the spec: the accessor `get_node_type(node)` (`btree.c` is missing). -/
def get_node_type (node : Page) : Nat :=
  node.getD NODE_TYPE_OFFSET 0

/-- Modelled from the spec: the value `*leaf_node_num_cells(node)` (`btree.c` is missing). -/
def leaf_node_num_cells (node : Page) : Nat :=
  read_u32 node LEAF_NODE_NUM_CELLS_OFFSET

/-- Modelled from the spec: the value `*leaf_node_next_leaf(node)` (`btree.c` is missing). -/
def leaf_node_next_leaf (node : Page) : Nat :=
  read_u32 node LEAF_NODE_NEXT_LEAF_OFFSET

/-- Modelled from the spec: the offset in the page of `leaf_node_cell(node, cell_num)`
(`btree.c` is missing). -/
def leaf_node_cell (cell_num : Nat) : Nat :=
  LEAF_NODE_HEADER_SIZE + cell_num * LEAF_NODE_CELL_SIZE

/-- Modelled from the spec: the value `*leaf_node_key(node, cell_num)` (`btree.c` is missing). -/
def leaf_node_key (node : Page) (cell_num : Nat) : Nat :=
  read_u32 node (leaf_node_cell cell_num)

/-- Modelled from the spec: the offset in the page of `leaf_node_value(node, cell_num)`, the
row bytes of the cell (`btree.c` is missing). -/
def leaf_node_value (cell_num : Nat) : Nat :=
  leaf_node_cell cell_num + LEAF_NODE_KEY_SIZE

/-- Modelled from the spec: the value `*internal_node_num_keys(node)` (`btree.c` is missing). -/
def internal_node_num_keys (node : Page) : Nat :=
  read_u32 node INTERNAL_NODE_NUM_KEYS_OFFSET

/-- Modelled from the spec: the value `*internal_node_right_child(node)` (`btree.c` is
missing). -/
def internal_node_right_child (node : Page) : Nat :=
  read_u32 node INTERNAL_NODE_RIGHT_CHILD_OFFSET

/-- Modelled from the spec: the key of pair `key_num` of an internal node, the maximum key
of the subtree of that pair's child (`btree.c` is missing). -/
def internal_node_key (node : Page) (key_num : Nat) : Nat :=
  read_u32 node (INTERNAL_NODE_HEADER_SIZE + key_num * INTERNAL_NODE_CELL_SIZE + 4)

/-- Modelled from the spec: child `child_num` of an internal node, the right child for
`child_num = num_keys` (`btree.c` is missing). -/
def internal_node_child (node : Page) (child_num : Nat) : Nat :=
  if child_num = internal_node_num_keys node then internal_node_right_child node
  else read_u32 node (INTERNAL_NODE_HEADER_SIZE + child_num * INTERNAL_NODE_CELL_SIZE)

/-- Modelled from the spec: `initialize_leaf_node(node)` makes the page an empty leaf that is
not the root and has no next leaf (`btree.c` is missing). -/
def initialize_leaf_node (node : Page) : Page :=
  let n1 := node.set NODE_TYPE_OFFSET NODE_LEAF
  let n2 := n1.set IS_ROOT_OFFSET 0
  let n3 := write_u32 n2 LEAF_NODE_NUM_CELLS_OFFSET 0
  write_u32 n3 LEAF_NODE_NEXT_LEAF_OFFSET 0

/-- Modelled from the spec: `set_node_root(node, is_root)` (`btree.c` is missing). -/
def set_node_root (node : Page) (is_root : Bool) : Page :=
  node.set IS_ROOT_OFFSET (if is_root then 1 else 0)

/-- Modelled from the spec: the position in a leaf of the first cell with key greater than
or equal to `key`, `num_cells` when there is none; `i` is the cell looked at and `n` the
number of cells still to look at (`btree.c` is missing). -/
def leaf_node_find_cell (node : Page) (key : Nat) : Nat → Nat → Nat
  | 0, i => i
  | n + 1, i => if leaf_node_key node i ≥ key then i else leaf_node_find_cell node key n (i + 1)

/-- Modelled from the spec: the binary search of an internal node for the first pair whose
key is greater than or equal to `key`; the result is `num_keys` when there is none
(`btree.c` is missing). -/
def internal_node_find_child (node : Page) (key : Nat) : Nat → Nat → Nat → Nat
  | 0, min_index, _ => min_index
  | fuel + 1, min_index, max_index =>
    if min_index = max_index then min_index
    else
      let index := (min_index + max_index) / 2
      if internal_node_key node index ≥ key then
        internal_node_find_child node key fuel min_index index
      else internal_node_find_child node key fuel (index + 1) max_index

/-! ## Table and cursor (`src/storage/table.h`, `src/storage/table.c`) -/

/-- The C struct `Table` (the `name` field, which `table_open` leaves unset, is left out). -/
structure Table where
  pager : Pager
  root_page_num : Nat
  wal : Option WAL
deriving DecidableEq, Repr

/-- The C struct `Cursor`; the table it points to is passed along with it. -/
structure Cursor where
  page_num : Nat
  cell_num : Nat
  end_of_table : Bool
deriving DecidableEq, Repr

/-- Modelled from the spec: the descent of `table_find` from page `page_num` (`btree.c` is
missing).  It goes down through internal nodes by binary search and ends at the first cell
of a leaf whose key is greater than or equal to `key`, or past the last cell of that leaf.
The cursor is created with `end_of_table` false.  `fuel` bounds the depth. -/
def table_find_loop : Nat → Pager → Nat → Nat → Except Fault (Cursor × Pager)
  | 0, _, _, _ => .error .never_returns
  | fuel + 1, pager, page_num, key =>
    match pager_get_page pager page_num with
    | .error f => .error f
    | .ok (node, pager1) =>
      if get_node_type node = NODE_LEAF then
        .ok ({ page_num := page_num
               cell_num := leaf_node_find_cell node key (leaf_node_num_cells node) 0
               end_of_table := false }, pager1)
      else
        let num_keys := internal_node_num_keys node
        let child_index := internal_node_find_child node key (num_keys + 1) 0 num_keys
        table_find_loop fuel pager1 (internal_node_child node child_index) key

/-- Modelled from the spec: `table_find(table, key)` (`btree.c` is missing).  A tree whose
pages fit the pager is less than `TABLE_MAX_PAGES + 1` levels deep. -/
def table_find (table : Table) (key : Nat) : Except Fault (Cursor × Table) :=
  match table_find_loop (TABLE_MAX_PAGES + 1) table.pager table.root_page_num key with
  | .error f => .error f
  | .ok (cursor, pager1) => .ok (cursor, { table with pager := pager1 })

/-- The function `table_open(filename)`.  `db_file` and `wal_file` are the contents of the
database file and of the WAL file (`none` when the WAL file cannot be opened), `fresh`,
`time` and `pid` as in `pager_open` and `wal_open`. -/
def table_open (db_file : List Nat) (fresh : Page) (wal_file : Option (List Nat))
    (time pid : Nat) : Except Fault Table :=
  match pager_open db_file fresh with
  | .error f => .error f
  | .ok pager =>
    let recovered : Except Fault (Option WAL × Pager) :=
      match wal_open wal_file time pid with
      | none => .ok (none, pager)
      | some wal =>
        if wal.frame_count > 0 then
          match wal_recover wal pager with
          | .error f => .error f
          | .ok (_, wal1, pager1) => .ok (some wal1, pager1)
        else .ok (some wal, pager)
    match recovered with
    | .error f => .error f
    | .ok (wal, pager1) =>
      if pager1.num_pages = 0 then
        match pager_get_page pager1 0 with
        | .error f => .error f
        | .ok (root_node, pager2) =>
          let root1 := set_node_root (initialize_leaf_node root_node) true
          let pager3 := pager_set_page pager2 0 root1
          .ok { pager := { pager3 with num_pages := 1 }, root_page_num := 0, wal := wal }
      else .ok { pager := pager1, root_page_num := 0, wal := wal }

/-- The function `table_close(table)`: the content of the database file after the call, and
the content of the WAL file when the table has a WAL (`none` when it has not, and the WAL
file is not touched). -/
def table_close (table : Table) : Except Fault (List Nat × Option (List Nat)) :=
  let checkpointed : Except Fault (Option (List Nat) × Pager) :=
    match table.wal with
    | none => .ok (none, table.pager)
    | some wal =>
      match wal_checkpoint wal table.pager with
      | .error f => .error f
      | .ok (_, wal1, pager1) => .ok (some wal1.file, pager1)
  match checkpointed with
  | .error f => .error f
  | .ok (wal_file, pager1) =>
    match flush_pages_loop pager1 (List.range pager1.num_pages) with
    | .error f => .error f
    | .ok pager2 => .ok (pager2.file, wal_file)

/-- The function `table_start(table)`. -/
def table_start (table : Table) : Except Fault (Cursor × Table) :=
  match table_find table 0 with
  | .error f => .error f
  | .ok (cursor, table1) =>
    match pager_get_page table1.pager cursor.page_num with
    | .error f => .error f
    | .ok (node, pager1) =>
      let num_cells := leaf_node_num_cells node
      .ok ({ cursor with end_of_table := decide (num_cells = 0) }, { table1 with pager := pager1 })

/-- The function `cursor_value(cursor)`: the page the returned pointer points into and the
offset of the pointer in that page. -/
def cursor_value (table : Table) (cursor : Cursor) : Except Fault ((Page × Nat) × Table) :=
  match pager_get_page table.pager cursor.page_num with
  | .error f => .error f
  | .ok (page, pager1) => .ok ((page, leaf_node_value cursor.cell_num), { table with pager := pager1 })

/-- The function `cursor_advance(cursor)`. -/
def cursor_advance (table : Table) (cursor : Cursor) : Except Fault (Cursor × Table) :=
  match pager_get_page table.pager cursor.page_num with
  | .error f => .error f
  | .ok (node, pager1) =>
    let table1 := { table with pager := pager1 }
    let cursor1 := { cursor with cell_num := (cursor.cell_num + 1) % 4294967296 }
    if cursor1.cell_num ≥ leaf_node_num_cells node then
      let next_page_num := leaf_node_next_leaf node
      if next_page_num = 0 then .ok ({ cursor1 with end_of_table := true }, table1)
      else .ok ({ cursor1 with page_num := next_page_num, cell_num := 0 }, table1)
    else .ok (cursor1, table1)

/-- The loop `while (!cursor->end_of_table) { deserialize_row(cursor_value(cursor), &row);
...; cursor_advance(cursor); }` that every full scan of the program runs, collecting the
rows it reads.  The result is `none` when `fuel` iterations do not reach the end. -/
def scan_loop : Nat → Table → Cursor → Except Fault (Option (List Row × Table))
  | 0, _, _ => .ok none
  | fuel + 1, table, cursor =>
    if cursor.end_of_table then .ok (some ([], table))
    else
      match cursor_value table cursor with
      | .error f => .error f
      | .ok ((page, off), table1) =>
        let row := deserialize_row (page.drop off)
        match cursor_advance table1 cursor with
        | .error f => .error f
        | .ok (cursor1, table2) =>
          match scan_loop fuel table2 cursor1 with
          | .error f => .error f
          | .ok none => .ok none
          | .ok (some (rows, table3)) => .ok (some (row :: rows, table3))

/-- A full scan: `table_start` followed by the scan loop. -/
def full_scan (fuel : Nat) (table : Table) : Except Fault (Option (List Row × Table)) :=
  match table_start table with
  | .error f => .error f
  | .ok (cursor, table1) => scan_loop fuel table1 cursor

/-! ## Statements about the pager and the WAL -/

/-- A page slot as the C type holds it: `NULL` or a buffer of `PAGE_SIZE` bytes. -/
def slot_wf : Option Page → Prop
  | none => True
  | some page => page.length = PAGE_SIZE

instance (slot : Option Page) : Decidable (slot_wf slot) := by
  cases slot <;> unfold slot_wf <;> infer_instance

/-- A pager as the C type holds it: `TABLE_MAX_PAGES` slots, a page count within the slots,
and buffers of `PAGE_SIZE` bytes. -/
def pager_wf (pager : Pager) : Prop :=
  pager.pages.length = TABLE_MAX_PAGES ∧ pager.num_pages ≤ TABLE_MAX_PAGES ∧
    (∀ slot ∈ pager.pages, slot_wf slot) ∧ pager.fresh.length = PAGE_SIZE

instance (pager : Pager) : Decidable (pager_wf pager) := by
  unfold pager_wf; infer_instance

/-- A frame of the WAL file: its header and its page image. -/
structure WALFrame where
  header : WALFrameHeader
  page_data : List Nat
deriving DecidableEq, Repr

/-- The complete frames a byte string starts with, in file order: as long as
`WAL_FRAME_HEADER_SIZE + PAGE_SIZE` bytes are left, the next 24 bytes are a frame header and
the 4096 bytes after it the page image.  `fuel` bounds the number of frames. -/
def wal_frames : Nat → List Nat → List WALFrame
  | 0, _ => []
  | fuel + 1, rest =>
    if rest.length < WAL_FRAME_HEADER_SIZE + PAGE_SIZE then []
    else
      { header := frame_header_of_bytes (rest.take WAL_FRAME_HEADER_SIZE)
        page_data := (rest.drop WAL_FRAME_HEADER_SIZE).take PAGE_SIZE } ::
        wal_frames fuel (rest.drop (WAL_FRAME_HEADER_SIZE + PAGE_SIZE))

/-- The checksum test of a frame: the checksum of the page image, seeded with the salts of
the frame header, equals `checksum1` of the frame header. -/
def frame_checksum_ok (f : WALFrame) : Bool :=
  decide (wal_checksum (words_of_bytes f.page_data) (PAGE_SIZE / 4) f.header.salt1 f.header.salt2
    = f.header.checksum1)

/-- The longest run of complete frames with a valid checksum at the start of the frames of a
WAL file (the frames follow the 32 bytes of the file header). -/
def frames_to_replay (wal_file : List Nat) : List WALFrame :=
  (wal_frames wal_file.length (wal_file.drop WAL_HEADER_SIZE)).takeWhile frame_checksum_ok

/-- The page slots after a frame is applied: the slot of the frame's page holds its image. -/
def replay_frame (pages : List (Option Page)) (f : WALFrame) : List (Option Page) :=
  pages.set f.header.page_number (some f.page_data)

/-- A pager just opened on an empty database file. -/
def empty_pager : Pager :=
  { file := [], file_length := 0, num_pages := 0, pages := List.replicate TABLE_MAX_PAGES none,
    fresh := List.replicate PAGE_SIZE 0 }

/-- A WAL file header with the salts 7 and 9. -/
def example_wal_header : WALHeader :=
  { magic := WAL_MAGIC, version := WAL_VERSION, page_size := PAGE_SIZE, checkpoint_seq := 0,
    salt1 := 7, salt2 := 9, checksum1 := 0, checksum2 := 0 }

/-- An open WAL with the salts 0 and 0 whose file holds the header and one complete frame:
page number 101, the salts of the header, the page image of 4096 zero bytes and
`checksum1 = 0`, which is the checksum of that image under these salts. -/
def wal_naming_page_101 : WAL :=
  { file := wal_header_bytes { example_wal_header with salt1 := 0, salt2 := 0 } ++
      (u32_bytes 101 ++ List.replicate 20 0 ++ List.replicate 4096 0),
    header := { example_wal_header with salt1 := 0, salt2 := 0 }, frame_count := 1,
    is_open := true }

/-- An open WAL with the salts 7 and 9 and no frame. -/
def example_wal_empty : WAL :=
  { file := wal_header_bytes example_wal_header, header := example_wal_header, frame_count := 0,
    is_open := true }

/-- The WAL after two `wal_write_frame` calls for page 0: first the image of 4096 bytes 1,
then the image of 4096 bytes 2. -/
def example_wal : WAL :=
  (wal_write_frame (wal_write_frame example_wal_empty 0 (List.replicate PAGE_SIZE 1) 1).2 0
    (List.replicate PAGE_SIZE 2) 1).2

/-- The image of page `page_num` that the last of the frames naming it carries. -/
def last_image (frames : List WALFrame) (page_num : Nat) : Option Page :=
  ((frames.filter (fun f => decide (f.header.page_number = page_num))).getLast?).map
    (fun f => f.page_data)

/-- The state of a pager between `table_open` and `table_close`: a well-formed pager with at
least one page, on a file that is a whole number of pages, at least as long as when it was
opened and not beyond the page count, in which every page below `num_pages` is in a slot or
was in the file when it was opened.  `pager_open` followed by `pager_get_page` calls for
page numbers up to `num_pages` (the next unused page), stores into pages and flushes keep a
pager in this state. -/
def pager_session_wf (pager : Pager) : Prop :=
  pager_wf pager ∧ 0 < pager.num_pages ∧
    pager.file_length % PAGE_SIZE = 0 ∧ pager.file.length % PAGE_SIZE = 0 ∧
    pager.file_length ≤ pager.file.length ∧ pager.file.length / PAGE_SIZE ≤ pager.num_pages ∧
    (∀ i, i < pager.num_pages →
      pager.pages.getD i none ≠ none ∨ i < pager.file_length / PAGE_SIZE)

instance (pager : Pager) : Decidable (pager_session_wf pager) := by
  unfold pager_session_wf; infer_instance

/-- A user name or an e-mail address as `parse_insert` stores it in a row: `strncpy` into
the zeroed field of `size` bytes. -/
def field_of_string (s : List Nat) (size : Nat) : List Nat :=
  strncpy (List.replicate size 0) s size

/-- The row `(id, username, email)` as `parse_insert` builds it. -/
def make_row (id : Nat) (username email : List Nat) : Row :=
  { id := id
    username := field_of_string username COLUMN_USERNAME_SIZE
    email := field_of_string email COLUMN_EMAIL_SIZE }

/-- The page after cell `cell_num` of a leaf is given the key `key` and the row `row`
(`serialize_row` into the value of the cell). -/
def put_leaf_cell (page : Page) (cell_num : Nat) (key : Nat) (row : Row) : Page :=
  let p1 := write_u32 page (leaf_node_cell cell_num) key
  p1.take (leaf_node_value cell_num) ++ serialize_row row (p1.drop (leaf_node_value cell_num))

/-- The cells `rows` stored from cell `cell_num` on, each under the id of its row. -/
def put_leaf_cells (page : Page) : Nat → List Row → Page
  | _, [] => page
  | cell_num, row :: rows => put_leaf_cells (put_leaf_cell page cell_num row.id row) (cell_num + 1) rows

/-- A leaf page holding the rows `rows` in this order: a zeroed page initialised by
`initialize_leaf_node`, with the root flag, the parent, the next leaf and the cells set. -/
def leaf_page (is_root : Bool) (parent next_leaf : Nat) (rows : List Row) : Page :=
  let p0 := set_node_root (initialize_leaf_node (List.replicate PAGE_SIZE 0)) is_root
  let p1 := write_u32 p0 PARENT_POINTER_OFFSET parent
  let p2 := write_u32 p1 LEAF_NODE_NUM_CELLS_OFFSET rows.length
  let p3 := write_u32 p2 LEAF_NODE_NEXT_LEAF_OFFSET next_leaf
  put_leaf_cells p3 0 rows

/-- The row with id 1, user name `alice` and e-mail address `a@x`. -/
def row_alice : Row :=
  make_row 1 [97, 108, 105, 99, 101] [97, 64, 120]

/-- A table in the middle of a session: opened on an empty database file, its root leaf
(page 0, only in memory) holds the row of alice; the WAL is open. -/
def table_with_alice : Table :=
  { pager := { file := [], file_length := 0, num_pages := 1,
               pages := (List.replicate TABLE_MAX_PAGES none).set 0
                 (some (leaf_page true 0 0 [row_alice])),
               fresh := List.replicate PAGE_SIZE 0 }
    root_page_num := 0
    wal := some example_wal_empty }

instance : Inhabited SecondaryIndex := ⟨new_index [] []⟩

/-! ## Index manager (`src/index/secondary_index.c`) -/

/-- The C struct `IndexManager`: `indexes` holds the `num_indexes` indexes in use. -/
structure IndexManager where
  indexes : List SecondaryIndex
deriving DecidableEq, Repr

/-- The function `index_manager_create()`. -/
def index_manager_create : IndexManager :=
  { indexes := [] }

/-- The loop of `index_manager_get` over the indexes from position `i` on. -/
def index_manager_get_loop (table_name column_name : List Nat) :
    List SecondaryIndex → Nat → Option Nat
  | [], _ => none
  | index :: rest, i =>
    if strcmp index.table_name table_name = 0 ∧ strcmp index.column_name column_name = 0 then
      some i
    else index_manager_get_loop table_name column_name rest (i + 1)

/-- The function `index_manager_get(manager, table_name, column_name)`: the position in
`indexes` of the index the returned pointer points to, `none` for `NULL`. -/
def index_manager_get (manager : IndexManager) (table_name column_name : List Nat) :
    Option Nat :=
  index_manager_get_loop table_name column_name manager.indexes 0

/-- The function `index_manager_create_index(manager, table_name, column_name)`. -/
def index_manager_create_index (manager : IndexManager) (table_name column_name : List Nat) :
    Bool × IndexManager :=
  if manager.indexes.length ≥ MAX_INDEXES then (false, manager)
  else if (index_manager_get manager table_name column_name).isSome then (false, manager)
  else (true, { indexes := manager.indexes ++ [new_index table_name column_name] })

/-- The string `"username"`. -/
def str_username : List Nat := [117, 115, 101, 114, 110, 97, 109, 101]
/-- The string `"email"`. -/
def str_email : List Nat := [101, 109, 97, 105, 108]
/-- The string `"users"`. -/
def str_users : List Nat := [117, 115, 101, 114, 115]
/-- The string `"id"`. -/
def str_id : List Nat := [105, 100]

/-- The memory a `char*` to `row.username` points to: in the struct `Row` the 32 bytes of
`username` are followed by the bytes of `email`. -/
def Row.username_ptr (row : Row) : List Nat :=
  row.username ++ row.email

/-- The memory a `char*` to `row.email` points to. -/
def Row.email_ptr (row : Row) : List Nat :=
  row.email

/-- The key `index_manager_build_from_table` takes from a row for an index on the column
`column_name`; `none` for a column that is neither `username` nor `email`. -/
def index_key_of_row (column_name : List Nat) (row : Row) : Option (List Nat) :=
  if strcmp column_name str_username = 0 then some row.username_ptr
  else if strcmp column_name str_email = 0 then some row.email_ptr
  else none

/-- The body of the loop of `index_manager_build_from_table` for one row. -/
def index_row (column_name : List Nat) (index : SecondaryIndex) (row : Row) : SecondaryIndex :=
  match index_key_of_row column_name row with
  | some key => secondary_index_insert index key row.id
  | none => index

/-- The loop `while (!cursor->end_of_table)` of `index_manager_build_from_table`; `none`
when `fuel` iterations do not reach the end of the table. -/
def build_loop (column_name : List Nat) :
    Nat → Table → Cursor → SecondaryIndex → Except Fault (Option (SecondaryIndex × Table))
  | 0, _, _, _ => .ok none
  | fuel + 1, table, cursor, index =>
    if cursor.end_of_table then .ok (some (index, table))
    else
      match cursor_value table cursor with
      | .error f => .error f
      | .ok ((page, off), table1) =>
        let row := deserialize_row (page.drop off)
        let index1 := index_row column_name index row
        match cursor_advance table1 cursor with
        | .error f => .error f
        | .ok (cursor1, table2) => build_loop column_name fuel table2 cursor1 index1

/-- The function `index_manager_build_from_table(manager, table_name, column_name, table)`:
the returned flag, the manager and the table after the call; `none` when `fuel` iterations
of the scan do not reach the end of the table. -/
def index_manager_build_from_table (fuel : Nat) (manager : IndexManager)
    (table_name column_name : List Nat) (table : Table) :
    Except Fault (Option (Bool × IndexManager × Table)) :=
  match index_manager_get manager table_name column_name with
  | none => .ok (some (false, manager, table))
  | some i =>
    match table_start table with
    | .error f => .error f
    | .ok (cursor, table1) =>
      match build_loop column_name fuel table1 cursor (manager.indexes.getD i default) with
      | .error f => .error f
      | .ok none => .ok none
      | .ok (some (index1, table2)) =>
        .ok (some (true, { indexes := manager.indexes.set i index1 }, table2))

/-! ## Schema catalog (`src/storage/schema.h`, `src/storage/schema.c`) -/

def MAX_TABLE_NAME : Nat := 32
def MAX_COLUMN_NAME : Nat := 32
def MAX_COLUMNS : Nat := 16
def MAX_TABLES : Nat := 8

/-- The C enum `ColumnType`. -/
inductive ColumnType where
  | TYPE_INT | TYPE_VARCHAR | TYPE_TEXT
deriving DecidableEq, Repr

/-- The C struct `ColumnDef`; `name` holds the `MAX_COLUMN_NAME` bytes of the array. -/
structure ColumnDef where
  name : List Nat
  type : ColumnType
  size : Nat
  is_primary_key : Bool
  not_null : Bool
deriving DecidableEq, Repr

/-- The column definition `memset(col, 0, sizeof(ColumnDef))` leaves. -/
def ColumnDef.zero : ColumnDef :=
  { name := List.replicate MAX_COLUMN_NAME 0, type := .TYPE_INT, size := 0,
    is_primary_key := false, not_null := false }

instance : Inhabited ColumnDef := ⟨ColumnDef.zero⟩

/-- The number of the enumerator. -/
def ColumnType.code : ColumnType → Nat
  | .TYPE_INT => 0
  | .TYPE_VARCHAR => 1
  | .TYPE_TEXT => 2

/-- The 44 bytes of a `ColumnDef` in memory: the name, the type and the size as 32-bit
little-endian words, the two flags, and two bytes of padding (written as zero). -/
def ColumnDef.bytes (c : ColumnDef) : List Nat :=
  c.name ++ u32_bytes c.type.code ++ u32_bytes c.size ++
    [if c.is_primary_key then 1 else 0, if c.not_null then 1 else 0, 0, 0]

/-- The C struct `TableSchema`: `name` holds the `MAX_TABLE_NAME` bytes of the array and
`columns` the `MAX_COLUMNS` slots. -/
structure TableSchema where
  name : List Nat
  columns : List ColumnDef
  num_columns : Nat
  primary_key_index : Nat
deriving DecidableEq, Repr

/-- The table slot after `memset`. -/
def TableSchema.zero : TableSchema :=
  { name := List.replicate MAX_TABLE_NAME 0, columns := List.replicate MAX_COLUMNS ColumnDef.zero,
    num_columns := 0, primary_key_index := 0 }

instance : Inhabited TableSchema := ⟨TableSchema.zero⟩

/-- The bytes a `char*` to `table->name` reads: a name that fills all `MAX_TABLE_NAME` bytes
has no NUL, and the read goes on into the columns that follow the name in the struct. -/
def TableSchema.name_ptr (t : TableSchema) : List Nat :=
  t.name ++ (t.columns.map ColumnDef.bytes).flatten

/-- The C struct `Schema`: `tables` holds the `MAX_TABLES` slots. -/
structure Schema where
  tables : List TableSchema
  num_tables : Nat
deriving DecidableEq, Repr

/-- The function `schema_create()`. -/
def schema_create : Schema :=
  { tables := List.replicate MAX_TABLES TableSchema.zero, num_tables := 0 }

/-- The loop of `schema_add_table` and of `schema_get_table` that looks for a table named
`table_name` among the slots `i`, `i + 1`, ... below `num_tables`: the slot found. -/
def schema_find_loop (schema : Schema) (table_name : List Nat) : Nat → Nat → Option Nat
  | 0, _ => none
  | fuel + 1, i =>
    if i < schema.num_tables then
      if strcmp (schema.tables.getD i default).name_ptr table_name = 0 then some i
      else schema_find_loop schema table_name fuel (i + 1)
    else none

/-- The function `schema_get_table(schema, table_name)`: the slot of the table, `none` for
`NULL`. -/
def schema_get_table (schema : Schema) (table_name : List Nat) : Option Nat :=
  schema_find_loop schema table_name schema.num_tables 0

/-- The loop `for (i = 0; i < num_columns; i++)` of `schema_add_table` over the columns
still to copy: the column slots and the primary key index after it. -/
def copy_columns_loop : List ColumnDef → Nat → List ColumnDef → Nat → List ColumnDef × Nat
  | [], _, slots, primary_key_index => (slots, primary_key_index)
  | c :: rest, i, slots, primary_key_index =>
    copy_columns_loop rest (i + 1) (slots.set i c)
      (if c.is_primary_key then i else primary_key_index)

/-- The function `schema_add_table(schema, table_name, columns, num_columns)`, `columns`
being the `num_columns` definitions passed.  More than `MAX_COLUMNS` of them are stored
beyond the `columns` array of the slot. -/
def schema_add_table (schema : Schema) (table_name : List Nat) (columns : List ColumnDef) :
    Except Fault (Bool × Schema) :=
  if schema.num_tables ≥ MAX_TABLES then .ok (false, schema)
  else if (schema_find_loop schema table_name schema.num_tables 0).isSome then .ok (false, schema)
  else if columns.length > MAX_COLUMNS then .error .out_of_bounds
  else
    let table := schema.tables.getD schema.num_tables default
    let copied := copy_columns_loop columns 0 table.columns 0
    let table1 : TableSchema :=
      { name := strncpy table.name table_name MAX_TABLE_NAME
        columns := copied.1
        num_columns := columns.length
        primary_key_index := copied.2 }
    .ok (true, { tables := schema.tables.set schema.num_tables table1,
                 num_tables := schema.num_tables + 1 })

/-! ## Statements and the executor (`src/parser/parser.h`, `src/main.c`) -/

/-- The C enum `StatementType`. -/
inductive StatementType where
  | STMT_SELECT | STMT_INSERT | STMT_UPDATE | STMT_DELETE | STMT_CREATE_TABLE | STMT_CREATE_INDEX
deriving DecidableEq, Repr

/-- The C struct `Assignment`. -/
structure Assignment where
  column : List Nat
  value : List Nat
deriving DecidableEq, Repr

/-- The C struct `Condition`. -/
structure Condition where
  column : List Nat
  operator : List Nat
  value : List Nat
deriving DecidableEq, Repr

/-- The C enum `AggregationType`. -/
inductive AggregationType where
  | AGG_NONE | AGG_COUNT | AGG_SUM | AGG_AVG | AGG_MAX | AGG_MIN
deriving DecidableEq, Repr

/-- The C struct `JoinClause`: four `char` arrays of 64, 64, 32 and 32 bytes. -/
structure JoinClause where
  left_table : List Nat
  right_table : List Nat
  left_column : List Nat
  right_column : List Nat
deriving DecidableEq, Repr

/-- The C struct `ParsedStatement`.  `assignments` holds the `num_assignments` assignments and
`columns` the `num_columns` column definitions; `where_clause` and `join_clause` are `none`
for `NULL`, and `has_where` and `has_join` are what the parser sets them to,
`where_clause != NULL` and `join_clause != NULL`.  The `char` arrays are held with all their
bytes.  The defaults are the fields after `memset(stmt, 0, sizeof(ParsedStatement))`. -/
structure ParsedStatement where
  type : StatementType
  row_to_insert : Row
  assignments : List Assignment
  where_clause : Option Condition
  is_explain : Bool
  table_name : List Nat := List.replicate 64 0
  columns : List ColumnDef := []
  index_table : List Nat := List.replicate 64 0
  index_column : List Nat := List.replicate 32 0
  agg_type : AggregationType := .AGG_NONE
  agg_column : List Nat := List.replicate 32 0
  has_aggregation : Bool := false
  order_by_column : List Nat := List.replicate 32 0
  order_ascending : Bool := false
  has_order_by : Bool := false
  limit : Nat := 0
  has_limit : Bool := false
  join_clause : Option JoinClause := none
  from_table : List Nat := List.replicate 64 0
deriving DecidableEq, Repr

/-- The field `has_where`. -/
def ParsedStatement.has_where (stmt : ParsedStatement) : Bool :=
  stmt.where_clause.isSome

/-- The field `has_join`. -/
def ParsedStatement.has_join (stmt : ParsedStatement) : Bool :=
  stmt.join_clause.isSome

/-- The field `num_columns`. -/
def ParsedStatement.num_columns (stmt : ParsedStatement) : Nat :=
  stmt.columns.length

/-- The C enum `ExecuteResult`. -/
inductive ExecuteResult where
  | EXECUTE_SUCCESS | EXECUTE_DUPLICATE_KEY | EXECUTE_TABLE_FULL | EXECUTE_NOT_FOUND
deriving DecidableEq, Repr

/-- The character test `isspace` in the C locale. -/
def isspace (c : Nat) : Bool :=
  c = 32 || (9 ≤ c && c ≤ 13)

/-- The character test `isdigit`. -/
def isdigit (c : Nat) : Bool :=
  48 ≤ c && c ≤ 57

/-- The digits loop of `atoi`. -/
def atoi_digits : List Nat → Int → Int
  | [], acc => acc
  | c :: cs, acc => if isdigit c then atoi_digits cs (acc * 10 + ((c : Int) - 48)) else acc

/-- The result `strtol` gives for the number `v` that the sign and the digits denote: a
`long` has 64 bits, and a number above `LONG_MAX` or below `LONG_MIN` is replaced by that
bound. -/
def strtol_saturate (v : Int) : Int :=
  if 9223372036854775807 < v then 9223372036854775807
  else if v < -9223372036854775808 then -9223372036854775808
  else v

/-- The library call `strtol(s, NULL, 10)`: leading white space, an optional sign, decimal
digits, and the saturation at the bounds of `long`. -/
def strtol (s : List Nat) : Int :=
  strtol_saturate
    (match (cstr s).dropWhile isspace with
     | 45 :: rest => - atoi_digits rest 0
     | 43 :: rest => atoi_digits rest 0
     | rest => atoi_digits rest 0)

/-- The C call `atoi(s)`, which the C library computes as `(int) strtol(s, NULL, 10)`: the
conversion of the `long` to `int` keeps its low 32 bits. -/
def atoi (s : List Nat) : Int :=
  to_int32 (strtol s % 4294967296).toNat

/-- The value of `uint32_t key = atoi(s)`. -/
def atoi_u32 (s : List Nat) : Nat :=
  (atoi s % 4294967296).toNat

/-- The insertions into the secondary indexes that `execute_insert` makes after the row is
in the leaf: into the index on `users.username` and into the index on `users.email`, each
when it exists. -/
def update_indexes_on_insert (index_manager : Option IndexManager) (row : Row) :
    Option IndexManager :=
  match index_manager with
  | none => none
  | some manager =>
    let manager1 : IndexManager :=
      match index_manager_get manager str_users str_username with
      | none => manager
      | some i =>
        { indexes := manager.indexes.set i
            (secondary_index_insert (manager.indexes.getD i default) row.username_ptr row.id) }
    let manager2 : IndexManager :=
      match index_manager_get manager1 str_users str_email with
      | none => manager1
      | some i =>
        { indexes := manager1.indexes.set i
            (secondary_index_insert (manager1.indexes.getD i default) row.email_ptr row.id) }
    some manager2

/-- The function `execute_insert(stmt, table)`.  `leaf_node_insert` (in `btree.c`, which is
not among the sources) is a parameter: it returns the table after the row is inserted at
the cursor.  `index_manager` is the global of that name, `none` for `NULL`. -/
def execute_insert (leaf_node_insert : Table → Cursor → Nat → Row → Except Fault Table)
    (index_manager : Option IndexManager) (stmt : ParsedStatement) (table : Table) :
    Except Fault (ExecuteResult × Table × Option IndexManager) :=
  match pager_get_page table.pager table.root_page_num with
  | .error f => .error f
  | .ok (node, pager1) =>
    let num_cells := leaf_node_num_cells node
    let row_to_insert := stmt.row_to_insert
    let key_to_insert := row_to_insert.id
    match table_find { table with pager := pager1 } key_to_insert with
    | .error f => .error f
    | .ok (cursor, table1) =>
      if cursor.cell_num < num_cells ∧ leaf_node_key node cursor.cell_num = key_to_insert then
        .ok (.EXECUTE_DUPLICATE_KEY, table1, index_manager)
      else
        match leaf_node_insert table1 cursor row_to_insert.id row_to_insert with
        | .error f => .error f
        | .ok table2 =>
          let index_manager1 := update_indexes_on_insert index_manager row_to_insert
          match table2.wal with
          | none => .ok (.EXECUTE_SUCCESS, table2, index_manager1)
          | some wal =>
            match pager_get_page table2.pager cursor.page_num with
            | .error f => .error f
            | .ok (page, pager2) =>
              let written := wal_write_frame wal cursor.page_num page pager2.num_pages
              .ok (.EXECUTE_SUCCESS, { table2 with pager := pager2, wal := some written.2 },
                index_manager1)

/-- The row after the assignment of `execute_update` is applied to it. -/
def apply_assignment (row : Row) (assignment : Assignment) : Row :=
  if strcmp assignment.column str_username = 0 then
    { row with username := strncpy row.username assignment.value COLUMN_USERNAME_SIZE }
  else if strcmp assignment.column str_email = 0 then
    { row with email := strncpy row.email assignment.value COLUMN_EMAIL_SIZE }
  else row

/-- The function `execute_update(stmt, table)`. -/
def execute_update (stmt : ParsedStatement) (table : Table) :
    Except Fault (ExecuteResult × Table) :=
  match stmt.where_clause with
  | none => .ok (.EXECUTE_SUCCESS, table)
  | some where_clause =>
    if strcmp where_clause.column str_id = 0 then
      let key := atoi_u32 where_clause.value
      match table_find table key with
      | .error f => .error f
      | .ok (cursor, table1) =>
        if !cursor.end_of_table then
          match pager_get_page table1.pager cursor.page_num with
          | .error f => .error f
          | .ok (node, pager1) =>
            if cursor.cell_num < leaf_node_num_cells node ∧
                leaf_node_key node cursor.cell_num = key then
              match cursor_value { table1 with pager := pager1 } cursor with
              | .error f => .error f
              | .ok ((page, off), table2) =>
                let row := deserialize_row (page.drop off)
                let row1 := apply_assignment row (stmt.assignments.getD 0 ⟨[], []⟩)
                let page1 := page.take off ++ serialize_row row1 (page.drop off)
                .ok (.EXECUTE_SUCCESS,
                  { table2 with pager := pager_set_page table2.pager cursor.page_num page1 })
            else .ok (.EXECUTE_NOT_FOUND, { table1 with pager := pager1 })
        else .ok (.EXECUTE_NOT_FOUND, table1)
    else .ok (.EXECUTE_NOT_FOUND, table)

/-- The function `execute_delete(stmt, table)`.  `leaf_node_delete` (in `btree.c`, which is
not among the sources) is a parameter: it returns the table after the cell at the cursor is
removed. -/
def execute_delete (leaf_node_delete : Table → Cursor → Except Fault Table)
    (stmt : ParsedStatement) (table : Table) : Except Fault (ExecuteResult × Table) :=
  match stmt.where_clause with
  | none => .ok (.EXECUTE_SUCCESS, table)
  | some where_clause =>
    if strcmp where_clause.column str_id = 0 then
      let key := atoi_u32 where_clause.value
      match table_find table key with
      | .error f => .error f
      | .ok (cursor, table1) =>
        if !cursor.end_of_table then
          match pager_get_page table1.pager cursor.page_num with
          | .error f => .error f
          | .ok (node, pager1) =>
            if cursor.cell_num < leaf_node_num_cells node ∧
                leaf_node_key node cursor.cell_num = key then
              match leaf_node_delete { table1 with pager := pager1 } cursor with
              | .error f => .error f
              | .ok table2 =>
                match table2.wal with
                | none => .ok (.EXECUTE_SUCCESS, table2)
                | some wal =>
                  match pager_get_page table2.pager cursor.page_num with
                  | .error f => .error f
                  | .ok (page, pager2) =>
                    let written := wal_write_frame wal cursor.page_num page pager2.num_pages
                    .ok (.EXECUTE_SUCCESS, { table2 with pager := pager2, wal := some written.2 })
            else .ok (.EXECUTE_NOT_FOUND, { table1 with pager := pager1 })
        else .ok (.EXECUTE_NOT_FOUND, table1)
    else .ok (.EXECUTE_NOT_FOUND, table)

/-! ## Example tables -/

/-- The pairs `(child_page_num, key)` stored into an internal page from pair `i` on. -/
def put_internal_cells (page : Page) : Nat → List (Nat × Nat) → Page
  | _, [] => page
  | i, (child, key) :: rest =>
    let off := INTERNAL_NODE_HEADER_SIZE + i * INTERNAL_NODE_CELL_SIZE
    put_internal_cells (write_u32 (write_u32 page off child) (off + 4) key) (i + 1) rest

/-- An internal page with the given `(child_page_num, key)` pairs and right child. -/
def internal_page (is_root : Bool) (parent : Nat) (cells : List (Nat × Nat))
    (right_child : Nat) : Page :=
  let p0 := (List.replicate PAGE_SIZE 0).set NODE_TYPE_OFFSET NODE_INTERNAL
  let p1 := set_node_root p0 is_root
  let p2 := write_u32 p1 PARENT_POINTER_OFFSET parent
  let p3 := write_u32 p2 INTERNAL_NODE_NUM_KEYS_OFFSET cells.length
  let p4 := write_u32 p3 INTERNAL_NODE_RIGHT_CHILD_OFFSET right_child
  put_internal_cells p4 0 cells

/-- A table whose tree has two leaves, as the split of the root leaf leaves it: page 0 is
the internal root with the pair `(2, separator)` and the right child 1, page 2 is the left
leaf with the rows `left` and the next leaf 1, page 1 the right leaf with the rows `right`.
All three pages are in memory; the WAL is open. -/
def two_leaf_table (left right : List Row) (separator : Nat) : Table :=
  { pager := { file := [], file_length := 0, num_pages := 3,
               pages := (((List.replicate TABLE_MAX_PAGES none).set 0
                 (some (internal_page true 0 [(2, separator)] 1))).set 1
                 (some (leaf_page false 0 0 right))).set 2 (some (leaf_page false 0 1 left)),
               fresh := List.replicate PAGE_SIZE 0 }
    root_page_num := 0
    wal := some example_wal_empty }

/-- The row with id `id`, user name `u` and e-mail address `u@x`. -/
def row_u (id : Nat) : Row :=
  make_row id [117] [117, 64, 120]

/-- The table after the rows with the ids 1 to 14 were inserted (the root leaf split into
the leaves 1..7 and 8..14, with 7 as separator) and the rows 1 to 7 and 10 to 14 were
deleted: the left leaf has no cells, the right leaf holds the rows 8 and 9. -/
def table_left_leaf_empty : Table :=
  two_leaf_table [] [row_u 8, row_u 9] 7

/-- The table after the rows with the ids 1 to 14 were inserted and all but the rows 1, 2
and 8 were deleted. -/
def table_rows_1_2_8 : Table :=
  two_leaf_table [row_u 1, row_u 2] [row_u 8] 7

/-- The statement `INSERT 2 u u@x`. -/
def stmt_insert_2 : ParsedStatement :=
  { type := .STMT_INSERT, row_to_insert := row_u 2, assignments := [], where_clause := none,
    is_explain := false }

/-- The WAL file a crash leaves after `INSERT 1 alice a@x` into a new database: the header
and one frame with the image of page 0, the root leaf holding the row.  The database file
itself is still empty, since no page was flushed. -/
def crash_wal_file : List Nat :=
  (wal_write_frame example_wal_empty 0 (leaf_page true 0 0 [row_alice]) 1).2.file

/-- The statement `UPDATE SET username = bob WHERE id = 1`. -/
def stmt_update_bob : ParsedStatement :=
  { type := .STMT_UPDATE, row_to_insert := ⟨0, List.replicate 32 0, List.replicate 255 0⟩,
    assignments := [{ column := str_username, value := [98, 111, 98] }],
    where_clause := some { column := str_id, operator := [61], value := [49] },
    is_explain := false }

/-- The index manager after `CREATE INDEX ON users(username)` on an empty manager, before the
index is built. -/
def manager_with_username_index : IndexManager :=
  (index_manager_create_index index_manager_create str_users str_username).2

/-- The user names of the rows a full scan of `table` reads, paired with their ids. -/
def scanned_usernames (fuel : Nat) (table : Table) : Except Fault (Option (List (List Nat × Nat))) :=
  (full_scan fuel table).map (Option.map (fun r => r.1.map (fun row => (cstr row.username_ptr, row.id))))

/-- The C enum `ScanType`. -/
inductive ScanType where
  | SCAN_FULL_TABLE | SCAN_INDEX_SEARCH | SCAN_INDEX_RANGE
deriving DecidableEq, Repr

/-- The C struct `QueryPlan`; `index_column` is `none` for `NULL`. -/
structure QueryPlan where
  scan_type : ScanType
  index_column : Option (List Nat)
  estimated_rows : Nat
  estimated_cost : Nat
  uses_index : Bool
deriving DecidableEq, Repr

/-- The C struct `QueryStats`. -/
structure QueryStats where
  full_scans : Nat
  index_searches : Nat
  rows_scanned : Nat
  rows_returned : Nat
deriving DecidableEq, Repr

/-- The loop `while (!cursor->end_of_table) { count++; cursor_advance(cursor); }` of
`count_table_rows`.  The result is `none` when `fuel` iterations do not reach the end. -/
def count_loop : Nat → Table → Cursor → Nat → Except Fault (Option (Nat × Table))
  | 0, _, _, _ => .ok none
  | fuel + 1, table, cursor, count =>
    if cursor.end_of_table then .ok (some (count, table))
    else
      match cursor_advance table cursor with
      | .error f => .error f
      | .ok (cursor1, table1) => count_loop fuel table1 cursor1 ((count + 1) % 4294967296)

/-- The function `count_table_rows(table)`. -/
def count_table_rows (fuel : Nat) (table : Table) : Except Fault (Option (Nat × Table)) :=
  match table_start table with
  | .error f => .error f
  | .ok (cursor, table1) => count_loop fuel table1 cursor 0

/-- The loop `while (temp > LEAF_NODE_MAX_CELLS) { tree_height++; temp /= LEAF_NODE_MAX_CELLS; }`
of `optimize_query`; `fuel` bounds the number of iterations. -/
def tree_height_loop : Nat → Nat → Nat → Nat
  | 0, tree_height, _ => tree_height
  | fuel + 1, tree_height, temp =>
    if temp > LEAF_NODE_MAX_CELLS then
      tree_height_loop fuel (tree_height + 1) (temp / LEAF_NODE_MAX_CELLS)
    else tree_height

/-- The value of `tree_height` that `optimize_query` computes from `total_rows`:
`tree_height = 1; temp = total_rows;` and the loop, which ends within `total_rows`
iterations, since every iteration makes `temp` smaller. -/
def tree_height (total_rows : Nat) : Nat :=
  tree_height_loop total_rows 1 total_rows

/-- The test `stmt->has_where && strcmp(stmt->where_clause->column, "id") == 0`. -/
def where_on_id (stmt : ParsedStatement) : Bool :=
  match stmt.where_clause with
  | none => false
  | some where_clause => decide (strcmp where_clause.column str_id = 0)

/-- The plan the four index-search branches of `optimize_query` fill in, `extra` being the
constant the branch adds to `tree_height * 5`. -/
def index_search_plan (total_rows extra : Nat) : QueryPlan :=
  { scan_type := .SCAN_INDEX_SEARCH
    index_column := some str_id
    estimated_rows := 1
    estimated_cost := (tree_height total_rows * 5 + extra) % 4294967296
    uses_index := true }

/-- The function `optimize_query(stmt, table)`: the plan, and the table after the rows were
counted.  The result is `none` when the count does not end within `fuel` rows. -/
def optimize_query (fuel : Nat) (stmt : ParsedStatement) (table : Table) :
    Except Fault (Option (QueryPlan × Table)) :=
  match count_table_rows fuel table with
  | .error f => .error f
  | .ok none => .ok none
  | .ok (some (total_rows, table1)) =>
    let plan : QueryPlan :=
      match stmt.type with
      | .STMT_SELECT =>
        if where_on_id stmt then index_search_plan total_rows 0
        else
          { scan_type := .SCAN_FULL_TABLE, index_column := none, estimated_rows := total_rows,
            estimated_cost := if total_rows > 0 then total_rows * 5 % 4294967296 else 1,
            uses_index := false }
      | .STMT_INSERT => index_search_plan total_rows 10
      | .STMT_UPDATE =>
        if where_on_id stmt then index_search_plan total_rows 15
        else
          { scan_type := .SCAN_FULL_TABLE, index_column := none, estimated_rows := total_rows,
            estimated_cost := (total_rows * 10 + 50) % 4294967296, uses_index := false }
      | .STMT_DELETE =>
        if where_on_id stmt then index_search_plan total_rows 20
        else
          { scan_type := .SCAN_FULL_TABLE, index_column := none, estimated_rows := total_rows,
            estimated_cost := (total_rows * 10 + 100) % 4294967296, uses_index := false }
      | _ =>
        { scan_type := .SCAN_FULL_TABLE, index_column := none, estimated_rows := 0,
          estimated_cost := 0, uses_index := false }
    .ok (some (plan, table1))

/-- The function `stats_create()`. -/
def stats_create : QueryStats :=
  { full_scans := 0, index_searches := 0, rows_scanned := 0, rows_returned := 0 }

/-- The function `stats_update(stats, plan, rows_returned)`. -/
def stats_update (stats : QueryStats) (plan : QueryPlan) (rows_returned : Nat) : QueryStats :=
  let stats1 : QueryStats :=
    if plan.scan_type = .SCAN_FULL_TABLE then
      { stats with full_scans := (stats.full_scans + 1) % 4294967296 }
    else if plan.scan_type = .SCAN_INDEX_SEARCH then
      { stats with index_searches := (stats.index_searches + 1) % 4294967296 }
    else stats
  { stats1 with
    rows_scanned := (stats1.rows_scanned + plan.estimated_rows) % 4294967296
    rows_returned := (stats1.rows_returned + rows_returned) % 4294967296 }

/-- An open table whose root leaf is empty and in memory. -/
def table_empty : Table :=
  { pager := { file := [], file_length := 0, num_pages := 1,
               pages := (List.replicate TABLE_MAX_PAGES none).set 0 (some (leaf_page true 0 0 [])),
               fresh := List.replicate PAGE_SIZE 0 }
    root_page_num := 0
    wal := some example_wal_empty }

/-- The statement `SELECT *`. -/
def stmt_select_all : ParsedStatement :=
  { type := .STMT_SELECT, row_to_insert := ⟨0, List.replicate 32 0, List.replicate 255 0⟩,
    assignments := [], where_clause := none, is_explain := false, order_ascending := true }

/-! ## Reading through the page cache -/

/-- The page `pager_get_page` builds on a cache miss: the bytes of page `page_num` read from
the file into a new buffer. -/
def page_from_file (pager : Pager) (page_num : Nat) : Page :=
  let num_pages :=
    if pager.file_length % PAGE_SIZE ≠ 0 then pager.file_length / PAGE_SIZE + 1
    else pager.file_length / PAGE_SIZE
  if page_num ≤ num_pages then
    let data := file_read pager.file (page_num * PAGE_SIZE) PAGE_SIZE
    data ++ pager.fresh.drop data.length
  else pager.fresh

/-- The pager `q` differs from the pager `p` only by cache misses served: the file is the
same, and every slot of `q` either is the slot of `p` or was empty in `p` and holds the page
read from the file.  (`num_pages` may differ.) -/
def cache_ext (p q : Pager) : Prop :=
  q.file = p.file ∧ q.file_length = p.file_length ∧ q.fresh = p.fresh ∧
  q.pages.length = p.pages.length ∧
  ∀ i, q.pages.getD i none = p.pages.getD i none ∨
    (p.pages.getD i none = none ∧ q.pages.getD i none = some (page_from_file p i))

/-- The table `u` is the table `t` after cache misses were served: same root, same WAL. -/
def table_ext (t u : Table) : Prop :=
  u.root_page_num = t.root_page_num ∧ u.wal = t.wal ∧ cache_ext t.pager u.pager
/-- The statement `UPDATE SET username = bob`, without WHERE. -/
def stmt_update_no_where : ParsedStatement :=
  { type := .STMT_UPDATE, row_to_insert := ⟨0, List.replicate 32 0, List.replicate 255 0⟩,
    assignments := [{ column := str_username, value := [98, 111, 98] }],
    where_clause := none, is_explain := false }

/-! ## Table manager (`src/storage/table_manager.h`, `src/storage/table_manager.c`) -/

def MAX_OPEN_TABLES : Nat := 8

/-- The C struct `TableManager`: `tables` holds the `MAX_OPEN_TABLES` pointers (`none` for
`NULL`, otherwise the table pointed to), `table_names` the `MAX_OPEN_TABLES` arrays of 64
bytes, `base_path` the 256 bytes of the array. -/
structure TableManager where
  tables : List (Option Table)
  table_names : List (List Nat)
  num_tables : Nat
  base_path : List Nat
deriving DecidableEq, Repr

/-- The function `table_manager_create(base_path)`. -/
def table_manager_create (base_path : List Nat) : TableManager :=
  { tables := List.replicate MAX_OPEN_TABLES none
    table_names := List.replicate MAX_OPEN_TABLES (List.replicate 64 0)
    num_tables := 0
    base_path := strncpy (List.replicate 256 0) base_path 255 }

/-- The loop of `table_manager_get` from slot `i` on: the first slot below `num_tables`
whose name is `table_name`.  A `char*` to `table_names[i]` reads on into the names that
follow it in the array. -/
def table_manager_get_loop (manager : TableManager) (table_name : List Nat) :
    Nat → Nat → Option Nat
  | 0, _ => none
  | fuel + 1, i =>
    if i < manager.num_tables then
      if strcmp (manager.table_names.drop i).flatten table_name = 0 then some i
      else table_manager_get_loop manager table_name fuel (i + 1)
    else none

/-- The function `table_manager_get(manager, table_name)`: the slot of the table the
returned pointer points to, `none` when the function returns `NULL`. -/
def table_manager_get (manager : TableManager) (table_name : List Nat) : Option Nat :=
  match table_manager_get_loop manager table_name manager.num_tables 0 with
  | none => none
  | some i => if (manager.tables.getD i none).isSome then some i else none

/-- What `table_open(filename)` finds when it is called: the content of the database file
(empty for a file that does not exist yet), the content of the WAL file (`none` when it
cannot be opened), and the values `fresh`, `time` and `pid` of `pager_open` and
`wal_open`. -/
structure TableFiles where
  db_file : List Nat
  fresh : Page
  wal_file : Option (List Nat)
  time : Nat
  pid : Nat

/-- The function `table_manager_open(manager, table_name)`; `files` maps a file name to what
`table_open` finds under it. -/
def table_manager_open (files : List Nat → TableFiles) (manager : TableManager)
    (table_name : List Nat) : Except Fault (Option Nat × TableManager) :=
  match table_manager_get manager table_name with
  | some existing => .ok (some existing, manager)
  | none =>
    if manager.num_tables ≥ MAX_OPEN_TABLES then .ok (none, manager)
    else
      let filename := (cstr manager.base_path ++ [46] ++ cstr table_name).take 511
      let found := files filename
      match table_open found.db_file found.fresh found.wal_file found.time found.pid with
      | .error f => .error f
      | .ok table =>
        .ok (some manager.num_tables,
          { manager with
            tables := manager.tables.set manager.num_tables (some table)
            table_names := manager.table_names.set manager.num_tables
              (strncpy (manager.table_names.getD manager.num_tables []) table_name 63)
            num_tables := manager.num_tables + 1 })

/-- A call `f(table)` on the table in slot `i` of the manager, which may change the table. -/
def on_table {α : Type} (manager : TableManager) (i : Nat)
    (f : Table → Except Fault (α × Table)) : Except Fault (α × TableManager) :=
  match manager.tables.getD i none with
  | none => .error .null_dereference
  | some table =>
    match f table with
    | .error e => .error e
    | .ok (a, table1) => .ok (a, { manager with tables := manager.tables.set i (some table1) })

/-! ## SELECT and JOIN (`src/main.c`) -/

/-- The test `match` of `execute_join`. -/
def join_match (join_clause : JoinClause) (left_row right_row : Row) : Bool :=
  if strcmp join_clause.left_column str_id = 0 ∧
      strcmp join_clause.right_column [117, 115, 101, 114, 95, 105, 100] = 0 then
    decide (left_row.id = right_row.id)
  else if strcmp join_clause.left_column str_id = 0 ∧
      strcmp join_clause.right_column str_id = 0 then
    decide (left_row.id = right_row.id)
  else false

/-- The inner loop `while (!right_cursor->end_of_table)` of `execute_join` over the table in
slot `right`: the pairs printed and `matches` after it.  The result is `none` when `fuel`
iterations do not reach the end. -/
def join_inner_loop (join_clause : JoinClause) (left_row : Row) (right : Nat) :
    Nat → TableManager → Cursor → List (Row × Row) → Nat →
    Except Fault (Option (List (Row × Row) × Nat × TableManager))
  | 0, _, _, _, _ => .ok none
  | fuel + 1, manager, right_cursor, printed, match_count =>
    if right_cursor.end_of_table then .ok (some (printed, match_count, manager))
    else
      match on_table manager right (fun t => cursor_value t right_cursor) with
      | .error f => .error f
      | .ok ((page, off), manager1) =>
        let right_row := deserialize_row (page.drop off)
        let is_match := join_match join_clause left_row right_row
        let printed1 := if is_match then printed ++ [(left_row, right_row)] else printed
        let match_count1 := if is_match then (match_count + 1) % 4294967296 else match_count
        match on_table manager1 right (fun t => cursor_advance t right_cursor) with
        | .error f => .error f
        | .ok (right_cursor1, manager2) =>
          join_inner_loop join_clause left_row right fuel manager2 right_cursor1 printed1 match_count1

/-- The outer loop `while (!left_cursor->end_of_table)` of `execute_join` over the table in
slot `left`; every loop gets `fuel` iterations. -/
def join_outer_loop (join_clause : JoinClause) (left right fuel : Nat) :
    Nat → TableManager → Cursor → List (Row × Row) → Nat →
    Except Fault (Option (List (Row × Row) × Nat × TableManager))
  | 0, _, _, _, _ => .ok none
  | fuel1 + 1, manager, left_cursor, printed, match_count =>
    if left_cursor.end_of_table then .ok (some (printed, match_count, manager))
    else
      match on_table manager left (fun t => cursor_value t left_cursor) with
      | .error f => .error f
      | .ok ((page, off), manager1) =>
        let left_row := deserialize_row (page.drop off)
        match on_table manager1 right table_start with
        | .error f => .error f
        | .ok (right_cursor, manager2) =>
          match join_inner_loop join_clause left_row right fuel manager2 right_cursor
              printed match_count with
          | .error f => .error f
          | .ok none => .ok none
          | .ok (some (printed1, match_count1, manager3)) =>
            match on_table manager3 left (fun t => cursor_advance t left_cursor) with
            | .error f => .error f
            | .ok (left_cursor1, manager4) =>
              join_outer_loop join_clause left right fuel fuel1 manager4 left_cursor1
                printed1 match_count1

/-- The part of `execute_join` that finds the two tables: `table_manager_get` for both
names, then `table_manager_open` for each table that is not open.  The result holds the
slots of the left and the right table (`none` for `NULL`) and the manager after the
calls. -/
def join_open_tables (files : List Nat → TableFiles) (manager : TableManager)
    (join_clause : JoinClause) : Except Fault ((Option Nat × Option Nat) × TableManager) :=
  let left_table := table_manager_get manager join_clause.left_table
  let right_table := table_manager_get manager join_clause.right_table
  let left_opened : Except Fault (Option Nat × TableManager) :=
    match left_table with
    | none => table_manager_open files manager join_clause.left_table
    | some i => .ok (some i, manager)
  match left_opened with
  | .error f => .error f
  | .ok (left_table1, manager1) =>
    let right_opened : Except Fault (Option Nat × TableManager) :=
      match right_table with
      | none => table_manager_open files manager1 join_clause.right_table
      | some i => .ok (some i, manager1)
    match right_opened with
    | .error f => .error f
    | .ok (right_table1, manager2) => .ok ((left_table1, right_table1), manager2)

/-- The function `execute_join(stmt, rows_returned_out)`: the result, the pairs of rows
printed, the value of `*rows_returned_out` after the call (`rows_returned` before it) and
the global `table_manager`, which the function reads without testing it for `NULL`. -/
def execute_join (files : List Nat → TableFiles) (fuel : Nat)
    (table_manager : Option TableManager) (stmt : ParsedStatement) (rows_returned : Nat) :
    Except Fault (Option (ExecuteResult × List (Row × Row) × Nat × Option TableManager)) :=
  match stmt.join_clause with
  | none => .ok (some (.EXECUTE_SUCCESS, [], rows_returned, table_manager))
  | some join_clause =>
    match table_manager with
    | none => .error .null_dereference
    | some manager =>
      match join_open_tables files manager join_clause with
      | .error f => .error f
      | .ok ((some left, some right), manager2) =>
        match on_table manager2 left table_start with
        | .error f => .error f
        | .ok (left_cursor, manager3) =>
          match join_outer_loop join_clause left right fuel fuel manager3 left_cursor [] 0 with
          | .error f => .error f
          | .ok none => .ok none
          | .ok (some (printed, match_count, manager4)) =>
            .ok (some (.EXECUTE_SUCCESS, printed, match_count, some manager4))
      | .ok (_, manager2) => .ok (some (.EXECUTE_NOT_FOUND, [], rows_returned, some manager2))

instance : Inhabited Row := ⟨⟨0, List.replicate 32 0, List.replicate 255 0⟩⟩

/-- What a statement prints besides its messages: nothing, the query plan of EXPLAIN, the
rows of a SELECT in the order of their lines, the pairs of rows of a join, or the
accumulators of an aggregation, of which the line printed shows the one `agg_type` names. -/
inductive Output where
  | nothing
  | plan (p : QueryPlan)
  | rows (rs : List Row)
  | pairs (ps : List (Row × Row))
  | aggregate (count sum max_val min_val : Nat)
deriving DecidableEq, Repr

/-- The flag `include` of the aggregation branch of `execute_select` for one row. -/
def agg_include (stmt : ParsedStatement) (row : Row) : Bool :=
  match stmt.where_clause with
  | none => true
  | some where_clause =>
    if strcmp where_clause.column str_id = 0 then
      decide (row.id = atoi_u32 where_clause.value)
    else if strcmp where_clause.column str_username = 0 then
      decide (strcmp row.username_ptr where_clause.value = 0)
    else if strcmp where_clause.column str_email = 0 then
      decide (strcmp row.email_ptr where_clause.value = 0)
    else true

/-- The test `strcmp(stmt->agg_column, "id") == 0 || strcmp(stmt->agg_column, "*") == 0`. -/
def agg_on_id (stmt : ParsedStatement) : Bool :=
  decide (strcmp stmt.agg_column str_id = 0) || decide (strcmp stmt.agg_column [42] = 0)

/-- The loop `while (!cursor->end_of_table)` of the aggregation branch of `execute_select`:
`count`, `sum`, `max_val` and `min_val` after it.  The result is `none` when `fuel`
iterations do not reach the end. -/
def agg_loop (stmt : ParsedStatement) :
    Nat → Table → Cursor → Nat → Nat → Nat → Nat →
    Except Fault (Option ((Nat × Nat × Nat × Nat) × Table))
  | 0, _, _, _, _, _, _ => .ok none
  | fuel + 1, table, cursor, count, sum, max_val, min_val =>
    if cursor.end_of_table then .ok (some ((count, sum, max_val, min_val), table))
    else
      match cursor_value table cursor with
      | .error f => .error f
      | .ok ((page, off), table1) =>
        let row := deserialize_row (page.drop off)
        let included := agg_include stmt row
        let count1 := if included then (count + 1) % 4294967296 else count
        let on_id := included && agg_on_id stmt
        let sum1 := if on_id then (sum + row.id) % 4294967296 else sum
        let max_val1 := if on_id ∧ row.id > max_val then row.id else max_val
        let min_val1 := if on_id ∧ row.id < min_val then row.id else min_val
        match cursor_advance table1 cursor with
        | .error f => .error f
        | .ok (cursor1, table2) => agg_loop stmt fuel table2 cursor1 count1 sum1 max_val1 min_val1

/-- The loop `for (i = 0; i < count; i++)` of the secondary-index path of `execute_select`
over the primary keys still to probe: the rows printed and `rows_returned` after it. -/
def select_index_loop : List Nat → Table → List Row → Nat → Except Fault (List Row × Nat × Table)
  | [], table, printed, rows_returned => .ok (printed, rows_returned, table)
  | primary_key :: rest, table, printed, rows_returned =>
    match table_find table primary_key with
    | .error f => .error f
    | .ok (cursor, table1) =>
      if !cursor.end_of_table then
        match cursor_value table1 cursor with
        | .error f => .error f
        | .ok ((page, off), table2) =>
          let row := deserialize_row (page.drop off)
          select_index_loop rest table2 (printed ++ [row]) ((rows_returned + 1) % 4294967296)
      else select_index_loop rest table1 printed rows_returned

/-- The flag `should_include` of the scan of `execute_select` for one row. -/
def should_include (stmt : ParsedStatement) (row : Row) : Bool :=
  match stmt.where_clause with
  | none => true
  | some where_clause =>
    if strcmp where_clause.column str_username = 0 then
      decide (strcmp row.username_ptr where_clause.value = 0)
    else if strcmp where_clause.column str_email = 0 then
      decide (strcmp row.email_ptr where_clause.value = 0)
    else true

/-- The number of rows `rows_buffer` has room for. -/
def ROWS_BUFFER_SIZE : Nat := 1000

/-- The scan `while (!cursor->end_of_table)` of `execute_select`: the rows in `rows_buffer`,
the rows printed and `rows_returned` after it.  A store into `rows_buffer` at or beyond
`ROWS_BUFFER_SIZE` is outside the buffer.  The result is `none` when `fuel` iterations do
not reach the end. -/
def select_scan_loop (stmt : ParsedStatement) :
    Nat → Table → Cursor → List Row → List Row → Nat →
    Except Fault (Option (List Row × List Row × Nat × Table))
  | 0, _, _, _, _, _ => .ok none
  | fuel + 1, table, cursor, rows_buffer, printed, rows_returned =>
    if cursor.end_of_table then .ok (some (rows_buffer, printed, rows_returned, table))
    else
      match cursor_value table cursor with
      | .error f => .error f
      | .ok ((page, off), table1) =>
        let row := deserialize_row (page.drop off)
        if should_include stmt row then
          if stmt.has_order_by then
            if rows_buffer.length ≥ ROWS_BUFFER_SIZE then .error .out_of_bounds
            else
              match cursor_advance table1 cursor with
              | .error f => .error f
              | .ok (cursor1, table2) =>
                select_scan_loop stmt fuel table2 cursor1 (rows_buffer ++ [row]) printed
                  rows_returned
          else
            let printed1 := printed ++ [row]
            let rows_returned1 := (rows_returned + 1) % 4294967296
            if stmt.has_limit ∧ rows_returned1 ≥ stmt.limit then
              .ok (some (rows_buffer, printed1, rows_returned1, table1))
            else
              match cursor_advance table1 cursor with
              | .error f => .error f
              | .ok (cursor1, table2) =>
                select_scan_loop stmt fuel table2 cursor1 rows_buffer printed1 rows_returned1
        else
          match cursor_advance table1 cursor with
          | .error f => .error f
          | .ok (cursor1, table2) =>
            select_scan_loop stmt fuel table2 cursor1 rows_buffer printed rows_returned

/-- The flag `should_swap` of the sort of `execute_select` for `rows_buffer[j]` and
`rows_buffer[j + 1]`. -/
def should_swap (stmt : ParsedStatement) (a b : Row) : Bool :=
  if strcmp stmt.order_by_column str_id = 0 then
    if stmt.order_ascending then decide (a.id > b.id) else decide (a.id < b.id)
  else if strcmp stmt.order_by_column str_username = 0 then
    let cmp := strcmp a.username_ptr b.username_ptr
    if stmt.order_ascending then decide (cmp > 0) else decide (cmp < 0)
  else false

/-- The inner loop `for (j = 0; j < buffer_size - i - 1; j++)` of the sort, with `n`
iterations left, the next one for `j`. -/
def sort_inner_loop (stmt : ParsedStatement) : Nat → Nat → List Row → List Row
  | 0, _, rows_buffer => rows_buffer
  | n + 1, j, rows_buffer =>
    let a := rows_buffer.getD j default
    let b := rows_buffer.getD (j + 1) default
    let rows_buffer1 :=
      if should_swap stmt a b then (rows_buffer.set j b).set (j + 1) a else rows_buffer
    sort_inner_loop stmt n (j + 1) rows_buffer1

/-- The outer loop `for (i = 0; i < buffer_size - 1; i++)` of the sort, with `n` iterations
left, the next one for `i`. -/
def sort_outer_loop (stmt : ParsedStatement) : Nat → Nat → List Row → List Row
  | 0, _, rows_buffer => rows_buffer
  | n + 1, i, rows_buffer =>
    sort_outer_loop stmt n (i + 1)
      (sort_inner_loop stmt (rows_buffer.length - i - 1) 0 rows_buffer)

/-- The sort of `execute_select` on a buffer that is not empty. -/
def sort_rows_buffer (stmt : ParsedStatement) (rows_buffer : List Row) : List Row :=
  sort_outer_loop stmt (rows_buffer.length - 1) 0 rows_buffer

/-- The end of `execute_select`: the sort and the output of the first `limit` rows of
`rows_buffer`, which are printed after the rows `printed`. -/
def select_finish (stmt : ParsedStatement) (rows_buffer printed : List Row)
    (rows_returned : Nat) : List Row × Nat :=
  if stmt.has_order_by ∧ rows_buffer.length > 0 then
    let sorted := sort_rows_buffer stmt rows_buffer
    let limit := if stmt.has_limit then stmt.limit else rows_buffer.length
    let shown := sorted.take limit
    (printed ++ shown, (rows_returned + shown.length) % 4294967296)
  else (printed, rows_returned)

/-- The secondary-index path of `execute_select`: `none` when the path is not taken (no
WHERE, no index manager, no index on the column, or a lookup that returns `NULL`). -/
def select_by_index (index_manager : Option IndexManager) (stmt : ParsedStatement)
    (table : Table) : Option (Except Fault (List Row × Nat × Table)) :=
  match stmt.where_clause, index_manager with
  | some where_clause, some manager =>
    match index_manager_get manager str_users where_clause.column with
    | none => none
    | some i =>
      match (secondary_index_lookup (manager.indexes.getD i default) where_clause.value).1 with
      | none => none
      | some primary_keys => some (select_index_loop primary_keys table [] 0)
  | _, _ => none

/-- The function `execute_select(stmt, table, rows_returned_out)`: the result, the output,
the value of `*rows_returned_out` after the call (`actual_rows` before it), the table and
the global `table_manager`; `index_manager` is the global of that name.  The result is
`none` when a scan does not end within `fuel` rows. -/
def execute_select (files : List Nat → TableFiles) (fuel : Nat)
    (index_manager : Option IndexManager) (table_manager : Option TableManager)
    (stmt : ParsedStatement) (table : Table) (actual_rows : Nat) :
    Except Fault (Option (ExecuteResult × Output × Nat × Table × Option TableManager)) :=
  if stmt.has_join then
    match execute_join files fuel table_manager stmt actual_rows with
    | .error f => .error f
    | .ok none => .ok none
    | .ok (some (result, printed, rows_returned, table_manager1)) =>
      .ok (some (result, .pairs printed, rows_returned, table, table_manager1))
  else if stmt.has_aggregation then
    match table_start table with
    | .error f => .error f
    | .ok (cursor, table1) =>
      match agg_loop stmt fuel table1 cursor 0 0 0 4294967295 with
      | .error f => .error f
      | .ok none => .ok none
      | .ok (some ((count, sum, max_val, min_val), table2)) =>
        .ok (some (.EXECUTE_SUCCESS, .aggregate count sum max_val min_val, 1, table2,
          table_manager))
  else
    match select_by_index index_manager stmt table with
    | some (.error f) => .error f
    | some (.ok (printed, rows_returned, table1)) =>
      .ok (some (.EXECUTE_SUCCESS, .rows printed, rows_returned, table1, table_manager))
    | none =>
      if where_on_id stmt then
        let key := atoi_u32 ((stmt.where_clause.getD ⟨[], [], []⟩).value)
        match table_find table key with
        | .error f => .error f
        | .ok (cursor, table1) =>
          if !cursor.end_of_table then
            match pager_get_page table1.pager cursor.page_num with
            | .error f => .error f
            | .ok (node, pager1) =>
              let table2 := { table1 with pager := pager1 }
              if cursor.cell_num < leaf_node_num_cells node ∧
                  leaf_node_key node cursor.cell_num = key then
                match cursor_value table2 cursor with
                | .error f => .error f
                | .ok ((page, off), table3) =>
                  let row := deserialize_row (page.drop off)
                  let found : List Row × List Row × Nat :=
                    if stmt.has_order_by then ([row], [], 0) else ([], [row], 1)
                  let finished := select_finish stmt found.1 found.2.1 found.2.2
                  .ok (some (.EXECUTE_SUCCESS, .rows finished.1, finished.2, table3,
                    table_manager))
              else .ok (some (.EXECUTE_SUCCESS, .rows [], 0, table2, table_manager))
          else .ok (some (.EXECUTE_SUCCESS, .rows [], 0, table1, table_manager))
      else
        match table_start table with
        | .error f => .error f
        | .ok (cursor, table1) =>
          match select_scan_loop stmt fuel table1 cursor [] [] 0 with
          | .error f => .error f
          | .ok none => .ok none
          | .ok (some (rows_buffer, printed, rows_returned, table2)) =>
            let finished := select_finish stmt rows_buffer printed rows_returned
            .ok (some (.EXECUTE_SUCCESS, .rows finished.1, finished.2, table2, table_manager))
/-! ## Lexer (`src/parser/lexer.h`, `src/parser/lexer.c`) -/

/-- The C enum `TokenType`. -/
inductive TokenType where
  | TOKEN_SELECT | TOKEN_INSERT | TOKEN_UPDATE | TOKEN_DELETE | TOKEN_EXPLAIN | TOKEN_CREATE
  | TOKEN_TABLE | TOKEN_INDEX | TOKEN_JOIN | TOKEN_INNER | TOKEN_ON | TOKEN_INT | TOKEN_VARCHAR
  | TOKEN_PRIMARY | TOKEN_KEY | TOKEN_COUNT | TOKEN_SUM | TOKEN_AVG | TOKEN_MAX | TOKEN_MIN
  | TOKEN_ORDER | TOKEN_BY | TOKEN_LIMIT | TOKEN_ASC | TOKEN_DESC | TOKEN_SET | TOKEN_WHERE
  | TOKEN_FROM | TOKEN_INTO | TOKEN_VALUES | TOKEN_IDENTIFIER | TOKEN_NUMBER | TOKEN_STRING
  | TOKEN_EQUALS | TOKEN_COMMA | TOKEN_ASTERISK | TOKEN_LPAREN | TOKEN_RPAREN | TOKEN_SEMICOLON
  | TOKEN_DOT | TOKEN_EOF | TOKEN_ERROR
deriving DecidableEq, Repr

/-- The C struct `Token`: `value` is `none` for `NULL`, otherwise the string; `length` is
the argument `make_token` was called with. -/
structure Token where
  type : TokenType
  value : Option (List Nat)
  length : Nat
deriving DecidableEq, Repr

/-- The C struct `Lexer`: `input` is the string the pointer points to. -/
structure Lexer where
  input : List Nat
  position : Nat
  length : Nat
deriving DecidableEq, Repr

/-- The function `lexer_init(input)`. -/
def lexer_init (input : List Nat) : Lexer :=
  { input := cstr input, position := 0, length := (cstr input).length }

/-- The character test `isalpha` in the C locale. -/
def isalpha (c : Nat) : Bool :=
  (65 ≤ c && c ≤ 90) || (97 ≤ c && c ≤ 122)

/-- The character test `isalnum` in the C locale. -/
def isalnum (c : Nat) : Bool :=
  isalpha c || isdigit c

/-- The function `tolower` in the C locale. -/
def tolower (c : Nat) : Nat :=
  if 65 ≤ c ∧ c ≤ 90 then c + 32 else c

/-- The C call `strncasecmp(a, b, n)`. -/
def strncasecmp : List Nat → List Nat → Nat → Int
  | _, _, 0 => 0
  | a, b, n + 1 =>
    let ca := tolower (a.headD 0)
    let cb := tolower (b.headD 0)
    if ca ≠ cb then (ca : Int) - (cb : Int)
    else if ca = 0 then 0
    else strncasecmp a.tail b.tail n

/-- The loops `while (lexer->position < lexer->length && p(lexer->input[lexer->position]))
lexer->position++;` of the lexer: the position after the loop.  `fuel` bounds the number of
iterations. -/
def lexer_scan (p : Nat → Bool) (lexer : Lexer) : Nat → Nat → Nat
  | 0, position => position
  | fuel + 1, position =>
    if position < lexer.length ∧ p (lexer.input.getD position 0) then
      lexer_scan p lexer fuel (position + 1)
    else position

/-- The function `skip_whitespace(lexer)`. -/
def skip_whitespace (lexer : Lexer) : Lexer :=
  { lexer with position := lexer_scan isspace lexer (lexer.length - lexer.position) lexer.position }

/-- The function `make_token(type, value, length)`, `value` being `none` for `NULL` and
otherwise the memory the pointer points to. -/
def make_token (type : TokenType) (value : Option (List Nat)) (length : Nat) : Token :=
  { type := type, value := value.map (fun v => strncpy_bytes v length |> cstr), length := length }

/-- The keywords of `read_identifier` in the order in which it tests them. -/
def keywords : List (List Nat × TokenType) :=
  [ ([99, 111, 117, 110, 116], .TOKEN_COUNT),
    ([115, 117, 109], .TOKEN_SUM),
    ([97, 118, 103], .TOKEN_AVG),
    ([109, 97, 120], .TOKEN_MAX),
    ([109, 105, 110], .TOKEN_MIN),
    ([111, 114, 100, 101, 114], .TOKEN_ORDER),
    ([98, 121], .TOKEN_BY),
    ([108, 105, 109, 105, 116], .TOKEN_LIMIT),
    ([97, 115, 99], .TOKEN_ASC),
    ([100, 101, 115, 99], .TOKEN_DESC),
    ([105, 110, 100, 101, 120], .TOKEN_INDEX),
    ([99, 114, 101, 97, 116, 101], .TOKEN_CREATE),
    ([116, 97, 98, 108, 101], .TOKEN_TABLE),
    ([106, 111, 105, 110], .TOKEN_JOIN),
    ([105, 110, 110, 101, 114], .TOKEN_INNER),
    ([111, 110], .TOKEN_ON),
    ([105, 110, 116], .TOKEN_INT),
    ([118, 97, 114, 99, 104, 97, 114], .TOKEN_VARCHAR),
    ([112, 114, 105, 109, 97, 114, 121], .TOKEN_PRIMARY),
    ([107, 101, 121], .TOKEN_KEY),
    ([101, 120, 112, 108, 97, 105, 110], .TOKEN_EXPLAIN),
    ([115, 101, 108, 101, 99, 116], .TOKEN_SELECT),
    ([105, 110, 115, 101, 114, 116], .TOKEN_INSERT),
    ([117, 112, 100, 97, 116, 101], .TOKEN_UPDATE),
    ([100, 101, 108, 101, 116, 101], .TOKEN_DELETE),
    ([115, 101, 116], .TOKEN_SET),
    ([119, 104, 101, 114, 101], .TOKEN_WHERE),
    ([102, 114, 111, 109], .TOKEN_FROM),
    ([105, 110, 116, 111], .TOKEN_INTO),
    ([118, 97, 108, 117, 101, 115], .TOKEN_VALUES) ]

/-- The chain of tests `strncasecmp(value, "kw", length) == 0 && length == strlen("kw")` of
`read_identifier` over the keywords still to test. -/
def keyword_lookup (value : List Nat) (length : Nat) : List (List Nat × TokenType) → Option TokenType
  | [] => none
  | (kw, type) :: rest =>
    if strncasecmp value kw length = 0 ∧ length = kw.length then some type
    else keyword_lookup value length rest

/-- The function `read_identifier(lexer)`. -/
def read_identifier (lexer : Lexer) : Token × Lexer :=
  let start := lexer.position
  let position := lexer_scan (fun c => isalnum c || c = 95 || c = 64 || c = 46) lexer
    (lexer.length - lexer.position) lexer.position
  let length := position - start
  let value := lexer.input.drop start
  let lexer1 := { lexer with position := position }
  match keyword_lookup value length keywords with
  | some type => (make_token type none 0, lexer1)
  | none => (make_token .TOKEN_IDENTIFIER (some value) length, lexer1)

/-- The function `read_number(lexer)`. -/
def read_number (lexer : Lexer) : Token × Lexer :=
  let start := lexer.position
  let position := lexer_scan isdigit lexer (lexer.length - lexer.position) lexer.position
  (make_token .TOKEN_NUMBER (some (lexer.input.drop start)) (position - start),
    { lexer with position := position })

/-- The function `read_string(lexer)`. -/
def read_string (lexer : Lexer) : Token × Lexer :=
  let start := lexer.position + 1
  let position := lexer_scan (fun c => c ≠ 39) lexer (lexer.length - start) start
  (make_token .TOKEN_STRING (some (lexer.input.drop start)) (position - start),
    { lexer with position := position + 1 })

/-- The function `lexer_next_token(lexer)`: the token and the lexer after the call. -/
def lexer_next_token (lexer : Lexer) : Token × Lexer :=
  let lexer1 := skip_whitespace lexer
  if lexer1.position ≥ lexer1.length then (make_token .TOKEN_EOF none 0, lexer1)
  else
    let current := lexer1.input.getD lexer1.position 0
    let lexer2 := { lexer1 with position := lexer1.position + 1 }
    if current = 61 then (make_token .TOKEN_EQUALS none 0, lexer2)
    else if current = 44 then (make_token .TOKEN_COMMA none 0, lexer2)
    else if current = 42 then (make_token .TOKEN_ASTERISK none 0, lexer2)
    else if current = 40 then (make_token .TOKEN_LPAREN none 0, lexer2)
    else if current = 41 then (make_token .TOKEN_RPAREN none 0, lexer2)
    else if current = 59 then (make_token .TOKEN_SEMICOLON none 0, lexer2)
    else if current = 39 then read_string lexer1
    else if isalpha current ∨ current = 95 then read_identifier lexer1
    else if isdigit current then read_number lexer1
    else (make_token .TOKEN_ERROR (some [current]) 1, lexer2)

/-! ## Parser (`src/parser/parser.c`) -/

/-- The C struct `Parser`, once `current_token` is set. -/
structure Parser where
  lexer : Lexer
  current_token : Token
deriving DecidableEq, Repr

/-- The function `parser_advance(parser)`. -/
def parser_advance (parser : Parser) : Parser :=
  let next := lexer_next_token parser.lexer
  { lexer := next.2, current_token := next.1 }

/-- The function `parser_expect(parser, type)`. -/
def parser_expect (parser : Parser) (type : TokenType) : Bool × Parser :=
  if parser.current_token.type = type then (true, parser_advance parser)
  else (false, parser)

/-- The string `parser->current_token->value` of a token that has one. -/
def Parser.value (parser : Parser) : List Nat :=
  parser.current_token.value.getD []

/-- The function `parse_where_clause(parser)`: the condition (`none` for `NULL`) and the
parser after the call. -/
def parse_where_clause (parser : Parser) : Option Condition × Parser :=
  if parser.current_token.type ≠ .TOKEN_WHERE then (none, parser)
  else
    let parser1 := parser_advance parser
    if parser1.current_token.type ≠ .TOKEN_IDENTIFIER then (none, parser1)
    else
      let column := parser1.value
      let parser2 := parser_advance parser1
      if parser2.current_token.type ≠ .TOKEN_EQUALS then (none, parser2)
      else
        let parser3 := parser_advance parser2
        if parser3.current_token.type = .TOKEN_NUMBER ∨
            parser3.current_token.type = .TOKEN_STRING ∨
            parser3.current_token.type = .TOKEN_IDENTIFIER then
          (some { column := column, operator := [61], value := parser3.value },
            parser_advance parser3)
        else (none, parser3)

/-- The statement after `memset(stmt, 0, sizeof(ParsedStatement)); stmt->type = type;`. -/
def new_statement (type : StatementType) : ParsedStatement :=
  { type := type, row_to_insert := ⟨0, List.replicate 32 0, List.replicate 255 0⟩,
    assignments := [], where_clause := none, is_explain := false }

/-- The loop `while (type != TOKEN_RPAREN && type != TOKEN_EOF)` of `parse_create_table`
over the column definitions: the columns parsed and the parser after the loop.  Every
iteration that does not leave the loop adds a column, and the loop is left when there are
`MAX_COLUMNS` of them, so `fuel = MAX_COLUMNS + 1` iterations are enough. -/
def parse_columns_loop : Nat → Parser → List ColumnDef → List ColumnDef × Parser
  | 0, parser, columns => (columns, parser)
  | fuel + 1, parser, columns =>
    if parser.current_token.type ≠ .TOKEN_RPAREN ∧ parser.current_token.type ≠ .TOKEN_EOF then
      if columns.length ≥ MAX_COLUMNS then (columns, parser)
      else if parser.current_token.type ≠ .TOKEN_IDENTIFIER then (columns, parser)
      else
        let col : ColumnDef :=
          { ColumnDef.zero with name := strncpy ColumnDef.zero.name parser.value (MAX_COLUMN_NAME - 1) }
        let parser1 := parser_advance parser
        let typed : ColumnDef × Parser :=
          if parser1.current_token.type = .TOKEN_INT then
            ({ col with type := .TYPE_INT, size := 4 }, parser_advance parser1)
          else if parser1.current_token.type = .TOKEN_VARCHAR then
            let col1 := { col with type := .TYPE_VARCHAR }
            let parser2 := parser_advance parser1
            let lparen := parser_expect parser2 .TOKEN_LPAREN
            if lparen.1 then
              let sized : ColumnDef × Parser :=
                if lparen.2.current_token.type = .TOKEN_NUMBER then
                  ({ col1 with size := atoi_u32 lparen.2.value }, parser_advance lparen.2)
                else (col1, lparen.2)
              (sized.1, (parser_expect sized.2 .TOKEN_RPAREN).2)
            else (col1, lparen.2)
          else (col, parser1)
        let keyed : ColumnDef × Parser :=
          if typed.2.current_token.type = .TOKEN_PRIMARY then
            let key := parser_expect (parser_advance typed.2) .TOKEN_KEY
            if key.1 then ({ typed.1 with is_primary_key := true }, key.2) else (typed.1, key.2)
          else typed
        let parser3 :=
          if keyed.2.current_token.type = .TOKEN_COMMA then parser_advance keyed.2 else keyed.2
        parse_columns_loop fuel parser3 (columns ++ [keyed.1])
    else (columns, parser)

/-- The function `parse_create_table(parser)`; `none` for `NULL`. -/
def parse_create_table (parser : Parser) : Option ParsedStatement :=
  let stmt := new_statement .STMT_CREATE_TABLE
  let parser1 := parser_advance parser
  let table := parser_expect parser1 .TOKEN_TABLE
  if !table.1 then none
  else if table.2.current_token.type ≠ .TOKEN_IDENTIFIER then none
  else
    let stmt1 := { stmt with table_name := strncpy stmt.table_name table.2.value 63 }
    let lparen := parser_expect (parser_advance table.2) .TOKEN_LPAREN
    if !lparen.1 then none
    else
      let parsed := parse_columns_loop (MAX_COLUMNS + 1) lparen.2 []
      some { stmt1 with columns := parsed.1 }

/-- The function `parse_create_index(parser)`; `none` for `NULL`. -/
def parse_create_index (parser : Parser) : Option ParsedStatement :=
  let stmt := new_statement .STMT_CREATE_INDEX
  let parser1 := parser_advance parser
  let index := parser_expect parser1 .TOKEN_INDEX
  if !index.1 then none
  else
    let on_token := parser_expect index.2 .TOKEN_ON
    if on_token.1 then
      let named : ParsedStatement × Parser :=
        if on_token.2.current_token.type = .TOKEN_IDENTIFIER then
          ({ stmt with index_table := strncpy stmt.index_table on_token.2.value 63 }, parser_advance on_token.2)
        else (stmt, on_token.2)
      let lparen := parser_expect named.2 .TOKEN_LPAREN
      if lparen.1 then
        if lparen.2.current_token.type = .TOKEN_IDENTIFIER then
          some { named.1 with index_column := strncpy named.1.index_column lparen.2.value 31 }
        else some named.1
      else some named.1
    else some stmt

/-- The position of the first `'.'` in a string, the value of `dot - value` for
`dot = strchr(value, '.')`; `none` when `strchr` returns `NULL`. -/
def strchr_dot (value : List Nat) : Option Nat :=
  if 46 ∈ cstr value then some ((cstr value).takeWhile (fun c => c ≠ 46)).length else none

/-- The assignments of `parse_select` from a token `table.column` of the ON clause to the
table name and the column name of one side of the join: `strncpy(table, value, table_len);
table[table_len] = 0; strncpy(column, dot + 1, 31);`.  A table name of 64 or more bytes is
stored beyond the array. -/
def join_side (table column value : List Nat) : Except Fault (List Nat × List Nat) :=
  match strchr_dot value with
  | none => .ok (table, column)
  | some table_len =>
    if table_len ≥ 64 then .error .out_of_bounds
    else
      .ok ((strncpy table value table_len).set table_len 0,
        strncpy column ((cstr value).drop (table_len + 1)) 31)

/-- The part of `parse_select` that reads `[INNER] JOIN table ON a.x = b.y` after the FROM
table; `fresh` stands for the bytes that `malloc(sizeof(JoinClause))` delivers. -/
def parse_join (fresh : JoinClause) (stmt : ParsedStatement) (parser : Parser) :
    Except Fault (ParsedStatement × Parser) :=
  if parser.current_token.type = .TOKEN_INNER ∨ parser.current_token.type = .TOKEN_JOIN then
    let parser1 :=
      if parser.current_token.type = .TOKEN_INNER then parser_advance parser else parser
    let join := parser_expect parser1 .TOKEN_JOIN
    if join.1 then
      let join_clause : JoinClause :=
        { fresh with left_table := strncpy fresh.left_table stmt.from_table 63 }
      let right : JoinClause × Parser :=
        if join.2.current_token.type = .TOKEN_IDENTIFIER then
          ({ join_clause with right_table := strncpy join_clause.right_table join.2.value 63 },
            parser_advance join.2)
        else (join_clause, join.2)
      let on_token := parser_expect right.2 .TOKEN_ON
      if on_token.1 then
        let left_side : Except Fault (JoinClause × Parser) :=
          if on_token.2.current_token.type = .TOKEN_IDENTIFIER then
            match join_side right.1.left_table right.1.left_column on_token.2.value with
            | .error f => .error f
            | .ok (table, column) =>
              .ok ({ right.1 with left_table := table, left_column := column },
                parser_advance on_token.2)
          else .ok (right.1, on_token.2)
        match left_side with
        | .error f => .error f
        | .ok (join_clause1, parser2) =>
          let parser3 := (parser_expect parser2 .TOKEN_EQUALS).2
          if parser3.current_token.type = .TOKEN_IDENTIFIER then
            match join_side join_clause1.right_table join_clause1.right_column parser3.value with
            | .error f => .error f
            | .ok (table, column) =>
              let join_clause2 : JoinClause :=
                { join_clause1 with right_table := table, right_column := column }
              .ok ({ stmt with join_clause := some join_clause2 }, parser_advance parser3)
          else .ok ({ stmt with join_clause := some join_clause1 }, parser3)
      else .ok ({ stmt with join_clause := some right.1 }, on_token.2)
    else .ok (stmt, join.2)
  else .ok (stmt, parser)

/-- The part of `parse_select` from the optional WHERE clause on. -/
def parse_select_tail (stmt : ParsedStatement) (parser : Parser) : ParsedStatement :=
  let condition := parse_where_clause parser
  let stmt1 := { stmt with where_clause := condition.1 }
  let ordered : ParsedStatement × Parser :=
    if condition.2.current_token.type = .TOKEN_ORDER then
      let by_token := parser_expect (parser_advance condition.2) .TOKEN_BY
      if by_token.1 then
        if by_token.2.current_token.type = .TOKEN_IDENTIFIER then
          let stmt2 :=
            { stmt1 with order_by_column := strncpy stmt1.order_by_column by_token.2.value 31
                         has_order_by := true }
          let parser1 := parser_advance by_token.2
          if parser1.current_token.type = .TOKEN_ASC then
            ({ stmt2 with order_ascending := true }, parser_advance parser1)
          else if parser1.current_token.type = .TOKEN_DESC then
            ({ stmt2 with order_ascending := false }, parser_advance parser1)
          else (stmt2, parser1)
        else (stmt1, by_token.2)
      else (stmt1, by_token.2)
    else (stmt1, condition.2)
  if ordered.2.current_token.type = .TOKEN_LIMIT then
    let parser2 := parser_advance ordered.2
    if parser2.current_token.type = .TOKEN_NUMBER then
      { ordered.1 with limit := atoi_u32 parser2.value, has_limit := true }
    else ordered.1
  else ordered.1

/-- The function `parse_select(parser)`; `none` for `NULL`. -/
def parse_select (fresh : JoinClause) (parser : Parser) : Except Fault (Option ParsedStatement) :=
  let stmt := { new_statement .STMT_SELECT with order_ascending := true }
  let parser1 := parser_advance parser
  let selected : Option (ParsedStatement × Parser) :=
    if parser1.current_token.type = .TOKEN_COUNT then
      let stmt1 := { stmt with agg_type := .AGG_COUNT, has_aggregation := true }
      let lparen := parser_expect (parser_advance parser1) .TOKEN_LPAREN
      if lparen.1 then
        let argument : ParsedStatement × Parser :=
          if lparen.2.current_token.type = .TOKEN_ASTERISK then
            ({ stmt1 with agg_column := memcpy stmt1.agg_column 0 [42, 0] 2 }, parser_advance lparen.2)
          else if lparen.2.current_token.type = .TOKEN_IDENTIFIER then
            ({ stmt1 with agg_column := strncpy stmt1.agg_column lparen.2.value 31 },
              parser_advance lparen.2)
          else (stmt1, lparen.2)
        some (argument.1, (parser_expect argument.2 .TOKEN_RPAREN).2)
      else some (stmt1, lparen.2)
    else if parser1.current_token.type = .TOKEN_ASTERISK then some (stmt, parser_advance parser1)
    else none
  match selected with
  | none => .ok none
  | some (stmt2, parser2) =>
    let from_clause : Except Fault (ParsedStatement × Parser) :=
      if parser2.current_token.type = .TOKEN_FROM then
        let parser3 := parser_advance parser2
        let named : ParsedStatement × Parser :=
          if parser3.current_token.type = .TOKEN_IDENTIFIER then
            ({ stmt2 with from_table := strncpy stmt2.from_table parser3.value 63 },
              parser_advance parser3)
          else (stmt2, parser3)
        parse_join fresh named.1 named.2
      else .ok (stmt2, parser2)
    match from_clause with
    | .error f => .error f
    | .ok (stmt3, parser4) => .ok (some (parse_select_tail stmt3 parser4))

/-- The function `parse_insert(parser)`; `none` for `NULL`. -/
def parse_insert (parser : Parser) : Option ParsedStatement :=
  let stmt := new_statement .STMT_INSERT
  let parser1 := parser_advance parser
  if parser1.current_token.type ≠ .TOKEN_NUMBER then none
  else
    let id := atoi_u32 parser1.value
    let parser2 := parser_advance parser1
    if parser2.current_token.type ≠ .TOKEN_IDENTIFIER ∧
        parser2.current_token.type ≠ .TOKEN_STRING then none
    else
      let username := strncpy stmt.row_to_insert.username parser2.value COLUMN_USERNAME_SIZE
      let parser3 := parser_advance parser2
      if parser3.current_token.type ≠ .TOKEN_IDENTIFIER ∧
          parser3.current_token.type ≠ .TOKEN_STRING then none
      else
        let email := strncpy stmt.row_to_insert.email parser3.value COLUMN_EMAIL_SIZE
        some { stmt with row_to_insert := { id := id, username := username, email := email } }

/-- The function `parse_update(parser)`; `none` for `NULL`. -/
def parse_update (parser : Parser) : Option ParsedStatement :=
  let stmt := new_statement .STMT_UPDATE
  let parser1 := parser_advance parser
  let set_token := parser_expect parser1 .TOKEN_SET
  if !set_token.1 then none
  else if set_token.2.current_token.type ≠ .TOKEN_IDENTIFIER then none
  else
    let column := set_token.2.value
    let equals := parser_expect (parser_advance set_token.2) .TOKEN_EQUALS
    if !equals.1 then none
    else if equals.2.current_token.type = .TOKEN_NUMBER ∨
        equals.2.current_token.type = .TOKEN_STRING ∨
        equals.2.current_token.type = .TOKEN_IDENTIFIER then
      let value := equals.2.value
      let condition := parse_where_clause (parser_advance equals.2)
      some { stmt with assignments := [{ column := column, value := value }],
                       where_clause := condition.1 }
    else none

/-- The function `parse_delete(parser)`. -/
def parse_delete (parser : Parser) : Option ParsedStatement :=
  let stmt := new_statement .STMT_DELETE
  let parser1 := parser_advance parser
  some { stmt with where_clause := (parse_where_clause parser1).1 }

/-- The parser after `parser.lexer = lexer_init(input); parser.current_token = NULL;
parser_advance(&parser);`. -/
def parser_init (input : List Nat) : Parser :=
  let next := lexer_next_token (lexer_init input)
  { lexer := next.2, current_token := next.1 }

/-- The function `parse_statement(input)`; `none` for `NULL`.  `fresh` stands for the bytes
that `malloc(sizeof(JoinClause))` delivers. -/
def parse_statement (fresh : JoinClause) (input : List Nat) :
    Except Fault (Option ParsedStatement) :=
  let parser := parser_init input
  let is_explain := decide (parser.current_token.type = .TOKEN_EXPLAIN)
  let parser1 := if is_explain then parser_advance parser else parser
  let restarted : Parser :=
    if is_explain then parser_advance (parser_init input) else parser_init input
  let stmt : Except Fault (Option ParsedStatement) :=
    match parser1.current_token.type with
    | .TOKEN_CREATE =>
      let parser2 := parser_advance parser1
      if parser2.current_token.type = .TOKEN_TABLE then .ok (parse_create_table restarted)
      else if parser2.current_token.type = .TOKEN_INDEX then .ok (parse_create_index restarted)
      else .ok none
    | .TOKEN_SELECT => parse_select fresh parser1
    | .TOKEN_INSERT => .ok (parse_insert parser1)
    | .TOKEN_UPDATE => .ok (parse_update parser1)
    | .TOKEN_DELETE => .ok (parse_delete parser1)
    | _ => .ok none
  match stmt with
  | .error f => .error f
  | .ok none => .ok none
  | .ok (some stmt1) => .ok (some { stmt1 with is_explain := is_explain })

/-- The join clause with all bytes zero. -/
def JoinClause.zero : JoinClause :=
  { left_table := List.replicate 64 0, right_table := List.replicate 64 0,
    left_column := List.replicate 32 0, right_column := List.replicate 32 0 }
/-! ## Statement dispatch (`src/main.c`) -/

/-- The globals of `main.c`, `none` for `NULL`. -/
structure Globals where
  global_stats : Option QueryStats
  global_schema : Option Schema
  table_manager : Option TableManager
  index_manager : Option IndexManager
deriving DecidableEq, Repr

/-- The function `execute_create_table(stmt)`: the result and the global `global_schema`
after the call. -/
def execute_create_table (global_schema : Option Schema) (stmt : ParsedStatement) :
    Except Fault (ExecuteResult × Option Schema) :=
  let schema := global_schema.getD schema_create
  match schema_add_table schema stmt.table_name stmt.columns with
  | .error f => .error f
  | .ok (true, schema1) => .ok (.EXECUTE_SUCCESS, some schema1)
  | .ok (false, schema1) => .ok (.EXECUTE_TABLE_FULL, some schema1)

/-- The function `execute_create_index(stmt, table)`: the result, the global
`index_manager` and the table after the call; `none` when the scan that builds the index
does not end within `fuel` rows. -/
def execute_create_index (fuel : Nat) (index_manager : Option IndexManager)
    (stmt : ParsedStatement) (table : Table) :
    Except Fault (Option (ExecuteResult × Option IndexManager × Table)) :=
  let manager := index_manager.getD index_manager_create
  let created := index_manager_create_index manager stmt.index_table stmt.index_column
  if created.1 then
    match index_manager_build_from_table fuel created.2 stmt.index_table stmt.index_column
        table with
    | .error f => .error f
    | .ok none => .ok none
    | .ok (some (_, manager1, table1)) => .ok (some (.EXECUTE_SUCCESS, some manager1, table1))
  else .ok (some (.EXECUTE_TABLE_FULL, some created.2, table))

/-- The function `execute_statement(stmt, table)`: the result, the output, the table and the
globals after the call.  `leaf_node_insert` and `leaf_node_delete` are as in
`execute_insert` and `execute_delete`, `files` as in `table_manager_open`; the result is
`none` when a scan does not end within `fuel` rows. -/
def execute_statement (leaf_node_insert : Table → Cursor → Nat → Row → Except Fault Table)
    (leaf_node_delete : Table → Cursor → Except Fault Table)
    (files : List Nat → TableFiles) (fuel : Nat) (stmt : ParsedStatement) (table : Table)
    (globals : Globals) : Except Fault (Option (ExecuteResult × Output × Table × Globals)) :=
  if stmt.type = .STMT_CREATE_TABLE then
    match execute_create_table globals.global_schema stmt with
    | .error f => .error f
    | .ok (result, schema) =>
      .ok (some (result, .nothing, table, { globals with global_schema := schema }))
  else if stmt.type = .STMT_CREATE_INDEX then
    match execute_create_index fuel globals.index_manager stmt table with
    | .error f => .error f
    | .ok none => .ok none
    | .ok (some (result, manager, table1)) =>
      .ok (some (result, .nothing, table1, { globals with index_manager := manager }))
  else
    match optimize_query fuel stmt table with
    | .error f => .error f
    | .ok none => .ok none
    | .ok (some (plan, table1)) =>
      if stmt.is_explain then .ok (some (.EXECUTE_SUCCESS, .plan plan, table1, globals))
      else
        let executed : Except Fault (Option (ExecuteResult × Output × Nat × Table × Globals)) :=
          match stmt.type with
          | .STMT_INSERT =>
            match execute_insert leaf_node_insert globals.index_manager stmt table1 with
            | .error f => .error f
            | .ok (result, table2, manager) =>
              .ok (some (result, .nothing, if result = .EXECUTE_SUCCESS then 1 else 0, table2,
                { globals with index_manager := manager }))
          | .STMT_SELECT =>
            match execute_select files fuel globals.index_manager globals.table_manager stmt
                table1 0 with
            | .error f => .error f
            | .ok none => .ok none
            | .ok (some (result, output, actual_rows, table2, manager)) =>
              .ok (some (result, output, actual_rows, table2,
                { globals with table_manager := manager }))
          | .STMT_UPDATE =>
            match execute_update stmt table1 with
            | .error f => .error f
            | .ok (result, table2) =>
              .ok (some (result, .nothing, if result = .EXECUTE_SUCCESS then 1 else 0, table2,
                globals))
          | .STMT_DELETE =>
            match execute_delete leaf_node_delete stmt table1 with
            | .error f => .error f
            | .ok (result, table2) => .ok (some (result, .nothing, 0, table2, globals))
          | _ => .ok (some (.EXECUTE_SUCCESS, .nothing, 0, table1, globals))
        match executed with
        | .error f => .error f
        | .ok none => .ok none
        | .ok (some (result, output, actual_rows, table2, globals1)) =>
          match globals1.global_stats with
          | some stats =>
            if result = .EXECUTE_SUCCESS then
              .ok (some (result, output, table2,
                { globals1 with global_stats := some (stats_update stats plan actual_rows) }))
            else .ok (some (result, output, table2, globals1))
          | none => .ok (some (result, output, table2, globals1))

/-- The globals as `main` sets them up for the database file `db` when no schema file
exists. -/
def globals_at_start : Globals :=
  { global_stats := some stats_create
    global_schema := some schema_create
    table_manager := some (table_manager_create [100, 98])
    index_manager := some index_manager_create }

/-! ## Example statements -/

instance : DecidableEq (ExecuteResult × Output × Nat × Table × Option TableManager) :=
  inferInstance

instance : DecidableEq (ExecuteResult × List (Row × Row) × Nat × Option TableManager) :=
  inferInstance

/-- The input `EXPLAIN CREATE TABLE t (id INT)`. -/
def input_explain_create_table : List Nat :=
  [69, 88, 80, 76, 65, 73, 78, 32, 67, 82, 69, 65, 84, 69, 32, 84, 65, 66, 76, 69, 32, 116, 32, 40, 105, 100, 32, 73, 78, 84, 41]

/-- The statement `CREATE TABLE t (id INT)` with the EXPLAIN flag set. -/
def stmt_explain_create_table : ParsedStatement :=
  { new_statement .STMT_CREATE_TABLE with
    table_name := [116] ++ List.replicate 63 0
    columns := [{ ColumnDef.zero with name := [105, 100] ++ List.replicate 30 0, size := 4 }]
    is_explain := true }

/-- The input `EXPLAIN CREATE INDEX ON users(username)`. -/
def input_explain_create_index : List Nat :=
  [69, 88, 80, 76, 65, 73, 78, 32, 67, 82, 69, 65, 84, 69, 32, 73, 78, 68, 69, 88, 32, 79, 78, 32, 117, 115, 101, 114, 115, 40, 117, 115, 101, 114, 110, 97, 109, 101, 41]

/-- The statement `CREATE INDEX ON users(username)` with the EXPLAIN flag set. -/
def stmt_explain_create_index : ParsedStatement :=
  { new_statement .STMT_CREATE_INDEX with
    index_table := str_users ++ List.replicate 59 0
    index_column := str_username ++ List.replicate 24 0
    is_explain := true }

/-- The input `SELECT SUM(id)`. -/
def input_select_sum : List Nat :=
  [83, 69, 76, 69, 67, 84, 32, 83, 85, 77, 40, 105, 100, 41]

/-- The input `SELECT AVG(id)`. -/
def input_select_avg : List Nat :=
  [83, 69, 76, 69, 67, 84, 32, 65, 86, 71, 40, 105, 100, 41]

/-- The input `SELECT MAX(id)`. -/
def input_select_max : List Nat :=
  [83, 69, 76, 69, 67, 84, 32, 77, 65, 88, 40, 105, 100, 41]

/-- The input `SELECT MIN(*)`. -/
def input_select_min : List Nat :=
  [83, 69, 76, 69, 67, 84, 32, 77, 73, 78, 40, 42, 41]

/-- The input `SELECT COUNT(id)`. -/
def input_select_count : List Nat :=
  [83, 69, 76, 69, 67, 84, 32, 67, 79, 85, 78, 84, 40, 105, 100, 41]

/-- The statement `SELECT COUNT(id)`. -/
def stmt_select_count : ParsedStatement :=
  { new_statement .STMT_SELECT with
    agg_type := .AGG_COUNT
    agg_column := str_id ++ List.replicate 30 0
    has_aggregation := true
    order_ascending := true }

/-- The statement `SELECT * WHERE username = u ORDER BY id DESC`. -/
def stmt_select_u_desc : ParsedStatement :=
  { new_statement .STMT_SELECT with
    where_clause := some { column := str_username, operator := [61], value := [117] }
    order_by_column := str_id ++ List.replicate 30 0
    has_order_by := true
    order_ascending := false }

/-- The input `SELECT * WHERE username = u ORDER BY id DESC`. -/
def input_select_u_desc : List Nat :=
  [83, 69, 76, 69, 67, 84, 32, 42, 32, 87, 72, 69, 82, 69, 32, 117, 115, 101, 114, 110, 97, 109, 101, 32, 61, 32, 117, 32, 79, 82, 68, 69, 82, 32, 66, 89, 32, 105, 100, 32, 68, 69, 83, 67]

/-- The statement `SELECT * LIMIT 0`. -/
def stmt_select_limit_0 : ParsedStatement :=
  { new_statement .STMT_SELECT with order_ascending := true, limit := 0, has_limit := true }

/-- The input `SELECT * LIMIT 0`. -/
def input_select_limit_0 : List Nat :=
  [83, 69, 76, 69, 67, 84, 32, 42, 32, 76, 73, 77, 73, 84, 32, 48]

/-- The statement `SELECT * WHERE id = 2 LIMIT 0`. -/
def stmt_select_id_2_limit_0 : ParsedStatement :=
  { new_statement .STMT_SELECT with
    where_clause := some { column := str_id, operator := [61], value := [50] }
    order_ascending := true, limit := 0, has_limit := true }

/-- The statement `SELECT * WHERE username = u LIMIT 1`. -/
def stmt_select_u_limit_1 : ParsedStatement :=
  { new_statement .STMT_SELECT with
    where_clause := some { column := str_username, operator := [61], value := [117] }
    order_ascending := true, limit := 1, has_limit := true }

/-- The index manager after `CREATE INDEX ON users(username)` on the table with the rows 1,
2 and 8, whose user names are all `u`: the index holds the three ids under the key `u`. -/
def manager_index_1_2_8 : IndexManager :=
  { indexes := [(([1, 2, 8].foldl (fun index id => secondary_index_insert index [117] id)
      (new_index str_users str_username)))] }

/-- A file system without any file. -/
def no_files : List Nat → TableFiles :=
  fun _ => { db_file := [], fresh := List.replicate PAGE_SIZE 0, wal_file := none, time := 0,
             pid := 0 }

/-- The schema catalog after `CREATE TABLE t (id INT)` on the empty catalog. -/
def schema_with_t : Schema :=
  { tables := (List.replicate MAX_TABLES TableSchema.zero).set 0
      { name := [116] ++ List.replicate 31 0
        columns := (List.replicate MAX_COLUMNS ColumnDef.zero).set 0
          { ColumnDef.zero with name := [105, 100] ++ List.replicate 30 0, size := 4 }
        num_columns := 1
        primary_key_index := 0 }
    num_tables := 1 }

/-- The index manager after `CREATE INDEX ON users(username)` on the table that holds the
row of alice. -/
def manager_index_alice : IndexManager :=
  { indexes := [secondary_index_insert (new_index str_users str_username)
      row_alice.username_ptr 1] }

/-! ## Statements about SELECT -/

/-- The string `"user_id"`. -/
def str_user_id : List Nat := [117, 115, 101, 114, 95, 105, 100]

/-- The table in slot `i` of the manager is the table `t` after cache misses were served. -/
def slot_ext (t : Table) (manager : TableManager) (i : Nat) : Prop :=
  ∃ u, manager.tables.getD i none = some u ∧ table_ext t u

/-- The pairs the inner loop of `execute_join` prints for the left row `left_row` when the
right table holds the rows `right_rows`. -/
def join_pairs (join_clause : JoinClause) (left_row : Row) (right_rows : List Row) :
    List (Row × Row) :=
  (right_rows.filter (join_match join_clause left_row)).map (fun r => (left_row, r))

/-- The join columns are `(id, user_id)` or `(id, id)`. -/
def join_on_id (join_clause : JoinClause) : Prop :=
  cstr join_clause.left_column = str_id ∧
    (cstr join_clause.right_column = str_user_id ∨ cstr join_clause.right_column = str_id)

instance (join_clause : JoinClause) : Decidable (join_on_id join_clause) := by
  unfold join_on_id; infer_instance

/-- A table manager with the two open tables `users`, with the rows 1, 2 and 8, and
`orders`, with the row 1. -/
def manager_users_orders : TableManager :=
  { tables := ((List.replicate MAX_OPEN_TABLES none).set 0 (some table_rows_1_2_8)).set 1
      (some table_with_alice)
    table_names := ((List.replicate MAX_OPEN_TABLES (List.replicate 64 0)).set 0
      (str_users ++ List.replicate 59 0)).set 1
      ([111, 114, 100, 101, 114, 115] ++ List.replicate 58 0)
    num_tables := 2
    base_path := [100, 98] ++ List.replicate 254 0 }

/-- The join clause of `SELECT * FROM users JOIN orders ON users.id = orders.user_id`. -/
def join_users_orders : JoinClause :=
  { left_table := str_users ++ List.replicate 59 0
    right_table := [111, 114, 100, 101, 114, 115] ++ List.replicate 58 0
    left_column := str_id ++ List.replicate 30 0
    right_column := str_user_id ++ List.replicate 25 0 }

/-- The statement `SELECT * FROM users JOIN orders ON users.id = orders.user_id`. -/
def stmt_join_users_orders : ParsedStatement :=
  { new_statement .STMT_SELECT with
    order_ascending := true
    from_table := str_users ++ List.replicate 59 0
    join_clause := some join_users_orders }

/-! ## Statements about the WAL checksum and the schema catalog -/

/-- One step of the checksum as the specification states it, on the pair `(sum1, sum2)`:
`sum1 += w + sum2; sum2 += w + sum1`, modulo 2^32. -/
def checksum_step (sums : Nat × Nat) (w : Nat) : Nat × Nat :=
  let sum1 := (sums.1 + w + sums.2) % 4294967296
  let sum2 := (sums.2 + w + sum1) % 4294967296
  (sum1, sum2)

/-- The checksum of the words `words` with the seed `(s1, s2)` as the specification states
it: the steps over all words, then `sum1 XOR sum2` of the final pair. -/
def checksum_spec (words : List Nat) (s1 s2 : Nat) : Nat :=
  (words.foldl checksum_step (s1, s2)).1 ^^^ (words.foldl checksum_step (s1, s2)).2

/-- A schema catalog as the C type holds it: `MAX_TABLES` slots, each with a name array of
`MAX_TABLE_NAME` bytes and `MAX_COLUMNS` column slots. -/
def schema_wf (schema : Schema) : Prop :=
  schema.tables.length = MAX_TABLES ∧
    ∀ t ∈ schema.tables, t.name.length = MAX_TABLE_NAME ∧ t.columns.length = MAX_COLUMNS

instance (schema : Schema) : Decidable (schema_wf schema) := by
  unfold schema_wf; infer_instance

/-- The table name of 32 letters `a`. -/
def name_32 : List Nat := List.replicate 32 97

/-- The input `CREATE TABLE aaaaaaaaaaaaaaaaaaaaaaaaaaaaaaaa (id INT)`, the table name being
`name_32`. -/
def input_create_table_name_32 : List Nat :=
  [67, 82, 69, 65, 84, 69, 32, 84, 65, 66, 76, 69, 32] ++ name_32 ++
    [32, 40, 105, 100, 32, 73, 78, 84, 41]

/-- The column `id INT` as `parse_create_table` builds it. -/
def column_id_int : ColumnDef :=
  { ColumnDef.zero with name := [105, 100] ++ List.replicate 30 0, size := 4 }

/-- The statement `CREATE TABLE aaaaaaaaaaaaaaaaaaaaaaaaaaaaaaaa (id INT)`. -/
def stmt_create_table_name_32 : ParsedStatement :=
  { new_statement .STMT_CREATE_TABLE with
    table_name := name_32 ++ List.replicate 32 0
    columns := [column_id_int] }

/-- The table slot `schema_add_table` fills for that statement: the 32 bytes of the name
array hold the 32 letters and no NUL. -/
def table_schema_name_32 : TableSchema :=
  { name := name_32
    columns := (List.replicate MAX_COLUMNS ColumnDef.zero).set 0 column_id_int
    num_columns := 1
    primary_key_index := 0 }

/-- The schema catalog after that statement ran once on the empty catalog. -/
def schema_with_name_32 : Schema :=
  { tables := (List.replicate MAX_TABLES TableSchema.zero).set 0 table_schema_name_32
    num_tables := 1 }

/-- The schema catalog after that statement ran twice on the empty catalog. -/
def schema_with_name_32_twice : Schema :=
  { tables := ((List.replicate MAX_TABLES TableSchema.zero).set 0 table_schema_name_32).set 1
      table_schema_name_32
    num_tables := 2 }

/-- The columns `id INT PRIMARY KEY, name VARCHAR(32)` as `parse_create_table` builds
them. -/
def columns_id_name : List ColumnDef :=
  [{ ColumnDef.zero with name := [105, 100] ++ List.replicate 30 0, size := 4,
                         is_primary_key := true },
   { ColumnDef.zero with name := [110, 97, 109, 101] ++ List.replicate 28 0,
                         type := .TYPE_VARCHAR, size := 32 }]

/-- The characters the loop of `read_identifier` accepts: letters, digits, `_`, `@` and
`.`. -/
def identifier_char (c : Nat) : Bool :=
  isalnum c || c = 95 || c = 64 || c = 46

/-- The number a string of decimal digits denotes. -/
def digits_value (digits : List Nat) : Nat :=
  digits.foldl (fun acc c => acc * 10 + (c - 48)) 0

/-- The input `INSERT <id> <username> <email>`: the keyword, the digits of the id, the user
name and the e-mail address, separated by single blanks. -/
def insert_input (digits username email : List Nat) : List Nat :=
  [73, 78, 83, 69, 82, 84] ++ [32] ++ digits ++ [32] ++ username ++ [32] ++ email

/-- The input `INSERT 1 max m@x`, whose user name is the keyword `max`. -/
def input_insert_max : List Nat :=
  insert_input [49] [109, 97, 120] [109, 64, 120]

/-- The input `INSERT 1 alice a@x`. -/
def input_insert_alice : List Nat :=
  insert_input [49] [97, 108, 105, 99, 101] [97, 64, 120]

/-- The 13 rows of leaf `i` (counted from 0) of a table that holds the ids 1, 2, 3, ... in
leaves of 13 rows: the ids `13 * i + 1` to `13 * i + 13`. -/
def leaf_rows (i : Nat) : List Row :=
  (List.range 13).map (fun j => row_u (13 * i + j + 1))

/-- A table with the 1001 rows of the ids 1 to 1001 in 77 full leaves: page 0 is the
internal root with the pairs `(i, 13 * i)` for the leaves `i = 1 .. 76` and the right child
77, page `i` is the leaf with the ids `13 * (i - 1) + 1 .. 13 * i` and the next leaf
`i + 1` (0 for the last leaf).  All 78 pages are in memory. -/
def table_1001_rows : Table :=
  { pager := { file := [], file_length := 0, num_pages := 78,
               pages := [some (internal_page true 0
                   ((List.range 76).map (fun i => (i + 1, 13 * (i + 1)))) 77)] ++
                 (List.range 77).map (fun i =>
                   some (leaf_page false 0 (if i = 76 then 0 else i + 2) (leaf_rows i))) ++
                 List.replicate 22 none,
               fresh := List.replicate PAGE_SIZE 0 }
    root_page_num := 0
    wal := some example_wal_empty }

/-- The statement `SELECT * ORDER BY id`. -/
def stmt_select_order_by_id : ParsedStatement :=
  { new_statement .STMT_SELECT with
    has_order_by := true
    order_by_column := str_id ++ List.replicate 30 0
    order_ascending := true }

/-- The part of a frame that the checksum test of `wal_recover` reads: the page image and
the fields `salt1`, `salt2` and `checksum1` of the frame header. -/
def frame_test_input (f : WALFrame) : List Nat × Nat × Nat × Nat :=
  (f.page_data, f.header.salt1, f.header.salt2, f.header.checksum1)

/-- The bytes of the frame `wal_write_frame` appends to `example_wal_empty` for the page
`page_num` with the image of 4096 bytes `byte` and the database size `db_size`. -/
def example_frame_bytes (page_num byte db_size : Nat) : List Nat :=
  (wal_write_frame example_wal_empty page_num (List.replicate PAGE_SIZE byte) db_size).2.file.drop
    WAL_HEADER_SIZE

/-- The primary keys of the entries of an index whose stored key equals `key`, in index
order. -/
def index_matches (index : SecondaryIndex) (key : List Nat) : List Nat :=
  (index.entries.filter (fun e => decide (strcmp e.key key = 0))).map (fun e => e.primary_key)

/-- The index after the calls `secondary_index_insert(index, key, primary_key)` for the
pairs `(key, primary_key)` of `inserts`, first to last. -/
def insert_all (index : SecondaryIndex) (inserts : List (List Nat × Nat)) : SecondaryIndex :=
  inserts.foldl (fun ix kp => secondary_index_insert ix kp.1 kp.2) index

/-- The primary keys of the pairs of `inserts` whose key is the string `key`, in the order
of the list. -/
def inserted_under (inserts : List (List Nat × Nat)) (key : List Nat) : List Nat :=
  (inserts.filter (fun kp => decide (cstr kp.1 = cstr key))).map (fun kp => kp.2)

instance (index : SecondaryIndex) : Decidable (index_keys_short index) := by
  unfold index_keys_short; infer_instance

/-- A table manager as the C type holds it between calls: 8 table pointers and 8 name
arrays of 64 bytes whose last byte is NUL (`table_manager_create` zeroes the arrays and
`table_manager_open` writes at most 63 bytes of a name), a table count within the slots,
and a table in every slot below the count. -/
def table_manager_wf (manager : TableManager) : Prop :=
  manager.tables.length = MAX_OPEN_TABLES ∧ manager.table_names.length = MAX_OPEN_TABLES ∧
    manager.num_tables ≤ MAX_OPEN_TABLES ∧
    (∀ name ∈ manager.table_names, name.length = 64 ∧ name.getD 63 0 = 0) ∧
    (∀ i, i < manager.num_tables → (manager.tables.getD i none).isSome = true)

instance (manager : TableManager) : Decidable (table_manager_wf manager) := by
  unfold table_manager_wf; infer_instance

/-- The name `orders`. -/
def str_orders : List Nat := [111, 114, 100, 101, 114, 115]

/-- A table manager that holds `MAX_OPEN_TABLES` = 8 open tables with the names `a` to
`h`. -/
def manager_full : TableManager :=
  { tables := List.replicate MAX_OPEN_TABLES (some table_with_alice)
    table_names := (List.range MAX_OPEN_TABLES).map (fun i => [97 + i] ++ List.replicate 63 0)
    num_tables := 8
    base_path := [100, 98] ++ List.replicate 254 0 }

/-- The lexer after `k` calls of `lexer_next_token`. -/
def lexer_after : Nat → Lexer → Lexer
  | 0, lexer => lexer
  | k + 1, lexer => lexer_after k (lexer_next_token lexer).2

/-- The input `SELECT * ORDER BY id`. -/
def input_select_order_by_id : List Nat :=
  [83, 69, 76, 69, 67, 84, 32, 42, 32, 79, 82, 68, 69, 82, 32, 66, 89, 32, 105, 100]

/-- The frame that the call `wal_write_frame(wal, page_num, page_data, db_size)` appends to
the WAL file, for `w = (page_num, page_data, db_size)`. -/
def written_frame (wal : WAL) (w : Nat × Page × Nat) : WALFrame :=
  { header := make_frame_header wal w.1 w.2.1 w.2.2, page_data := w.2.1.take PAGE_SIZE }

/-- The WAL after the calls `wal_write_frame(wal, page_num, page_data, db_size)` for the
triples `(page_num, page_data, db_size)` of `writes`, in this order. -/
def write_frames (wal : WAL) (writes : List (Nat × Page × Nat)) : WAL :=
  writes.foldl (fun wal w => (wal_write_frame wal w.1 w.2.1 w.2.2).2) wal

/-- The bytes of a frame in the WAL file: the header, then the page image. -/
def frame_bytes (f : WALFrame) : List Nat :=
  frame_header_bytes f.header ++ f.page_data

/-- Three writes: page 3 gets the image of 4096 bytes 1, page 5 the image of 4096 bytes 2,
then page 3 the image of 4096 bytes 7. -/
def example_writes : List (Nat × Page × Nat) :=
  [(3, List.replicate PAGE_SIZE 1, 6), (5, List.replicate PAGE_SIZE 2, 6),
   (3, List.replicate PAGE_SIZE 7, 6)]

/-- The bytes of `EXPLAIN ` (with the blank). -/
def explain_bytes : List Nat := [69, 88, 80, 76, 65, 73, 78, 32]

/-- A lexer at the same place of the same text, when the bytes `pre` stand in front of the
text: the position and the length are larger by the length of `pre`. -/
def Lexer.shift (pre : List Nat) (lexer : Lexer) : Lexer :=
  { input := pre ++ lexer.input, position := lexer.position + pre.length,
    length := lexer.length + pre.length }

/-- A parser with the same current token whose lexer is shifted by `pre`. -/
def Parser.shift (pre : List Nat) (parser : Parser) : Parser :=
  { lexer := parser.lexer.shift pre, current_token := parser.current_token }

/-- The statement `stmt` with `is_explain` set. -/
def explained (stmt : ParsedStatement) : ParsedStatement :=
  { stmt with is_explain := true }

/-- The input `EXPLAIN SELECT *`. -/
def input_explain_select : List Nat :=
  explain_bytes ++ [83, 69, 76, 69, 67, 84, 32, 42]

/-- The input `CREATE TABLE t (id INT)`. -/
def input_create_table_t : List Nat :=
  [67, 82, 69, 65, 84, 69, 32, 84, 65, 66, 76, 69, 32, 116, 32, 40, 105, 100, 32, 73, 78, 84, 41]

/-- The statement `parse_statement` returns for `EXPLAIN SELECT *`. -/
def stmt_explain_select : ParsedStatement :=
  { new_statement .STMT_SELECT with order_ascending := true, is_explain := true }

/-- The probe of the secondary-index path of `execute_select` for one primary key:
`table_find`, and, when the cursor is not at the end of the table, the row that
`cursor_value` points to; `none` when the cursor is at the end. -/
def probe_row (table : Table) (primary_key : Nat) : Except Fault (Option Row × Table) :=
  match table_find table primary_key with
  | .error f => .error f
  | .ok (cursor, table1) =>
    if !cursor.end_of_table then
      match cursor_value table1 cursor with
      | .error f => .error f
      | .ok ((page, off), table2) => .ok (some (deserialize_row (page.drop off)), table2)
    else .ok (none, table1)

/-- The statement `SELECT * WHERE username = u`. -/
def stmt_select_u : ParsedStatement :=
  { new_statement .STMT_SELECT with
    where_clause := some { column := str_username, operator := [61], value := [117] }
    order_ascending := true }

/-- The index manager after `CREATE INDEX ON users(username)` on the empty table and the
inserts of the rows 2, 1 and 8, in this order, all with the user name `u`: the index holds
the three ids under the key `u` in the order of the inserts. -/
def manager_index_2_1_8 : IndexManager :=
  { indexes := [(([2, 1, 8].foldl (fun index id => secondary_index_insert index [117] id)
      (new_index str_users str_username)))] }

/-- The page `execute_update` stores back: the bytes of `page` with the row at offset `off`
read, changed by the assignment and written again. -/
def updated_page (page : Page) (off : Nat) (assignment : Assignment) : Page :=
  page.take off ++
    serialize_row (apply_assignment (deserialize_row (page.drop off)) assignment) (page.drop off)

/-- The bytes of the user name of the row at offset `off` of a page. -/
def username_bytes (page : Page) (off : Nat) : List Nat :=
  (page.drop (off + 4)).take 32

/-- The bytes of the e-mail address of the row at offset `off` of a page. -/
def email_bytes (page : Page) (off : Nat) : List Nat :=
  (page.drop (off + 36)).take 255

/-- The statement `UPDATE SET id = 7 WHERE id = 1`. -/
def stmt_update_id : ParsedStatement :=
  { type := .STMT_UPDATE, row_to_insert := ⟨0, List.replicate 32 0, List.replicate 255 0⟩,
    assignments := [{ column := str_id, value := [55] }],
    where_clause := some { column := str_id, operator := [61], value := [49] },
    is_explain := false }

/-! # Part II: theorems -/

/-! ## Theorems: row codec -/

theorem read_u32_u32_bytes (x : Nat) (h : x < 4294967296) (rest : List Nat) :
    read_u32 (u32_bytes x ++ rest) 0 = x := by
  simp [read_u32, u32_bytes]
  omega

theorem memcpy_append (a b c src : List Nat) (n : Nat) (hb : b.length = n)
    (hs : src.length = n) : memcpy (a ++ b ++ c) a.length src n = a ++ src ++ c := by
  subst hb
  simp [memcpy, hs]

theorem split_at_291 (dst : List Nat) (hd : 291 ≤ dst.length) :
    ∃ d0 d1 d2 rest, dst = d0 ++ d1 ++ d2 ++ rest ∧ d0.length = 4 ∧ d1.length = 32 ∧
      d2.length = 255 ∧ rest = dst.drop 291 := by
  refine ⟨dst.take 4, (dst.drop 4).take 32, (dst.drop 36).take 255, dst.drop 291, ?_, ?_, ?_, ?_,
    rfl⟩
  · have h1 : dst.drop 36 = (dst.drop 36).take 255 ++ dst.drop 291 := by
      rw [show dst.drop 291 = (dst.drop 36).drop 255 by simp [List.drop_drop]]
      exact (List.take_append_drop 255 _).symm
    have h2 : dst.drop 4 = (dst.drop 4).take 32 ++ dst.drop 36 := by
      rw [show dst.drop 36 = (dst.drop 4).drop 32 by simp [List.drop_drop]]
      exact (List.take_append_drop 32 _).symm
    calc dst = dst.take 4 ++ dst.drop 4 := (List.take_append_drop 4 dst).symm
      _ = dst.take 4 ++ ((dst.drop 4).take 32 ++ dst.drop 36) := by rw [← h2]
      _ = dst.take 4 ++ ((dst.drop 4).take 32 ++ ((dst.drop 36).take 255 ++ dst.drop 291)) := by
          rw [← h1]
      _ = _ := by simp [List.append_assoc]
  · simp; omega
  · simp; omega
  · simp; omega

theorem serialize_row_eq (row : Row) (dst : List Nat) (hu : row.username.length = 32)
    (he : row.email.length = 255) (hd : 291 ≤ dst.length) :
    serialize_row row dst = u32_bytes row.id ++ row.username ++ row.email ++ dst.drop 291 := by
  obtain ⟨d0, d1, d2, rest, hdst, h0, h1, h2, hrest⟩ := split_at_291 dst hd
  rw [← hrest, hdst]
  have h4 : (u32_bytes row.id).length = 4 := rfl
  have e1 : List.take 4 (u32_bytes row.id) = u32_bytes row.id := List.take_of_length_le (by omega)
  have s1 : memcpy (d0 ++ d1 ++ d2 ++ rest) 0 (u32_bytes row.id) 4
      = u32_bytes row.id ++ d1 ++ d2 ++ rest := by
    have := memcpy_append [] d0 (d1 ++ d2 ++ rest) (u32_bytes row.id) 4 h0 h4
    simpa [List.append_assoc] using this
  have s2 : memcpy (u32_bytes row.id ++ d1 ++ d2 ++ rest) 4 row.username 32
      = u32_bytes row.id ++ row.username ++ d2 ++ rest := by
    have := memcpy_append (u32_bytes row.id) d1 (d2 ++ rest) row.username 32 h1 hu
    rw [h4] at this
    simpa [List.append_assoc] using this
  have s3 : memcpy (u32_bytes row.id ++ row.username ++ d2 ++ rest) 36 row.email 255
      = u32_bytes row.id ++ row.username ++ row.email ++ rest := by
    have := memcpy_append (u32_bytes row.id ++ row.username) d2 rest row.email 255 h2 he
    rw [List.length_append, h4, hu] at this
    simpa [List.append_assoc] using this
  simp only [serialize_row, ID_SIZE, USERNAME_SIZE, EMAIL_SIZE, COLUMN_USERNAME_SIZE,
    COLUMN_EMAIL_SIZE]
  rw [s1, s2, s3]

theorem deserialize_row_append (row : Row) (rest : List Nat) (hw : row.wf) :
    deserialize_row (u32_bytes row.id ++ row.username ++ row.email ++ rest) = row := by
  obtain ⟨hid, hu, he⟩ := hw
  simp only [COLUMN_USERNAME_SIZE, COLUMN_EMAIL_SIZE] at hu he
  have h4 : (u32_bytes row.id).length = 4 := rfl
  cases row with
  | mk id username email =>
    simp only at hid hu he h4
    simp only [deserialize_row, ID_SIZE, USERNAME_SIZE, EMAIL_SIZE, COLUMN_USERNAME_SIZE,
      COLUMN_EMAIL_SIZE, Row.mk.injEq]
    refine ⟨?_, ?_, ?_⟩
    · have := read_u32_u32_bytes id hid (username ++ email ++ rest)
      simpa [List.append_assoc] using this
    · have : u32_bytes id ++ username ++ email ++ rest
          = u32_bytes id ++ (username ++ (email ++ rest)) := by simp [List.append_assoc]
      rw [this, List.drop_append_of_le_length (by omega), List.drop_of_length_le (by omega),
        List.nil_append, List.take_append_of_le_length (by omega),
        List.take_of_length_le (by omega)]
    · have : u32_bytes id ++ username ++ email ++ rest
          = (u32_bytes id ++ username) ++ (email ++ rest) := by simp [List.append_assoc]
      have hl : (u32_bytes id ++ username).length = 36 := by simp [h4, hu]
      rw [this, List.drop_append_of_le_length (by omega), List.drop_of_length_le (by omega),
        List.nil_append, List.take_append_of_le_length (by omega),
        List.take_of_length_le (by omega)]

/-- C1. Round trip of the row codec: for every row the C type can hold (a 32-bit id, 32
username bytes, 255 email bytes) and every destination buffer of at least `ROW_SIZE` bytes,
`deserialize_row` applied to what `serialize_row` wrote gives back the row, in all three
fields; the same holds when only the 291 bytes written are handed to `deserialize_row`. -/
theorem serialize_deserialize_roundtrip (row : Row) (dst : List Nat) (hw : row.wf)
    (hd : ROW_SIZE ≤ dst.length) :
    deserialize_row (serialize_row row dst) = row ∧
      deserialize_row ((serialize_row row dst).take ROW_SIZE) = row := by
  have hu : row.username.length = 32 := hw.2.1
  have he : row.email.length = 255 := hw.2.2
  have hd2 : 291 ≤ dst.length := hd
  rw [serialize_row_eq row dst hu he hd2]
  refine ⟨deserialize_row_append row _ hw, ?_⟩
  have hl : (u32_bytes row.id ++ row.username ++ row.email).length = ROW_SIZE := by
    simp [u32_bytes, hu, he, ROW_SIZE, ID_SIZE, USERNAME_SIZE, EMAIL_SIZE, COLUMN_USERNAME_SIZE,
      COLUMN_EMAIL_SIZE]
  rw [List.take_append_of_le_length (by omega), List.take_of_length_le (by omega)]
  simpa using deserialize_row_append row [] hw

/-- A concrete row and buffer for C1: id 7, a 32-byte username and a 255-byte email written
into a zeroed cell of 291 bytes. -/
theorem serialize_deserialize_roundtrip_witness :
    deserialize_row (serialize_row ⟨7, List.replicate 32 97, List.replicate 255 98⟩
        (List.replicate 291 0)) = ⟨7, List.replicate 32 97, List.replicate 255 98⟩ ∧
      deserialize_row ((serialize_row ⟨7, List.replicate 32 97, List.replicate 255 98⟩
        (List.replicate 291 0)).take ROW_SIZE) = ⟨7, List.replicate 32 97, List.replicate 255 98⟩ :=
  serialize_deserialize_roundtrip ⟨7, List.replicate 32 97, List.replicate 255 98⟩
    (List.replicate 291 0) (by decide) (by decide)

/-! ## Theorems: string comparison -/

theorem strcmp_aux_self (a : List Nat) : strcmp_aux a a = 0 := by
  induction a with
  | nil => rfl
  | cons x xs ih => simp [strcmp_aux, ih]

theorem strcmp_aux_eq_zero {a b : List Nat} (h : strcmp_aux a b = 0) : a = b := by
  induction a generalizing b with
  | nil => cases b with
    | nil => rfl
    | cons y ys => simp [strcmp_aux] at h
  | cons x xs ih => cases b with
    | nil => simp [strcmp_aux] at h
    | cons y ys =>
      simp only [strcmp_aux] at h
      split_ifs at h with h1 h2
      all_goals first
        | (have hxy : x = y := by omega
           rw [hxy, ih h])
        | omega

theorem strcmp_aux_eq_zero_iff (a b : List Nat) : strcmp_aux a b = 0 ↔ a = b :=
  ⟨strcmp_aux_eq_zero, fun h => h ▸ strcmp_aux_self a⟩

theorem strcmp_aux_neg_iff (a b : List Nat) : strcmp_aux a b < 0 ↔ 0 < strcmp_aux b a := by
  induction a generalizing b with
  | nil => cases b <;> simp [strcmp_aux]
  | cons x xs ih => cases b with
    | nil => simp [strcmp_aux]
    | cons y ys =>
      simp only [strcmp_aux]
      split_ifs <;> first | omega | simp | exact ih ys

theorem strcmp_aux_pos_iff (a b : List Nat) : 0 < strcmp_aux a b ↔ strcmp_aux b a < 0 :=
  (strcmp_aux_neg_iff b a).symm

theorem strcmp_aux_le_trans {a b c : List Nat} (h1 : strcmp_aux a b ≤ 0)
    (h2 : strcmp_aux b c ≤ 0) : strcmp_aux a c ≤ 0 := by
  induction a generalizing b c with
  | nil => cases c <;> simp [strcmp_aux]
  | cons x xs ih => cases b with
    | nil => simp [strcmp_aux] at h1
    | cons y ys => cases c with
      | nil => simp [strcmp_aux] at h2
      | cons z zs =>
        simp only [strcmp_aux] at h1 h2 ⊢
        split_ifs at h1 h2 ⊢ <;> first | omega | simp | exact ih h1 h2

theorem strcmp_aux_lt_of_lt_of_le {a b c : List Nat} (h1 : strcmp_aux a b < 0)
    (h2 : strcmp_aux b c ≤ 0) : strcmp_aux a c < 0 := by
  have h := strcmp_aux_le_trans (le_of_lt h1) h2
  rcases lt_or_eq_of_le h with h | h
  · exact h
  · have := strcmp_aux_eq_zero h
    subst this
    have := (strcmp_aux_neg_iff a b).1 h1
    omega

theorem strcmp_aux_lt_of_le_of_lt {a b c : List Nat} (h1 : strcmp_aux a b ≤ 0)
    (h2 : strcmp_aux b c < 0) : strcmp_aux a c < 0 := by
  have h := strcmp_aux_le_trans h1 (le_of_lt h2)
  rcases lt_or_eq_of_le h with h | h
  · exact h
  · have := strcmp_aux_eq_zero h
    subst this
    have := (strcmp_aux_neg_iff b a).1 h2
    omega

theorem strcmp_aux_take_le (n : Nat) (k : List Nat) : strcmp_aux (k.take n) k ≤ 0 := by
  induction k generalizing n with
  | nil => simp [strcmp_aux]
  | cons x xs ih => cases n with
    | zero => simp [strcmp_aux]
    | succ n => simp [strcmp_aux, ih]

theorem strcmp_aux_le_take {s k : List Nat} (n : Nat) (h : strcmp_aux s k ≤ 0)
    (hl : s.length ≤ n) : strcmp_aux s (k.take n) ≤ 0 := by
  induction s generalizing k n with
  | nil => cases h' : k.take n <;> simp [strcmp_aux]
  | cons x xs ih => cases k with
    | nil => simp [strcmp_aux] at h
    | cons y ys => cases n with
      | zero => simp at hl
      | succ n =>
        simp only [strcmp_aux, List.take_succ_cons] at h ⊢
        split_ifs at h ⊢ <;> first | omega | simp | exact ih n h (by simpa using hl)

theorem strcmp_eq_zero_iff (a b : List Nat) : strcmp a b = 0 ↔ cstr a = cstr b :=
  strcmp_aux_eq_zero_iff _ _

theorem strcmp_comm_zero (a b : List Nat) : strcmp a b = 0 ↔ strcmp b a = 0 := by
  rw [strcmp_eq_zero_iff, strcmp_eq_zero_iff]; exact eq_comm

theorem cstr_all_ne_zero (buf : List Nat) : ∀ b ∈ cstr buf, b ≠ 0 := by
  intro b hb
  have := List.mem_takeWhile_imp hb
  simpa using this

theorem cstr_append_of_stop (l rest : List Nat) (hl : ∀ b ∈ l, b ≠ 0)
    (hr : rest = [] ∨ rest.head? = some 0) : cstr (l ++ rest) = l := by
  induction l with
  | nil =>
    rcases hr with hr | hr
    · simp [hr, cstr]
    · cases rest with
      | nil => simp [cstr]
      | cons r rs =>
        simp at hr
        simp [cstr, hr]
  | cons x xs ih =>
    have hx : x ≠ 0 := hl x (by simp)
    have := ih (fun b hb => hl b (by simp [hb]))
    simp only [cstr] at this ⊢
    simp [List.takeWhile_cons, hx, this]

theorem cstr_idem (buf : List Nat) : cstr (cstr buf) = cstr buf := by
  have := cstr_append_of_stop (cstr buf) [] (cstr_all_ne_zero buf) (Or.inl rfl)
  simpa using this

/-! ## Theorems: secondary index, insertion and deletion -/

theorem insert_pos_loop_shift (key : List Nat) (es : List IndexEntry) (i : Nat) :
    insert_pos_loop key es i = i + insert_pos_loop key es 0 := by
  induction es generalizing i with
  | nil => simp [insert_pos_loop]
  | cons e es ih =>
    simp only [insert_pos_loop]
    split_ifs
    · simp
    · rw [ih (i + 1), ih (0 + 1)]; omega

theorem insert_pos_loop_le (key : List Nat) (es : List IndexEntry) :
    insert_pos_loop key es 0 ≤ es.length := by
  induction es with
  | nil => simp [insert_pos_loop]
  | cons e es ih =>
    simp only [insert_pos_loop]
    split_ifs
    · simp
    · rw [insert_pos_loop_shift]; simp; omega

theorem insert_pos_loop_before (key : List Nat) (es : List IndexEntry) :
    ∀ e ∈ es.take (insert_pos_loop key es 0), ¬ strcmp key e.key < 0 := by
  induction es with
  | nil => simp
  | cons e es ih =>
    simp only [insert_pos_loop]
    split_ifs with h
    · simp
    · rw [insert_pos_loop_shift]
      intro a ha
      rw [show 0 + 1 + insert_pos_loop key es 0 = insert_pos_loop key es 0 + 1 by omega,
        List.take_succ_cons] at ha
      rcases List.mem_cons.1 ha with ha | ha
      · rw [ha]; exact h
      · exact ih a ha

theorem insert_pos_loop_at (key : List Nat) (es : List IndexEntry) :
    ∀ e, (es.drop (insert_pos_loop key es 0)).head? = some e → strcmp key e.key < 0 := by
  induction es with
  | nil => simp [insert_pos_loop]
  | cons e es ih =>
    simp only [insert_pos_loop]
    split_ifs with h
    · intro a ha
      simp at ha
      rw [← ha]; exact h
    · rw [insert_pos_loop_shift]
      intro a ha
      rw [show 0 + 1 + insert_pos_loop key es 0 = insert_pos_loop key es 0 + 1 by omega,
        List.drop_succ_cons] at ha
      exact ih a ha

theorem shift_right_loop_spec (entries : List IndexEntry) (pos : Nat) :
    ∀ (i : Nat) (junk : IndexEntry), pos ≤ i → i ≤ entries.length →
      ∃ junk2, shift_right_loop pos i (entries.take i ++ junk :: entries.drop i)
        = entries.take pos ++ junk2 :: entries.drop pos := by
  intro i
  induction i with
  | zero =>
    intro junk hp _
    have : pos = 0 := by omega
    subst this
    exact ⟨junk, by simp [shift_right_loop]⟩
  | succ i ih =>
    intro junk hp hi
    simp only [shift_right_loop]
    split_ifs with h
    · have hlt : i < entries.length := by omega
      have hget : (entries.take (i + 1) ++ junk :: entries.drop (i + 1)).getD i default
          = entries[i] := by
        rw [List.getD_eq_getElem?_getD, List.getElem?_append_left (by simp; omega),
          List.getElem?_take_of_lt (by omega), List.getElem?_eq_getElem hlt]
        rfl
      have hset : (entries.take (i + 1) ++ junk :: entries.drop (i + 1)).set (i + 1) entries[i]
          = entries.take i ++ entries[i] :: entries.drop i := by
        have hlen : (entries.take (i + 1)).length = i + 1 := by simp; omega
        rw [List.set_append_right _ _ (by omega), hlen]
        simp only [Nat.sub_self, List.set_cons_zero]
        rw [List.take_succ, List.getElem?_eq_getElem hlt]
        simp only [Option.toList_some, List.append_assoc, List.singleton_append]
        rw [List.drop_eq_getElem_cons hlt]
      rw [hget, hset]
      exact ih entries[i] (by omega) (by omega)
    · have : pos = i + 1 := by omega
      subst this
      exact ⟨junk, rfl⟩

/-- The key bytes an entry holds after `secondary_index_insert` wrote `key` into it. -/
theorem stored_key_cstr (old key : List Nat) :
    cstr ((strncpy old key (INDEX_KEY_SIZE - 1)).set (INDEX_KEY_SIZE - 1) 0)
      = (cstr key).take 63 := by
  simp only [strncpy, memcpy, INDEX_KEY_SIZE, strncpy_bytes, show (64 : Nat) - 1 = 63 from rfl]
  have hlen : ((cstr key).take 63 ++ List.replicate (63 - ((cstr key).take 63).length) 0).length
      = 63 := by
    simp
  simp only [List.take_zero, List.nil_append, Nat.zero_add]
  rw [List.take_of_length_le (by omega), List.set_append_right _ _ (by omega), hlen]
  simp only [Nat.sub_self, List.append_assoc]
  apply cstr_append_of_stop
  · intro b hb
    exact cstr_all_ne_zero key b (List.mem_of_mem_take hb)
  · by_cases hp : 63 - ((cstr key).take 63).length = 0
    · rw [hp]
      cases hd : List.drop 63 old with
      | nil => simp
      | cons r rs => simp
    · right
      obtain ⟨m, hm⟩ := Nat.exists_eq_succ_of_ne_zero hp
      rw [hm]
      simp [List.replicate_succ]

theorem secondary_index_insert_entries (index : SecondaryIndex) (key : List Nat) (pk : Nat) :
    ∃ e : IndexEntry, cstr e.key = (cstr key).take 63 ∧ e.primary_key = pk ∧
      (secondary_index_insert index key pk).entries
        = index.entries.take (insert_pos_loop key index.entries 0) ++
            e :: index.entries.drop (insert_pos_loop key index.entries 0) := by
  have hle := insert_pos_loop_le key index.entries
  obtain ⟨junk2, hj⟩ := shift_right_loop_spec index.entries (insert_pos_loop key index.entries 0)
    index.entries.length default hle (le_refl _)
  simp only [List.take_length, List.drop_length] at hj
  simp only [secondary_index_insert, SecondaryIndex.num_entries]
  rw [hj]
  have hlen : (index.entries.take (insert_pos_loop key index.entries 0)).length
      = insert_pos_loop key index.entries 0 := by simp; omega
  refine ⟨⟨(strncpy ((index.entries.take (insert_pos_loop key index.entries 0) ++
      junk2 :: index.entries.drop (insert_pos_loop key index.entries 0)).getD
        (insert_pos_loop key index.entries 0) default).key key (INDEX_KEY_SIZE - 1)).set
          (INDEX_KEY_SIZE - 1) 0, pk⟩, stored_key_cstr _ key, rfl, ?_⟩
  rw [List.set_append_right _ _ (by omega), hlen]
  simp

theorem shift_left_loop_length (fuel j : Nat) (arr : List IndexEntry) :
    (shift_left_loop fuel j arr).length = arr.length := by
  induction fuel generalizing j arr with
  | zero => rfl
  | succ fuel ih =>
    simp only [shift_left_loop]
    split_ifs
    · rw [ih]; simp
    · rfl

theorem shift_left_loop_spec (fuel j : Nat) (arr : List IndexEntry) (hj : j < arr.length)
    (hf : arr.length - 1 ≤ j + fuel) :
    (shift_left_loop fuel j arr).take (arr.length - 1) = arr.eraseIdx j := by
  induction fuel generalizing j arr with
  | zero =>
    have : j = arr.length - 1 := by omega
    simp only [shift_left_loop]
    rw [List.eraseIdx_eq_take_drop_succ, this]
    rw [show arr.length - 1 + 1 = arr.length by omega]
    simp
  | succ fuel ih =>
    simp only [shift_left_loop]
    split_ifs with h
    · have h1 : j + 1 < arr.length := by omega
      have := ih (j + 1) (arr.set j (arr.getD (j + 1) default)) (by simpa using h1)
        (by simp; omega)
      simp only [List.length_set] at this
      rw [this]
      rw [List.eraseIdx_eq_take_drop_succ, List.eraseIdx_eq_take_drop_succ]
      rw [List.drop_set_of_lt _ _ (by omega)]
      have ha : arr.getD (j + 1) default = arr[j + 1] := by
        rw [List.getD_eq_getElem?_getD, List.getElem?_eq_getElem h1]; rfl
      have hl : (arr.take j).length = j := by simp; omega
      have ht : List.take (j + 1) (arr.set j (arr.getD (j + 1) default))
          = arr.take j ++ [arr[j + 1]] := by
        rw [List.set_eq_take_append_cons_drop, if_pos hj, ha,
          List.take_append_eq_append_take, hl]
        simp [List.take_of_length_le, hl]
      rw [ht, List.drop_eq_getElem_cons h1 (l := arr)]
      simp
    · have : j = arr.length - 1 := by omega
      rw [List.eraseIdx_eq_take_drop_succ, this]
      rw [show arr.length - 1 + 1 = arr.length by omega]
      simp

theorem delete_pos_loop_spec (key : List Nat) (pk : Nat) (es : List IndexEntry) (i k : Nat)
    (h : delete_pos_loop key pk es i = some k) :
    i ≤ k ∧ k - i < es.length ∧
      (∀ e, es[k - i]? = some e → strcmp e.key key = 0 ∧ e.primary_key = pk) ∧
      (∀ m, m < k - i → ∀ e, es[m]? = some e → ¬ (strcmp e.key key = 0 ∧ e.primary_key = pk)) := by
  induction es generalizing i with
  | nil => simp [delete_pos_loop] at h
  | cons e es ih =>
    simp only [delete_pos_loop] at h
    split_ifs at h with hm
    · simp only [Option.some.injEq] at h
      subst h
      simp [hm]
    · obtain ⟨h1, h2, h3, h4⟩ := ih (i + 1) h
      have hk : k - i = (k - (i + 1)) + 1 := by omega
      refine ⟨by omega, by simp; omega, ?_, ?_⟩
      · intro e2 he2
        rw [hk, List.getElem?_cons_succ] at he2
        exact h3 e2 he2
      · intro m hmlt e2 he2
        cases m with
        | zero =>
          simp at he2
          rw [← he2]; exact hm
        | succ m =>
          rw [List.getElem?_cons_succ] at he2
          exact h4 m (by omega) e2 he2

theorem delete_pos_loop_none (key : List Nat) (pk : Nat) (es : List IndexEntry) (i : Nat)
    (h : delete_pos_loop key pk es i = none) :
    ∀ e ∈ es, ¬ (strcmp e.key key = 0 ∧ e.primary_key = pk) := by
  induction es generalizing i with
  | nil => simp
  | cons e es ih =>
    simp only [delete_pos_loop] at h
    split_ifs at h with hm
    intro a ha
    rcases List.mem_cons.1 ha with ha | ha
    · rw [ha]; exact hm
    · exact ih (i + 1) h a ha

theorem secondary_index_delete_entries (index : SecondaryIndex) (key : List Nat) (pk : Nat) :
    (secondary_index_delete index key pk).entries =
      match delete_pos_loop key pk index.entries 0 with
      | none => index.entries
      | some i => index.entries.eraseIdx i := by
  unfold secondary_index_delete
  cases h : delete_pos_loop key pk index.entries 0 with
  | none => rfl
  | some i =>
    obtain ⟨_, h2, _, _⟩ := delete_pos_loop_spec key pk index.entries 0 i h
    simp only [SecondaryIndex.num_entries]
    exact shift_left_loop_spec _ i index.entries (by simpa using h2) (by omega)

theorem secondary_index_insert_sorted (index : SecondaryIndex) (key : List Nat) (pk : Nat)
    (hs : index_sorted index) (hk : index_keys_short index) :
    index_sorted (secondary_index_insert index key pk) ∧
      index_keys_short (secondary_index_insert index key pk) := by
  obtain ⟨e, hekey, _, hent⟩ := secondary_index_insert_entries index key pk
  unfold index_sorted index_keys_short at *
  rw [hent]
  set p := insert_pos_loop key index.entries 0 with hp
  have hbefore := insert_pos_loop_before key index.entries
  have hat := insert_pos_loop_at key index.entries
  rw [← hp] at hbefore hat
  have hsplit : index.entries = index.entries.take p ++ index.entries.drop p :=
    (List.take_append_drop p _).symm
  rw [hsplit] at hs
  obtain ⟨hs1, hs2, hs3⟩ := List.pairwise_append.1 hs
  have hle_e : ∀ a ∈ index.entries.take p, strcmp a.key e.key ≤ 0 := by
    intro a ha
    have h1 : ¬ strcmp key a.key < 0 := hbefore a ha
    have h2 : strcmp_aux (cstr a.key) (cstr key) ≤ 0 := by
      by_contra hc
      have := (strcmp_aux_pos_iff (cstr a.key) (cstr key)).1 (by omega)
      exact h1 this
    have h3 := strcmp_aux_le_take 63 h2 (hk a (List.mem_of_mem_take ha))
    unfold strcmp
    rw [hekey]; exact h3
  have he_lt : ∀ b ∈ index.entries.drop p, strcmp e.key b.key ≤ 0 := by
    intro b hb
    cases hd : index.entries.drop p with
    | nil => rw [hd] at hb; simp at hb
    | cons d ds =>
      have hkd : strcmp key d.key < 0 := hat d (by rw [hd]; rfl)
      have h1 : strcmp_aux (cstr e.key) (cstr key) ≤ 0 := by
        rw [hekey]; exact strcmp_aux_take_le 63 _
      have h2 : strcmp_aux (cstr e.key) (cstr d.key) < 0 := strcmp_aux_lt_of_le_of_lt h1 hkd
      rw [hd] at hb hs2
      rcases List.mem_cons.1 hb with hb | hb
      · rw [hb]; exact le_of_lt h2
      · have h3 : strcmp d.key b.key ≤ 0 := (List.pairwise_cons.1 hs2).1 b hb
        exact le_of_lt (strcmp_aux_lt_of_lt_of_le h2 h3)
  constructor
  · rw [List.pairwise_append]
    refine ⟨hs1, ?_, ?_⟩
    · rw [List.pairwise_cons]
      exact ⟨he_lt, hs2⟩
    · intro a ha b hb
      rcases List.mem_cons.1 hb with hb | hb
      · rw [hb]; exact hle_e a ha
      · exact hs3 a ha b hb
  · intro a ha
    rcases List.mem_append.1 ha with ha | ha
    · exact hk a (List.mem_of_mem_take ha)
    · rcases List.mem_cons.1 ha with ha | ha
      · rw [ha, hekey]; simp
      · exact hk a (List.mem_of_mem_drop ha)

theorem secondary_index_delete_sorted (index : SecondaryIndex) (key : List Nat) (pk : Nat)
    (hs : index_sorted index) (hk : index_keys_short index) :
    index_sorted (secondary_index_delete index key pk) ∧
      index_keys_short (secondary_index_delete index key pk) := by
  unfold index_sorted index_keys_short at *
  rw [secondary_index_delete_entries]
  cases delete_pos_loop key pk index.entries 0 with
  | none => exact ⟨hs, hk⟩
  | some i =>
    exact ⟨hs.sublist (List.eraseIdx_sublist _ _),
      fun e he => hk e ((List.eraseIdx_sublist _ _).subset he)⟩

theorem apply_index_ops_sorted (ops : List IndexOp) (index : SecondaryIndex)
    (hs : index_sorted index) (hk : index_keys_short index) :
    index_sorted (apply_index_ops index ops) ∧ index_keys_short (apply_index_ops index ops) := by
  induction ops generalizing index with
  | nil => exact ⟨hs, hk⟩
  | cons op ops ih =>
    simp only [apply_index_ops, List.foldl_cons]
    cases op with
    | insert key pk =>
      obtain ⟨h1, h2⟩ := secondary_index_insert_sorted index key pk hs hk
      exact ih _ h1 h2
    | delete key pk =>
      obtain ⟨h1, h2⟩ := secondary_index_delete_sorted index key pk hs hk
      exact ih _ h1 h2

/-- C9. Every index reached from a freshly created one by any sequence of
`secondary_index_insert` and `secondary_index_delete` calls, with key strings of any length,
has its entries in non-decreasing order of stored key (bytes compared as `strcmp` does), and
entries with equal keys are adjacent: an entry that lies between two entries with the same
key has that key too. -/
theorem index_sorted_after_any_ops (table_name column_name : List Nat) (ops : List IndexOp) :
    index_sorted (apply_index_ops (new_index table_name column_name) ops) ∧
      ∀ i j k : Nat, i < j → j < k →
        ∀ a b c : IndexEntry,
          (apply_index_ops (new_index table_name column_name) ops).entries[i]? = some a →
          (apply_index_ops (new_index table_name column_name) ops).entries[j]? = some b →
          (apply_index_ops (new_index table_name column_name) ops).entries[k]? = some c →
          cstr a.key = cstr c.key → cstr b.key = cstr a.key := by
  have h := (apply_index_ops_sorted ops (new_index table_name column_name)
    (by simp [index_sorted, new_index]) (by simp [index_keys_short, new_index])).1
  refine ⟨h, ?_⟩
  intro i j k hij hjk a b c ha hb hc hac
  unfold index_sorted at h
  rw [List.pairwise_iff_getElem] at h
  obtain ⟨hi, hai⟩ := List.getElem?_eq_some_iff.1 ha
  obtain ⟨hj, hbj⟩ := List.getElem?_eq_some_iff.1 hb
  obtain ⟨hk, hck⟩ := List.getElem?_eq_some_iff.1 hc
  have h1 := h i j hi hj hij
  have h2 := h j k hj hk hjk
  rw [hai, hbj] at h1
  rw [hbj, hck] at h2
  unfold strcmp at h1 h2
  rw [← hac] at h2
  rcases lt_or_eq_of_le h1 with h3 | h3
  · have := (strcmp_aux_neg_iff _ _).1 h3
    omega
  · exact (strcmp_aux_eq_zero h3).symm

/-! ## Theorems: secondary index, lookup -/

theorem to_int32_pred (n : Nat) (hn : n < 2147483648) :
    to_int32 ((n + 4294967296 - 1) % 4294967296) = (n : Int) - 1 := by
  unfold to_int32
  rcases Nat.eq_zero_or_pos n with h | h
  · subst h; decide
  · have h1 : (n + 4294967296 - 1) % 4294967296 = n - 1 := by omega
    rw [h1]
    have h2 : (n - 1) % 4294967296 = n - 1 := by omega
    rw [h2, if_pos (by omega)]
    omega

theorem strcmp_aux_antisymm {a b : List Nat} (h1 : strcmp_aux a b ≤ 0)
    (h2 : strcmp_aux b a ≤ 0) : a = b := by
  rcases lt_or_eq_of_le h1 with h | h
  · have := (strcmp_aux_neg_iff a b).1 h
    omega
  · exact strcmp_aux_eq_zero h

theorem getD_eq_getElem_of_lt (es : List IndexEntry) (i : Nat) (h : i < es.length) :
    es.getD i default = es[i] := by
  rw [List.getD_eq_getElem?_getD, List.getElem?_eq_getElem h]; rfl

theorem sorted_getD_le (es : List IndexEntry)
    (hs : es.Pairwise (fun a b => strcmp a.key b.key ≤ 0)) (i j : Nat) (hij : i ≤ j)
    (hj : j < es.length) :
    strcmp (es.getD i default).key (es.getD j default).key ≤ 0 := by
  rcases Nat.lt_or_eq_of_le hij with h | h
  · rw [getD_eq_getElem_of_lt es i (by omega), getD_eq_getElem_of_lt es j hj]
    exact (List.pairwise_iff_getElem.1 hs) i j (by omega) hj h
  · subst h
    unfold strcmp
    rw [strcmp_aux_self]

theorem lookup_search_spec (es : List IndexEntry) (key : List Nat)
    (hs : es.Pairwise (fun a b => strcmp a.key b.key ≤ 0)) :
    ∀ (fuel : Nat) (left right : Int), 0 ≤ left → right < es.length →
      right - left + 1 ≤ fuel →
      (∀ i : Nat, i < es.length → strcmp key (es.getD i default).key = 0 →
        left ≤ i ∧ (i : Int) ≤ right) →
      (lookup_search es key fuel left right = -1 ∧
          ∀ i : Nat, i < es.length → strcmp key (es.getD i default).key ≠ 0) ∨
        (0 ≤ lookup_search es key fuel left right ∧
          lookup_search es key fuel left right < es.length ∧
          strcmp key (es.getD (lookup_search es key fuel left right).toNat default).key = 0) := by
  intro fuel
  induction fuel with
  | zero =>
    intro left right _ _ hf hw
    left
    refine ⟨rfl, ?_⟩
    intro i hi hc
    have := hw i hi hc
    omega
  | succ fuel ih =>
    intro left right hl hr hf hw
    simp only [lookup_search]
    split_ifs with h1 h2 h3
    · right
      refine ⟨by omega, by omega, h2⟩
    · have hmid0 : 0 ≤ left + (right - left) / 2 := by omega
      have hmidn : left + (right - left) / 2 < es.length := by omega
      apply ih left (left + (right - left) / 2 - 1) hl (by omega) (by omega)
      intro i hi hc
      obtain ⟨h4, h5⟩ := hw i hi hc
      refine ⟨h4, ?_⟩
      by_contra hcon
      have hmi : (left + (right - left) / 2).toNat ≤ i := by omega
      have hle := sorted_getD_le es hs _ i hmi hi
      have hlt : strcmp key (es.getD i default).key < 0 := strcmp_aux_lt_of_lt_of_le h3 hle
      omega
    · have hmid0 : 0 ≤ left + (right - left) / 2 := by omega
      have hmidn : left + (right - left) / 2 < es.length := by omega
      apply ih (left + (right - left) / 2 + 1) right (by omega) hr (by omega)
      intro i hi hc
      obtain ⟨h4, h5⟩ := hw i hi hc
      refine ⟨?_, h5⟩
      by_contra hcon
      have hmi : i ≤ (left + (right - left) / 2).toNat := by omega
      have hle := sorted_getD_le es hs i _ hmi (by omega)
      have hpos : 0 < strcmp key (es.getD (left + (right - left) / 2).toNat default).key := by
        omega
      have hk : strcmp (es.getD (left + (right - left) / 2).toNat default).key key < 0 :=
        (strcmp_aux_pos_iff _ _).1 hpos
      have hlt : strcmp (es.getD i default).key key < 0 := strcmp_aux_lt_of_le_of_lt hle hk
      have := (strcmp_aux_neg_iff _ _).1 hlt
      unfold strcmp at hc
      omega
    · left
      refine ⟨rfl, ?_⟩
      intro i hi hc
      have := hw i hi hc
      omega

theorem lookup_start_spec (es : List IndexEntry) (key : List Nat) (r : Nat)
    (hm : strcmp (es.getD r default).key key = 0) :
    lookup_start es key r ≤ r ∧
      (∀ i, lookup_start es key r ≤ i → i ≤ r → strcmp (es.getD i default).key key = 0) ∧
      (lookup_start es key r = 0 ∨
        strcmp (es.getD (lookup_start es key r - 1) default).key key ≠ 0) := by
  induction r with
  | zero =>
    refine ⟨le_refl _, ?_, Or.inl rfl⟩
    intro i _ hi
    have : i = 0 := by omega
    rw [this]; exact hm
  | succ r ih =>
    simp only [lookup_start]
    split_ifs with h
    · obtain ⟨h1, h2, h3⟩ := ih h
      refine ⟨by omega, ?_, h3⟩
      intro i hi1 hi2
      rcases Nat.lt_or_eq_of_le hi2 with h4 | h4
      · exact h2 i hi1 (by omega)
      · rw [h4]; exact hm
    · refine ⟨le_refl _, ?_, Or.inr ?_⟩
      · intro i hi1 hi2
        have : i = r + 1 := by omega
        rw [this]; exact hm
      · simpa using h

theorem lookup_end_spec (es : List IndexEntry) (key : List Nat) :
    ∀ (fuel r : Nat), r < es.length → es.length - 1 ≤ r + fuel →
      strcmp (es.getD r default).key key = 0 →
      r ≤ lookup_end es key fuel r ∧ lookup_end es key fuel r < es.length ∧
        (∀ i, r ≤ i → i ≤ lookup_end es key fuel r → strcmp (es.getD i default).key key = 0) ∧
        (lookup_end es key fuel r = es.length - 1 ∨
          strcmp (es.getD (lookup_end es key fuel r + 1) default).key key ≠ 0) := by
  intro fuel
  induction fuel with
  | zero =>
    intro r hr hf hm
    simp only [lookup_end]
    refine ⟨le_refl _, hr, ?_, Or.inl (by omega)⟩
    intro i h1 h2
    have : i = r := by omega
    rw [this]; exact hm
  | succ fuel ih =>
    intro r hr hf hm
    simp only [lookup_end]
    split_ifs with h
    · obtain ⟨h1, h2, h3, h4⟩ := ih (r + 1) (by omega) (by omega) h.2
      refine ⟨by omega, h2, ?_, h4⟩
      intro i hi1 hi2
      rcases Nat.eq_or_lt_of_le hi1 with h5 | h5
      · rw [← h5]; exact hm
      · exact h3 i (by omega) hi2
    · refine ⟨le_refl _, hr, ?_, ?_⟩
      · intro i h1 h2
        have : i = r := by omega
        rw [this]; exact hm
      · by_cases h5 : r < es.length - 1
        · right
          intro h6
          exact h ⟨h5, h6⟩
        · left; omega

theorem filter_window {α : Type} (l : List α) (p : α → Bool) (s c : Nat)
    (h1 : ∀ i, i < s → ∀ x, l[i]? = some x → p x = false)
    (h2 : ∀ i, s ≤ i → i < s + c → ∀ x, l[i]? = some x → p x = true)
    (h3 : ∀ i, s + c ≤ i → ∀ x, l[i]? = some x → p x = false) :
    l.filter p = (l.drop s).take c := by
  have hsplit : l = l.take s ++ ((l.drop s).take c ++ (l.drop s).drop c) := by
    rw [List.take_append_drop, List.take_append_drop]
  conv_lhs => rw [hsplit]
  rw [List.filter_append, List.filter_append]
  have e1 : (l.take s).filter p = [] := by
    rw [List.filter_eq_nil_iff]
    intro x hx
    obtain ⟨i, hi⟩ := List.mem_iff_getElem?.1 hx
    rw [List.getElem?_take] at hi
    split_ifs at hi with hlt
    have := h1 i hlt x hi
    simp [this]
  have e2 : ((l.drop s).take c).filter p = (l.drop s).take c := by
    rw [List.filter_eq_self]
    intro x hx
    obtain ⟨i, hi⟩ := List.mem_iff_getElem?.1 hx
    rw [List.getElem?_take] at hi
    split_ifs at hi with hlt
    rw [List.getElem?_drop] at hi
    exact h2 (s + i) (by omega) (by omega) x hi
  have e3 : ((l.drop s).drop c).filter p = [] := by
    rw [List.filter_eq_nil_iff]
    intro x hx
    obtain ⟨i, hi⟩ := List.mem_iff_getElem?.1 hx
    rw [List.getElem?_drop, List.getElem?_drop] at hi
    have := h3 (s + (c + i)) (by omega) x hi
    simp [this]
  rw [e1, e2, e3]
  simp

theorem range_map_getD (es : List IndexEntry) (s c : Nat) (h : s + c ≤ es.length) :
    (List.range c).map (fun i => (es.getD (s + i) default).primary_key)
      = ((es.drop s).take c).map (fun e => e.primary_key) := by
  apply List.ext_getElem
  · simp; omega
  · intro i h1 h2
    simp only [List.length_map, List.length_range] at h1
    simp only [List.getElem_map, List.getElem_range, List.getElem_take, List.getElem_drop]
    rw [getD_eq_getElem_of_lt es (s + i) (by omega)]

theorem sorted_no_match_before (es : List IndexEntry) (key : List Nat)
    (hs : es.Pairwise (fun a b => strcmp a.key b.key ≤ 0)) (s : Nat) (hsl : s < es.length)
    (hm : strcmp (es.getD s default).key key = 0)
    (hb : s = 0 ∨ strcmp (es.getD (s - 1) default).key key ≠ 0) :
    ∀ i, i < s → strcmp (es.getD i default).key key ≠ 0 := by
  intro i hi hc
  rcases hb with hb | hb
  · omega
  · apply hb
    have h1 := sorted_getD_le es hs i (s - 1) (by omega) (by omega)
    have h2 := sorted_getD_le es hs (s - 1) s (by omega) hsl
    unfold strcmp at h1 h2 hm hc ⊢
    have e1 := strcmp_aux_eq_zero hc
    have e2 := strcmp_aux_eq_zero hm
    rw [e1] at h1
    rw [e2] at h2
    rw [strcmp_aux_antisymm h2 h1]
    exact strcmp_aux_self _

theorem sorted_no_match_after (es : List IndexEntry) (key : List Nat)
    (hs : es.Pairwise (fun a b => strcmp a.key b.key ≤ 0)) (e : Nat) (hel : e < es.length)
    (hm : strcmp (es.getD e default).key key = 0)
    (ha : e = es.length - 1 ∨ strcmp (es.getD (e + 1) default).key key ≠ 0) :
    ∀ i, e < i → i < es.length → strcmp (es.getD i default).key key ≠ 0 := by
  intro i hi hil hc
  rcases ha with ha | ha
  · omega
  · apply ha
    have h1 := sorted_getD_le es hs e (e + 1) (by omega) (by omega)
    have h2 := sorted_getD_le es hs (e + 1) i (by omega) hil
    unfold strcmp at h1 h2 hm hc ⊢
    have e1 := strcmp_aux_eq_zero hc
    have e2 := strcmp_aux_eq_zero hm
    rw [e2] at h1
    rw [e1] at h2
    rw [strcmp_aux_antisymm h2 h1]
    exact strcmp_aux_self _

theorem getElem?_some_getD (es : List IndexEntry) (i : Nat) (x : IndexEntry)
    (h : es[i]? = some x) : i < es.length ∧ es.getD i default = x := by
  obtain ⟨hi, hx⟩ := List.getElem?_eq_some_iff.1 h
  exact ⟨hi, by rw [getD_eq_getElem_of_lt es i hi, hx]⟩

/-- The result of `secondary_index_lookup` on a sorted index, in one equation: the primary
keys of the entries whose stored key equals the key, in index order, and their number. -/
theorem secondary_index_lookup_eq (index : SecondaryIndex) (key : List Nat)
    (hs : index_sorted index) (hn : index.num_entries < 2147483648) :
    secondary_index_lookup index key =
      if index.entries.filter (fun e => decide (strcmp e.key key = 0)) = [] then (none, 0)
      else
        (some ((index.entries.filter (fun e => decide (strcmp e.key key = 0))).map
            (fun e => e.primary_key)),
          (index.entries.filter (fun e => decide (strcmp e.key key = 0))).length) := by
  unfold index_sorted at hs
  simp only [SecondaryIndex.num_entries] at hn
  simp only [secondary_index_lookup, SecondaryIndex.num_entries]
  rw [to_int32_pred _ hn]
  have hspec := lookup_search_spec index.entries key hs (index.entries.length + 1) 0
    ((index.entries.length : Int) - 1) (le_refl _) (by omega) (by omega)
    (by intro i hi _; omega)
  rcases hspec with ⟨hr, hnone⟩ | ⟨hr0, hrn, hrm⟩
  · rw [hr]
    have hf : index.entries.filter (fun e => decide (strcmp e.key key = 0)) = [] := by
      rw [List.filter_eq_nil_iff]
      intro x hx
      obtain ⟨i, hi⟩ := List.mem_iff_getElem?.1 hx
      obtain ⟨hil, hxd⟩ := getElem?_some_getD _ _ _ hi
      have := hnone i hil
      rw [hxd] at this
      simp only [decide_eq_true_eq]
      intro hc
      exact this ((strcmp_comm_zero _ _).1 hc)
    simp [hf]
  · set r := lookup_search index.entries key (index.entries.length + 1) 0
      ((index.entries.length : Int) - 1) with hrdef
    have hne : r ≠ -1 := by omega
    rw [if_neg hne]
    have hrl : r.toNat < index.entries.length := by omega
    have hm : strcmp (index.entries.getD r.toNat default).key key = 0 :=
      (strcmp_comm_zero _ _).1 hrm
    obtain ⟨s1, s2, s3⟩ := lookup_start_spec index.entries key r.toNat hm
    obtain ⟨e1, e2, e3, e4⟩ := lookup_end_spec index.entries key index.entries.length r.toNat
      hrl (by omega) hm
    set s := lookup_start index.entries key r.toNat with hsdef
    set e := lookup_end index.entries key index.entries.length r.toNat with hedef
    have hcount : (e + 4294967296 - s + 1) % 4294967296 = e - s + 1 := by omega
    rw [hcount]
    have hms : strcmp (index.entries.getD s default).key key = 0 := s2 s (le_refl _) s1
    have hme : strcmp (index.entries.getD e default).key key = 0 := e3 e e1 (le_refl _)
    have hbefore := sorted_no_match_before index.entries key hs s (by omega) hms s3
    have hafter := sorted_no_match_after index.entries key hs e e2 hme e4
    have hwin : index.entries.filter (fun e => decide (strcmp e.key key = 0))
        = (index.entries.drop s).take (e - s + 1) := by
      apply filter_window
      · intro i hi x hx
        obtain ⟨hil, hxd⟩ := getElem?_some_getD _ _ _ hx
        have := hbefore i hi
        rw [hxd] at this
        simp [this]
      · intro i hi1 hi2 x hx
        obtain ⟨hil, hxd⟩ := getElem?_some_getD _ _ _ hx
        have : strcmp (index.entries.getD i default).key key = 0 := by
          by_cases hir : i ≤ r.toNat
          · exact s2 i hi1 hir
          · exact e3 i (by omega) (by omega)
        rw [hxd] at this
        simp [this]
      · intro i hi x hx
        obtain ⟨hil, hxd⟩ := getElem?_some_getD _ _ _ hx
        have := hafter i (by omega) hil
        rw [hxd] at this
        simp [this]
    have hlen : ((index.entries.drop s).take (e - s + 1)).length = e - s + 1 := by
      simp; omega
    have hnil : (index.entries.drop s).take (e - s + 1) ≠ [] := by
      intro hc
      rw [hc] at hlen
      simp at hlen
    rw [hwin, if_neg hnil, hlen, range_map_getD index.entries s (e - s + 1) (by omega)]

/-- C8. On an index whose entries are sorted by key (and whose entry count fits the `int`
positions of the binary search), for every key string: when some entry has a stored key
equal to the key, `secondary_index_lookup` returns exactly the primary keys of all such
entries, every duplicate, in index order, with `count` their number; when no entry matches,
an empty index included, it returns `NULL` with `count` 0. -/
theorem lookup_returns_all_matches (index : SecondaryIndex) (key : List Nat)
    (hs : index_sorted index) (hn : index.num_entries < 2147483648) :
    ((∃ e ∈ index.entries, strcmp e.key key = 0) →
      secondary_index_lookup index key =
        (some ((index.entries.filter (fun e => decide (strcmp e.key key = 0))).map
            (fun e => e.primary_key)),
          (index.entries.filter (fun e => decide (strcmp e.key key = 0))).length)) ∧
      ((∀ e ∈ index.entries, strcmp e.key key ≠ 0) →
        secondary_index_lookup index key = (none, 0)) ∧
      (index.entries = [] → secondary_index_lookup index key = (none, 0)) := by
  have h := secondary_index_lookup_eq index key hs hn
  refine ⟨?_, ?_, ?_⟩
  · rintro ⟨e, he, hm⟩
    have hne : index.entries.filter (fun e => decide (strcmp e.key key = 0)) ≠ [] := by
      intro hc
      have := List.filter_eq_nil_iff.1 hc e he
      simp [hm] at this
    rw [h, if_neg hne]
  · intro hno
    have hnil : index.entries.filter (fun e => decide (strcmp e.key key = 0)) = [] := by
      rw [List.filter_eq_nil_iff]
      intro e he
      simpa using hno e he
    rw [h, if_pos hnil]
  · intro hempty
    rw [h, hempty]
    simp

/-- A concrete index for C8: the entries (alice, 2), (alice, 5), (bob, 1), (bob, 3),
(carol, 4) as five insertions leave them, looked up with the key bob. -/
theorem lookup_returns_all_matches_witness :
    index_sorted example_index ∧ example_index.num_entries < 2147483648 ∧
      ((∃ e ∈ example_index.entries, strcmp e.key [98, 111, 98] = 0) →
        secondary_index_lookup example_index [98, 111, 98] =
          (some ((example_index.entries.filter
              (fun e => decide (strcmp e.key [98, 111, 98] = 0))).map (fun e => e.primary_key)),
            (example_index.entries.filter
              (fun e => decide (strcmp e.key [98, 111, 98] = 0))).length)) ∧
      ((∀ e ∈ example_index.entries, strcmp e.key [98, 111, 98] ≠ 0) →
        secondary_index_lookup example_index [98, 111, 98] = (none, 0)) ∧
      (example_index.entries = [] →
        secondary_index_lookup example_index [98, 111, 98] = (none, 0)) :=
  ⟨by decide, by decide,
    lookup_returns_all_matches example_index [98, 111, 98] (by decide) (by decide)⟩

theorem example_index_lookup_values :
    secondary_index_lookup example_index [98, 111, 98] = (some [1, 3], 2) ∧
      secondary_index_lookup example_index [122] = (none, 0) ∧
      secondary_index_lookup (new_index [] []) [98, 111, 98] = (none, 0) := by
  decide

/-! ## Theorems: pager -/

theorem getD_none_eq_getElem (pages : List (Option Page)) (i : Nat) (h : i < pages.length) :
    pages.getD i none = pages[i] := by
  rw [List.getD_eq_getElem?_getD, List.getElem?_eq_getElem h]; rfl

theorem set_getElem_self (pages : List (Option Page)) (i : Nat) (h : i < pages.length) :
    pages.set i pages[i] = pages := by
  apply List.ext_getElem?
  intro j
  rw [List.getElem?_set]
  by_cases hi : i = j
  · subst hi; simp [h]
  · simp [hi]

theorem slots_wf_set (pages : List (Option Page)) (i : Nat) (page : Page)
    (h : ∀ slot ∈ pages, slot_wf slot) (hl : page.length = PAGE_SIZE) :
    ∀ slot ∈ pages.set i (some page), slot_wf slot := by
  intro slot hs
  rcases List.mem_or_eq_of_mem_set hs with h1 | h1
  · exact h slot h1
  · rw [h1]; exact hl

theorem pager_get_page_ok (pager : Pager) (page_num : Nat) (hw : pager_wf pager)
    (hp : page_num < TABLE_MAX_PAGES) :
    ∃ page pager1, pager_get_page pager page_num = .ok (page, pager1) ∧
      page.length = PAGE_SIZE ∧ pager1.file = pager.file ∧
      pager1.file_length = pager.file_length ∧ pager1.fresh = pager.fresh ∧
      pager1.pages = pager.pages.set page_num (some page) ∧
      pager.num_pages ≤ pager1.num_pages ∧
      (pager1.num_pages = pager.num_pages ∨ pager1.num_pages = page_num + 1) ∧
      pager_wf pager1 := by
  obtain ⟨hlen, hnum, hpages, hfresh⟩ := hw
  have hp2 : ¬ page_num > TABLE_MAX_PAGES := by omega
  have hp3 : ¬ page_num ≥ TABLE_MAX_PAGES := by omega
  have hlt : page_num < pager.pages.length := by omega
  unfold pager_get_page
  rw [if_neg hp2, if_neg hp3, getD_none_eq_getElem _ _ hlt]
  cases hc : pager.pages[page_num] with
  | some page =>
    have hset : pager.pages.set page_num (some page) = pager.pages := by
      rw [← hc]; exact set_getElem_self _ _ hlt
    have hmem : some page ∈ pager.pages := by
      rw [← hc]; exact List.getElem_mem hlt
    exact ⟨page, pager, rfl, hpages _ hmem, rfl, rfl, rfl, hset.symm, le_refl _, Or.inl rfl,
      hlen, hnum, hpages, hfresh⟩
  | none =>
    simp only
    have hdata : ∀ (cond : Prop) [Decidable cond],
        (if cond then
          (file_read pager.file (page_num * PAGE_SIZE) PAGE_SIZE ++
            pager.fresh.drop (file_read pager.file (page_num * PAGE_SIZE) PAGE_SIZE).length)
        else pager.fresh).length = PAGE_SIZE := by
      intro cond _
      split_ifs
      · have : (file_read pager.file (page_num * PAGE_SIZE) PAGE_SIZE).length ≤ PAGE_SIZE := by
          simp [file_read]
        simp only [List.length_append, List.length_drop]
        omega
      · exact hfresh
    refine ⟨_, _, rfl, hdata _, rfl, rfl, rfl, rfl, ?_, ?_, ?_⟩
    · simp only; split_ifs <;> omega
    · simp only; split_ifs
      · right; rfl
      · left; rfl
    · refine ⟨by simpa using hlen, ?_, slots_wf_set _ _ _ hpages (hdata _), hfresh⟩
      simp only; split_ifs <;> omega

theorem flush_pages_loop_ok (idxs : List Nat) (pager : Pager)
    (hi : ∀ i ∈ idxs, i < TABLE_MAX_PAGES) :
    ∃ pager1, flush_pages_loop pager idxs = .ok pager1 ∧ pager1.pages = pager.pages ∧
      pager1.num_pages = pager.num_pages ∧ pager1.file_length = pager.file_length ∧
      pager1.fresh = pager.fresh := by
  induction idxs generalizing pager with
  | nil => exact ⟨pager, rfl, rfl, rfl, rfl, rfl⟩
  | cons i rest ih =>
    have h1 : ¬ i ≥ TABLE_MAX_PAGES := by
      have := hi i (by simp); omega
    have hrest : ∀ j ∈ rest, j < TABLE_MAX_PAGES := fun j hj => hi j (by simp [hj])
    unfold flush_pages_loop
    rw [if_neg h1]
    cases hc : pager.pages.getD i none with
    | none => exact ih pager hrest
    | some page =>
      simp only [pager_flush, hc]
      obtain ⟨p1, e1, e2, e3, e4, e5⟩ := ih
        { pager with file := file_write pager.file (i * PAGE_SIZE) (page.take PAGE_SIZE) } hrest
      exact ⟨p1, e1, e2, e3, e4, e5⟩

theorem wal_checkpoint_ok (wal : WAL) (pager : Pager) (hn : pager.num_pages ≤ TABLE_MAX_PAGES) :
    ∃ b wal1 pager1, wal_checkpoint wal pager = .ok (b, wal1, pager1) ∧
      pager1.pages = pager.pages ∧ pager1.num_pages = pager.num_pages ∧
      pager1.file_length = pager.file_length ∧ pager1.fresh = pager.fresh ∧
      wal1.is_open = wal.is_open := by
  unfold wal_checkpoint
  by_cases ho : wal.is_open = true
  · simp only [ho, Bool.not_true, Bool.false_eq_true, if_false]
    obtain ⟨p1, e1, e2, e3, e4, e5⟩ := flush_pages_loop_ok (List.range pager.num_pages) pager
      (by intro i hi; have := List.mem_range.1 hi; omega)
    rw [e1]
    exact ⟨_, _, _, rfl, e2, e3, e4, e5, rfl⟩
  · simp only [Bool.not_eq_true] at ho
    simp only [ho, Bool.not_false, if_true]
    exact ⟨_, _, _, rfl, rfl, rfl, rfl, rfl, ho⟩

theorem wal_frames_nil_of_short (fuel : Nat) (rest : List Nat)
    (h : rest.length < WAL_FRAME_HEADER_SIZE + PAGE_SIZE) : wal_frames fuel rest = [] := by
  cases fuel with
  | zero => rfl
  | succ fuel => simp [wal_frames, h]

/-- Fuel beyond the number of bytes left does not change the frames found. -/
theorem wal_frames_fuel (fuel1 fuel2 : Nat) (rest : List Nat) (h1 : rest.length ≤ fuel1)
    (h2 : rest.length ≤ fuel2) : wal_frames fuel1 rest = wal_frames fuel2 rest := by
  induction fuel1 generalizing fuel2 rest with
  | zero =>
    have : rest.length < WAL_FRAME_HEADER_SIZE + PAGE_SIZE := by
      simp [WAL_FRAME_HEADER_SIZE, PAGE_SIZE]; omega
    rw [wal_frames_nil_of_short _ _ this, wal_frames_nil_of_short _ _ this]
  | succ fuel1 ih =>
    cases fuel2 with
    | zero =>
      have : rest.length < WAL_FRAME_HEADER_SIZE + PAGE_SIZE := by
        simp [WAL_FRAME_HEADER_SIZE, PAGE_SIZE]; omega
      rw [wal_frames_nil_of_short _ _ this, wal_frames_nil_of_short _ _ this]
    | succ fuel2 =>
      simp only [wal_frames]
      split_ifs with h
      · rfl
      · have hd : (rest.drop (WAL_FRAME_HEADER_SIZE + PAGE_SIZE)).length ≤ fuel1 := by
          simp [WAL_FRAME_HEADER_SIZE, PAGE_SIZE] at h ⊢; omega
        have hd2 : (rest.drop (WAL_FRAME_HEADER_SIZE + PAGE_SIZE)).length ≤ fuel2 := by
          simp [WAL_FRAME_HEADER_SIZE, PAGE_SIZE] at h ⊢; omega
        rw [ih fuel2 _ hd hd2]

theorem memcpy_whole (page page_data : List Nat) (h1 : page.length = PAGE_SIZE)
    (h2 : page_data.length = PAGE_SIZE) : memcpy page 0 page_data PAGE_SIZE = page_data := by
  simp [memcpy, List.take_of_length_le, List.drop_of_length_le, h1, h2]

theorem wal_recover_loop_spec (fuel : Nat) :
    ∀ (rest : List Nat) (pager : Pager) (n : Nat), pager_wf pager →
      (∀ f ∈ (wal_frames fuel rest).takeWhile frame_checksum_ok,
        f.header.page_number < TABLE_MAX_PAGES) →
      ∃ pager1 n1, wal_recover_loop fuel rest pager n = .ok (pager1, n1) ∧
        pager1.pages = ((wal_frames fuel rest).takeWhile frame_checksum_ok).foldl replay_frame
          pager.pages ∧
        pager_wf pager1 ∧ pager1.file = pager.file := by
  induction fuel with
  | zero =>
    intro rest pager n hw _
    exact ⟨pager, n, rfl, rfl, hw, rfl⟩
  | succ fuel ih =>
    intro rest pager n hw hpn
    simp only [wal_recover_loop, wal_frames] at hpn ⊢
    by_cases hshort : rest.length < WAL_FRAME_HEADER_SIZE + PAGE_SIZE
    · rw [if_pos hshort]
      simp only [List.takeWhile_nil, List.foldl_nil]
      by_cases h1 : (rest.take WAL_FRAME_HEADER_SIZE).length < WAL_FRAME_HEADER_SIZE
      · rw [if_pos h1]
        exact ⟨pager, n, rfl, rfl, hw, rfl⟩
      · rw [if_neg h1]
        have h2 : ((rest.drop WAL_FRAME_HEADER_SIZE).take PAGE_SIZE).length < PAGE_SIZE := by
          simp [WAL_FRAME_HEADER_SIZE, PAGE_SIZE] at hshort h1 ⊢; omega
        rw [if_pos h2]
        exact ⟨pager, n, rfl, rfl, hw, rfl⟩
    · rw [if_neg hshort] at hpn ⊢
      have h1 : ¬ (rest.take WAL_FRAME_HEADER_SIZE).length < WAL_FRAME_HEADER_SIZE := by
        simp [WAL_FRAME_HEADER_SIZE, PAGE_SIZE] at hshort ⊢; omega
      have h2 : ((rest.drop WAL_FRAME_HEADER_SIZE).take PAGE_SIZE).length = PAGE_SIZE := by
        simp [WAL_FRAME_HEADER_SIZE, PAGE_SIZE] at hshort ⊢; omega
      rw [if_neg h1, if_neg (by omega)]
      by_cases hck : wal_checksum (words_of_bytes ((rest.drop WAL_FRAME_HEADER_SIZE).take PAGE_SIZE))
          (PAGE_SIZE / 4) (frame_header_of_bytes (rest.take WAL_FRAME_HEADER_SIZE)).salt1
          (frame_header_of_bytes (rest.take WAL_FRAME_HEADER_SIZE)).salt2
            = (frame_header_of_bytes (rest.take WAL_FRAME_HEADER_SIZE)).checksum1
      · rw [if_pos hck]
        have hok : frame_checksum_ok
            { header := frame_header_of_bytes (rest.take WAL_FRAME_HEADER_SIZE)
              page_data := (rest.drop WAL_FRAME_HEADER_SIZE).take PAGE_SIZE } = true := by
          simp [frame_checksum_ok, hck]
        rw [List.takeWhile_cons_of_pos hok] at hpn ⊢
        have hlt := hpn _ (List.mem_cons_self _ _)
        simp only at hlt
        obtain ⟨page, pager1, e1, e2, e3, _, e5, e6, _, _, w1⟩ :=
          pager_get_page_ok pager _ hw hlt
        rw [e1]
        simp only
        rw [memcpy_whole _ _ e2 h2]
        have hw2 : pager_wf (pager_set_page pager1
            (frame_header_of_bytes (rest.take WAL_FRAME_HEADER_SIZE)).page_number
            ((rest.drop WAL_FRAME_HEADER_SIZE).take PAGE_SIZE)) := by
          obtain ⟨a, b, c, d⟩ := w1
          exact ⟨by simpa [pager_set_page] using a, b, slots_wf_set _ _ _ c h2, d⟩
        obtain ⟨p2, n2, f1, f2, f3, f4⟩ := ih (rest.drop (WAL_FRAME_HEADER_SIZE + PAGE_SIZE))
          _ ((n + 1) % 4294967296) hw2 (fun f hf => hpn f (List.mem_cons_of_mem _ hf))
        refine ⟨p2, n2, f1, ?_, f3, ?_⟩
        · rw [f2, List.foldl_cons]
          congr 1
          simp [pager_set_page, replay_frame, e6]
        · rw [f4]; simp [pager_set_page, e3]
      · rw [if_neg hck]
        have hok : ¬ frame_checksum_ok
            { header := frame_header_of_bytes (rest.take WAL_FRAME_HEADER_SIZE)
              page_data := (rest.drop WAL_FRAME_HEADER_SIZE).take PAGE_SIZE } = true := by
          simp [frame_checksum_ok, hck]
        rw [List.takeWhile_cons_of_neg hok]
        exact ⟨pager, n, rfl, rfl, hw, rfl⟩

theorem foldl_replay_frame_length (frames : List WALFrame) (pages : List (Option Page)) :
    (frames.foldl replay_frame pages).length = pages.length := by
  induction frames generalizing pages with
  | nil => rfl
  | cons f fs ih => rw [List.foldl_cons, ih]; simp [replay_frame]

theorem foldl_replay_frame_get (frames : List WALFrame) (pages : List (Option Page))
    (page_num : Nat) (hp : page_num < pages.length)
    (hf : ∀ f ∈ frames, f.header.page_number < pages.length) :
    (frames.foldl replay_frame pages).getD page_num none =
      match last_image frames page_num with
      | some image => some image
      | none => pages.getD page_num none := by
  induction frames using List.reverseRecOn with
  | nil => simp [last_image]
  | append_singleton fs f ih =>
    have ih2 := ih (fun g hg => hf g (by simp [hg]))
    have hfl : f.header.page_number < pages.length := hf f (by simp)
    rw [List.foldl_append, List.foldl_cons, List.foldl_nil]
    have hlen := foldl_replay_frame_length fs pages
    simp only [replay_frame, last_image, List.filter_append]
    by_cases heq : f.header.page_number = page_num
    · subst heq
      rw [List.getD_eq_getElem?_getD, List.getElem?_set_self (by omega)]
      simp
    · rw [List.getD_eq_getElem?_getD, List.getElem?_set_ne heq, ← List.getD_eq_getElem?_getD, ih2]
      simp [last_image, heq]

/-- C7, the claim as stated fails: the WAL `wal_naming_page_101` holds one complete frame
whose page checksum validates, so the longest valid run of frames is that frame, and
`wal_recover` neither applies it nor returns `true`: `pager_get_page` ends the process for
page number 101. -/
theorem wal_recover_exits_on_page_101 :
    (frames_to_replay wal_naming_page_101.file).map (fun f => f.header.page_number) = [101] ∧
      wal_recover wal_naming_page_101 empty_pager = .error .exit_failure := by
  decide!

/-- C7, amended. For every open WAL and every pager within its `TABLE_MAX_PAGES` slots, when
the frames of the longest run of complete frames with valid page checksums all name pages
below `TABLE_MAX_PAGES`, `wal_recover` returns `true` and has applied exactly that run, in
append order, and nothing at or after the first checksum mismatch or truncated frame: the
page slots are those obtained by storing the images of the run one after the other, so each
page named in the run holds the image of the last frame of the run that names it, and every
other slot is as before. -/
theorem wal_recover_replays_valid_frames (wal : WAL) (pager : Pager)
    (ho : wal.is_open = true) (hw : pager_wf pager)
    (hpn : ∀ f ∈ frames_to_replay wal.file, f.header.page_number < TABLE_MAX_PAGES) :
    ∃ wal1 pager1, wal_recover wal pager = .ok (true, wal1, pager1) ∧
      pager1.pages = (frames_to_replay wal.file).foldl replay_frame pager.pages ∧
      ∀ page_num, page_num < TABLE_MAX_PAGES →
        pager1.pages.getD page_num none =
          match last_image (frames_to_replay wal.file) page_num with
          | some image => some image
          | none => pager.pages.getD page_num none := by
  unfold frames_to_replay at hpn ⊢
  obtain ⟨p1, n1, e1, e2, e3, _⟩ := wal_recover_loop_spec wal.file.length
    (wal.file.drop WAL_HEADER_SIZE) pager 0 hw hpn
  obtain ⟨b, w2, p2, c1, c2, _, _, _, _⟩ := wal_checkpoint_ok wal p1 e3.2.1
  refine ⟨w2, p2, ?_, by rw [c2, e2], ?_⟩
  · simp only [wal_recover, ho, Bool.not_true, Bool.false_eq_true, if_false, e1, c1]
  · intro page_num hp
    rw [c2, e2]
    exact foldl_replay_frame_get _ _ _ (by rw [hw.1]; exact hp)
      (fun f hf => by rw [hw.1]; exact hpn f hf)

/-- A concrete WAL for C7: two frames written by `wal_write_frame` for page 0, replayed into
a pager just opened on an empty file. -/
theorem wal_recover_replays_valid_frames_witness :
    ∃ wal1 pager1, wal_recover example_wal empty_pager = .ok (true, wal1, pager1) ∧
      pager1.pages = (frames_to_replay example_wal.file).foldl replay_frame empty_pager.pages ∧
      ∀ page_num, page_num < TABLE_MAX_PAGES →
        pager1.pages.getD page_num none =
          match last_image (frames_to_replay example_wal.file) page_num with
          | some image => some image
          | none => empty_pager.pages.getD page_num none :=
  wal_recover_replays_valid_frames example_wal empty_pager (by decide!) (by decide!) (by decide!)

theorem example_wal_replay_values :
    (frames_to_replay example_wal.file).map (fun f => (f.header.page_number, f.page_data))
        = [(0, List.replicate PAGE_SIZE 1), (0, List.replicate PAGE_SIZE 2)] ∧
      last_image (frames_to_replay example_wal.file) 0 = some (List.replicate PAGE_SIZE 2) := by
  decide!

/-! ## Theorems: files -/

theorem file_write_length (file : List Nat) (off : Nat) (data : List Nat) :
    (file_write file off data).length = max file.length (off + data.length) := by
  simp only [file_write, List.length_append, List.length_take, List.length_replicate,
    List.length_drop]
  omega

theorem file_read_write_same (file : List Nat) (off : Nat) (data : List Nat) :
    file_read (file_write file off data) off data.length = data := by
  simp only [file_write, file_read]
  have h1 : ((file ++ List.replicate (off - file.length) 0).take off).length = off := by
    simp only [List.length_take, List.length_append, List.length_replicate]; omega
  rw [List.append_assoc, List.drop_append_of_le_length (by omega), List.drop_of_length_le (by omega),
    List.nil_append, List.take_append_of_le_length (by omega), List.take_of_length_le (by omega)]

theorem file_read_write_other (file : List Nat) (off : Nat) (data : List Nat) (off2 n : Nat)
    (hin : off2 + n ≤ file.length) (hd : off2 + n ≤ off ∨ off + data.length ≤ off2) :
    file_read (file_write file off data) off2 n = file_read file off2 n := by
  simp only [file_write, file_read]
  apply List.ext_getElem?
  intro k
  simp only [List.getElem?_take, List.getElem?_drop]
  split_ifs with hk
  · rcases hd with hd | hd
    · have hlt : off2 + k < off := by omega
      rw [List.append_assoc, List.getElem?_append_left (by
        simp only [List.length_take, List.length_append, List.length_replicate]; omega)]
      rw [List.getElem?_take_of_lt hlt, List.getElem?_append_left (by omega)]
    · have h1 : ((file ++ List.replicate (off - file.length) 0).take off).length = off := by
        simp only [List.length_take, List.length_append, List.length_replicate]; omega
      rw [List.getElem?_append_right (by
        simp only [List.length_append, h1]; omega)]
      simp only [List.length_append, h1, List.getElem?_drop]
      congr 1
      omega
  · rfl

theorem slot_wf_of_getD (pages : List (Option Page)) (j : Nat) (page : Page)
    (h : ∀ slot ∈ pages, slot_wf slot) (hj : pages.getD j none = some page) :
    page.length = PAGE_SIZE := by
  rw [List.getD_eq_getElem?_getD] at hj
  cases hg : pages[j]? with
  | none => rw [hg] at hj; simp at hj
  | some slot =>
    rw [hg] at hj
    simp only [Option.getD_some] at hj
    have := h slot (List.mem_iff_getElem?.2 ⟨j, hg⟩)
    rw [hj] at this
    exact this

theorem flush_pages_loop_file (idxs : List Nat) :
    ∀ (pager : Pager), (∀ i ∈ idxs, i < TABLE_MAX_PAGES) →
      (∀ slot ∈ pager.pages, slot_wf slot) → pager.file.length % PAGE_SIZE = 0 →
      ∃ pager1, flush_pages_loop pager idxs = .ok pager1 ∧ pager1.pages = pager.pages ∧
        pager1.num_pages = pager.num_pages ∧ pager1.file_length = pager.file_length ∧
        pager1.fresh = pager.fresh ∧
        pager.file.length ≤ pager1.file.length ∧ pager1.file.length % PAGE_SIZE = 0 ∧
        (∀ n, pager.file.length ≤ n * PAGE_SIZE → (∀ i ∈ idxs, i < n) →
          pager1.file.length ≤ n * PAGE_SIZE) ∧
        (∀ j page, j ∈ idxs → pager.pages.getD j none = some page →
          (j + 1) * PAGE_SIZE ≤ pager1.file.length ∧
            file_read pager1.file (j * PAGE_SIZE) PAGE_SIZE = page) ∧
        (∀ j, (j ∉ idxs ∨ pager.pages.getD j none = none) →
          (j + 1) * PAGE_SIZE ≤ pager.file.length →
          file_read pager1.file (j * PAGE_SIZE) PAGE_SIZE
            = file_read pager.file (j * PAGE_SIZE) PAGE_SIZE) := by
  induction idxs with
  | nil =>
    intro pager _ _ hf
    refine ⟨pager, rfl, rfl, rfl, rfl, rfl, le_refl _, hf, ?_, ?_, ?_⟩
    · intro n hn _; exact hn
    · intro j page hj; simp at hj
    · intro j _ _; rfl
  | cons i rest ih =>
    intro pager hi hs hf
    have h1 : ¬ i ≥ TABLE_MAX_PAGES := by
      have := hi i (by simp); omega
    have hrest : ∀ j ∈ rest, j < TABLE_MAX_PAGES := fun j hj => hi j (by simp [hj])
    unfold flush_pages_loop
    rw [if_neg h1]
    cases hc : pager.pages.getD i none with
    | none =>
      obtain ⟨p1, e1, e2, e3, e4, e5, e6, e7, e8, e9, e10⟩ := ih pager hrest hs hf
      refine ⟨p1, e1, e2, e3, e4, e5, e6, e7, ?_, ?_, ?_⟩
      · intro n hn hin
        exact e8 n hn (fun k hk => hin k (by simp [hk]))
      · intro j page hj hp
        rcases List.mem_cons.1 hj with hj | hj
        · subst hj; rw [hc] at hp; simp at hp
        · exact e9 j page hj hp
      · intro j hj hlen
        apply e10 j _ hlen
        rcases hj with hj | hj
        · left; intro hmem; exact hj (by simp [hmem])
        · right; exact hj
    | some page =>
      have hpl : page.length = PAGE_SIZE := slot_wf_of_getD _ _ _ hs hc
      have htake : page.take PAGE_SIZE = page := List.take_of_length_le (by omega)
      simp only [pager_flush, hc, htake]
      have hwl := file_write_length pager.file (i * PAGE_SIZE) page
      have hf2 : (file_write pager.file (i * PAGE_SIZE) page).length % PAGE_SIZE = 0 := by
        rw [hwl, hpl]
        rcases Nat.le_total pager.file.length (i * PAGE_SIZE + PAGE_SIZE) with h | h
        · rw [max_eq_right h]
          simp [PAGE_SIZE]
        · rw [max_eq_left h]; exact hf
      obtain ⟨p1, e1, e2, e3, e4, e5, e6, e7, e8, e9, e10⟩ := ih
        { pager with file := file_write pager.file (i * PAGE_SIZE) page } hrest hs hf2
      simp only at e2 e3 e4 e5 e6 e8 e9 e10
      refine ⟨p1, e1, e2, e3, e4, e5, ?_, e7, ?_, ?_, ?_⟩
      · rw [hwl] at e6; omega
      · intro n hn hin
        apply e8 n _ (fun k hk => hin k (by simp [hk]))
        rw [hwl, hpl]
        have := hin i (by simp)
        have h2 : i * PAGE_SIZE + PAGE_SIZE ≤ n * PAGE_SIZE := by
          have : (i + 1) * PAGE_SIZE ≤ n * PAGE_SIZE := Nat.mul_le_mul_right _ (by omega)
          rw [Nat.add_mul] at this; omega
        omega
      · intro j pg hj hp
        by_cases hjr : j ∈ rest
        · exact e9 j pg hjr hp
        · have hji : j = i := by
            rcases List.mem_cons.1 hj with h | h
            · exact h
            · exact absurd h hjr
          subst hji
          rw [hc] at hp
          simp only [Option.some.injEq] at hp
          subst hp
          have hlen2 : (j + 1) * PAGE_SIZE ≤ (file_write pager.file (j * PAGE_SIZE) page).length := by
            rw [hwl, hpl, Nat.add_mul]; omega
          refine ⟨by omega, ?_⟩
          rw [e10 j (Or.inl hjr) hlen2]
          have := file_read_write_same pager.file (j * PAGE_SIZE) page
          rw [hpl] at this
          exact this
      · intro j hj hlen
        have hji : j ≠ i := by
          rcases hj with hj | hj
          · intro h; exact hj (by simp [h])
          · intro h; rw [h, hc] at hj; simp at hj
        have hlen2 : (j + 1) * PAGE_SIZE ≤ (file_write pager.file (i * PAGE_SIZE) page).length := by
          rw [hwl]; omega
        have hj2 : j ∉ rest ∨ pager.pages.getD j none = none := by
          rcases hj with hj | hj
          · left; intro h; exact hj (by simp [h])
          · right; exact hj
        rw [e10 j hj2 hlen2]
        apply file_read_write_other
        · rw [Nat.add_mul] at hlen; omega
        · rw [hpl]
          rcases Nat.lt_or_gt_of_ne hji with h | h
          · left
            have : (j + 1) * PAGE_SIZE ≤ i * PAGE_SIZE := Nat.mul_le_mul_right _ (by omega)
            rw [Nat.add_mul] at this; omega
          · right
            have : (i + 1) * PAGE_SIZE ≤ j * PAGE_SIZE := Nat.mul_le_mul_right _ (by omega)
            rw [Nat.add_mul] at this; omega

/-! ## Theorems: closing and reopening a table -/

theorem wal_open_frame_count (file : Option (List Nat)) (time pid : Nat) (wal : WAL)
    (h : wal_open file time pid = some wal) : wal.frame_count = 0 := by
  unfold wal_open at h
  cases file with
  | none => simp at h
  | some f =>
    simp only at h
    split_ifs at h <;> (simp only [Option.some.injEq] at h; rw [← h])

/-- What `table_open` does on a database file of at least one page: the pager is the one
`pager_open` builds and the WAL the one `wal_open` returns; `wal_recover` is not called,
because `wal_open` always leaves `frame_count` at 0. -/
theorem table_open_no_replay (db_file : List Nat) (fresh : Page) (wal_file : Option (List Nat))
    (time pid : Nat) (ha : db_file.length % PAGE_SIZE = 0) (hp : 0 < db_file.length / PAGE_SIZE)
    (hl : db_file.length < 4294967296) :
    table_open db_file fresh wal_file time pid =
      .ok { pager := { file := db_file, file_length := db_file.length,
                       num_pages := db_file.length / PAGE_SIZE,
                       pages := List.replicate TABLE_MAX_PAGES none, fresh := fresh }
            root_page_num := 0
            wal := wal_open wal_file time pid } := by
  have h1 : db_file.length % 4294967296 = db_file.length := Nat.mod_eq_of_lt hl
  have h2 : db_file.length / PAGE_SIZE % 4294967296 = db_file.length / PAGE_SIZE :=
    Nat.mod_eq_of_lt (lt_of_le_of_lt (Nat.div_le_self _ _) hl)
  simp only [table_open, pager_open, ha, ne_eq, not_true_eq_false, if_false, h1, h2]
  cases hwo : wal_open wal_file time pid with
  | none =>
    simp only
    rw [if_neg (by omega)]
  | some wal =>
    have := wal_open_frame_count _ _ _ _ hwo
    simp only [this, gt_iff_lt, lt_self_iff_false, if_false]
    rw [if_neg (by omega)]

theorem table_close_spec (table : Table) (hw : pager_session_wf table.pager) :
    ∃ db_file wal_file, table_close table = .ok (db_file, wal_file) ∧
      db_file.length = table.pager.num_pages * PAGE_SIZE ∧
      ∀ i, i < table.pager.num_pages →
        (∀ page, table.pager.pages.getD i none = some page →
          file_read db_file (i * PAGE_SIZE) PAGE_SIZE = page) ∧
        (table.pager.pages.getD i none = none →
          file_read db_file (i * PAGE_SIZE) PAGE_SIZE
            = file_read table.pager.file (i * PAGE_SIZE) PAGE_SIZE) := by
  obtain ⟨⟨hlen, hnum, hslots, hfresh⟩, hpos, hfl, hfa, hfle, hfn, hall⟩ := hw
  have hidx : ∀ i ∈ List.range table.pager.num_pages, i < TABLE_MAX_PAGES := by
    intro i hi; have := List.mem_range.1 hi; omega
  -- the checkpoint stage
  have hstage : ∃ wf pager1, (match table.wal with
        | none => (Except.ok (none, table.pager) : Except Fault (Option (List Nat) × Pager))
        | some wal =>
          match wal_checkpoint wal table.pager with
          | .error f => .error f
          | .ok (_, wal1, pager1) => .ok (some wal1.file, pager1)) = .ok (wf, pager1) ∧
        pager1.pages = table.pager.pages ∧ pager1.num_pages = table.pager.num_pages ∧
        table.pager.file.length ≤ pager1.file.length ∧ pager1.file.length % PAGE_SIZE = 0 ∧
        pager1.file.length ≤ table.pager.num_pages * PAGE_SIZE ∧
        (∀ j, table.pager.pages.getD j none = none →
          (j + 1) * PAGE_SIZE ≤ table.pager.file.length →
          file_read pager1.file (j * PAGE_SIZE) PAGE_SIZE
            = file_read table.pager.file (j * PAGE_SIZE) PAGE_SIZE) := by
    have hbound : table.pager.file.length ≤ table.pager.num_pages * PAGE_SIZE := by
      have := Nat.div_add_mod table.pager.file.length PAGE_SIZE
      rw [hfa] at this
      have h3 : PAGE_SIZE * (table.pager.file.length / PAGE_SIZE)
          ≤ PAGE_SIZE * table.pager.num_pages := Nat.mul_le_mul_left _ hfn
      rw [Nat.mul_comm PAGE_SIZE table.pager.num_pages] at h3
      omega
    cases hwal : table.wal with
    | none =>
      exact ⟨none, table.pager, rfl, rfl, rfl, le_refl _, hfa, hbound, fun _ _ _ => rfl⟩
    | some wal =>
      simp only [wal_checkpoint]
      by_cases ho : wal.is_open = true
      · simp only [ho, Bool.not_true, Bool.false_eq_true, if_false]
        obtain ⟨p1, e1, e2, e3, _, _, e6, e7, e8, _, e10⟩ :=
          flush_pages_loop_file (List.range table.pager.num_pages) table.pager hidx hslots hfa
        rw [e1]
        refine ⟨_, p1, rfl, e2, e3, e6, e7, ?_, ?_⟩
        · exact e8 _ hbound (fun i hi => List.mem_range.1 hi)
        · intro j hj hl
          exact e10 j (Or.inr hj) hl
      · simp only [Bool.not_eq_true] at ho
        simp only [ho, Bool.not_false, if_true]
        exact ⟨_, table.pager, rfl, rfl, rfl, le_refl _, hfa, hbound, fun _ _ _ => rfl⟩
  obtain ⟨wf, pager1, hs1, hs2, hs3, hs4, hs5, hs6, hs7⟩ := hstage
  have hidx1 : ∀ i ∈ List.range pager1.num_pages, i < TABLE_MAX_PAGES := by
    rw [hs3]; exact hidx
  obtain ⟨p2, e1, e2, _, _, _, e6, e7, e8, e9, e10⟩ :=
    flush_pages_loop_file (List.range pager1.num_pages) pager1 hidx1 (by rw [hs2]; exact hslots)
      hs5
  have hub : p2.file.length ≤ table.pager.num_pages * PAGE_SIZE :=
    e8 _ hs6 (fun i hi => by rw [hs3] at hi; exact List.mem_range.1 hi)
  -- what each page of the final file holds
  have hread : ∀ i, i < table.pager.num_pages →
      (i + 1) * PAGE_SIZE ≤ p2.file.length ∧
      (∀ page, table.pager.pages.getD i none = some page →
        file_read p2.file (i * PAGE_SIZE) PAGE_SIZE = page) ∧
      (table.pager.pages.getD i none = none →
        file_read p2.file (i * PAGE_SIZE) PAGE_SIZE
          = file_read table.pager.file (i * PAGE_SIZE) PAGE_SIZE) := by
    intro i hi
    have hmem : i ∈ List.range pager1.num_pages := by rw [hs3]; exact List.mem_range.2 hi
    cases hc : table.pager.pages.getD i none with
    | some page =>
      obtain ⟨r1, r2⟩ := e9 i page hmem (by rw [hs2]; exact hc)
      exact ⟨r1, fun pg hpg => (by cases hpg; exact r2), fun h => (by cases h)⟩
    | none =>
      have hin : i < table.pager.file_length / PAGE_SIZE := by
        rcases hall i hi with h | h
        · exact absurd hc h
        · exact h
      have hlen1 : (i + 1) * PAGE_SIZE ≤ table.pager.file.length := by
        have := Nat.div_add_mod table.pager.file_length PAGE_SIZE
        rw [hfl] at this
        have h3 : PAGE_SIZE * (i + 1) ≤ PAGE_SIZE * (table.pager.file_length / PAGE_SIZE) :=
          Nat.mul_le_mul_left _ hin
        rw [Nat.mul_comm PAGE_SIZE (i + 1)] at h3
        omega
      refine ⟨by omega, fun pg hpg => (by cases hpg), fun _ => ?_⟩
      rw [e10 i (Or.inr (by rw [hs2]; exact hc)) (by omega)]
      exact hs7 i hc hlen1
  refine ⟨p2.file, wf, ?_, ?_, ?_⟩
  · simp only [table_close]
    rw [hs1]
    simp only [e1]
  · have hlast := (hread (table.pager.num_pages - 1) (by omega)).1
    rw [show table.pager.num_pages - 1 + 1 = table.pager.num_pages by omega] at hlast
    omega
  · intro i hi
    exact (hread i hi).2

theorem pager_get_page_uncached (pager : Pager) (i : Nat) (hi : i < TABLE_MAX_PAGES)
    (hc : pager.pages.getD i none = none) (hfl : pager.file_length % PAGE_SIZE = 0)
    (hin : (i + 1) * PAGE_SIZE ≤ pager.file.length) (hi2 : i ≤ pager.file_length / PAGE_SIZE)
    (hfresh : pager.fresh.length = PAGE_SIZE) :
    ∃ pager1, pager_get_page pager i
      = .ok (file_read pager.file (i * PAGE_SIZE) PAGE_SIZE, pager1) := by
  have h2 : ¬ i > TABLE_MAX_PAGES := by omega
  have h3 : ¬ i ≥ TABLE_MAX_PAGES := by omega
  have hlen : (file_read pager.file (i * PAGE_SIZE) PAGE_SIZE).length = PAGE_SIZE := by
    simp only [file_read, List.length_take, List.length_drop]
    rw [Nat.add_mul] at hin
    omega
  simp only [pager_get_page, if_neg h2, if_neg h3, hc, hfl, ne_eq, not_true_eq_false, if_false,
    if_pos hi2, hlen]
  rw [List.drop_of_length_le (by omega), List.append_nil]
  exact ⟨_, rfl⟩

theorem replicate_getD_none (n i : Nat) :
    (List.replicate n (none : Option Page)).getD i none = none := by
  rw [List.getD_eq_getElem?_getD]
  by_cases h : i < n
  · simp [List.getElem?_replicate, h]
  · simp [List.getElem?_replicate, h]

/-- C6. Persistence across close and reopen: for every table whose pager is in the session
state (`pager_session_wf`: the state `table_open` establishes and that page fetches for
existing pages or the next unused page, stores into pages and checkpoints keep, which is how
INSERTs reach the pager), `table_close` returns, `table_open` on the database file it leaves
returns a table with the same number of pages, and every page number below `num_pages`
yields the same page image from `pager_get_page` after the reopen as before the close.  This
holds whatever the WAL file holds at the reopen. -/
theorem close_reopen_preserves_pages (table : Table) (fresh2 : Page)
    (wal_file2 : Option (List Nat)) (time pid : Nat) (hw : pager_session_wf table.pager)
    (hf2 : fresh2.length = PAGE_SIZE) :
    ∃ db_file wal_file table2, table_close table = .ok (db_file, wal_file) ∧
      table_open db_file fresh2 wal_file2 time pid = .ok table2 ∧
      table2.pager.num_pages = table.pager.num_pages ∧
      ∀ page_num, page_num < table.pager.num_pages →
        ∃ page pager1 pager2, pager_get_page table.pager page_num = .ok (page, pager1) ∧
          pager_get_page table2.pager page_num = .ok (page, pager2) := by
  obtain ⟨db_file, wal_file, hclose, hdl, hread⟩ := table_close_spec table hw
  obtain ⟨⟨hlen, hnum, hslots, hfresh⟩, hpos, hfl, hfa, hfle, hfn, hall⟩ := hw
  have hdiv : db_file.length / PAGE_SIZE = table.pager.num_pages := by
    rw [hdl]; simp [PAGE_SIZE]
  have hmod : db_file.length % PAGE_SIZE = 0 := by
    rw [hdl]; simp [PAGE_SIZE]
  have hlt : db_file.length < 4294967296 := by
    rw [hdl]; simp only [TABLE_MAX_PAGES, PAGE_SIZE] at hnum ⊢; omega
  have hopen := table_open_no_replay db_file fresh2 wal_file2 time pid hmod (by omega) hlt
  refine ⟨db_file, wal_file, _, hclose, hopen, hdiv, ?_⟩
  intro i hi
  have hi100 : i < TABLE_MAX_PAGES := by omega
  have hin2 : (i + 1) * PAGE_SIZE ≤ db_file.length := by
    rw [hdl]; exact Nat.mul_le_mul_right _ (by omega)
  obtain ⟨pg2, hget2⟩ := pager_get_page_uncached
    { file := db_file, file_length := db_file.length, num_pages := db_file.length / PAGE_SIZE,
      pages := List.replicate TABLE_MAX_PAGES none, fresh := fresh2 } i hi100
    (replicate_getD_none _ _) hmod hin2 (by simp only; omega) hf2
  simp only at hget2
  cases hc : table.pager.pages.getD i none with
  | some page =>
    have h2 : ¬ i > TABLE_MAX_PAGES := by omega
    have h3 : ¬ i ≥ TABLE_MAX_PAGES := by omega
    refine ⟨page, table.pager, pg2, ?_, ?_⟩
    · simp only [pager_get_page, if_neg h2, if_neg h3, hc]
    · rw [hget2, (hread i hi).1 page hc]
  | none =>
    have hin : i < table.pager.file_length / PAGE_SIZE := by
      rcases hall i hi with h | h
      · exact absurd hc h
      · exact h
    have hlen1 : (i + 1) * PAGE_SIZE ≤ table.pager.file.length := by
      have := Nat.div_add_mod table.pager.file_length PAGE_SIZE
      rw [hfl] at this
      have h3 : PAGE_SIZE * (i + 1) ≤ PAGE_SIZE * (table.pager.file_length / PAGE_SIZE) :=
        Nat.mul_le_mul_left _ hin
      rw [Nat.mul_comm PAGE_SIZE (i + 1)] at h3
      omega
    obtain ⟨pg1, hget1⟩ := pager_get_page_uncached table.pager i hi100 hc hfl hlen1 (by omega)
      hfresh
    refine ⟨_, pg1, pg2, hget1, ?_⟩
    rw [hget2, (hread i hi).2 hc]

/-- A concrete table for C6: the table holding the row of alice in its root leaf, which is
only in memory, is closed and reopened. -/
theorem close_reopen_preserves_pages_witness :
    ∃ db_file wal_file table2, table_close table_with_alice = .ok (db_file, wal_file) ∧
      table_open db_file (List.replicate PAGE_SIZE 5) wal_file 0 0 = .ok table2 ∧
      table2.pager.num_pages = table_with_alice.pager.num_pages ∧
      ∀ page_num, page_num < table_with_alice.pager.num_pages →
        ∃ page pager1 pager2,
          pager_get_page table_with_alice.pager page_num = .ok (page, pager1) ∧
          pager_get_page table2.pager page_num = .ok (page, pager2) := by
  obtain ⟨db_file, wal_file, table2, h1, _, _, _⟩ :=
    close_reopen_preserves_pages table_with_alice (List.replicate PAGE_SIZE 5) none 0 0
      (by decide!) (by decide!)
  obtain ⟨db2, wf2, t2, g1, g2, g3, g4⟩ :=
    close_reopen_preserves_pages table_with_alice (List.replicate PAGE_SIZE 5) wal_file 0 0
      (by decide!) (by decide!)
  rw [h1] at g1
  cases g1
  exact ⟨db_file, wal_file, t2, h1, g2, g3, g4⟩

/-! ## Theorems: the code at the inputs where it leaves the specification -/

/-- C3, the code at the failing input.  After a crash the database file is empty and the WAL
file holds a valid header and one complete frame with a valid checksum, the image of page 0
with the row of alice.  `table_open` does not replay it: `wal_open` sets `frame_count` to 0
whatever the file holds, so `wal_recover` is never called; page 0 of the opened table is a
newly initialised empty root leaf, and the WAL file is left as it was. -/
theorem table_open_skips_wal_replay :
    (frames_to_replay crash_wal_file).map (fun f => (f.header.page_number, f.page_data))
        = [(0, leaf_page true 0 0 [row_alice])] ∧
      (table_open [] (List.replicate PAGE_SIZE 0) (some crash_wal_file) 0 0).map
          (fun t => (t.pager.pages.getD 0 none, t.wal.map (fun w => (w.frame_count, w.file))))
        = .ok (some (leaf_page true 0 0 []), some (0, crash_wal_file)) := by
  decide!

/-- C4, the code at the failing input.  In `table_left_leaf_empty` the rows 8 and 9 are
stored (`table_find` leads to each of them), but the leftmost leaf has no cells, so
`table_start` sets `end_of_table` and the full scan emits no row at all. -/
theorem full_scan_stops_at_empty_first_leaf :
    (table_find table_left_leaf_empty 8).map (fun r => r.1) = .ok ⟨1, 0, false⟩ ∧
      (table_find table_left_leaf_empty 9).map (fun r => r.1) = .ok ⟨1, 1, false⟩ ∧
      leaf_node_key (leaf_page false 0 0 [row_u 8, row_u 9]) 0 = 8 ∧
      leaf_node_key (leaf_page false 0 0 [row_u 8, row_u 9]) 1 = 9 ∧
      (table_start table_left_leaf_empty).map (fun r => r.1) = .ok ⟨2, 0, true⟩ ∧
      (full_scan 100 table_left_leaf_empty).map (Option.map (fun r => r.1)) = .ok (some []) := by
  decide!

/-- C2, the code at the failing input.  In `table_rows_1_2_8` the id 2 is stored in cell 1 of
the left leaf (page 2) and `table_find` leads to it.  `execute_insert` of a row with id 2
does not return `EXECUTE_DUPLICATE_KEY`, whatever `leaf_node_insert` does: it compares the
cursor with `num_cells` and the keys of the root page, which is an internal node here (its
`num_keys` is 1, so the test `cell_num < num_cells` fails), and goes on to insert. -/
theorem execute_insert_misses_duplicate_in_leaf
    (leaf_node_insert : Table → Cursor → Nat → Row → Except Fault Table) :
    (table_find table_rows_1_2_8 2).map (fun r => r.1) = .ok ⟨2, 1, false⟩ ∧
      leaf_node_key (leaf_page false 0 1 [row_u 1, row_u 2]) 1 = 2 ∧
      (execute_insert leaf_node_insert none stmt_insert_2 table_rows_1_2_8).map (fun r => r.1)
        ≠ .ok .EXECUTE_DUPLICATE_KEY ∧
      ∀ result, execute_insert leaf_node_insert none stmt_insert_2 table_rows_1_2_8 = .ok result →
        result.1 = .EXECUTE_SUCCESS := by
  have h1 : pager_get_page table_rows_1_2_8.pager table_rows_1_2_8.root_page_num
      = .ok (internal_page true 0 [(2, 7)] 1, table_rows_1_2_8.pager) := by decide!
  have h2 : table_find { table_rows_1_2_8 with pager := table_rows_1_2_8.pager } 2
      = .ok (⟨2, 1, false⟩, table_rows_1_2_8) := by decide!
  have h3 : leaf_node_num_cells (internal_page true 0 [(2, 7)] 1) = 1 := by decide!
  have h4 : stmt_insert_2.row_to_insert = row_u 2 := rfl
  have h5 : (row_u 2).id = 2 := rfl
  have hex : execute_insert leaf_node_insert none stmt_insert_2 table_rows_1_2_8 =
      match leaf_node_insert table_rows_1_2_8 ⟨2, 1, false⟩ 2 (row_u 2) with
      | .error f => .error f
      | .ok table2 =>
        match table2.wal with
        | none => .ok (.EXECUTE_SUCCESS, table2, none)
        | some wal =>
          match pager_get_page table2.pager 2 with
          | .error f => .error f
          | .ok (page, pager2) =>
            .ok (.EXECUTE_SUCCESS,
              { table2 with pager := pager2,
                            wal := some (wal_write_frame wal 2 page pager2.num_pages).2 }, none) := by
    simp only [execute_insert, h1, h4, h5, h2, h3, update_indexes_on_insert]
    rw [if_neg (by omega)]
  refine ⟨by decide!, by decide!, ?_, ?_⟩
  · rw [hex]
    cases leaf_node_insert table_rows_1_2_8 ⟨2, 1, false⟩ 2 (row_u 2) with
    | error f => simp [Except.map]
    | ok table2 =>
      simp only
      cases table2.wal with
      | none => simp [Except.map]
      | some wal =>
        simp only
        cases pager_get_page table2.pager 2 with
        | error f => simp [Except.map]
        | ok r => simp [Except.map]
  · intro result hr
    rw [hex] at hr
    cases hl : leaf_node_insert table_rows_1_2_8 ⟨2, 1, false⟩ 2 (row_u 2) with
    | error f => rw [hl] at hr; cases hr
    | ok table2 =>
      rw [hl] at hr
      simp only at hr
      cases hw : table2.wal with
      | none => rw [hw] at hr; cases hr; rfl
      | some wal =>
        rw [hw] at hr
        simp only at hr
        cases hg : pager_get_page table2.pager 2 with
        | error f => rw [hg] at hr; cases hr
        | ok r => rw [hg] at hr; cases hr; rfl

/-- C5, the code at the failing input.  The index on `users.username` is created and built
over the table holding the row (1, alice, a@x): it agrees with the table.  Then
`UPDATE SET username = bob WHERE id = 1` runs and succeeds.  `execute_update` has no access
to the index manager, so the index is as before: the full scan now reads the user name bob
for id 1, the lookup of bob returns nothing and the lookup of alice returns id 1. -/
theorem index_disagrees_after_update :
    ∃ manager table1 table2,
      index_manager_build_from_table 10 manager_with_username_index str_users str_username
          table_with_alice = .ok (some (true, manager, table1)) ∧
        scanned_usernames 10 table1 = .ok (some [([97, 108, 105, 99, 101], 1)]) ∧
        secondary_index_lookup (manager.indexes.getD 0 default) [97, 108, 105, 99, 101]
          = (some [1], 1) ∧
        execute_update stmt_update_bob table1 = .ok (.EXECUTE_SUCCESS, table2) ∧
        scanned_usernames 10 table2 = .ok (some [([98, 111, 98], 1)]) ∧
        secondary_index_lookup (manager.indexes.getD 0 default) [98, 111, 98] = (none, 0) ∧
        secondary_index_lookup (manager.indexes.getD 0 default) [97, 108, 105, 99, 101]
          = (some [1], 1) := by
  refine ⟨{ indexes := [secondary_index_insert (new_index str_users str_username)
      row_alice.username_ptr 1] }, table_with_alice,
    { table_with_alice with
      pager := pager_set_page table_with_alice.pager 0
        (leaf_page true 0 0 [make_row 1 [98, 111, 98] [97, 64, 120]]) }, ?_, ?_, ?_, ?_, ?_, ?_, ?_⟩
  · decide!
  · decide!
  · decide!
  · decide!
  · decide!
  · decide!
  · decide!

/-! ## Theorems: building an index from a table -/

theorem insert_pos_loop_after (key : List Nat) (es : List IndexEntry)
    (hs : es.Pairwise (fun a b => strcmp a.key b.key ≤ 0)) :
    ∀ b ∈ es.drop (insert_pos_loop key es 0), strcmp key b.key < 0 := by
  intro b hb
  have hat := insert_pos_loop_at key es
  have hs2 : (es.drop (insert_pos_loop key es 0)).Pairwise (fun a b => strcmp a.key b.key ≤ 0) :=
    hs.sublist (List.drop_sublist _ _)
  cases hd : es.drop (insert_pos_loop key es 0) with
  | nil => rw [hd] at hb; simp at hb
  | cons d ds =>
    have hkd : strcmp key d.key < 0 := hat d (by rw [hd]; rfl)
    rw [hd] at hb hs2
    rcases List.mem_cons.1 hb with hb | hb
    · rw [hb]; exact hkd
    · exact strcmp_aux_lt_of_lt_of_le hkd ((List.pairwise_cons.1 hs2).1 b hb)

theorem secondary_index_insert_filter (index : SecondaryIndex) (k : List Nat) (pk : Nat)
    (v : List Nat) (hs : index_sorted index) (hk : (cstr k).length < 64) :
    ((secondary_index_insert index k pk).entries.filter
        (fun e => decide (strcmp e.key v = 0))).map (fun e => e.primary_key)
      = (index.entries.filter (fun e => decide (strcmp e.key v = 0))).map (fun e => e.primary_key)
        ++ (if cstr k = cstr v then [pk] else []) := by
  obtain ⟨e, hekey, hepk, hent⟩ := secondary_index_insert_entries index k pk
  have hek : cstr e.key = cstr k := by
    rw [hekey]; exact List.take_of_length_le (by omega)
  have hafter := insert_pos_loop_after k index.entries hs
  rw [hent]
  set p := insert_pos_loop k index.entries 0 with hp
  have hsplit : index.entries = index.entries.take p ++ index.entries.drop p :=
    (List.take_append_drop p _).symm
  conv_rhs => rw [hsplit]
  simp only [List.filter_append, List.filter_cons, List.map_append]
  by_cases hkv : cstr k = cstr v
  · have hev : strcmp e.key v = 0 := by
      rw [strcmp_eq_zero_iff, hek, hkv]
    have hdrop : (index.entries.drop p).filter (fun e => decide (strcmp e.key v = 0)) = [] := by
      rw [List.filter_eq_nil_iff]
      intro b hb
      have h1 := hafter b hb
      simp only [decide_eq_true_eq]
      intro hc
      rw [strcmp_eq_zero_iff] at hc
      unfold strcmp at h1
      rw [hc, hkv, strcmp_aux_self] at h1
      omega
    simp [hev, hdrop, hkv, hepk]
  · have hev : ¬ strcmp e.key v = 0 := by
      rw [strcmp_eq_zero_iff, hek]; exact hkv
    simp [hev, hkv]

theorem write_u32_length (buf : List Nat) (off x : Nat) (h : off + 4 ≤ buf.length) :
    (write_u32 buf off x).length = buf.length := by
  simp only [write_u32, memcpy, u32_bytes, List.length_append, List.length_take,
    List.length_drop, List.length_cons, List.length_nil]
  omega

theorem initialize_leaf_node_length (node : Page) (h : node.length = PAGE_SIZE) :
    (set_node_root (initialize_leaf_node node) true).length = PAGE_SIZE := by
  simp only [PAGE_SIZE] at h
  simp only [set_node_root, initialize_leaf_node, List.length_set]
  rw [write_u32_length _ _ _ (by
    rw [write_u32_length _ _ _ (by simp [LEAF_NODE_NUM_CELLS_OFFSET, COMMON_NODE_HEADER_SIZE, h])]
    simp [LEAF_NODE_NEXT_LEAF_OFFSET, LEAF_NODE_NUM_CELLS_OFFSET, COMMON_NODE_HEADER_SIZE, h])]
  rw [write_u32_length _ _ _ (by simp [LEAF_NODE_NUM_CELLS_OFFSET, COMMON_NODE_HEADER_SIZE, h])]
  simp [h, PAGE_SIZE]

theorem getD_set_ne_none (pages : List (Option Page)) (i j : Nat) (page : Page)
    (h : pages.getD j none ≠ none) : (pages.set i (some page)).getD j none ≠ none := by
  rw [List.getD_eq_getElem?_getD] at h ⊢
  rw [List.getElem?_set]
  split_ifs with h1 h2
  · simp
  · subst h1
    have : pages[i]? = none := List.getElem?_eq_none (by omega)
    rw [this] at h
    simp at h
  · exact h

theorem getD_set_same_ne_none (pages : List (Option Page)) (i : Nat) (page : Page)
    (h : i < pages.length) : (pages.set i (some page)).getD i none ≠ none := by
  rw [List.getD_eq_getElem?_getD, List.getElem?_set_self h]
  simp

/-- The pager `table_open` returns is in the session state, for a database file of at most
`TABLE_MAX_PAGES` pages. -/
theorem table_open_session_wf (db_file : List Nat) (fresh : Page)
    (wal_file : Option (List Nat)) (time pid : Nat) (table : Table)
    (hsize : db_file.length ≤ TABLE_MAX_PAGES * PAGE_SIZE) (hfresh : fresh.length = PAGE_SIZE)
    (hopen : table_open db_file fresh wal_file time pid = .ok table) :
    pager_session_wf table.pager := by
  by_cases ha : db_file.length % PAGE_SIZE = 0
  · have hl : db_file.length < 4294967296 := by
      simp only [TABLE_MAX_PAGES, PAGE_SIZE] at hsize; omega
    have hdivle : db_file.length / PAGE_SIZE ≤ TABLE_MAX_PAGES := by
      apply Nat.div_le_of_le_mul
      rw [Nat.mul_comm]; exact hsize
    by_cases hp : 0 < db_file.length / PAGE_SIZE
    · rw [table_open_no_replay db_file fresh wal_file time pid ha hp hl] at hopen
      cases hopen
      refine ⟨⟨by simp, hdivle, ?_, hfresh⟩, hp, ha, ha, le_refl _, le_refl _, ?_⟩
      · intro slot hs
        rw [List.eq_of_mem_replicate hs]
        trivial
      · intro i hi; right; exact hi
    · have hzero : db_file.length = 0 := by
        have := Nat.div_add_mod db_file.length PAGE_SIZE
        rw [ha] at this
        have h0 : db_file.length / PAGE_SIZE = 0 := Nat.le_zero.1 (not_lt.1 hp)
        rw [h0, Nat.mul_zero] at this
        omega
      have hnil : db_file = [] := List.eq_nil_of_length_eq_zero hzero
      subst hnil
      have hrec : ∀ w : Option WAL, (match w with
          | none => (Except.ok (none, (⟨[], 0, 0, List.replicate TABLE_MAX_PAGES none, fresh⟩ : Pager))
              : Except Fault (Option WAL × Pager))
          | some wal =>
            if wal.frame_count > 0 then
              match wal_recover wal ⟨[], 0, 0, List.replicate TABLE_MAX_PAGES none, fresh⟩ with
              | .error f => .error f
              | .ok (_, wal1, pager1) => .ok (some wal1, pager1)
            else .ok (some wal, ⟨[], 0, 0, List.replicate TABLE_MAX_PAGES none, fresh⟩))
          = .ok (w, ⟨[], 0, 0, List.replicate TABLE_MAX_PAGES none, fresh⟩) ∨
          ∃ wal, w = some wal ∧ wal.frame_count > 0 := by
        intro w
        cases w with
        | none => left; rfl
        | some wal =>
          by_cases hc : wal.frame_count > 0
          · right; exact ⟨wal, rfl, hc⟩
          · left; simp only [if_neg hc]
      simp only [table_open, pager_open, List.length_nil, Nat.zero_mod, ne_eq,
        not_true_eq_false, if_false, Nat.zero_div] at hopen
      rcases hrec (wal_open wal_file time pid) with h1 | ⟨wal, h1, h2⟩
      · rw [h1] at hopen
        simp only [if_true] at hopen
        have hget : pager_get_page ⟨[], 0, 0, List.replicate TABLE_MAX_PAGES none, fresh⟩ 0
            = .ok (fresh, ⟨[], 0, 1, (List.replicate TABLE_MAX_PAGES none).set 0 (some fresh),
                fresh⟩) := by
          simp [pager_get_page, TABLE_MAX_PAGES, file_read, PAGE_SIZE]
        rw [hget] at hopen
        simp only [Except.ok.injEq] at hopen
        rw [← hopen]
        have hrl := initialize_leaf_node_length fresh hfresh
        refine ⟨⟨by simp [pager_set_page], by simp [TABLE_MAX_PAGES], ?_, hfresh⟩, by simp,
          by simp [pager_set_page], by simp [pager_set_page], by simp [pager_set_page],
          by simp [pager_set_page], ?_⟩
        · simp only [pager_set_page]
          apply slots_wf_set _ _ _ _ hrl
          apply slots_wf_set _ _ _ _ hfresh
          intro slot hs
          rw [List.eq_of_mem_replicate hs]
          trivial
        · intro i hi
          have : i = 0 := by simp at hi; omega
          subst this
          left
          simp only [pager_set_page]
          exact getD_set_same_ne_none _ _ _ (by simp [TABLE_MAX_PAGES])
      · have := wal_open_frame_count _ _ _ _ h1
        omega
  · simp [table_open, pager_open, ha] at hopen

/-- A call of `pager_get_page` for a page below `num_pages`, or for the next unused page
`num_pages`, keeps the session state. -/
theorem pager_get_page_session_wf (pager : Pager) (page_num : Nat) (page : Page)
    (pager1 : Pager) (hw : pager_session_wf pager) (hp : page_num ≤ pager.num_pages)
    (hget : pager_get_page pager page_num = .ok (page, pager1)) : pager_session_wf pager1 := by
  obtain ⟨hwf, hpos, hfl, hfa, hfle, hfn, hall⟩ := hw
  have hlt : page_num < TABLE_MAX_PAGES := by
    by_contra hc
    unfold pager_get_page at hget
    split_ifs at hget <;> omega
  obtain ⟨pg, p1, e1, _, e3, e4, _, e6, e7, e8, e9⟩ := pager_get_page_ok pager page_num hwf hlt
  rw [e1] at hget
  simp only [Except.ok.injEq, Prod.mk.injEq] at hget
  obtain ⟨h1, h2⟩ := hget
  subst h1 h2
  refine ⟨e9, by omega, by rw [e4]; exact hfl, by rw [e3]; exact hfa, by rw [e3, e4]; exact hfle,
    by rw [e3]; omega, ?_⟩
  intro i hi
  rw [e6, e4]
  by_cases hin : i < pager.num_pages
  · rcases hall i hin with h | h
    · left; exact getD_set_ne_none _ _ _ _ h
    · right; exact h
  · have : i = page_num := by
      rcases e8 with h | h
      · omega
      · omega
    subst this
    left
    exact getD_set_same_ne_none _ _ _ (by rw [hwf.1]; exact hlt)

/-- A store into a page that is in a slot keeps the session state. -/
theorem pager_set_page_session_wf (pager : Pager) (page_num : Nat) (page : Page)
    (hw : pager_session_wf pager) (hl : page.length = PAGE_SIZE) :
    pager_session_wf (pager_set_page pager page_num page) := by
  obtain ⟨⟨h1, h2, h3, h4⟩, hpos, hfl, hfa, hfle, hfn, hall⟩ := hw
  refine ⟨⟨by simpa [pager_set_page] using h1, h2, slots_wf_set _ _ _ h3 hl, h4⟩, hpos, hfl, hfa,
    hfle, hfn, ?_⟩
  intro i hi
  rcases hall i hi with h | h
  · left; exact getD_set_ne_none _ _ _ _ h
  · right; exact h

/-- A checkpoint keeps the session state. -/
theorem wal_checkpoint_session_wf (wal : WAL) (pager : Pager) (b : Bool) (wal1 : WAL)
    (pager1 : Pager) (hw : pager_session_wf pager)
    (hc : wal_checkpoint wal pager = .ok (b, wal1, pager1)) : pager_session_wf pager1 := by
  obtain ⟨⟨h1, h2, h3, h4⟩, hpos, hfl, hfa, hfle, hfn, hall⟩ := hw
  unfold wal_checkpoint at hc
  by_cases ho : wal.is_open = true
  · simp only [ho, Bool.not_true, Bool.false_eq_true, if_false] at hc
    obtain ⟨p1, e1, e2, e3, e4, e5, e6, e7, e8, _, _⟩ :=
      flush_pages_loop_file (List.range pager.num_pages) pager
        (by intro i hi; have := List.mem_range.1 hi; omega) h3 hfa
    rw [e1] at hc
    simp only [Except.ok.injEq, Prod.mk.injEq] at hc
    obtain ⟨_, _, hp⟩ := hc
    subst hp
    have hbound : pager.file.length ≤ pager.num_pages * PAGE_SIZE := by
      have := Nat.div_add_mod pager.file.length PAGE_SIZE
      rw [hfa] at this
      have h5 : PAGE_SIZE * (pager.file.length / PAGE_SIZE) ≤ PAGE_SIZE * pager.num_pages :=
        Nat.mul_le_mul_left _ hfn
      rw [Nat.mul_comm PAGE_SIZE pager.num_pages] at h5
      omega
    have hub := e8 _ hbound (fun i hi => List.mem_range.1 hi)
    refine ⟨⟨by rw [e2]; exact h1, by rw [e3]; exact h2, by rw [e2]; exact h3,
      by rw [e5]; exact h4⟩, by rw [e3]; exact hpos, by rw [e4]; exact hfl, e7,
      by rw [e4]; omega, ?_, ?_⟩
    · rw [e3]
      apply Nat.div_le_of_le_mul
      rw [Nat.mul_comm]; exact hub
    · intro i hi
      rw [e2, e4]
      exact hall i (by rw [e3] at hi; exact hi)
  · simp only [Bool.not_eq_true] at ho
    simp only [ho, Bool.not_false, if_true, Except.ok.injEq, Prod.mk.injEq] at hc
    obtain ⟨_, _, hp⟩ := hc
    subst hp
    exact ⟨⟨h1, h2, h3, h4⟩, hpos, hfl, hfa, hfle, hfn, hall⟩

/-! ## Theorems: query planner -/

theorem leaf_node_max_cells_eq : LEAF_NODE_MAX_CELLS = 13 := by decide

/-- The number of iterations of the loop of `tree_height` in closed form. -/
theorem tree_height_loop_eq (fuel : Nat) : ∀ (h temp : Nat), temp ≤ fuel →
    tree_height_loop fuel h temp = h + (if temp ≤ 13 then 0 else Nat.log 13 (temp / 14) + 1) := by
  induction fuel with
  | zero =>
    intro h temp hle
    have : temp = 0 := Nat.le_zero.1 hle
    subst this
    simp [tree_height_loop]
  | succ fuel ih =>
    intro h temp hle
    unfold tree_height_loop
    rw [leaf_node_max_cells_eq]
    by_cases hgt : temp > 13
    · rw [if_pos hgt, if_neg (by omega)]
      have hdiv : temp / 13 ≤ fuel := by
        have : temp / 13 < temp := Nat.div_lt_self (by omega) (by norm_num)
        omega
      rw [ih (h + 1) (temp / 13) hdiv]
      by_cases hsmall : temp / 13 ≤ 13
      · rw [if_pos hsmall]
        have h14 : temp / 14 < 13 := by omega
        have hlog : Nat.log 13 (temp / 14) = 0 := Nat.log_of_lt h14
        omega
      · rw [if_neg hsmall]
        have h14 : 13 ≤ temp / 14 := by omega
        have hdd : temp / 13 / 14 = temp / 14 / 13 := by
          rw [Nat.div_div_eq_div_mul, Nat.div_div_eq_div_mul]
        have hlog : Nat.log 13 (temp / 14) = Nat.log 13 (temp / 14 / 13) + 1 :=
          Nat.log_of_one_lt_of_le (by norm_num) h14
        rw [hdd]
        omega
    · rw [if_neg hgt, if_pos (by omega)]
      rfl

/-- The closed form of `tree_height`. -/
theorem tree_height_eq (n : Nat) :
    tree_height n = if n ≤ 13 then 1 else Nat.log 13 (n / 14) + 2 := by
  unfold tree_height
  rw [tree_height_loop_eq n 1 n (Nat.le_refl n)]
  split_ifs <;> omega

theorem tree_height_le (n : Nat) (hn : n < 4294967296) : tree_height n ≤ 9 := by
  rw [tree_height_eq]
  split_ifs
  · omega
  · have h1 : n / 14 < 13 ^ 8 := by
      have : n / 14 < 4294967296 / 14 + 1 := Nat.lt_succ_of_le (Nat.div_le_div_right (by omega))
      have h2 : (4294967296 / 14 + 1 : Nat) ≤ 13 ^ 8 := by norm_num
      omega
    have h3 : Nat.log 13 (n / 14) < 8 := Nat.log_lt_of_lt_pow (by omega) h1
    omega

theorem count_loop_lt (fuel : Nat) : ∀ (table : Table) (cursor : Cursor) (count n : Nat)
    (table1 : Table), count < 4294967296 →
    count_loop fuel table cursor count = .ok (some (n, table1)) → n < 4294967296 := by
  induction fuel with
  | zero => intro table cursor count n table1 _ h; simp [count_loop] at h
  | succ fuel ih =>
    intro table cursor count n table1 hc h
    unfold count_loop at h
    by_cases he : cursor.end_of_table = true
    · rw [if_pos he] at h
      injection h with h
      injection h with h
      injection h with h1 h2
      omega
    · rw [if_neg he] at h
      cases hadv : cursor_advance table cursor with
      | error f => rw [hadv] at h; cases h
      | ok r =>
        rw [hadv] at h
        exact ih r.2 r.1 _ n table1 (Nat.mod_lt _ (by norm_num)) h

theorem count_table_rows_lt (fuel : Nat) (table : Table) (n : Nat) (table1 : Table)
    (h : count_table_rows fuel table = .ok (some (n, table1))) : n < 4294967296 := by
  unfold count_table_rows at h
  cases hs : table_start table with
  | error f => rw [hs] at h; cases h
  | ok r =>
    rw [hs] at h
    exact count_loop_lt fuel r.2 r.1 0 n table1 (by norm_num) h

/-- C11: for every row count `n` that `count_table_rows` delivers, for every SELECT, UPDATE
and DELETE whose WHERE column is `id` and for every INSERT, `optimize_query` returns the
plan INDEX_SEARCH on the column `id` with `uses_index` true, 1 estimated row and the cost
`tree_height * 5` plus 0, 10, 15 or 20 for SELECT, INSERT, UPDATE, DELETE. -/
theorem optimize_query_index_search (fuel : Nat) (stmt : ParsedStatement) (table table1 : Table)
    (n : Nat) (hcount : count_table_rows fuel table = .ok (some (n, table1)))
    (hstmt : stmt.type = .STMT_INSERT ∨
      ((stmt.type = .STMT_SELECT ∨ stmt.type = .STMT_UPDATE ∨ stmt.type = .STMT_DELETE) ∧
        ∃ w, stmt.where_clause = some w ∧ strcmp w.column str_id = 0)) :
    ∃ plan, optimize_query fuel stmt table = .ok (some (plan, table1)) ∧
      plan.scan_type = .SCAN_INDEX_SEARCH ∧ plan.index_column = some str_id ∧
      plan.uses_index = true ∧ plan.estimated_rows = 1 ∧
      (stmt.type = .STMT_SELECT → plan.estimated_cost = tree_height n * 5) ∧
      (stmt.type = .STMT_INSERT → plan.estimated_cost = tree_height n * 5 + 10) ∧
      (stmt.type = .STMT_UPDATE → plan.estimated_cost = tree_height n * 5 + 15) ∧
      (stmt.type = .STMT_DELETE → plan.estimated_cost = tree_height n * 5 + 20) := by
  have hn := count_table_rows_lt fuel table n table1 hcount
  have hh := tree_height_le n hn
  have hplan : ∀ extra, extra ≤ 20 →
      (index_search_plan n extra).estimated_cost = tree_height n * 5 + extra := by
    intro extra he
    unfold index_search_plan
    exact Nat.mod_eq_of_lt (by omega)
  unfold optimize_query
  rw [hcount]
  rcases hstmt with hi | ⟨ht, w, hw, hid⟩
  · refine ⟨index_search_plan n 10, ?_, rfl, rfl, rfl, rfl, ?_⟩
    · simp [hi]
    · rw [hplan 10 (by omega), hi]; simp
  · have hwid : where_on_id stmt = true := by
      unfold where_on_id
      rw [hw]
      exact decide_eq_true hid
    rcases ht with ht | ht | ht
    · refine ⟨index_search_plan n 0, ?_, rfl, rfl, rfl, rfl, ?_⟩
      · simp [ht, hwid]
      · rw [hplan 0 (by omega), ht]; simp
    · refine ⟨index_search_plan n 15, ?_, rfl, rfl, rfl, rfl, ?_⟩
      · simp [ht, hwid]
      · rw [hplan 15 (by omega), ht]; simp
    · refine ⟨index_search_plan n 20, ?_, rfl, rfl, rfl, rfl, ?_⟩
      · simp [ht, hwid]
      · rw [hplan 20 (by omega), ht]; simp

theorem optimize_query_index_search_witness :
    count_table_rows 5 table_with_alice = .ok (some (1, table_with_alice)) ∧
    ∃ plan, optimize_query 5 stmt_update_bob table_with_alice =
        .ok (some (plan, table_with_alice)) ∧
      plan.scan_type = .SCAN_INDEX_SEARCH ∧ plan.index_column = some str_id ∧
      plan.uses_index = true ∧ plan.estimated_rows = 1 ∧
      (stmt_update_bob.type = .STMT_SELECT → plan.estimated_cost = tree_height 1 * 5) ∧
      (stmt_update_bob.type = .STMT_INSERT → plan.estimated_cost = tree_height 1 * 5 + 10) ∧
      (stmt_update_bob.type = .STMT_UPDATE → plan.estimated_cost = tree_height 1 * 5 + 15) ∧
      (stmt_update_bob.type = .STMT_DELETE → plan.estimated_cost = tree_height 1 * 5 + 20) :=
  ⟨by decide!, optimize_query_index_search 5 stmt_update_bob table_with_alice table_with_alice 1
    (by decide!) (Or.inr ⟨Or.inr (Or.inl rfl), _, rfl, by decide⟩)⟩

/-- C12, counterexample: for `SELECT *` on an empty table the row count is 0 and the plan
is a full scan with 0 estimated rows, but the estimated cost is 1, not `0 * 5`. -/
theorem optimize_query_select_cost_empty_table :
    count_table_rows 5 table_empty = .ok (some (0, table_empty)) ∧
    optimize_query 5 stmt_select_all table_empty =
      .ok (some ({ scan_type := .SCAN_FULL_TABLE, index_column := none, estimated_rows := 0,
                   estimated_cost := 1, uses_index := false }, table_empty)) ∧
    (1 : Nat) ≠ 0 * 5 := by
  refine ⟨by decide!, by decide!, by decide⟩

/-- C12, amended: for every row count `n` that `count_table_rows` delivers and every SELECT,
UPDATE and DELETE without WHERE or with WHERE on a column other than `id`,
`optimize_query` returns the plan FULL_TABLE with `uses_index` false, no index column and
`n` estimated rows; the cost, computed in 32-bit arithmetic, is 1 for SELECT when `n = 0`
and `n * 5` when `n > 0`, `n * 10 + 50` for UPDATE and `n * 10 + 100` for DELETE, without
wrap-around as long as `n * 10 + 100 < 2^32`. -/
theorem optimize_query_full_table (fuel : Nat) (stmt : ParsedStatement) (table table1 : Table)
    (n : Nat) (hcount : count_table_rows fuel table = .ok (some (n, table1)))
    (htype : stmt.type = .STMT_SELECT ∨ stmt.type = .STMT_UPDATE ∨ stmt.type = .STMT_DELETE)
    (hwhere : ∀ w, stmt.where_clause = some w → strcmp w.column str_id ≠ 0) :
    ∃ plan, optimize_query fuel stmt table = .ok (some (plan, table1)) ∧
      plan.scan_type = .SCAN_FULL_TABLE ∧ plan.index_column = none ∧
      plan.uses_index = false ∧ plan.estimated_rows = n ∧
      (stmt.type = .STMT_SELECT →
        plan.estimated_cost = if n = 0 then 1 else n * 5 % 4294967296) ∧
      (stmt.type = .STMT_UPDATE → plan.estimated_cost = (n * 10 + 50) % 4294967296) ∧
      (stmt.type = .STMT_DELETE → plan.estimated_cost = (n * 10 + 100) % 4294967296) ∧
      (n * 10 + 100 < 4294967296 →
        (stmt.type = .STMT_SELECT → 0 < n → plan.estimated_cost = n * 5) ∧
        (stmt.type = .STMT_UPDATE → plan.estimated_cost = n * 10 + 50) ∧
        (stmt.type = .STMT_DELETE → plan.estimated_cost = n * 10 + 100)) := by
  have hwid : where_on_id stmt = false := by
    unfold where_on_id
    cases hw : stmt.where_clause with
    | none => rfl
    | some w => exact decide_eq_false (hwhere w hw)
  unfold optimize_query
  rw [hcount]
  rcases htype with ht | ht | ht
  · refine ⟨{ scan_type := .SCAN_FULL_TABLE, index_column := none, estimated_rows := n,
              estimated_cost := if n > 0 then n * 5 % 4294967296 else 1, uses_index := false },
      by simp only [ht, hwid]; rfl, rfl, rfl, rfl, rfl, ?_, ?_, ?_, ?_⟩
    · intro _
      by_cases h0 : n = 0
      · simp [h0]
      · simp [h0, Nat.pos_of_ne_zero h0]
    · intro h; rw [ht] at h; cases h
    · intro h; rw [ht] at h; cases h
    · intro hb
      refine ⟨fun _ hpos => ?_, fun h => ?_, fun h => ?_⟩
      · show (if n > 0 then n * 5 % 4294967296 else 1) = n * 5
        rw [if_pos hpos]
        exact Nat.mod_eq_of_lt (by omega)
      · rw [ht] at h; cases h
      · rw [ht] at h; cases h
  · refine ⟨{ scan_type := .SCAN_FULL_TABLE, index_column := none, estimated_rows := n,
              estimated_cost := (n * 10 + 50) % 4294967296, uses_index := false },
      by simp only [ht, hwid]; rfl, rfl, rfl, rfl, rfl, ?_, ?_, ?_, ?_⟩
    · intro h; rw [ht] at h; cases h
    · intro _; rfl
    · intro h; rw [ht] at h; cases h
    · intro hb
      refine ⟨fun h => ?_, fun _ => Nat.mod_eq_of_lt (by omega), fun h => ?_⟩
      · rw [ht] at h; cases h
      · rw [ht] at h; cases h
  · refine ⟨{ scan_type := .SCAN_FULL_TABLE, index_column := none, estimated_rows := n,
              estimated_cost := (n * 10 + 100) % 4294967296, uses_index := false },
      by simp only [ht, hwid]; rfl, rfl, rfl, rfl, rfl, ?_, ?_, ?_, ?_⟩
    · intro h; rw [ht] at h; cases h
    · intro h; rw [ht] at h; cases h
    · intro _; rfl
    · intro hb
      refine ⟨fun h => ?_, fun h => ?_, fun _ => Nat.mod_eq_of_lt (by omega)⟩
      · rw [ht] at h; cases h
      · rw [ht] at h; cases h

theorem optimize_query_full_table_witness :
    count_table_rows 5 table_rows_1_2_8 = .ok (some (3, table_rows_1_2_8)) ∧
    ∃ plan, optimize_query 5 stmt_select_all table_rows_1_2_8 =
        .ok (some (plan, table_rows_1_2_8)) ∧
      plan.scan_type = .SCAN_FULL_TABLE ∧ plan.index_column = none ∧
      plan.uses_index = false ∧ plan.estimated_rows = 3 ∧
      (stmt_select_all.type = .STMT_SELECT →
        plan.estimated_cost = if 3 = 0 then 1 else 3 * 5 % 4294967296) ∧
      (stmt_select_all.type = .STMT_UPDATE → plan.estimated_cost = (3 * 10 + 50) % 4294967296) ∧
      (stmt_select_all.type = .STMT_DELETE → plan.estimated_cost = (3 * 10 + 100) % 4294967296) ∧
      (3 * 10 + 100 < 4294967296 →
        (stmt_select_all.type = .STMT_SELECT → 0 < 3 → plan.estimated_cost = 3 * 5) ∧
        (stmt_select_all.type = .STMT_UPDATE → plan.estimated_cost = 3 * 10 + 50) ∧
        (stmt_select_all.type = .STMT_DELETE → plan.estimated_cost = 3 * 10 + 100)) :=
  ⟨by decide!, optimize_query_full_table 5 stmt_select_all table_rows_1_2_8 table_rows_1_2_8 3
    (by decide!) (Or.inl rfl) (fun w hw => by cases hw)⟩

/-- C13, counterexample: for 13 rows the planner uses the tree height 1, while
`ceil(log_13 13) + 1` is 2. -/
theorem tree_height_of_13 : tree_height 13 = 1 ∧ Nat.clog 13 13 + 1 = 2 := by
  refine ⟨by decide, ?_⟩
  have h : Nat.clog 13 (13 ^ 1) = 1 := Nat.clog_pow 13 1 (by norm_num)
  simpa using h

/-- C13, amended: the tree height the planner uses is 1 plus the number of integer
divisions by 13 it takes to bring the row count to 13 or less: it is 1 exactly for
`n ≤ 13`, and `k + 2` exactly for `14 * 13^k ≤ n < 14 * 13^(k+1)`.  It equals
`ceil(log_13 n) + 1` for `n = 1` and is smaller for every `n ≥ 2`. -/
theorem tree_height_spec (n : Nat) :
    (tree_height n = 1 ↔ n ≤ 13) ∧
    (∀ k, tree_height n = k + 2 ↔ 14 * 13 ^ k ≤ n ∧ n < 14 * 13 ^ (k + 1)) ∧
    (n = 1 → tree_height n = Nat.clog 13 n + 1) ∧
    (2 ≤ n → tree_height n < Nat.clog 13 n + 1) := by
  have hchar : ∀ k, 13 < n → (Nat.log 13 (n / 14) = k ↔ 14 * 13 ^ k ≤ n ∧ n < 14 * 13 ^ (k + 1)) := by
    intro k hn
    have hne : n / 14 ≠ 0 := by
      have : 1 ≤ n / 14 := (Nat.le_div_iff_mul_le (by norm_num)).2 (by omega)
      omega
    rw [Nat.log_eq_iff (Or.inr ⟨by norm_num, hne⟩), Nat.le_div_iff_mul_le (by norm_num),
      Nat.div_lt_iff_lt_mul (by norm_num)]
    constructor
    · rintro ⟨h1, h2⟩; constructor <;> linarith
    · rintro ⟨h1, h2⟩; constructor <;> linarith
  refine ⟨?_, ?_, ?_, ?_⟩
  · rw [tree_height_eq]
    split_ifs with h
    · simp [h]
    · constructor
      · intro h1; omega
      · intro h1; omega
  · intro k
    rw [tree_height_eq]
    split_ifs with h
    · constructor
      · intro h1; omega
      · rintro ⟨h1, _⟩
        have : 1 ≤ 13 ^ k := Nat.one_le_pow _ _ (by norm_num)
        omega
    · rw [← hchar k (by omega)]
      omega
  · intro h1
    subst h1
    rw [tree_height_eq]
    simp
  · intro h2
    by_cases h : n ≤ 13
    · rw [tree_height_eq, if_pos h]
      have : 0 < Nat.clog 13 n := Nat.clog_pos (by norm_num) h2
      omega
    · rw [tree_height_eq, if_neg h]
      have hk := (hchar (Nat.log 13 (n / 14)) (by omega)).1 rfl
      have hlt : Nat.log 13 (n / 14) + 1 < Nat.clog 13 n := by
        apply (Nat.pow_lt_iff_lt_clog (by norm_num)).1
        have : 13 ^ (Nat.log 13 (n / 14) + 1) = 13 * 13 ^ Nat.log 13 (n / 14) := by
          rw [pow_succ]; ring
        omega
      omega

theorem tree_height_spec_witness : tree_height 14 = 2 :=
  ((tree_height_spec 14).2.1 0).2 ⟨by norm_num, by norm_num⟩

/-! ## Theorems: reads through the page cache -/

theorem pager_get_page_cases (p : Pager) (i : Nat) (pg : Page) (p1 : Pager)
    (h : pager_get_page p i = .ok (pg, p1)) :
    i < TABLE_MAX_PAGES ∧
    ((p.pages.getD i none = some pg ∧ p1 = p) ∨
     (p.pages.getD i none = none ∧ pg = page_from_file p i ∧
      p1 = { p with pages := p.pages.set i (some pg),
                    num_pages := if i ≥ p.num_pages then i + 1 else p.num_pages })) := by
  unfold pager_get_page at h
  by_cases h1 : i > TABLE_MAX_PAGES
  · rw [if_pos h1] at h; cases h
  · rw [if_neg h1] at h
    by_cases h2 : i ≥ TABLE_MAX_PAGES
    · rw [if_pos h2] at h; cases h
    · rw [if_neg h2] at h
      refine ⟨by omega, ?_⟩
      cases hc : p.pages.getD i none with
      | some page =>
        rw [hc] at h
        injection h with h
        injection h with h3 h4
        left
        exact ⟨by rw [h3], h4.symm⟩
      | none =>
        rw [hc] at h
        injection h with h
        injection h with h3 h4
        right
        refine ⟨rfl, h3.symm, ?_⟩
        rw [← h4, ← h3]

theorem pager_get_page_of_cached (p : Pager) (i : Nat) (pg : Page) (hi : i < TABLE_MAX_PAGES)
    (hc : p.pages.getD i none = some pg) : pager_get_page p i = .ok (pg, p) := by
  unfold pager_get_page
  rw [if_neg (by omega), if_neg (by omega), hc]

theorem pager_get_page_of_miss (p : Pager) (i : Nat) (hi : i < TABLE_MAX_PAGES)
    (hc : p.pages.getD i none = none) :
    pager_get_page p i = .ok (page_from_file p i,
      { p with pages := p.pages.set i (some (page_from_file p i)),
               num_pages := if i ≥ p.num_pages then i + 1 else p.num_pages }) := by
  unfold pager_get_page
  rw [if_neg (by omega), if_neg (by omega), hc]
  rfl

theorem page_from_file_congr (p q : Pager) (i : Nat) (h1 : q.file = p.file)
    (h2 : q.file_length = p.file_length) (h3 : q.fresh = p.fresh) :
    page_from_file q i = page_from_file p i := by
  unfold page_from_file
  rw [h1, h2, h3]

theorem cache_ext_refl (p : Pager) : cache_ext p p :=
  ⟨rfl, rfl, rfl, rfl, fun _ => Or.inl rfl⟩

theorem cache_ext_trans (p q r : Pager) (h1 : cache_ext p q) (h2 : cache_ext q r) :
    cache_ext p r := by
  obtain ⟨a1, a2, a3, a4, a5⟩ := h1
  obtain ⟨b1, b2, b3, b4, b5⟩ := h2
  refine ⟨b1.trans a1, b2.trans a2, b3.trans a3, b4.trans a4, fun i => ?_⟩
  rcases b5 i with hb | ⟨hb1, hb2⟩
  · rw [hb]; exact a5 i
  · rcases a5 i with ha | ⟨ha1, ha2⟩
    · right
      refine ⟨by rw [← ha]; exact hb1, ?_⟩
      rw [hb2, page_from_file_congr p q i a1 a2 a3]
    · rw [ha2] at hb1; cases hb1

theorem getD_set_none (l : List (Option Page)) (i j : Nat) (x : Option Page) :
    (l.set i x).getD j none = if i = j ∧ i < l.length then x else l.getD j none := by
  simp only [List.getD_eq_getElem?_getD, List.getElem?_set]
  by_cases hij : i = j
  · subst hij
    by_cases hl : i < l.length
    · simp [hl]
    · simp [hl, List.getElem?_eq_none (not_lt.1 hl)]
  · simp [hij]

/-- A call of `pager_get_page` only serves a cache miss. -/
theorem pager_get_page_cache_ext (p : Pager) (i : Nat) (pg : Page) (p1 : Pager)
    (h : pager_get_page p i = .ok (pg, p1)) : cache_ext p p1 := by
  obtain ⟨hi, hc | ⟨hc, hpg, hp1⟩⟩ := pager_get_page_cases p i pg p1 h
  · rw [hc.2]; exact cache_ext_refl p
  · subst hp1
    refine ⟨rfl, rfl, rfl, by simp, fun j => ?_⟩
    show (p.pages.set i (some pg)).getD j none = _ ∨ _
    rw [getD_set_none]
    by_cases hij : i = j ∧ i < p.pages.length
    · rw [if_pos hij]
      right
      rw [← hij.1]
      exact ⟨hc, by rw [hpg]⟩
    · rw [if_neg hij]
      left; rfl

/-- A page read through a pager with more of the cache filled is the same page. -/
theorem pager_get_page_sim (p q : Pager) (i : Nat) (pg : Page) (p1 : Pager)
    (hext : cache_ext p q) (h : pager_get_page p i = .ok (pg, p1)) :
    ∃ q1, pager_get_page q i = .ok (pg, q1) ∧ cache_ext p1 q1 := by
  obtain ⟨a1, a2, a3, a4, a5⟩ := hext
  obtain ⟨hi, hc | ⟨hc, hpg, hp1⟩⟩ := pager_get_page_cases p i pg p1 h
  · obtain ⟨hc1, hc2⟩ := hc
    subst hc2
    have hq : q.pages.getD i none = some pg := by
      rcases a5 i with ha | ⟨ha, _⟩
      · rw [ha, hc1]
      · rw [hc1] at ha; cases ha
    exact ⟨q, pager_get_page_of_cached q i pg hi hq, a1, a2, a3, a4, a5⟩
  · have hpq : page_from_file q i = page_from_file p i := page_from_file_congr p q i a1 a2 a3
    rcases a5 i with ha | ⟨_, ha⟩
    · have hq : q.pages.getD i none = none := by rw [ha, hc]
      refine ⟨{ q with pages := q.pages.set i (some (page_from_file q i)),
                       num_pages := if i ≥ q.num_pages then i + 1 else q.num_pages }, ?_, ?_⟩
      · rw [pager_get_page_of_miss q i hi hq, hpq, ← hpg]
      · subst hp1
        refine ⟨a1, a2, a3, by simp [a4], fun j => ?_⟩
        show (q.pages.set i (some (page_from_file q i))).getD j none =
            (p.pages.set i (some pg)).getD j none ∨
          ((p.pages.set i (some pg)).getD j none = none ∧
            (q.pages.set i (some (page_from_file q i))).getD j none = some _)
        rw [getD_set_none, getD_set_none, a4, hpq, ← hpg]
        by_cases hij : i = j ∧ i < p.pages.length
        · rw [if_pos hij, if_pos hij]; left; rfl
        · rw [if_neg hij, if_neg hij]
          rcases a5 j with hb | ⟨hb1, hb2⟩
          · left; exact hb
          · right
            refine ⟨hb1, ?_⟩
            rw [hb2]
            rfl
    · refine ⟨q, pager_get_page_of_cached q i pg hi (by rw [ha, hpg]), ?_⟩
      subst hp1
      refine ⟨a1, a2, a3, by simp [a4], fun j => ?_⟩
      show q.pages.getD j none = (p.pages.set i (some pg)).getD j none ∨
        ((p.pages.set i (some pg)).getD j none = none ∧ q.pages.getD j none = some _)
      rw [getD_set_none]
      by_cases hij : i = j ∧ i < p.pages.length
      · rw [if_pos hij]
        left
        rw [← hij.1, ha, hpg]
      · rw [if_neg hij]
        rcases a5 j with hb | ⟨hb1, hb2⟩
        · left; exact hb
        · right
          exact ⟨hb1, by rw [hb2]; rfl⟩
theorem table_ext_refl (t : Table) : table_ext t t := ⟨rfl, rfl, cache_ext_refl _⟩

theorem table_ext_trans (t u v : Table) (h1 : table_ext t u) (h2 : table_ext u v) :
    table_ext t v :=
  ⟨h2.1.trans h1.1, h2.2.1.trans h1.2.1, cache_ext_trans _ _ _ h1.2.2 h2.2.2⟩

theorem table_find_loop_cache_ext (fuel : Nat) : ∀ (p : Pager) (page_num key : Nat)
    (c : Cursor) (p1 : Pager), table_find_loop fuel p page_num key = .ok (c, p1) →
    cache_ext p p1 := by
  induction fuel with
  | zero => intro p page_num key c p1 h; simp [table_find_loop] at h
  | succ fuel ih =>
    intro p page_num key c p1 h
    unfold table_find_loop at h
    cases hg : pager_get_page p page_num with
    | error f => rw [hg] at h; cases h
    | ok r =>
      obtain ⟨node, p2⟩ := r
      rw [hg] at h
      have hext := pager_get_page_cache_ext p page_num node p2 hg
      simp only at h
      by_cases hl : get_node_type node = NODE_LEAF
      · rw [if_pos hl] at h
        injection h with h
        injection h with h1 h2
        rw [← h2]; exact hext
      · rw [if_neg hl] at h
        exact cache_ext_trans _ _ _ hext (ih _ _ _ _ _ h)

theorem table_find_loop_sim (fuel : Nat) : ∀ (p q : Pager) (page_num key : Nat)
    (c : Cursor) (p1 : Pager), cache_ext p q →
    table_find_loop fuel p page_num key = .ok (c, p1) →
    ∃ q1, table_find_loop fuel q page_num key = .ok (c, q1) ∧ cache_ext p1 q1 := by
  induction fuel with
  | zero => intro p q page_num key c p1 _ h; simp [table_find_loop] at h
  | succ fuel ih =>
    intro p q page_num key c p1 hpq h
    unfold table_find_loop at h
    cases hg : pager_get_page p page_num with
    | error f => rw [hg] at h; cases h
    | ok r =>
      obtain ⟨node, p2⟩ := r
      rw [hg] at h
      obtain ⟨q2, hq2, hext2⟩ := pager_get_page_sim p q page_num node p2 hpq hg
      simp only at h
      unfold table_find_loop
      rw [hq2]
      simp only
      by_cases hl : get_node_type node = NODE_LEAF
      · rw [if_pos hl] at h
        rw [if_pos hl]
        injection h with h
        injection h with h1 h2
        exact ⟨q2, by rw [h1], by rw [← h2]; exact hext2⟩
      · rw [if_neg hl] at h
        rw [if_neg hl]
        exact ih _ _ _ _ _ _ hext2 h

theorem table_find_ext (t : Table) (key : Nat) (c : Cursor) (t1 : Table)
    (h : table_find t key = .ok (c, t1)) : table_ext t t1 := by
  unfold table_find at h
  cases hf : table_find_loop (TABLE_MAX_PAGES + 1) t.pager t.root_page_num key with
  | error f => rw [hf] at h; cases h
  | ok r =>
    obtain ⟨c1, p1⟩ := r
    rw [hf] at h
    injection h with h
    injection h with h1 h2
    rw [← h2]
    exact ⟨rfl, rfl, table_find_loop_cache_ext _ _ _ _ _ _ hf⟩

theorem table_find_sim (t u : Table) (key : Nat) (c : Cursor) (t1 : Table)
    (htu : table_ext t u) (h : table_find t key = .ok (c, t1)) :
    ∃ u1, table_find u key = .ok (c, u1) ∧ table_ext t1 u1 := by
  unfold table_find at h
  cases hf : table_find_loop (TABLE_MAX_PAGES + 1) t.pager t.root_page_num key with
  | error f => rw [hf] at h; cases h
  | ok r =>
    obtain ⟨c1, p1⟩ := r
    rw [hf] at h
    injection h with h
    injection h with h1 h2
    obtain ⟨q1, hq1, hext⟩ := table_find_loop_sim _ _ _ _ _ _ _ htu.2.2 hf
    refine ⟨{ u with pager := q1 }, ?_, ?_⟩
    · unfold table_find
      rw [htu.1, hq1, h1]
    · rw [← h2]
      exact ⟨htu.1, htu.2.1, hext⟩

theorem table_start_ext (t : Table) (c : Cursor) (t1 : Table)
    (h : table_start t = .ok (c, t1)) : table_ext t t1 := by
  unfold table_start at h
  cases hf : table_find t 0 with
  | error f => rw [hf] at h; cases h
  | ok r =>
    obtain ⟨c1, t2⟩ := r
    rw [hf] at h
    simp only at h
    cases hg : pager_get_page t2.pager c1.page_num with
    | error f => rw [hg] at h; cases h
    | ok r2 =>
      obtain ⟨node, p1⟩ := r2
      rw [hg] at h
      injection h with h
      injection h with h1 h2
      rw [← h2]
      exact table_ext_trans _ _ _ (table_find_ext t 0 c1 t2 hf)
        ⟨rfl, rfl, pager_get_page_cache_ext _ _ _ _ hg⟩

theorem table_start_sim (t u : Table) (c : Cursor) (t1 : Table)
    (htu : table_ext t u) (h : table_start t = .ok (c, t1)) :
    ∃ u1, table_start u = .ok (c, u1) ∧ table_ext t1 u1 := by
  unfold table_start at h
  cases hf : table_find t 0 with
  | error f => rw [hf] at h; cases h
  | ok r =>
    obtain ⟨c1, t2⟩ := r
    rw [hf] at h
    simp only at h
    cases hg : pager_get_page t2.pager c1.page_num with
    | error f => rw [hg] at h; cases h
    | ok r2 =>
      obtain ⟨node, p1⟩ := r2
      rw [hg] at h
      injection h with h
      injection h with h1 h2
      obtain ⟨u2, hu2, hext2⟩ := table_find_sim t u 0 c1 t2 htu hf
      obtain ⟨q1, hq1, hext1⟩ := pager_get_page_sim _ _ _ _ _ hext2.2.2 hg
      refine ⟨{ u2 with pager := q1 }, ?_, ?_⟩
      · unfold table_start
        rw [hu2]
        simp only
        rw [hq1, ← h1]
      · rw [← h2]
        exact ⟨hext2.1, hext2.2.1, hext1⟩

theorem cursor_value_ext (t : Table) (c : Cursor) (r : Page × Nat) (t1 : Table)
    (h : cursor_value t c = .ok (r, t1)) : table_ext t t1 := by
  unfold cursor_value at h
  cases hg : pager_get_page t.pager c.page_num with
  | error f => rw [hg] at h; cases h
  | ok r2 =>
    obtain ⟨page, p1⟩ := r2
    rw [hg] at h
    injection h with h
    injection h with h1 h2
    rw [← h2]
    exact ⟨rfl, rfl, pager_get_page_cache_ext _ _ _ _ hg⟩

theorem cursor_value_sim (t u : Table) (c : Cursor) (r : Page × Nat) (t1 : Table)
    (htu : table_ext t u) (h : cursor_value t c = .ok (r, t1)) :
    ∃ u1, cursor_value u c = .ok (r, u1) ∧ table_ext t1 u1 := by
  unfold cursor_value at h
  cases hg : pager_get_page t.pager c.page_num with
  | error f => rw [hg] at h; cases h
  | ok r2 =>
    obtain ⟨page, p1⟩ := r2
    rw [hg] at h
    injection h with h
    injection h with h1 h2
    obtain ⟨q1, hq1, hext1⟩ := pager_get_page_sim _ _ _ _ _ htu.2.2 hg
    refine ⟨{ u with pager := q1 }, ?_, ?_⟩
    · unfold cursor_value
      rw [hq1, ← h1]
    · rw [← h2]
      exact ⟨htu.1, htu.2.1, hext1⟩

theorem cursor_advance_ext (t : Table) (c c1 : Cursor) (t1 : Table)
    (h : cursor_advance t c = .ok (c1, t1)) : table_ext t t1 := by
  unfold cursor_advance at h
  cases hg : pager_get_page t.pager c.page_num with
  | error f => rw [hg] at h; cases h
  | ok r2 =>
    obtain ⟨node, p1⟩ := r2
    rw [hg] at h
    have hext : table_ext t { t with pager := p1 } :=
      ⟨rfl, rfl, pager_get_page_cache_ext _ _ _ _ hg⟩
    simp only at h
    split_ifs at h <;>
    · injection h with h
      injection h with h1 h2
      rw [← h2]
      exact hext

theorem cursor_advance_sim (t u : Table) (c c1 : Cursor) (t1 : Table)
    (htu : table_ext t u) (h : cursor_advance t c = .ok (c1, t1)) :
    ∃ u1, cursor_advance u c = .ok (c1, u1) ∧ table_ext t1 u1 := by
  unfold cursor_advance at h
  cases hg : pager_get_page t.pager c.page_num with
  | error f => rw [hg] at h; cases h
  | ok r2 =>
    obtain ⟨node, p1⟩ := r2
    rw [hg] at h
    obtain ⟨q1, hq1, hext1⟩ := pager_get_page_sim _ _ _ _ _ htu.2.2 hg
    have hext : table_ext { t with pager := p1 } { u with pager := q1 } :=
      ⟨htu.1, htu.2.1, hext1⟩
    refine ⟨{ u with pager := q1 }, ?_, ?_⟩
    · unfold cursor_advance
      rw [hq1]
      simp only at h ⊢
      split_ifs at h ⊢ <;>
      · injection h with h
        injection h with h1 h2
        rw [h1]
    · simp only at h
      split_ifs at h <;>
      · injection h with h
        injection h with h1 h2
        rw [← h2]
        exact hext

theorem scan_loop_ext (fuel : Nat) : ∀ (t : Table) (c : Cursor) (rows : List Row) (t1 : Table),
    scan_loop fuel t c = .ok (some (rows, t1)) → table_ext t t1 := by
  induction fuel with
  | zero => intro t c rows t1 h; simp [scan_loop] at h
  | succ fuel ih =>
    intro t c rows t1 h
    unfold scan_loop at h
    by_cases he : c.end_of_table = true
    · rw [if_pos he] at h
      injection h with h
      injection h with h
      injection h with h1 h2
      rw [← h2]
      exact table_ext_refl t
    · rw [if_neg he] at h
      cases hv : cursor_value t c with
      | error f => rw [hv] at h; cases h
      | ok r =>
        obtain ⟨⟨page, off⟩, t2⟩ := r
        rw [hv] at h
        simp only at h
        cases ha : cursor_advance t2 c with
        | error f => rw [ha] at h; cases h
        | ok r2 =>
          obtain ⟨c1, t3⟩ := r2
          rw [ha] at h
          simp only at h
          cases hs : scan_loop fuel t3 c1 with
          | error f => rw [hs] at h; cases h
          | ok o =>
            cases o with
            | none => rw [hs] at h; cases h
            | some r3 =>
              obtain ⟨rows1, t4⟩ := r3
              rw [hs] at h
              injection h with h
              injection h with h
              injection h with h1 h2
              rw [← h2]
              exact table_ext_trans _ _ _ (cursor_value_ext _ _ _ _ hv)
                (table_ext_trans _ _ _ (cursor_advance_ext _ _ _ _ ha) (ih _ _ _ _ hs))

theorem scan_loop_sim (fuel : Nat) : ∀ (t u : Table) (c : Cursor) (rows : List Row)
    (t1 : Table), table_ext t u → scan_loop fuel t c = .ok (some (rows, t1)) →
    ∃ u1, scan_loop fuel u c = .ok (some (rows, u1)) ∧ table_ext t1 u1 := by
  induction fuel with
  | zero => intro t u c rows t1 _ h; simp [scan_loop] at h
  | succ fuel ih =>
    intro t u c rows t1 htu h
    unfold scan_loop at h
    unfold scan_loop
    by_cases he : c.end_of_table = true
    · rw [if_pos he] at h
      rw [if_pos he]
      injection h with h
      injection h with h
      injection h with h1 h2
      exact ⟨u, by rw [h1], by rw [← h2]; exact htu⟩
    · rw [if_neg he] at h
      rw [if_neg he]
      cases hv : cursor_value t c with
      | error f => rw [hv] at h; cases h
      | ok r =>
        obtain ⟨⟨page, off⟩, t2⟩ := r
        rw [hv] at h
        simp only at h
        obtain ⟨u2, hu2, hext2⟩ := cursor_value_sim t u c _ t2 htu hv
        rw [hu2]
        simp only
        cases ha : cursor_advance t2 c with
        | error f => rw [ha] at h; cases h
        | ok r2 =>
          obtain ⟨c1, t3⟩ := r2
          rw [ha] at h
          simp only at h
          obtain ⟨u3, hu3, hext3⟩ := cursor_advance_sim t2 u2 c c1 t3 hext2 ha
          rw [hu3]
          simp only
          cases hs : scan_loop fuel t3 c1 with
          | error f => rw [hs] at h; cases h
          | ok o =>
            cases o with
            | none => rw [hs] at h; cases h
            | some r3 =>
              obtain ⟨rows1, t4⟩ := r3
              rw [hs] at h
              injection h with h
              injection h with h
              injection h with h1 h2
              obtain ⟨u4, hu4, hext4⟩ := ih t3 u3 c1 rows1 t4 hext3 hs
              rw [hu4]
              exact ⟨u4, by rw [← h1], by rw [← h2]; exact hext4⟩

theorem full_scan_ext (fuel : Nat) (t : Table) (rows : List Row) (t1 : Table)
    (h : full_scan fuel t = .ok (some (rows, t1))) : table_ext t t1 := by
  unfold full_scan at h
  cases hs : table_start t with
  | error f => rw [hs] at h; cases h
  | ok r =>
    obtain ⟨c, t2⟩ := r
    rw [hs] at h
    exact table_ext_trans _ _ _ (table_start_ext _ _ _ hs) (scan_loop_ext _ _ _ _ _ h)

/-- A full scan of a table with more of the cache filled reads the same rows. -/
theorem full_scan_sim (fuel : Nat) (t u : Table) (rows : List Row) (t1 : Table)
    (htu : table_ext t u) (h : full_scan fuel t = .ok (some (rows, t1))) :
    ∃ u1, full_scan fuel u = .ok (some (rows, u1)) ∧ table_ext t1 u1 := by
  unfold full_scan at h
  cases hs : table_start t with
  | error f => rw [hs] at h; cases h
  | ok r =>
    obtain ⟨c, t2⟩ := r
    rw [hs] at h
    obtain ⟨u2, hu2, hext2⟩ := table_start_sim t u c t2 htu hs
    unfold full_scan
    rw [hu2]
    exact scan_loop_sim fuel t2 u2 c rows t1 hext2 h
/-! ## Theorems: `execute_update` -/

/-- Every page reads the same through the pager of a table after cache misses were served. -/
theorem table_ext_reads (t u : Table) (h : table_ext t u) :
    u.pager.file = t.pager.file ∧ u.wal = t.wal ∧ u.root_page_num = t.root_page_num ∧
    ∀ i pg p1, pager_get_page t.pager i = .ok (pg, p1) →
      ∃ q1, pager_get_page u.pager i = .ok (pg, q1) :=
  ⟨h.2.2.1, h.2.1, h.1, fun i pg p1 hg =>
    (pager_get_page_sim t.pager u.pager i pg p1 h.2.2 hg).imp (fun _ hq => hq.1)⟩

/-- C19, counterexample: `UPDATE SET username = bob` without WHERE returns
`EXECUTE_SUCCESS`, not `EXECUTE_NOT_FOUND` (and changes nothing). -/
theorem execute_update_no_where_succeeds :
    stmt_update_no_where.has_where = false ∧
    execute_update stmt_update_no_where table_with_alice =
      .ok (.EXECUTE_SUCCESS, table_with_alice) :=
  ⟨rfl, rfl⟩

/-- C19, amended: `execute_update` returns `EXECUTE_SUCCESS` when the statement has no WHERE
clause (the table is not touched) and when it has `WHERE id = v` and the cell `table_find`
leads to holds the key `v`; it returns `EXECUTE_NOT_FOUND` when the WHERE column is not
`id` (the table is not touched) and when the key is absent, and then every page of the
table reads as before. -/
theorem execute_update_result (stmt : ParsedStatement) (table : Table) :
    (stmt.where_clause = none → execute_update stmt table = .ok (.EXECUTE_SUCCESS, table)) ∧
    (∀ w, stmt.where_clause = some w → strcmp w.column str_id ≠ 0 →
      execute_update stmt table = .ok (.EXECUTE_NOT_FOUND, table)) ∧
    (∀ w cursor table1 node pager1, stmt.where_clause = some w → strcmp w.column str_id = 0 →
      table_find table (atoi_u32 w.value) = .ok (cursor, table1) →
      pager_get_page table1.pager cursor.page_num = .ok (node, pager1) →
      ((cursor.end_of_table = false ∧ cursor.cell_num < leaf_node_num_cells node ∧
          leaf_node_key node cursor.cell_num = atoi_u32 w.value) →
        ∃ table2, execute_update stmt table = .ok (.EXECUTE_SUCCESS, table2)) ∧
      (¬ (cursor.end_of_table = false ∧ cursor.cell_num < leaf_node_num_cells node ∧
          leaf_node_key node cursor.cell_num = atoi_u32 w.value) →
        ∃ table2, execute_update stmt table = .ok (.EXECUTE_NOT_FOUND, table2) ∧
          table2.pager.file = table.pager.file ∧ table2.wal = table.wal ∧
          table2.root_page_num = table.root_page_num ∧
          ∀ i pg p1, pager_get_page table.pager i = .ok (pg, p1) →
            ∃ q1, pager_get_page table2.pager i = .ok (pg, q1))) := by
  refine ⟨?_, ?_, ?_⟩
  · intro hw
    unfold execute_update
    rw [hw]
  · intro w hw hne
    unfold execute_update
    rw [hw]
    simp only
    rw [if_neg hne]
  · intro w cursor table1 node pager1 hw hid hfind hget
    have hext1 : table_ext table table1 := table_find_ext _ _ _ _ hfind
    have hext2 : table_ext table1 { table1 with pager := pager1 } :=
      ⟨rfl, rfl, pager_get_page_cache_ext _ _ _ _ hget⟩
    constructor
    · rintro ⟨he, hlt, hkey⟩
      obtain ⟨q1, hq1, _⟩ := pager_get_page_sim _ pager1 _ _ _
        (pager_get_page_cache_ext _ _ _ _ hget) hget
      unfold execute_update
      rw [hw]
      simp only
      rw [if_pos hid, hfind]
      simp only [he, Bool.not_false, if_true]
      rw [hget]
      simp only
      rw [if_pos ⟨hlt, hkey⟩]
      unfold cursor_value
      simp only
      rw [hq1]
      exact ⟨_, rfl⟩
    · intro hnot
      unfold execute_update
      rw [hw]
      simp only
      rw [if_pos hid, hfind]
      by_cases he : cursor.end_of_table = true
      · simp only [he, Bool.not_true]
        exact ⟨table1, rfl, table_ext_reads _ _ hext1⟩
      · have he2 : cursor.end_of_table = false := by
          cases h : cursor.end_of_table
          · rfl
          · exact absurd h he
        simp only [he2, Bool.not_false, if_true]
        rw [hget]
        simp only
        rw [if_neg (fun hc => hnot ⟨he2, hc.1, hc.2⟩)]
        exact ⟨_, rfl, table_ext_reads _ _ (table_ext_trans _ _ _ hext1 hext2)⟩

theorem execute_update_result_witness :
    ∃ table2, execute_update stmt_update_bob table_with_alice = .ok (.EXECUTE_SUCCESS, table2) :=
  ((execute_update_result stmt_update_bob table_with_alice).2.2
    { column := str_id, operator := [61], value := [49] }
    { page_num := 0, cell_num := 0, end_of_table := false } table_with_alice
    (leaf_page true 0 0 [row_alice]) table_with_alice.pager rfl (by decide) (by decide!)
    (by decide!)).1 ⟨rfl, by decide!, by decide!⟩

/-! ## Theorems: parser and statement dispatch -/

/-- C20: `parse_statement` returns `NULL` for every input that begins with SELECT followed
by one of the aggregate functions SUM, AVG, MAX, MIN: `parse_select` takes up an
aggregation only at the token COUNT. -/
theorem parse_statement_rejects_sum_avg_max_min (fresh : JoinClause) (input : List Nat)
    (hselect : (parser_init input).current_token.type = .TOKEN_SELECT)
    (hagg : (parser_advance (parser_init input)).current_token.type = .TOKEN_SUM ∨
      (parser_advance (parser_init input)).current_token.type = .TOKEN_AVG ∨
      (parser_advance (parser_init input)).current_token.type = .TOKEN_MAX ∨
      (parser_advance (parser_init input)).current_token.type = .TOKEN_MIN) :
    parse_statement fresh input = .ok none := by
  have hsel : parse_select fresh (parser_init input) = .ok none := by
    unfold parse_select
    rcases hagg with h | h | h | h <;> simp [h]
  unfold parse_statement
  simp only [hselect]
  simp [hselect, hsel]

theorem parse_statement_rejects_sum_avg_max_min_witness :
    parse_statement JoinClause.zero input_select_sum = .ok none :=
  parse_statement_rejects_sum_avg_max_min JoinClause.zero input_select_sum (by decide)
    (Or.inl (by decide))

/-- The aggregate functions on concrete inputs: `SELECT COUNT(id)` is parsed into an
aggregation over `id`, `SELECT SUM(id)`, `SELECT AVG(id)`, `SELECT MAX(id)` and
`SELECT MIN(*)` are syntax errors. -/
theorem parse_statement_aggregate_examples :
    parse_statement JoinClause.zero input_select_count = .ok (some stmt_select_count) ∧
    stmt_select_count.has_aggregation = true ∧ stmt_select_count.agg_type = .AGG_COUNT ∧
    cstr stmt_select_count.agg_column = str_id ∧
    parse_statement JoinClause.zero input_select_sum = .ok none ∧
    parse_statement JoinClause.zero input_select_avg = .ok none ∧
    parse_statement JoinClause.zero input_select_max = .ok none ∧
    parse_statement JoinClause.zero input_select_min = .ok none := by
  refine ⟨by decide!, rfl, rfl, by decide, by decide!, by decide!, by decide!, by decide!⟩

/-- For CREATE TABLE and CREATE INDEX `execute_statement` does not look at the EXPLAIN
flag. -/
theorem execute_statement_create_ignores_explain
    (leaf_node_insert : Table → Cursor → Nat → Row → Except Fault Table)
    (leaf_node_delete : Table → Cursor → Except Fault Table)
    (files : List Nat → TableFiles) (fuel : Nat) (stmt : ParsedStatement) (table : Table)
    (globals : Globals)
    (htype : stmt.type = .STMT_CREATE_TABLE ∨ stmt.type = .STMT_CREATE_INDEX) :
    execute_statement leaf_node_insert leaf_node_delete files fuel stmt table globals =
      execute_statement leaf_node_insert leaf_node_delete files fuel
        { stmt with is_explain := false } table globals := by
  unfold execute_statement
  rcases htype with h | h
  · simp only [h, if_true]
    rfl
  · simp only [h, if_true]
    rfl

/-- C14: `EXPLAIN CREATE TABLE t (id INT)` is parsed to a CREATE TABLE statement with the
EXPLAIN flag set, and `execute_statement` executes it: no plan is printed and the schema
catalog, empty before, holds the table `t` afterwards.  In the same way
`EXPLAIN CREATE INDEX ON users(username)` creates and builds the index. -/
theorem execute_statement_explain_create_executes
    (leaf_node_insert : Table → Cursor → Nat → Row → Except Fault Table)
    (leaf_node_delete : Table → Cursor → Except Fault Table)
    (files : List Nat → TableFiles) :
    parse_statement JoinClause.zero input_explain_create_table =
      .ok (some stmt_explain_create_table) ∧
    stmt_explain_create_table.is_explain = true ∧
    execute_statement leaf_node_insert leaf_node_delete files 10
        stmt_explain_create_table table_with_alice globals_at_start =
      .ok (some (.EXECUTE_SUCCESS, .nothing, table_with_alice,
        { globals_at_start with global_schema := some schema_with_t })) ∧
    schema_get_table schema_with_t [116] = some 0 ∧
    schema_get_table schema_create [116] = none ∧
    parse_statement JoinClause.zero input_explain_create_index =
      .ok (some stmt_explain_create_index) ∧
    stmt_explain_create_index.is_explain = true ∧
    execute_statement leaf_node_insert leaf_node_delete files 10
        stmt_explain_create_index table_with_alice globals_at_start =
      .ok (some (.EXECUTE_SUCCESS, .nothing, table_with_alice,
        { globals_at_start with index_manager := some manager_index_alice })) ∧
    index_manager_get manager_index_alice str_users str_username = some 0 ∧
    index_manager_get index_manager_create str_users str_username = none := by
  have h1 : execute_create_table globals_at_start.global_schema stmt_explain_create_table =
      .ok (.EXECUTE_SUCCESS, some schema_with_t) := by decide!
  have h2 : execute_create_index 10 globals_at_start.index_manager
      stmt_explain_create_index table_with_alice =
      .ok (some (.EXECUTE_SUCCESS, some manager_index_alice, table_with_alice)) := by decide!
  refine ⟨by decide!, rfl, ?_, by decide!, by decide!, by decide!, rfl, ?_, by decide!,
    by decide⟩
  · unfold execute_statement
    rw [if_pos (by rfl), h1]
  · unfold execute_statement
    rw [if_neg (by decide), if_pos (by rfl), h2]
/-! ## Theorems: SELECT -/

/-- Only a join reads the files. -/
theorem execute_select_no_join (files : List Nat → TableFiles) (fuel : Nat)
    (index_manager : Option IndexManager) (table_manager : Option TableManager)
    (stmt : ParsedStatement) (table : Table) (actual_rows : Nat)
    (h : stmt.join_clause = none) :
    execute_select files fuel index_manager table_manager stmt table actual_rows =
      execute_select no_files fuel index_manager table_manager stmt table actual_rows := by
  unfold execute_select
  have hj : stmt.has_join = false := by
    unfold ParsedStatement.has_join
    rw [h]
    rfl
  rw [hj]
  rfl

/-- C16: with an index on `username`, `SELECT * WHERE username = u ORDER BY id DESC` on the
table with the rows 1, 2 and 8 (all with the user name `u`) prints the rows in the order
of the index, 1, 2, 8, which is not non-increasing in `id`; without the index the same
statement prints 8, 2, 1. -/
theorem select_order_by_ignored_on_index_path (files : List Nat → TableFiles) :
    parse_statement JoinClause.zero input_select_u_desc = .ok (some stmt_select_u_desc) ∧
    index_manager_build_from_table 10 manager_with_username_index str_users str_username
      table_rows_1_2_8 = .ok (some (true, manager_index_1_2_8, table_rows_1_2_8)) ∧
    execute_select files 10 (some manager_index_1_2_8) none stmt_select_u_desc
      table_rows_1_2_8 0 =
      .ok (some (.EXECUTE_SUCCESS, .rows [row_u 1, row_u 2, row_u 8], 3, table_rows_1_2_8,
        none)) ∧
    ¬ List.Pairwise (fun a b : Row => a.id ≥ b.id) [row_u 1, row_u 2, row_u 8] ∧
    execute_select files 10 none none stmt_select_u_desc table_rows_1_2_8 0 =
      .ok (some (.EXECUTE_SUCCESS, .rows [row_u 8, row_u 2, row_u 1], 3, table_rows_1_2_8,
        none)) := by
  refine ⟨by decide!, by decide!, ?_, by decide, ?_⟩
  · rw [execute_select_no_join _ _ _ _ _ _ _ rfl]
    decide!
  · rw [execute_select_no_join _ _ _ _ _ _ _ rfl]
    decide!

/-- C17: `SELECT * LIMIT 0` on the table with the rows 1, 2 and 8 returns one row, not
`min(0, 3) = 0`; so does `SELECT * WHERE id = 2 LIMIT 0`; and with an index on `username`,
`SELECT * WHERE username = u LIMIT 1` returns all three rows, not `min(1, 3) = 1`. -/
theorem select_limit_not_applied (files : List Nat → TableFiles) :
    parse_statement JoinClause.zero input_select_limit_0 = .ok (some stmt_select_limit_0) ∧
    execute_select files 10 none none stmt_select_limit_0 table_rows_1_2_8 0 =
      .ok (some (.EXECUTE_SUCCESS, .rows [row_u 1], 1, table_rows_1_2_8, none)) ∧
    full_scan 10 table_rows_1_2_8 =
      .ok (some ([row_u 1, row_u 2, row_u 8], table_rows_1_2_8)) ∧
    (1 : Nat) ≠ min stmt_select_limit_0.limit [row_u 1, row_u 2, row_u 8].length ∧
    execute_select files 10 none none stmt_select_id_2_limit_0 table_rows_1_2_8 0 =
      .ok (some (.EXECUTE_SUCCESS, .rows [row_u 2], 1, table_rows_1_2_8, none)) ∧
    execute_select files 10 (some manager_index_1_2_8) none stmt_select_u_limit_1
      table_rows_1_2_8 0 =
      .ok (some (.EXECUTE_SUCCESS, .rows [row_u 1, row_u 2, row_u 8], 3, table_rows_1_2_8,
        none)) := by
  refine ⟨by decide!, ?_, by decide!, by decide, ?_, ?_⟩
  · rw [execute_select_no_join _ _ _ _ _ _ _ rfl]
    decide!
  · rw [execute_select_no_join _ _ _ _ _ _ _ rfl]
    decide!
  · rw [execute_select_no_join _ _ _ _ _ _ _ rfl]
    decide!

theorem getD_set_option {α : Type} (l : List (Option α)) (i j : Nat) (x : Option α) :
    (l.set i x).getD j none = if i = j ∧ i < l.length then x else l.getD j none := by
  simp only [List.getD_eq_getElem?_getD, List.getElem?_set]
  by_cases hij : i = j
  · subst hij
    by_cases hl : i < l.length
    · simp [hl]
    · simp [hl, List.getElem?_eq_none (not_lt.1 hl)]
  · simp [hij]

theorem getD_some_lt {α : Type} (l : List (Option α)) (i : Nat) (x : α)
    (h : l.getD i none = some x) : i < l.length := by
  by_contra hl
  rw [List.getD_eq_getElem?_getD, List.getElem?_eq_none (not_lt.1 hl)] at h
  cases h

/-- A call on the table in a slot of the manager reads what the call reads on the table
before the cache misses, and keeps every slot of the manager an extension of what it
extended. -/
theorem on_table_step {α : Type} (f : Table → Except Fault (α × Table))
    (hsim : ∀ t u a t1, table_ext t u → f t = .ok (a, t1) →
      ∃ u1, f u = .ok (a, u1) ∧ table_ext t1 u1)
    (hext : ∀ u a u1, f u = .ok (a, u1) → table_ext u u1)
    (m : TableManager) (i : Nat) (t : Table) (a : α) (t1 : Table)
    (hslot : slot_ext t m i) (hf : f t = .ok (a, t1)) :
    ∃ m1, on_table m i f = .ok (a, m1) ∧ slot_ext t1 m1 i ∧
      ∀ j t2, slot_ext t2 m j → slot_ext t2 m1 j := by
  obtain ⟨u, hu, htu⟩ := hslot
  obtain ⟨u1, hu1, ht1⟩ := hsim t u a t1 htu hf
  have hlt : i < m.tables.length := getD_some_lt _ _ _ hu
  refine ⟨{ m with tables := m.tables.set i (some u1) }, ?_, ?_, ?_⟩
  · unfold on_table
    rw [hu]
    simp only
    rw [hu1]
  · refine ⟨u1, ?_, ht1⟩
    show (m.tables.set i (some u1)).getD i none = some u1
    rw [getD_set_option, if_pos ⟨rfl, hlt⟩]
  · rintro j t2 ⟨v, hv, htv⟩
    show ∃ w, (m.tables.set i (some u1)).getD j none = some w ∧ table_ext t2 w
    rw [getD_set_option]
    by_cases hij : i = j ∧ i < m.tables.length
    · rw [if_pos hij]
      obtain ⟨hij1, _⟩ := hij
      subst hij1
      rw [hu] at hv
      injection hv with hv
      subst hv
      exact ⟨u1, rfl, table_ext_trans _ _ _ htv (hext _ _ _ hu1)⟩
    · rw [if_neg hij]
      exact ⟨v, hv, htv⟩

theorem join_inner_loop_spec (jc : JoinClause) (left_row : Row) (right : Nat) (fuel : Nat) :
    ∀ (t : Table) (c : Cursor) (rows : List Row) (t1 : Table) (m : TableManager)
      (printed : List (Row × Row)) (k : Nat), k < 4294967296 →
      scan_loop fuel t c = .ok (some (rows, t1)) → slot_ext t m right →
      ∃ m1, join_inner_loop jc left_row right fuel m c printed k =
          .ok (some (printed ++ join_pairs jc left_row rows,
            (k + (join_pairs jc left_row rows).length) % 4294967296, m1)) ∧
        slot_ext t1 m1 right ∧ ∀ j t2, slot_ext t2 m j → slot_ext t2 m1 j := by
  induction fuel with
  | zero =>
    intro t c rows t1 m printed k _ h
    simp [scan_loop] at h
  | succ fuel ih =>
    intro t c rows t1 m printed k hk h hslot
    simp only [scan_loop] at h
    unfold join_inner_loop
    by_cases he : c.end_of_table = true
    · rw [if_pos he] at h
      rw [if_pos he]
      simp only [Except.ok.injEq, Option.some.injEq, Prod.mk.injEq] at h
      obtain ⟨h1, h2⟩ := h
      subst h1 h2
      refine ⟨m, ?_, hslot, fun _ _ hx => hx⟩
      simp [join_pairs, Nat.mod_eq_of_lt hk]
    · rw [if_neg he] at h
      rw [if_neg he]
      cases hv : cursor_value t c with
      | error f => rw [hv] at h; cases h
      | ok r =>
        obtain ⟨⟨page, off⟩, t2⟩ := r
        rw [hv] at h
        simp only at h
        obtain ⟨m2, hm2, hslot2, hpres2⟩ := on_table_step (fun t => cursor_value t c)
          (fun t u a t1 => cursor_value_sim t u c a t1)
          (fun u a u1 => cursor_value_ext u c a u1) m right t _ t2 hslot hv
        rw [hm2]
        simp only
        cases ha : cursor_advance t2 c with
        | error f => rw [ha] at h; cases h
        | ok r2 =>
          obtain ⟨c1, t3⟩ := r2
          rw [ha] at h
          simp only at h
          obtain ⟨m3, hm3, hslot3, hpres3⟩ := on_table_step (fun t => cursor_advance t c)
            (fun t u a t1 => cursor_advance_sim t u c a t1)
            (fun u a u1 => cursor_advance_ext u c a u1) m2 right t2 _ t3 hslot2 ha
          rw [hm3]
          simp only
          cases hr : scan_loop fuel t3 c1 with
          | error f => rw [hr] at h; cases h
          | ok o =>
            cases o with
            | none => rw [hr] at h; cases h
            | some res =>
              obtain ⟨rows1, t4⟩ := res
              rw [hr] at h
              simp only [Except.ok.injEq, Option.some.injEq, Prod.mk.injEq] at h
              obtain ⟨h1, h2⟩ := h
              subst h1 h2
              by_cases hmatch : join_match jc left_row (deserialize_row (List.drop off page)) = true
              · obtain ⟨m4, hm4, hslot4, hpres4⟩ := ih t3 c1 rows1 t4 m3
                  (printed ++ [(left_row, deserialize_row (List.drop off page))])
                  ((k + 1) % 4294967296) (Nat.mod_lt _ (by norm_num)) hr hslot3
                refine ⟨m4, ?_, hslot4, fun j t5 hx => hpres4 j t5 (hpres3 j t5 (hpres2 j t5 hx))⟩
                simp only [hmatch, if_true]
                rw [hm4]
                simp only [join_pairs, List.filter_cons_of_pos hmatch, List.map_cons,
                  List.length_cons, List.append_assoc, List.singleton_append]
                rw [Nat.mod_add_mod, Nat.add_assoc, Nat.add_comm 1]
              · obtain ⟨m4, hm4, hslot4, hpres4⟩ := ih t3 c1 rows1 t4 m3 printed k hk hr hslot3
                refine ⟨m4, ?_, hslot4, fun j t5 hx => hpres4 j t5 (hpres3 j t5 (hpres2 j t5 hx))⟩
                simp only [hmatch, Bool.false_eq_true, if_false]
                rw [hm4]
                simp only [join_pairs, List.filter_cons_of_neg hmatch]

theorem join_outer_loop_spec (jc : JoinClause) (left right fuel : Nat) (tr tr1 : Table)
    (right_rows : List Row) (hR : full_scan fuel tr = .ok (some (right_rows, tr1)))
    (fuel1 : Nat) :
    ∀ (t : Table) (c : Cursor) (rows : List Row) (t1 : Table) (m : TableManager)
      (printed : List (Row × Row)) (k : Nat), k < 4294967296 →
      scan_loop fuel1 t c = .ok (some (rows, t1)) → slot_ext t m left → slot_ext tr m right →
      ∃ m1, join_outer_loop jc left right fuel fuel1 m c printed k =
          .ok (some (printed ++ rows.flatMap (fun l => join_pairs jc l right_rows),
            (k + (rows.flatMap (fun l => join_pairs jc l right_rows)).length) % 4294967296,
            m1)) := by
  induction fuel1 with
  | zero =>
    intro t c rows t1 m printed k _ h
    simp [scan_loop] at h
  | succ fuel1 ih =>
    intro t c rows t1 m printed k hk h hslotl hslotr
    simp only [scan_loop] at h
    unfold join_outer_loop
    by_cases he : c.end_of_table = true
    · rw [if_pos he] at h
      rw [if_pos he]
      simp only [Except.ok.injEq, Option.some.injEq, Prod.mk.injEq] at h
      obtain ⟨h1, h2⟩ := h
      subst h1 h2
      exact ⟨m, by simp [Nat.mod_eq_of_lt hk]⟩
    · rw [if_neg he] at h
      rw [if_neg he]
      cases hv : cursor_value t c with
      | error f => rw [hv] at h; cases h
      | ok r =>
        obtain ⟨⟨page, off⟩, t2⟩ := r
        rw [hv] at h
        simp only at h
        obtain ⟨m2, hm2, hslot2, hpres2⟩ := on_table_step (fun t => cursor_value t c)
          (fun t u a t1 => cursor_value_sim t u c a t1)
          (fun u a u1 => cursor_value_ext u c a u1) m left t _ t2 hslotl hv
        rw [hm2]
        simp only
        -- the scan of the right table
        have hR2 := hR
        unfold full_scan at hR2
        cases hs : table_start tr with
        | error f => rw [hs] at hR2; cases hR2
        | ok rs =>
          obtain ⟨cr, tr2⟩ := rs
          rw [hs] at hR2
          simp only at hR2
          obtain ⟨m3, hm3, hslot3, hpres3⟩ := on_table_step table_start
            (fun t u a t1 => table_start_sim t u a t1)
            (fun u a u1 => table_start_ext u a u1) m2 right tr cr tr2
            (hpres2 right tr hslotr) hs
          rw [hm3]
          simp only
          obtain ⟨m4, hm4, _, hpres4⟩ := join_inner_loop_spec jc
            (deserialize_row (List.drop off page)) right fuel tr2 cr right_rows tr1 m3
            printed k hk hR2 hslot3
          rw [hm4]
          simp only
          cases ha : cursor_advance t2 c with
          | error f => rw [ha] at h; cases h
          | ok r2 =>
            obtain ⟨c1, t3⟩ := r2
            rw [ha] at h
            simp only at h
            obtain ⟨m5, hm5, hslot5, hpres5⟩ := on_table_step (fun t => cursor_advance t c)
              (fun t u a t1 => cursor_advance_sim t u c a t1)
              (fun u a u1 => cursor_advance_ext u c a u1) m4 left t2 _ t3
              (hpres4 left t2 (hpres3 left t2 hslot2)) ha
            rw [hm5]
            simp only
            cases hr : scan_loop fuel1 t3 c1 with
            | error f => rw [hr] at h; cases h
            | ok o =>
              cases o with
              | none => rw [hr] at h; cases h
              | some res =>
                obtain ⟨rows1, t4⟩ := res
                rw [hr] at h
                simp only [Except.ok.injEq, Option.some.injEq, Prod.mk.injEq] at h
                obtain ⟨h1, h2⟩ := h
                subst h1 h2
                obtain ⟨m6, hm6⟩ := ih t3 c1 rows1 t4 m5 _ _ (Nat.mod_lt _ (by norm_num)) hr
                  hslot5 (hpres5 right tr (hpres4 right tr (hpres3 right tr
                    (hpres2 right tr hslotr))))
                refine ⟨m6, ?_⟩
                rw [hm6]
                simp only [List.flatMap_cons, List.length_append, List.append_assoc]
                rw [Nat.mod_add_mod, Nat.add_assoc]

theorem join_match_eq (jc : JoinClause) (l r : Row) :
    join_match jc l r = if join_on_id jc then decide (l.id = r.id) else false := by
  unfold join_match join_on_id
  simp only [strcmp_eq_zero_iff]
  have h1 : cstr str_id = str_id := by decide
  have h2 : cstr [117, 115, 101, 114, 95, 105, 100] = str_user_id := by decide
  rw [h1, h2]
  by_cases ha : cstr jc.left_column = str_id
  · by_cases hb : cstr jc.right_column = str_user_id
    · simp [ha, hb]
    · by_cases hc : cstr jc.right_column = str_id
      · simp [ha, hb, hc]
      · simp [ha, hb, hc]
  · simp [ha]

theorem join_pairs_length_le (jc : JoinClause) (R : List Row) (L : List Row) :
    (L.flatMap (fun l => join_pairs jc l R)).length ≤ L.length * R.length := by
  induction L with
  | nil => simp
  | cons l rest ih =>
    simp only [List.flatMap_cons, List.length_append, List.length_cons]
    have : (join_pairs jc l R).length ≤ R.length := by
      unfold join_pairs
      rw [List.length_map]
      exact List.length_filter_le _ _
    rw [Nat.succ_mul]
    omega

/-- C15: for every pair of tables of the table manager, whose full scans read the rows
`left_rows` and `right_rows`, `execute_join` on the join columns `(id, user_id)` or
`(id, id)` prints exactly the pairs `(l, r)` with `l.id = r.id`, in left-major scan order,
and reports their number as rows returned; on every other pair of join column names it
prints no pair (and reports 0). -/
theorem execute_join_pairs (files : List Nat → TableFiles) (fuel : Nat)
    (manager manager1 : TableManager) (stmt : ParsedStatement) (jc : JoinClause)
    (left right : Nat) (tl tr tl1 tr1 : Table) (left_rows right_rows : List Row)
    (rows_returned : Nat)
    (hjc : stmt.join_clause = some jc)
    (hopen : join_open_tables files manager jc = .ok ((some left, some right), manager1))
    (hl : manager1.tables.getD left none = some tl)
    (hr : manager1.tables.getD right none = some tr)
    (hL : full_scan fuel tl = .ok (some (left_rows, tl1)))
    (hR : full_scan fuel tr = .ok (some (right_rows, tr1)))
    (hsmall : left_rows.length * right_rows.length < 4294967296) :
    ∃ pairs manager2,
      execute_join files fuel (some manager) stmt rows_returned =
        .ok (some (.EXECUTE_SUCCESS, pairs, pairs.length, some manager2)) ∧
      (join_on_id jc → pairs = left_rows.flatMap (fun l =>
        (right_rows.filter (fun r => decide (l.id = r.id))).map (fun r => (l, r)))) ∧
      (¬ join_on_id jc → pairs = []) := by
  have hslotl : slot_ext tl manager1 left := ⟨tl, hl, table_ext_refl tl⟩
  have hslotr : slot_ext tr manager1 right := ⟨tr, hr, table_ext_refl tr⟩
  have hL2 := hL
  unfold full_scan at hL2
  cases hs : table_start tl with
  | error f => rw [hs] at hL2; cases hL2
  | ok rs =>
    obtain ⟨cl, tl2⟩ := rs
    rw [hs] at hL2
    simp only at hL2
    obtain ⟨m3, hm3, hslot3, hpres3⟩ := on_table_step table_start
      (fun t u a t1 => table_start_sim t u a t1)
      (fun u a u1 => table_start_ext u a u1) manager1 left tl cl tl2 hslotl hs
    obtain ⟨m4, hm4⟩ := join_outer_loop_spec jc left right fuel tr tr1 right_rows hR fuel
      tl2 cl left_rows tl1 m3 [] 0 (by norm_num) hL2 hslot3 (hpres3 right tr hslotr)
    have hlen := join_pairs_length_le jc right_rows left_rows
    refine ⟨left_rows.flatMap (fun l => join_pairs jc l right_rows), m4, ?_, ?_, ?_⟩
    · unfold execute_join
      rw [hjc]
      simp only
      rw [hopen]
      simp only
      rw [hm3]
      simp only
      rw [hm4]
      simp only [List.nil_append, Nat.zero_add]
      rw [Nat.mod_eq_of_lt (by omega)]
    · intro hon
      congr 1
      funext l
      unfold join_pairs
      congr 1
      congr 1
      funext r
      rw [join_match_eq, if_pos hon]
    · intro hon
      have : ∀ l, join_pairs jc l right_rows = [] := by
        intro l
        unfold join_pairs
        have hf : List.filter (join_match jc l) right_rows = [] := by
          apply List.filter_eq_nil_iff.2
          intro r _
          rw [join_match_eq, if_neg hon]
          simp
        rw [hf]
        rfl
      simp [this]

theorem execute_join_pairs_witness :
    ∃ pairs manager2,
      execute_join no_files 10 (some manager_users_orders) stmt_join_users_orders 0 =
        .ok (some (.EXECUTE_SUCCESS, pairs, pairs.length, some manager2)) ∧
      (join_on_id join_users_orders → pairs = [row_u 1, row_u 2, row_u 8].flatMap (fun l =>
        ([row_alice].filter (fun r => decide (l.id = r.id))).map (fun r => (l, r)))) ∧
      (¬ join_on_id join_users_orders → pairs = []) :=
  execute_join_pairs no_files 10 manager_users_orders manager_users_orders
    stmt_join_users_orders join_users_orders 0 1 table_rows_1_2_8 table_with_alice
    table_rows_1_2_8 table_with_alice [row_u 1, row_u 2, row_u 8] [row_alice] 0 rfl
    (by decide!) (by decide!) (by decide!) (by decide!) (by decide!) (by decide)

theorem count_loop_ext (fuel : Nat) : ∀ (t : Table) (c : Cursor) (count n : Nat) (t1 : Table),
    count_loop fuel t c count = .ok (some (n, t1)) → table_ext t t1 := by
  induction fuel with
  | zero => intro t c count n t1 h; simp [count_loop] at h
  | succ fuel ih =>
    intro t c count n t1 h
    unfold count_loop at h
    by_cases he : c.end_of_table = true
    · rw [if_pos he] at h
      simp only [Except.ok.injEq, Option.some.injEq, Prod.mk.injEq] at h
      rw [← h.2]
      exact table_ext_refl t
    · rw [if_neg he] at h
      cases ha : cursor_advance t c with
      | error f => rw [ha] at h; cases h
      | ok r =>
        obtain ⟨c1, t2⟩ := r
        rw [ha] at h
        exact table_ext_trans _ _ _ (cursor_advance_ext _ _ _ _ ha) (ih _ _ _ _ _ h)

/-- The planner only serves cache misses: the file, the WAL and what every page reads are
as before. -/
theorem optimize_query_ext (fuel : Nat) (stmt : ParsedStatement) (t t1 : Table)
    (plan : QueryPlan) (h : optimize_query fuel stmt t = .ok (some (plan, t1))) :
    table_ext t t1 := by
  unfold optimize_query at h
  cases hc : count_table_rows fuel t with
  | error f => rw [hc] at h; cases h
  | ok o =>
    cases o with
    | none => rw [hc] at h; cases h
    | some r =>
      obtain ⟨n, t2⟩ := r
      rw [hc] at h
      simp only [Except.ok.injEq, Option.some.injEq, Prod.mk.injEq] at h
      rw [← h.2]
      unfold count_table_rows at hc
      cases hs : table_start t with
      | error f => rw [hs] at hc; cases hc
      | ok rs =>
        obtain ⟨c, t3⟩ := rs
        rw [hs] at hc
        exact table_ext_trans _ _ _ (table_start_ext _ _ _ hs) (count_loop_ext _ _ _ _ _ _ hc)

/-- For SELECT, INSERT, UPDATE and DELETE with the EXPLAIN flag set, `execute_statement`
prints the plan and executes nothing: the globals are unchanged and the table differs only
by cache misses served while the planner counted the rows. -/
theorem execute_statement_explain_dml
    (leaf_node_insert : Table → Cursor → Nat → Row → Except Fault Table)
    (leaf_node_delete : Table → Cursor → Except Fault Table)
    (files : List Nat → TableFiles) (fuel : Nat) (stmt : ParsedStatement) (table table1 : Table)
    (globals : Globals) (plan : QueryPlan) (hexplain : stmt.is_explain = true)
    (htype : stmt.type ≠ .STMT_CREATE_TABLE ∧ stmt.type ≠ .STMT_CREATE_INDEX)
    (hplan : optimize_query fuel stmt table = .ok (some (plan, table1))) :
    execute_statement leaf_node_insert leaf_node_delete files fuel stmt table globals =
      .ok (some (.EXECUTE_SUCCESS, .plan plan, table1, globals)) ∧
    table1.pager.file = table.pager.file ∧ table1.wal = table.wal ∧
    table1.root_page_num = table.root_page_num ∧
    ∀ i pg p1, pager_get_page table.pager i = .ok (pg, p1) →
      ∃ q1, pager_get_page table1.pager i = .ok (pg, q1) := by
  refine ⟨?_, table_ext_reads _ _ (optimize_query_ext fuel stmt table table1 plan hplan)⟩
  unfold execute_statement
  rw [if_neg htype.1, if_neg htype.2, hplan]
  simp only [hexplain, if_true]

/-! ## Theorems: bounds of the page array, row layout, index deletion -/

/-- C25: `pager_get_page` accepts the page number `TABLE_MAX_PAGES` = 100, which lies outside
the 100 slots `pages[0..99]`: the guard is `page_num > TABLE_MAX_PAGES`, so only the page
numbers above 100 end in the fatal exit, and the call for page 100 goes on to the access
`pages[100]`.  Every page number below 100 is served. -/
theorem pager_get_page_accepts_page_100 (pager : Pager) :
    TABLE_MAX_PAGES = 100 ∧
    pager_get_page pager 100 = .error .out_of_bounds ∧
    pager_get_page pager 100 ≠ .error .exit_failure ∧
    (∀ page_num, page_num > 100 → pager_get_page pager page_num = .error .exit_failure) ∧
    (∀ page_num, page_num < 100 → ∃ r, pager_get_page pager page_num = .ok r) := by
  refine ⟨rfl, ?_, ?_, ?_, ?_⟩
  · unfold pager_get_page
    rw [if_neg (by decide), if_pos (by decide)]
  · unfold pager_get_page
    rw [if_neg (by decide), if_pos (by decide)]
    intro h
    cases h
  · intro page_num h
    unfold pager_get_page
    rw [if_pos (by unfold TABLE_MAX_PAGES; omega)]
  · intro page_num h
    unfold pager_get_page
    rw [if_neg (by unfold TABLE_MAX_PAGES; omega), if_neg (by unfold TABLE_MAX_PAGES; omega)]
    cases pager.pages.getD page_num none with
    | none => exact ⟨_, rfl⟩
    | some page => exact ⟨_, rfl⟩

/-- C26: for every row (a 32-bit id, 32 username bytes, 255 email bytes) and every
destination buffer that has room for a row, `serialize_row` writes exactly the first 291
bytes: bytes 0..3 are the id in little-endian order, bytes 4..35 the username bytes, bytes
36..290 the email bytes; the bytes from 291 on and the length of the buffer stay; and
`ROW_SIZE` is 291. -/
theorem serialize_row_layout (row : Row) (dst : List Nat) (hw : row.wf)
    (hd : ROW_SIZE ≤ dst.length) :
    ROW_SIZE = 291 ∧
    (serialize_row row dst).take 4 =
      [row.id % 256, row.id / 256 % 256, row.id / 65536 % 256, row.id / 16777216 % 256] ∧
    ((serialize_row row dst).drop 4).take 32 = row.username ∧
    ((serialize_row row dst).drop 36).take 255 = row.email ∧
    (serialize_row row dst).drop 291 = dst.drop 291 ∧
    (serialize_row row dst).length = dst.length := by
  obtain ⟨_, hu, he⟩ := hw
  simp only [COLUMN_USERNAME_SIZE, COLUMN_EMAIL_SIZE] at hu he
  have hd2 : 291 ≤ dst.length := hd
  have h4 : (u32_bytes row.id).length = 4 := rfl
  rw [serialize_row_eq row dst hu he hd2]
  refine ⟨rfl, ?_, ?_, ?_, ?_, ?_⟩
  · simp [u32_bytes]
  · simp [u32_bytes, hu]
  · have : u32_bytes row.id ++ row.username ++ row.email ++ List.drop 291 dst
        = (u32_bytes row.id ++ row.username) ++ (row.email ++ List.drop 291 dst) := by
      simp [List.append_assoc]
    have hl : (u32_bytes row.id ++ row.username).length = 36 := by simp [h4, hu]
    rw [this, List.drop_append_of_le_length (by omega), List.drop_of_length_le (by omega),
      List.nil_append, List.take_append_of_le_length (by omega),
      List.take_of_length_le (by omega)]
  · have hl : (u32_bytes row.id ++ row.username ++ row.email).length = 291 := by
      simp [h4, hu, he]
    rw [List.drop_append_of_le_length (by omega), List.drop_of_length_le (by omega),
      List.nil_append]
  · simp [h4, hu, he]
    omega

theorem serialize_row_layout_witness :
    ROW_SIZE = 291 ∧
    (serialize_row row_alice (List.replicate 300 7)).take 4 =
      [row_alice.id % 256, row_alice.id / 256 % 256, row_alice.id / 65536 % 256,
        row_alice.id / 16777216 % 256] ∧
    ((serialize_row row_alice (List.replicate 300 7)).drop 4).take 32 = row_alice.username ∧
    ((serialize_row row_alice (List.replicate 300 7)).drop 36).take 255 = row_alice.email ∧
    (serialize_row row_alice (List.replicate 300 7)).drop 291 =
      (List.replicate 300 7).drop 291 ∧
    (serialize_row row_alice (List.replicate 300 7)).length = (List.replicate 300 7).length :=
  serialize_row_layout row_alice (List.replicate 300 7) (by decide) (by decide)

/-- C27: when some entry of the index matches `key` and `primary_key`,
`secondary_index_delete` removes the first such entry (the one at position `i`), keeps all
other entries in their order and decreases `num_entries` by one; when no entry matches both
fields the index is unchanged.  In both cases the names and the capacity stay. -/
theorem secondary_index_delete_spec (index : SecondaryIndex) (key : List Nat)
    (primary_key : Nat) :
    ((∀ e ∈ index.entries, ¬ (strcmp e.key key = 0 ∧ e.primary_key = primary_key)) →
      secondary_index_delete index key primary_key = index) ∧
    (∀ i e, index.entries[i]? = some e →
      (strcmp e.key key = 0 ∧ e.primary_key = primary_key) →
      (∀ m e2, m < i → index.entries[m]? = some e2 →
        ¬ (strcmp e2.key key = 0 ∧ e2.primary_key = primary_key)) →
      (secondary_index_delete index key primary_key).entries =
        index.entries.take i ++ index.entries.drop (i + 1) ∧
      (secondary_index_delete index key primary_key).num_entries + 1 = index.num_entries ∧
      (secondary_index_delete index key primary_key).column_name = index.column_name ∧
      (secondary_index_delete index key primary_key).table_name = index.table_name ∧
      (secondary_index_delete index key primary_key).capacity = index.capacity) := by
  constructor
  · intro hno
    unfold secondary_index_delete
    cases h : delete_pos_loop key primary_key index.entries 0 with
    | none => rfl
    | some k =>
      obtain ⟨_, h2, h3, _⟩ := delete_pos_loop_spec key primary_key index.entries 0 k h
      have hk : k < index.entries.length := by simpa using h2
      have hmem : index.entries[k] ∈ index.entries := List.getElem_mem hk
      exact absurd (h3 index.entries[k] (by simp [List.getElem?_eq_getElem hk]))
        (hno _ hmem)
  · intro i e hi hmatch hfirst
    have hilt : i < index.entries.length := by
      by_contra hc
      rw [List.getElem?_eq_none (not_lt.1 hc)] at hi
      cases hi
    cases h : delete_pos_loop key primary_key index.entries 0 with
    | none =>
      have hno := delete_pos_loop_none key primary_key index.entries 0 h
      have hmem : e ∈ index.entries := List.mem_iff_getElem?.2 ⟨i, hi⟩
      exact absurd hmatch (hno e hmem)
    | some k =>
      obtain ⟨_, h2, h3, h4⟩ := delete_pos_loop_spec key primary_key index.entries 0 k h
      have hk : k < index.entries.length := by simpa using h2
      have hki : k = i := by
        rcases Nat.lt_trichotomy k i with hlt | heq | hgt
        · exact absurd (h3 index.entries[k] (by simp [List.getElem?_eq_getElem hk]))
            (hfirst k _ hlt (List.getElem?_eq_getElem hk))
        · exact heq
        · exact absurd hmatch (h4 i (by simpa using hgt) e hi)
      subst hki
      have hent := secondary_index_delete_entries index key primary_key
      rw [h] at hent
      simp only at hent
      refine ⟨?_, ?_, ?_, ?_, ?_⟩
      · rw [hent, List.eraseIdx_eq_take_drop_succ]
      · unfold SecondaryIndex.num_entries
        rw [hent, List.length_eraseIdx, if_pos hk]
        omega
      · unfold secondary_index_delete
        rw [h]
      · unfold secondary_index_delete
        rw [h]
      · unfold secondary_index_delete
        rw [h]

theorem secondary_index_delete_spec_witness :
    secondary_index_delete example_index [98, 111, 98] 2 = example_index ∧
    (secondary_index_delete example_index [98, 111, 98] 3).entries =
      example_index.entries.take 3 ++ example_index.entries.drop (3 + 1) :=
  ⟨(secondary_index_delete_spec example_index [98, 111, 98] 2).1 (by decide),
   ((secondary_index_delete_spec example_index [98, 111, 98] 3).2 3
    ⟨[98, 111, 98] ++ List.replicate 61 0, 3⟩ (by decide) (by decide)
    (by
      have h : ∀ m, m < 3 → ∀ e2 ∈ example_index.entries[m]?,
          ¬ (strcmp e2.key [98, 111, 98] = 0 ∧ e2.primary_key = 3) := by decide
      intro m e2 hm he
      exact h m hm e2 he)).1⟩

/-! ## Theorems: `strncpy` into a zeroed array -/

/-- The array of `m` zero bytes after `strncpy(array, src, n)`, for `n ≤ m`. -/
theorem strncpy_zero_eq (src : List Nat) (n m : Nat) (h : n ≤ m) :
    strncpy (List.replicate m 0) src n =
      (cstr src).take n ++ List.replicate (m - ((cstr src).take n).length) 0 := by
  have hlen : ((cstr src).take n).length ≤ n := by simp
  simp only [strncpy, memcpy, strncpy_bytes, List.take_zero, List.nil_append, Nat.zero_add]
  rw [List.take_of_length_le (by simp), List.drop_replicate, List.append_assoc,
    ← List.replicate_add]
  congr 2
  have hlen2 : ((cstr src).take n).length ≤ n := by simp
  omega

/-- Read as a string, the zeroed array after `strncpy(array, src, n)` holds the first `n`
bytes of the string `src`. -/
theorem cstr_strncpy_zero (src : List Nat) (n m : Nat) (h : n ≤ m) :
    cstr (strncpy (List.replicate m 0) src n) = (cstr src).take n := by
  rw [strncpy_zero_eq src n m h]
  apply cstr_append_of_stop
  · intro b hb
    exact cstr_all_ne_zero src b (List.mem_of_mem_take hb)
  · by_cases hp : m - ((cstr src).take n).length = 0
    · left; rw [hp]; rfl
    · right
      obtain ⟨k, hk⟩ := Nat.exists_eq_succ_of_ne_zero hp
      rw [hk]
      simp [List.replicate_succ]

theorem strncpy_zero_length (src : List Nat) (n m : Nat) (h : n ≤ m) :
    (strncpy (List.replicate m 0) src n).length = m := by
  rw [strncpy_zero_eq src n m h]
  have hlen : ((cstr src).take n).length ≤ n := by simp
  simp only [List.length_append, List.length_replicate]
  omega

/-! ## Theorems: `index_manager_create_index` -/

theorem index_manager_get_loop_append (table_name column_name : List Nat)
    (indexes : List SecondaryIndex) (index : SecondaryIndex) (start : Nat) :
    index_manager_get_loop table_name column_name (indexes ++ [index]) start =
      match index_manager_get_loop table_name column_name indexes start with
      | some i => some i
      | none =>
        if strcmp index.table_name table_name = 0 ∧ strcmp index.column_name column_name = 0
        then some (start + indexes.length) else none := by
  induction indexes generalizing start with
  | nil =>
    simp only [List.nil_append, index_manager_get_loop, List.length_nil, Nat.add_zero]
  | cons idx rest ih =>
    simp only [List.cons_append, index_manager_get_loop]
    by_cases hm : strcmp idx.table_name table_name = 0 ∧ strcmp idx.column_name column_name = 0
    · rw [if_pos hm, if_pos hm]
    · rw [if_neg hm, if_neg hm]
      have := ih (start + 1)
      rw [show start + 1 + rest.length = start + (idx :: rest).length by
        simp only [List.length_cons]; omega] at this
      exact this

/-- C28: `index_manager_create_index` returns false and leaves the manager unchanged when
`MAX_INDEXES` (4) indexes are held or when `index_manager_get` finds an index on the table
and the column; otherwise it returns true and adds one index without entries, of capacity
100, that holds the two names (cut to 63 and 31 bytes), and for names that fit the index is
found under that pair afterwards. -/
theorem index_manager_create_index_spec (manager : IndexManager)
    (table_name column_name : List Nat) :
    MAX_INDEXES = 4 ∧
    ((manager.indexes.length ≥ MAX_INDEXES ∨
        index_manager_get manager table_name column_name ≠ none) →
      index_manager_create_index manager table_name column_name = (false, manager)) ∧
    (manager.indexes.length < MAX_INDEXES →
      index_manager_get manager table_name column_name = none →
      ∃ index, index_manager_create_index manager table_name column_name =
          (true, { indexes := manager.indexes ++ [index] }) ∧
        index.entries = [] ∧ index.capacity = 100 ∧
        cstr index.table_name = (cstr table_name).take 63 ∧
        cstr index.column_name = (cstr column_name).take 31 ∧
        ((cstr table_name).length ≤ 63 → (cstr column_name).length ≤ 31 →
          index_manager_get { indexes := manager.indexes ++ [index] } table_name column_name
            = some manager.indexes.length)) := by
  refine ⟨rfl, ?_, ?_⟩
  · intro h
    unfold index_manager_create_index
    rcases h with h | h
    · rw [if_pos h]
    · by_cases hfull : manager.indexes.length ≥ MAX_INDEXES
      · rw [if_pos hfull]
      · rw [if_neg hfull]
        have : (index_manager_get manager table_name column_name).isSome = true := by
          cases hg : index_manager_get manager table_name column_name with
          | none => exact absurd hg h
          | some i => rfl
        rw [if_pos this]
  · intro hlt hnone
    refine ⟨new_index table_name column_name, ?_, rfl, rfl, ?_, ?_, ?_⟩
    · unfold index_manager_create_index
      rw [if_neg (by omega), hnone]
      rfl
    · exact cstr_strncpy_zero table_name 63 64 (by omega)
    · exact cstr_strncpy_zero column_name 31 32 (by omega)
    · intro ht hc
      have h1 : cstr (new_index table_name column_name).table_name = cstr table_name := by
        show cstr (strncpy (List.replicate 64 0) table_name 63) = _
        rw [cstr_strncpy_zero table_name 63 64 (by omega), List.take_of_length_le ht]
      have h2 : cstr (new_index table_name column_name).column_name = cstr column_name := by
        show cstr (strncpy (List.replicate 32 0) column_name 31) = _
        rw [cstr_strncpy_zero column_name 31 32 (by omega), List.take_of_length_le hc]
      unfold index_manager_get at hnone ⊢
      rw [index_manager_get_loop_append, hnone]
      simp only
      rw [if_pos ⟨(strcmp_eq_zero_iff _ _).2 h1, (strcmp_eq_zero_iff _ _).2 h2⟩]
      simp

theorem index_manager_create_index_spec_witness :
    index_manager_create_index manager_with_username_index str_users str_username =
      (false, manager_with_username_index) ∧
    ∃ index, index_manager_create_index index_manager_create str_users str_username =
        (true, { indexes := index_manager_create.indexes ++ [index] }) ∧
      index.entries = [] ∧ index.capacity = 100 ∧
      cstr index.table_name = (cstr str_users).take 63 ∧
      cstr index.column_name = (cstr str_username).take 31 ∧
      ((cstr str_users).length ≤ 63 → (cstr str_username).length ≤ 31 →
        index_manager_get { indexes := index_manager_create.indexes ++ [index] } str_users
          str_username = some index_manager_create.indexes.length) :=
  ⟨(index_manager_create_index_spec manager_with_username_index str_users str_username).2.1
    (Or.inr (by decide)),
   (index_manager_create_index_spec index_manager_create str_users str_username).2.2
    (by decide) (by decide)⟩

/-! ## Theorems: WAL checksum and checkpoint -/

theorem wal_checksum_loop_eq_foldl (words : List Nat) :
    ∀ (sum1 sum2 : Nat), wal_checksum_loop words sum1 sum2 =
      words.foldl checksum_step (sum1, sum2) := by
  induction words with
  | nil => intro sum1 sum2; rfl
  | cons w ws ih =>
    intro sum1 sum2
    simp only [wal_checksum_loop, List.foldl_cons, checksum_step]
    rw [ih]
    congr 2
    · rw [Nat.add_mod_mod, Nat.add_assoc]
    · rw [Nat.add_mod_mod, Nat.add_mod_mod, Nat.add_assoc sum1, Nat.add_assoc sum2]

theorem words_of_bytes_length (n : Nat) : ∀ bytes : List Nat, bytes.length = 4 * n →
    (words_of_bytes bytes).length = n := by
  induction n with
  | zero =>
    intro bytes h
    have : bytes = [] := List.length_eq_zero.1 (by omega)
    subst this
    rfl
  | succ n ih =>
    intro bytes h
    match bytes, h with
    | a :: b :: c :: d :: rest, h =>
      simp only [words_of_bytes, List.length_cons] at h ⊢
      rw [ih rest (by omega)]
    | [], h => simp at h
    | [_], h => simp at h; omega
    | [_, _], h => simp at h; omega
    | [_, _, _], h => simp at h; omega

/-- C23: `wal_checksum` over the first `count` words of `data` with the seed `(s1, s2)` is
the checksum of the specification, `sum1 += w + sum2; sum2 += w + sum1` modulo 2^32 over the
words and `sum1 XOR sum2` at the end; and the frame `wal_write_frame` appends to an open WAL
for a page image of `PAGE_SIZE` bytes has the header (page number, db size, the two salts of
the WAL header, checksum1, checksum2) with checksum1 the checksum of the 1024 words of the
image seeded by the salts and checksum2 the checksum of the four words (page number, db
size, salt1, salt2) seeded by `(checksum1, 0)`, followed by the image. -/
theorem wal_write_frame_checksums (wal : WAL) (page_num db_size : Nat) (page_data : Page)
    (hopen : wal.is_open = true) (hpage : page_data.length = PAGE_SIZE) :
    (∀ data count s1 s2, wal_checksum data count s1 s2 = checksum_spec (data.take count) s1 s2) ∧
    (words_of_bytes page_data).length = 1024 ∧
    ∃ header : WALFrameHeader,
      wal_write_frame wal page_num page_data db_size =
        (true, { wal with file := wal.file ++ frame_header_bytes header ++ page_data,
                          frame_count := (wal.frame_count + 1) % 4294967296 }) ∧
      header.page_number = page_num ∧ header.db_size = db_size ∧
      header.salt1 = wal.header.salt1 ∧ header.salt2 = wal.header.salt2 ∧
      header.checksum1 = checksum_spec (words_of_bytes page_data) wal.header.salt1
        wal.header.salt2 ∧
      header.checksum2 = checksum_spec [page_num, db_size, wal.header.salt1, wal.header.salt2]
        header.checksum1 0 := by
  have hspec : ∀ data count s1 s2,
      wal_checksum data count s1 s2 = checksum_spec (data.take count) s1 s2 := by
    intro data count s1 s2
    unfold wal_checksum checksum_spec
    simp only [wal_checksum_loop_eq_foldl]
  have hwords : (words_of_bytes page_data).length = 1024 :=
    words_of_bytes_length 1024 page_data (by rw [hpage]; rfl)
  refine ⟨hspec, hwords, make_frame_header wal page_num page_data db_size, ?_, rfl, rfl, rfl,
    rfl, ?_, ?_⟩
  · unfold wal_write_frame
    rw [hopen]
    simp only [Bool.not_true, Bool.false_eq_true, if_false]
    rw [List.take_of_length_le (by omega)]
  · show wal_checksum (words_of_bytes page_data) (PAGE_SIZE / 4) _ _ = _
    rw [hspec, List.take_of_length_le (by rw [hwords]; decide)]
  · show wal_checksum [page_num, db_size, wal.header.salt1, wal.header.salt2]
      (WAL_FRAME_HEADER_SIZE / 4 - 2) _ 0 = _
    rw [hspec]
    rfl

theorem wal_write_frame_checksums_witness :
    (∀ data count s1 s2, wal_checksum data count s1 s2 = checksum_spec (data.take count) s1 s2) ∧
    (words_of_bytes (leaf_page true 0 0 [row_alice])).length = 1024 ∧
    ∃ header : WALFrameHeader,
      wal_write_frame example_wal_empty 0 (leaf_page true 0 0 [row_alice]) 1 =
        (true, { example_wal_empty with
          file := example_wal_empty.file ++ frame_header_bytes header ++
            leaf_page true 0 0 [row_alice],
          frame_count := (example_wal_empty.frame_count + 1) % 4294967296 }) ∧
      header.page_number = 0 ∧ header.db_size = 1 ∧
      header.salt1 = example_wal_empty.header.salt1 ∧
      header.salt2 = example_wal_empty.header.salt2 ∧
      header.checksum1 = checksum_spec (words_of_bytes (leaf_page true 0 0 [row_alice]))
        example_wal_empty.header.salt1 example_wal_empty.header.salt2 ∧
      header.checksum2 = checksum_spec [0, 1, example_wal_empty.header.salt1,
        example_wal_empty.header.salt2] header.checksum1 0 :=
  wal_write_frame_checksums example_wal_empty 0 1 (leaf_page true 0 0 [row_alice]) rfl
    (by decide!)

theorem wal_header_bytes_length (h : WALHeader) : (wal_header_bytes h).length = 32 := by
  simp [wal_header_bytes, u32_bytes]

/-- C24: for an open WAL and a pager as the C type holds it (pages of `PAGE_SIZE` bytes, all
of them below `num_pages`, a file of whole pages), `wal_checkpoint` returns true; every page
present in the pager is then read from the database file at its offset
`page_num * PAGE_SIZE`; the WAL file is the 32 bytes of its header, with `frame_count` 0 and
`checkpoint_seq` one more than before (as a `uint32_t`, all other header fields kept); the
pages in memory are the same. -/
theorem wal_checkpoint_spec (wal : WAL) (pager : Pager) (hopen : wal.is_open = true)
    (hwf : pager_wf pager) (hfile : pager.file.length % PAGE_SIZE = 0)
    (hbelow : ∀ j, pager.num_pages ≤ j → pager.pages.getD j none = none) :
    ∃ wal1 pager1, wal_checkpoint wal pager = .ok (true, wal1, pager1) ∧
      pager1.pages = pager.pages ∧ pager1.num_pages = pager.num_pages ∧
      (∀ j page, pager.pages.getD j none = some page →
        file_read pager1.file (j * PAGE_SIZE) PAGE_SIZE = page) ∧
      wal1.file = wal_header_bytes wal1.header ∧ wal1.file.length = WAL_HEADER_SIZE ∧
      wal1.frame_count = 0 ∧ wal1.is_open = true ∧
      wal1.header = { wal.header with
        checkpoint_seq := (wal.header.checkpoint_seq + 1) % 4294967296 } ∧
      (wal.header.checkpoint_seq + 1 < 4294967296 →
        wal1.header.checkpoint_seq = wal.header.checkpoint_seq + 1) := by
  obtain ⟨hlen, hn, hslots, _⟩ := hwf
  obtain ⟨pager1, e1, e2, e3, _, _, _, _, _, hflushed, _⟩ :=
    flush_pages_loop_file (List.range pager.num_pages) pager
      (by intro i hi; have := List.mem_range.1 hi; omega) hslots hfile
  have hfw : ∀ h : WALHeader, file_write ((wal.file ++
      List.replicate (WAL_HEADER_SIZE - wal.file.length) 0).take WAL_HEADER_SIZE) 0
      (wal_header_bytes h) = wal_header_bytes h := by
    intro h
    unfold file_write
    rw [List.take_zero, List.nil_append, List.drop_eq_nil_of_le, List.append_nil]
    rw [wal_header_bytes_length]
    simp only [List.length_take, List.length_append, List.length_replicate, WAL_HEADER_SIZE]
    omega
  refine ⟨{ wal with
      file := file_write ((wal.file ++
        List.replicate (WAL_HEADER_SIZE - wal.file.length) 0).take WAL_HEADER_SIZE) 0
        (wal_header_bytes { wal.header with
          checkpoint_seq := (wal.header.checkpoint_seq + 1) % 4294967296 }),
      frame_count := 0,
      header := { wal.header with
        checkpoint_seq := (wal.header.checkpoint_seq + 1) % 4294967296 } },
    pager1, ?_, e2, e3, ?_, ?_, ?_, rfl, hopen, rfl, ?_⟩
  · unfold wal_checkpoint
    rw [hopen]
    simp only [Bool.not_true, Bool.false_eq_true, if_false]
    rw [e1]
  · intro j page hj
    have hjn : j < pager.num_pages := by
      by_contra hc
      rw [hbelow j (by omega)] at hj
      cases hj
    exact (hflushed j page (List.mem_range.2 hjn) hj).2
  · exact hfw _
  · show (file_write _ 0 _).length = _
    rw [hfw, wal_header_bytes_length]
    rfl
  · intro hlt
    exact Nat.mod_eq_of_lt hlt

theorem wal_checkpoint_spec_witness :
    ∃ wal1 pager1, wal_checkpoint example_wal table_with_alice.pager = .ok (true, wal1, pager1) ∧
      pager1.pages = table_with_alice.pager.pages ∧
      pager1.num_pages = table_with_alice.pager.num_pages ∧
      (∀ j page, table_with_alice.pager.pages.getD j none = some page →
        file_read pager1.file (j * PAGE_SIZE) PAGE_SIZE = page) ∧
      wal1.file = wal_header_bytes wal1.header ∧ wal1.file.length = WAL_HEADER_SIZE ∧
      wal1.frame_count = 0 ∧ wal1.is_open = true ∧
      wal1.header = { example_wal.header with
        checkpoint_seq := (example_wal.header.checkpoint_seq + 1) % 4294967296 } ∧
      (example_wal.header.checkpoint_seq + 1 < 4294967296 →
        wal1.header.checkpoint_seq = example_wal.header.checkpoint_seq + 1) :=
  wal_checkpoint_spec example_wal table_with_alice.pager rfl (by decide!) rfl
    (by
      intro j hj
      have h1 : table_with_alice.pager.num_pages = 1 := rfl
      have h2 : table_with_alice.pager.pages =
          (List.replicate TABLE_MAX_PAGES none).set 0 (some (leaf_page true 0 0 [row_alice])) :=
        rfl
      rw [h1] at hj
      rw [h2, List.getD_eq_getElem?_getD, List.getElem?_set_ne (by omega)]
      by_cases hlt : j < TABLE_MAX_PAGES
      · rw [List.getElem?_replicate, if_pos hlt]; rfl
      · rw [List.getElem?_eq_none (by simp; omega)]; rfl)

/-! ## Theorems: WAL frames of the executor -/

theorem execute_update_wal (stmt : ParsedStatement) (table : Table) (r : ExecuteResult)
    (table2 : Table) (h : execute_update stmt table = .ok (r, table2)) :
    table2.wal = table.wal := by
  unfold execute_update at h
  cases hw : stmt.where_clause with
  | none => rw [hw] at h; cases h; rfl
  | some where_clause =>
    rw [hw] at h
    simp only at h
    split at h
    · cases hf : table_find table (atoi_u32 where_clause.value) with
      | error f => rw [hf] at h; cases h
      | ok r1 =>
        obtain ⟨cursor, table1⟩ := r1
        have h1 := (table_find_ext _ _ _ _ hf).2.1
        rw [hf] at h
        simp only at h
        split at h
        · cases hg : pager_get_page table1.pager cursor.page_num with
          | error f => rw [hg] at h; cases h
          | ok r2 =>
            obtain ⟨node, pager1⟩ := r2
            rw [hg] at h
            simp only at h
            split at h
            · cases hv : cursor_value { table1 with pager := pager1 } cursor with
              | error f => rw [hv] at h; cases h
              | ok r3 =>
                obtain ⟨⟨page, off⟩, table3⟩ := r3
                have h3 := (cursor_value_ext _ _ _ _ hv).2.1
                rw [hv] at h
                cases h
                exact h3.trans h1
            · cases h; exact h1
        · cases h; exact h1
    · cases h; rfl

/-- C22, the code at the failing input.  `execute_update` never appends to the WAL: whatever
it returns, the WAL of the table is the one before the call.  On the table holding the row
(1, alice, a@x) with an open WAL of no frames, `UPDATE SET username = bob WHERE id = 1`
returns EXECUTE_SUCCESS and page 0 in memory now holds the row (1, bob, a@x), a different
image, while the WAL is still the one of no frames: its file is the 32 header bytes. -/
theorem execute_update_appends_no_wal_frame :
    (∀ stmt table r table2, execute_update stmt table = .ok (r, table2) →
      table2.wal = table.wal) ∧
    ∃ table2, execute_update stmt_update_bob table_with_alice = .ok (.EXECUTE_SUCCESS, table2) ∧
      table_with_alice.pager.pages.getD 0 none = some (leaf_page true 0 0 [row_alice]) ∧
      table2.pager.pages.getD 0 none =
        some (leaf_page true 0 0 [make_row 1 [98, 111, 98] [97, 64, 120]]) ∧
      leaf_page true 0 0 [make_row 1 [98, 111, 98] [97, 64, 120]] ≠
        leaf_page true 0 0 [row_alice] ∧
      table_with_alice.wal = some example_wal_empty ∧
      table2.wal = some example_wal_empty ∧
      example_wal_empty.frame_count = 0 ∧
      example_wal_empty.file.length = WAL_HEADER_SIZE ∧
      wal_frames 1 (example_wal_empty.file.drop WAL_HEADER_SIZE) = [] := by
  refine ⟨execute_update_wal, { table_with_alice with
      pager := pager_set_page table_with_alice.pager 0
        (leaf_page true 0 0 [make_row 1 [98, 111, 98] [97, 64, 120]]) }, ?_, ?_, ?_, ?_, rfl, rfl,
    rfl, ?_, ?_⟩
  · decide!
  · decide!
  · decide!
  · decide!
  · decide!
  · decide!

/-! ## Theorems: schema catalog -/

theorem cstr_strncpy_short (dst src rest : List Nat) (n : Nat) (h : (cstr src).length < n) :
    cstr (strncpy dst src n ++ rest) = cstr src := by
  have ht : (cstr src).take n = cstr src := List.take_of_length_le (by omega)
  simp only [strncpy, memcpy, strncpy_bytes, List.take_zero, List.nil_append, Nat.zero_add, ht]
  rw [List.take_of_length_le (by simp; omega)]
  obtain ⟨k, hk⟩ : ∃ k, n - (cstr src).length = k + 1 := ⟨n - (cstr src).length - 1, by omega⟩
  rw [hk, List.replicate_succ]
  simp only [List.append_assoc]
  exact cstr_append_of_stop _ _ (cstr_all_ne_zero src) (Or.inr rfl)

theorem strncpy_short_eq (dst src : List Nat) (n : Nat) (h : (cstr src).length ≤ n)
    (hd : dst.length = n) :
    strncpy dst src n = cstr src ++ List.replicate (n - (cstr src).length) 0 := by
  have ht : (cstr src).take n = cstr src := List.take_of_length_le (by omega)
  simp only [strncpy, memcpy, strncpy_bytes, List.take_zero, List.nil_append, Nat.zero_add, ht]
  rw [List.take_of_length_le (by simp; omega), List.drop_of_length_le (by omega),
    List.append_nil]

theorem copy_columns_loop_spec (columns : List ColumnDef) :
    ∀ (i : Nat) (slots : List ColumnDef) (pk : Nat), i + columns.length ≤ slots.length →
      (copy_columns_loop columns i slots pk).1 =
        slots.take i ++ columns ++ slots.drop (i + columns.length) ∧
      ((∀ c ∈ columns, c.is_primary_key = false) →
        (copy_columns_loop columns i slots pk).2 = pk) ∧
      (∀ k c, columns[k]? = some c → c.is_primary_key = true →
        (∀ m c2, k < m → columns[m]? = some c2 → c2.is_primary_key = false) →
        (copy_columns_loop columns i slots pk).2 = i + k) := by
  induction columns with
  | nil =>
    intro i slots pk _
    refine ⟨by simp [copy_columns_loop], fun _ => rfl, ?_⟩
    intro k c hk
    simp at hk
  | cons c rest ih =>
    intro i slots pk hlen
    simp only [List.length_cons] at hlen
    have hi : i < slots.length := by omega
    obtain ⟨h1, h2, h3⟩ := ih (i + 1) (slots.set i c) (if c.is_primary_key then i else pk)
      (by rw [List.length_set]; omega)
    simp only [copy_columns_loop]
    refine ⟨?_, ?_, ?_⟩
    · rw [h1, List.set_eq_take_append_cons_drop, if_pos hi]
      have e1 : (slots.take i ++ c :: slots.drop (i + 1)).take (i + 1) = slots.take i ++ [c] := by
        rw [List.take_append_eq_append_take]
        simp [List.length_take, Nat.min_eq_left (le_of_lt hi)]
      have e2 : (slots.take i ++ c :: slots.drop (i + 1)).drop (i + 1 + rest.length) =
          slots.drop (i + (rest.length + 1)) := by
        rw [List.drop_append_eq_append_drop]
        simp only [List.length_take, Nat.min_eq_left (le_of_lt hi)]
        rw [List.drop_of_length_le (by simp; omega), List.nil_append,
          show i + 1 + rest.length - i = rest.length + 1 by omega, List.drop_succ_cons,
          List.drop_drop]
        congr 1
        omega
      rw [e1, e2]
      simp
    · intro hall
      rw [h2 (fun c2 hc2 => hall c2 (List.mem_cons_of_mem _ hc2))]
      rw [if_neg (by rw [hall c (List.mem_cons_self _ _)]; simp)]
    · intro k c2 hk hpk hlast
      cases k with
      | zero =>
        simp only [List.getElem?_cons_zero, Option.some.injEq] at hk
        subst hk
        rw [h2 (fun c2 hc2 => by
          obtain ⟨m, hm⟩ := List.mem_iff_getElem?.1 hc2
          exact hlast (m + 1) c2 (by omega) (by simpa using hm))]
        rw [if_pos hpk]
        rfl
      | succ k =>
        simp only [List.getElem?_cons_succ] at hk
        rw [h3 k c2 hk hpk (fun m c3 hm hc3 => hlast (m + 1) c3 (by omega) (by simpa using hc3))]
        omega

theorem schema_find_loop_none (schema : Schema) (table_name : List Nat) :
    ∀ (fuel i : Nat), schema_find_loop schema table_name fuel i = none →
      schema.num_tables ≤ i + fuel →
      ∀ j, i ≤ j → j < schema.num_tables →
        strcmp (schema.tables.getD j default).name_ptr table_name ≠ 0 := by
  intro fuel
  induction fuel with
  | zero => intro i _ hf j hij hj; omega
  | succ fuel ih =>
    intro i h hf j hij hj
    unfold schema_find_loop at h
    have hi : i < schema.num_tables := by omega
    rw [if_pos hi] at h
    split at h
    · cases h
    · rename_i hne
      rcases Nat.eq_or_lt_of_le hij with e | hlt
      · subst e; exact hne
      · exact ih (i + 1) h (by omega) j hlt hj

theorem schema_find_loop_found (schema : Schema) (table_name : List Nat) (n : Nat)
    (hn : n < schema.num_tables)
    (hat : strcmp (schema.tables.getD n default).name_ptr table_name = 0) :
    ∀ (fuel i : Nat), i ≤ n → n < i + fuel →
      (∀ j, i ≤ j → j < n → strcmp (schema.tables.getD j default).name_ptr table_name ≠ 0) →
      schema_find_loop schema table_name fuel i = some n := by
  intro fuel
  induction fuel with
  | zero => intro i h1 h2; omega
  | succ fuel ih =>
    intro i h1 h2 hbefore
    unfold schema_find_loop
    rw [if_pos (by omega)]
    rcases Nat.eq_or_lt_of_le h1 with e | hlt
    · subst e; rw [if_pos hat]
    · rw [if_neg (hbefore i (le_refl _) hlt)]
      exact ih (i + 1) hlt (by omega) (fun j hj1 hj2 => hbefore j (by omega) hj2)

theorem schema_add_table_cases (schema : Schema) (table_name : List Nat)
    (columns : List ColumnDef) (schema1 : Schema)
    (h : schema_add_table schema table_name columns = .ok (true, schema1)) :
    schema.num_tables < MAX_TABLES ∧ schema_get_table schema table_name = none ∧
      columns.length ≤ MAX_COLUMNS ∧
      schema1 =
        { tables := schema.tables.set schema.num_tables
            { name := strncpy (schema.tables.getD schema.num_tables default).name table_name
                MAX_TABLE_NAME
              columns := (copy_columns_loop columns 0
                (schema.tables.getD schema.num_tables default).columns 0).1
              num_columns := columns.length
              primary_key_index := (copy_columns_loop columns 0
                (schema.tables.getD schema.num_tables default).columns 0).2 },
          num_tables := schema.num_tables + 1 } := by
  unfold schema_add_table at h
  split at h
  · cases h
  · rename_i h1
    split at h
    · cases h
    · rename_i h2
      split at h
      · cases h
      · rename_i h3
        injection h with h
        injection h with _ h
        refine ⟨by omega, ?_, by omega, h.symm⟩
        unfold schema_get_table
        cases hf : schema_find_loop schema table_name schema.num_tables 0 with
        | none => rfl
        | some i => rw [hf] at h2; simp at h2

theorem schema_get_table_after_add (schema : Schema) (table_name : List Nat)
    (columns : List ColumnDef) (schema1 : Schema) (hwf : schema_wf schema)
    (hshort : (cstr table_name).length < MAX_TABLE_NAME)
    (h : schema_add_table schema table_name columns = .ok (true, schema1)) :
    schema_get_table schema1 table_name = some schema.num_tables ∧
      (schema1.tables.getD schema.num_tables default).name =
        cstr table_name ++ List.replicate (MAX_TABLE_NAME - (cstr table_name).length) 0 ∧
      cstr (schema1.tables.getD schema.num_tables default).name_ptr = cstr table_name ∧
      (schema1.tables.getD schema.num_tables default).columns.take columns.length = columns ∧
      (schema1.tables.getD schema.num_tables default).num_columns = columns.length ∧
      ((∀ c ∈ columns, c.is_primary_key = false) →
        (schema1.tables.getD schema.num_tables default).primary_key_index = 0) ∧
      (∀ k c, columns[k]? = some c → c.is_primary_key = true →
        (∀ m c2, k < m → columns[m]? = some c2 → c2.is_primary_key = false) →
        (schema1.tables.getD schema.num_tables default).primary_key_index = k) := by
  obtain ⟨hn, hget, hcols, hs1⟩ := schema_add_table_cases schema table_name columns schema1 h
  obtain ⟨hlen, hslots⟩ := hwf
  have hlt : schema.num_tables < schema.tables.length := by rw [hlen]; exact hn
  have hslot := hslots (schema.tables.getD schema.num_tables default) (by
    rw [List.getD_eq_getElem?_getD, List.getElem?_eq_getElem hlt]
    exact List.getElem_mem _)
  have hnew : schema1.tables.getD schema.num_tables default =
      { name := strncpy (schema.tables.getD schema.num_tables default).name table_name
          MAX_TABLE_NAME
        columns := (copy_columns_loop columns 0
          (schema.tables.getD schema.num_tables default).columns 0).1
        num_columns := columns.length
        primary_key_index := (copy_columns_loop columns 0
          (schema.tables.getD schema.num_tables default).columns 0).2 } := by
    rw [hs1, List.getD_eq_getElem?_getD, List.getElem?_set_self hlt]
    rfl
  have hold : ∀ j, j < schema.num_tables →
      schema1.tables.getD j default = schema.tables.getD j default := by
    intro j hj
    rw [hs1, List.getD_eq_getElem?_getD, List.getElem?_set_ne (by omega),
      ← List.getD_eq_getElem?_getD]
  have hnum : schema1.num_tables = schema.num_tables + 1 := by rw [hs1]
  obtain ⟨c1, c2, c3⟩ := copy_columns_loop_spec columns 0
    (schema.tables.getD schema.num_tables default).columns 0 (by rw [hslot.2]; omega)
  have hptr : cstr (schema1.tables.getD schema.num_tables default).name_ptr =
      cstr table_name := by
    rw [hnew]
    exact cstr_strncpy_short _ _ _ _ hshort
  refine ⟨?_, ?_, hptr, ?_, ?_, ?_, ?_⟩
  · unfold schema_get_table
    rw [hnum]
    apply schema_find_loop_found schema1 table_name schema.num_tables (by omega)
      ((strcmp_eq_zero_iff _ _).2 hptr) (schema.num_tables + 1) 0 (Nat.zero_le _) (by omega)
    intro j _ hj
    rw [hold j hj]
    exact schema_find_loop_none schema table_name schema.num_tables 0 hget (by omega) j
      (Nat.zero_le _) hj
  · rw [hnew]
    exact strncpy_short_eq _ _ _ (le_of_lt hshort) hslot.1
  · rw [hnew]
    show (copy_columns_loop columns 0 _ 0).1.take columns.length = columns
    rw [c1]
    simp
  · rw [hnew]
  · intro hall
    rw [hnew]
    exact c2 hall
  · intro k c hk hpk hlast
    rw [hnew]
    show (copy_columns_loop columns 0 _ 0).2 = k
    rw [c3 k c hk hpk hlast]
    omega

/-- C29, the code at the failing input.  `schema_add_table` returns false and leaves the
catalog as it is when `MAX_TABLES` (8) tables are held or when the lookup of the name finds
a slot, and otherwise (for at most `MAX_COLUMNS` columns) returns true with `num_tables` one
more; a name of fewer than 32 bytes that was added is refused when it is added again.  A
name of 32 bytes is stored without its NUL: `CREATE TABLE` with the name of 32 letters `a`
and the column `id INT` parses to a statement with that name, `schema_add_table` adds it to
the empty catalog, the lookup of the name in the catalog after it finds nothing, and adding
the same name again returns true: the catalog holds two tables with the same name bytes. -/
theorem schema_add_table_accepts_duplicate_name_32 :
    MAX_TABLES = 8 ∧
    (∀ schema table_name columns,
      schema.num_tables ≥ MAX_TABLES ∨ schema_get_table schema table_name ≠ none →
      schema_add_table schema table_name columns = .ok (false, schema)) ∧
    (∀ schema table_name columns, schema.num_tables < MAX_TABLES →
      schema_get_table schema table_name = none → columns.length ≤ MAX_COLUMNS →
      ∃ schema1, schema_add_table schema table_name columns = .ok (true, schema1) ∧
        schema1.num_tables = schema.num_tables + 1) ∧
    (∀ schema table_name columns schema1 columns2, schema_wf schema →
      (cstr table_name).length < MAX_TABLE_NAME →
      schema_add_table schema table_name columns = .ok (true, schema1) →
      schema_add_table schema1 table_name columns2 = .ok (false, schema1)) ∧
    parse_statement JoinClause.zero input_create_table_name_32 =
      .ok (some stmt_create_table_name_32) ∧
    cstr stmt_create_table_name_32.table_name = name_32 ∧ name_32.length = 32 ∧
    schema_add_table schema_create stmt_create_table_name_32.table_name
      stmt_create_table_name_32.columns = .ok (true, schema_with_name_32) ∧
    schema_get_table schema_with_name_32 stmt_create_table_name_32.table_name = none ∧
    schema_add_table schema_with_name_32 stmt_create_table_name_32.table_name
      stmt_create_table_name_32.columns = .ok (true, schema_with_name_32_twice) ∧
    schema_with_name_32_twice.num_tables = 2 ∧
    (schema_with_name_32_twice.tables.getD 0 default).name = name_32 ∧
    (schema_with_name_32_twice.tables.getD 1 default).name = name_32 := by
  have hrefuse : ∀ (schema : Schema) (table_name : List Nat) (columns : List ColumnDef),
      schema.num_tables ≥ MAX_TABLES ∨ schema_get_table schema table_name ≠ none →
      schema_add_table schema table_name columns = .ok (false, schema) := by
    intro schema table_name columns h
    unfold schema_add_table
    by_cases h1 : schema.num_tables ≥ MAX_TABLES
    · rw [if_pos h1]
    · rw [if_neg h1]
      rcases h with h | h
      · exact absurd h h1
      · unfold schema_get_table at h
        rw [if_pos (by
          cases hf : schema_find_loop schema table_name schema.num_tables 0 with
          | none => exact absurd hf h
          | some i => rfl)]
  refine ⟨rfl, hrefuse, ?_, ?_, by decide!, by decide!, by decide!, by decide!, by decide!,
    by decide!, rfl, by decide!, by decide!⟩
  · intro schema table_name columns h1 h2 h3
    unfold schema_get_table at h2
    unfold schema_add_table
    rw [if_neg (by omega), h2, if_neg (by simp), if_neg (by omega)]
    exact ⟨_, rfl, rfl⟩
  · intro schema table_name columns schema1 columns2 hwf hshort h
    apply hrefuse
    right
    rw [(schema_get_table_after_add schema table_name columns schema1 hwf hshort h).1]
    simp

/-- C30, the code at the failing input.  After `schema_add_table` succeeded for a name of
fewer than 32 bytes on a catalog as the C type holds it, `schema_get_table` of the name
returns the slot just filled: its name is the name, its first `num_columns` columns are the
columns passed, and its `primary_key_index` is the index of the last column flagged primary
(0 when no column is flagged).  After it succeeded for the name of 32 letters `a` on the
empty catalog, `schema_get_table` of that name returns `NULL`. -/
theorem schema_get_table_misses_name_32 :
    (∀ schema table_name columns schema1, schema_wf schema →
      (cstr table_name).length < MAX_TABLE_NAME →
      schema_add_table schema table_name columns = .ok (true, schema1) →
      schema_get_table schema1 table_name = some schema.num_tables ∧
      (schema1.tables.getD schema.num_tables default).name =
        cstr table_name ++ List.replicate (MAX_TABLE_NAME - (cstr table_name).length) 0 ∧
      cstr (schema1.tables.getD schema.num_tables default).name_ptr = cstr table_name ∧
      (schema1.tables.getD schema.num_tables default).columns.take columns.length = columns ∧
      (schema1.tables.getD schema.num_tables default).num_columns = columns.length ∧
      ((∀ c ∈ columns, c.is_primary_key = false) →
        (schema1.tables.getD schema.num_tables default).primary_key_index = 0) ∧
      (∀ k c, columns[k]? = some c → c.is_primary_key = true →
        (∀ m c2, k < m → columns[m]? = some c2 → c2.is_primary_key = false) →
        (schema1.tables.getD schema.num_tables default).primary_key_index = k)) ∧
    schema_wf schema_create ∧
    schema_add_table schema_create name_32 [column_id_int] = .ok (true, schema_with_name_32) ∧
    schema_get_table schema_with_name_32 name_32 = none ∧
    (schema_with_name_32.tables.getD 0 default).name = name_32 ∧
    cstr (schema_with_name_32.tables.getD 0 default).name_ptr = name_32 ++ [105, 100] := by
  refine ⟨schema_get_table_after_add, by decide!, by decide!, by decide!, by decide!,
    by decide!⟩

/-! ## Theorems: lexer and `parse_insert` -/

theorem lexer_scan_run (p : Nat → Bool) (lexer : Lexer) (w : List Nat) :
    ∀ (a r : List Nat) (fuel : Nat), lexer.input = a ++ w ++ r →
      lexer.length = lexer.input.length → (∀ c ∈ w, p c = true) →
      (r = [] ∨ p (r.headD 0) = false) → w.length ≤ fuel →
      lexer_scan p lexer fuel a.length = a.length + w.length := by
  induction w with
  | nil =>
    intro a r fuel hin hlen _ hr _
    cases fuel with
    | zero => rfl
    | succ fuel =>
      unfold lexer_scan
      rw [if_neg]
      · rfl
      · rintro ⟨h1, h2⟩
        rw [hlen, hin] at h1
        rw [hin] at h2
        simp only [List.append_nil, List.length_append] at h1
        rcases hr with hr | hr
        · subst hr; simp at h1
        · cases r with
          | nil => simp at h1
          | cons c r2 =>
            simp only [List.append_nil, List.getD_eq_getElem?_getD,
              List.getElem?_append_right (le_refl _), Nat.sub_self, List.getElem?_cons_zero,
              Option.getD_some] at h2
            simp only [List.headD_cons] at hr
            rw [hr] at h2
            cases h2
  | cons c w ih =>
    intro a r fuel hin hlen hw hr hfuel
    cases fuel with
    | zero => simp at hfuel
    | succ fuel =>
      unfold lexer_scan
      have h1 : a.length < lexer.length := by
        rw [hlen, hin]; simp only [List.length_append, List.length_cons]; omega
      have h2 : p (lexer.input.getD a.length 0) = true := by
        rw [hin, List.append_assoc, List.getD_eq_getElem?_getD,
          List.getElem?_append_right (le_refl _), Nat.sub_self]
        simp only [List.cons_append, List.getElem?_cons_zero, Option.getD_some]
        exact hw c (List.mem_cons_self _ _)
      rw [if_pos ⟨h1, h2⟩]
      have := ih (a ++ [c]) r fuel (by rw [hin]; simp) hlen
        (fun d hd => hw d (List.mem_cons_of_mem _ hd)) hr
        (by simp only [List.length_cons] at hfuel; omega)
      simp only [List.length_append, List.length_cons, List.length_nil] at this ⊢
      rw [this]
      omega

theorem cstr_eq_self (w : List Nat) (h : ∀ c ∈ w, c ≠ 0) : cstr w = w := by
  have := cstr_append_of_stop w [] h (Or.inl rfl)
  simpa using this

theorem cstr_append_left (w r : List Nat) (h : ∀ c ∈ w, c ≠ 0) : cstr (w ++ r) = w ++ cstr r := by
  unfold cstr
  induction w with
  | nil => rfl
  | cons c w ih =>
    have hc : c ≠ 0 := h c (List.mem_cons_self _ _)
    simp only [List.cons_append, List.takeWhile_cons]
    rw [if_pos (by simpa using hc), ih (fun d hd => h d (List.mem_cons_of_mem _ hd))]

theorem make_token_value (type : TokenType) (w r : List Nat) (h : ∀ c ∈ w, c ≠ 0) :
    make_token type (some (w ++ r)) w.length =
      { type := type, value := some w, length := w.length } := by
  unfold make_token strncpy_bytes
  simp only [Option.map_some', Function.comp]
  rw [cstr_append_left w r h, List.take_left' rfl]
  simp [cstr_eq_self w h]

theorem strncasecmp_append (w : List Nat) :
    ∀ (r kw : List Nat), strncasecmp (w ++ r) kw w.length = strncasecmp w kw w.length := by
  induction w with
  | nil => intro r kw; rfl
  | cons c w ih =>
    intro r kw
    simp only [List.cons_append, List.length_cons, strncasecmp, List.headD_cons, List.tail_cons]
    rw [ih]

theorem keyword_lookup_append (w r : List Nat) (kws : List (List Nat × TokenType)) :
    keyword_lookup (w ++ r) w.length kws = keyword_lookup w w.length kws := by
  induction kws with
  | nil => rfl
  | cons kw kws ih =>
    obtain ⟨k, t⟩ := kw
    simp only [keyword_lookup]
    rw [strncasecmp_append, ih]

theorem skip_whitespace_run (lexer : Lexer) (a sp r : List Nat)
    (hin : lexer.input = a ++ sp ++ r) (hpos : lexer.position = a.length)
    (hlen : lexer.length = lexer.input.length) (hsp : ∀ c ∈ sp, isspace c = true)
    (hr : r = [] ∨ isspace (r.headD 0) = false) :
    skip_whitespace lexer = { lexer with position := a.length + sp.length } := by
  unfold skip_whitespace
  rw [hpos, lexer_scan_run isspace lexer sp a r _ hin hlen hsp hr
    (by rw [hlen, hin]; simp only [List.length_append]; omega)]

theorem identifier_char_ne_zero (c : Nat) (h : identifier_char c = true) : c ≠ 0 := by
  intro h0
  subst h0
  revert h
  decide

theorem isdigit_ne_zero (c : Nat) (h : isdigit c = true) : c ≠ 0 := by
  intro h0
  subst h0
  revert h
  decide

theorem read_identifier_run (lexer : Lexer) (a w r : List Nat)
    (hin : lexer.input = a ++ w ++ r) (hpos : lexer.position = a.length)
    (hlen : lexer.length = lexer.input.length) (hw : ∀ c ∈ w, identifier_char c = true)
    (hr : r = [] ∨ identifier_char (r.headD 0) = false) :
    read_identifier lexer =
      (match keyword_lookup w w.length keywords with
        | some type => make_token type none 0
        | none => { type := .TOKEN_IDENTIFIER, value := some w, length := w.length },
       { lexer with position := a.length + w.length }) := by
  have hscan : lexer_scan (fun c => isalnum c || c = 95 || c = 64 || c = 46) lexer
      (lexer.length - lexer.position) lexer.position = a.length + w.length := by
    rw [hpos]
    exact lexer_scan_run identifier_char lexer w a r _ hin hlen hw hr
      (by rw [hlen, hin]; simp only [List.length_append]; omega)
  have hdrop : lexer.input.drop lexer.position = w ++ r := by
    rw [hin, hpos, List.append_assoc, List.drop_left]
  unfold read_identifier
  simp only [hscan, hdrop]
  rw [hpos, Nat.add_sub_cancel_left, keyword_lookup_append]
  cases keyword_lookup w w.length keywords with
  | some type => rfl
  | none =>
    simp only
    rw [make_token_value _ w r (fun c hc => identifier_char_ne_zero c (hw c hc))]

theorem read_number_run (lexer : Lexer) (a w r : List Nat)
    (hin : lexer.input = a ++ w ++ r) (hpos : lexer.position = a.length)
    (hlen : lexer.length = lexer.input.length) (hw : ∀ c ∈ w, isdigit c = true)
    (hr : r = [] ∨ isdigit (r.headD 0) = false) :
    read_number lexer =
      ({ type := .TOKEN_NUMBER, value := some w, length := w.length },
       { lexer with position := a.length + w.length }) := by
  have hscan : lexer_scan isdigit lexer (lexer.length - lexer.position) lexer.position =
      a.length + w.length := by
    rw [hpos]
    exact lexer_scan_run isdigit lexer w a r _ hin hlen hw hr
      (by rw [hlen, hin]; simp only [List.length_append]; omega)
  have hdrop : lexer.input.drop lexer.position = w ++ r := by
    rw [hin, hpos, List.append_assoc, List.drop_left]
  unfold read_number
  simp only [hscan, hdrop]
  rw [hpos, Nat.add_sub_cancel_left,
    make_token_value _ w r (fun c hc => isdigit_ne_zero c (hw c hc))]

theorem lexer_next_token_word (lexer : Lexer) (a sp w r : List Nat)
    (hin : lexer.input = a ++ sp ++ w ++ r) (hpos : lexer.position = a.length)
    (hlen : lexer.length = lexer.input.length) (hsp : ∀ c ∈ sp, isspace c = true)
    (hfirst : isalpha (w.headD 0) = true ∨ w.headD 0 = 95)
    (hw : ∀ c ∈ w, identifier_char c = true)
    (hr : r = [] ∨ identifier_char (r.headD 0) = false) :
    lexer_next_token lexer =
      (match keyword_lookup w w.length keywords with
        | some type => make_token type none 0
        | none => { type := .TOKEN_IDENTIFIER, value := some w, length := w.length },
       { lexer with position := a.length + sp.length + w.length }) := by
  cases w with
  | nil =>
    exfalso
    revert hfirst
    decide
  | cons c w =>
    simp only [List.headD_cons] at hfirst
    have hc : (65 ≤ c ∧ c ≤ 90) ∨ (97 ≤ c ∧ c ≤ 122) ∨ c = 95 := by
      rcases hfirst with h | h
      · simp only [isalpha, Bool.or_eq_true, Bool.and_eq_true, decide_eq_true_eq] at h
        rcases h with h | h
        · exact Or.inl h
        · exact Or.inr (Or.inl h)
      · exact Or.inr (Or.inr h)
    have hskip := skip_whitespace_run lexer a sp (c :: w ++ r)
      (by rw [hin]; simp) hpos hlen hsp (Or.inr (by
        simp only [List.cons_append, List.headD_cons, isspace, Bool.or_eq_false_iff,
          Bool.and_eq_false_iff, decide_eq_false_iff_not]
        omega))
    have hcur : lexer.input.getD (a.length + sp.length) 0 = c := by
      rw [hin, List.append_assoc, List.append_assoc, ← List.append_assoc a sp,
        List.getD_eq_getElem?_getD,
        List.getElem?_append_right (by simp), List.length_append, Nat.sub_self]
      simp only [List.cons_append, List.getElem?_cons_zero, Option.getD_some]
    have hlt : ¬ a.length + sp.length ≥ lexer.length := by
      rw [hlen, hin]
      simp only [List.length_append, List.length_cons]
      omega
    unfold lexer_next_token
    simp only [hskip, hcur]
    rw [if_neg hlt, if_neg (by omega), if_neg (by omega), if_neg (by omega), if_neg (by omega),
      if_neg (by omega), if_neg (by omega), if_neg (by omega), if_pos (by
        rcases hc with h | h | h
        · left; simp [isalpha, h.1, h.2]
        · left; simp [isalpha, h.1, h.2]
        · right; exact h)]
    have := read_identifier_run { lexer with position := a.length + sp.length } (a ++ sp)
      (c :: w) r (by rw [← hin]) (by simp) hlen hw hr
    rw [this]
    simp only [List.length_append]

theorem lexer_next_token_number (lexer : Lexer) (a sp w r : List Nat)
    (hin : lexer.input = a ++ sp ++ w ++ r) (hpos : lexer.position = a.length)
    (hlen : lexer.length = lexer.input.length) (hsp : ∀ c ∈ sp, isspace c = true)
    (hne : w ≠ []) (hw : ∀ c ∈ w, isdigit c = true)
    (hr : r = [] ∨ isdigit (r.headD 0) = false) :
    lexer_next_token lexer =
      ({ type := .TOKEN_NUMBER, value := some w, length := w.length },
       { lexer with position := a.length + sp.length + w.length }) := by
  cases w with
  | nil => exact absurd rfl hne
  | cons c w =>
    have hc : 48 ≤ c ∧ c ≤ 57 := by
      have := hw c (List.mem_cons_self _ _)
      simpa [isdigit] using this
    have hskip := skip_whitespace_run lexer a sp (c :: w ++ r)
      (by rw [hin]; simp) hpos hlen hsp (Or.inr (by
        simp only [List.cons_append, List.headD_cons, isspace, Bool.or_eq_false_iff,
          Bool.and_eq_false_iff, decide_eq_false_iff_not]
        omega))
    have hcur : lexer.input.getD (a.length + sp.length) 0 = c := by
      rw [hin, List.append_assoc, List.append_assoc, ← List.append_assoc a sp,
        List.getD_eq_getElem?_getD,
        List.getElem?_append_right (by simp), List.length_append, Nat.sub_self]
      simp only [List.cons_append, List.getElem?_cons_zero, Option.getD_some]
    have hlt : ¬ a.length + sp.length ≥ lexer.length := by
      rw [hlen, hin]
      simp only [List.length_append, List.length_cons]
      omega
    unfold lexer_next_token
    simp only [hskip, hcur]
    rw [if_neg hlt, if_neg (by omega), if_neg (by omega), if_neg (by omega), if_neg (by omega),
      if_neg (by omega), if_neg (by omega), if_neg (by omega), if_neg (by
        simp only [isalpha, Bool.or_eq_true, Bool.and_eq_true, decide_eq_true_eq]
        omega), if_pos (hw c (List.mem_cons_self _ _))]
    have := read_number_run { lexer with position := a.length + sp.length } (a ++ sp)
      (c :: w) r (by rw [← hin]) (by simp) hlen hw hr
    rw [this]
    simp only [List.length_append]

theorem atoi_digits_eq (digits : List Nat) (h : ∀ c ∈ digits, isdigit c = true) :
    ∀ acc : Nat, atoi_digits digits (acc : Int) =
      ((digits.foldl (fun acc c => acc * 10 + (c - 48)) acc : Nat) : Int) := by
  induction digits with
  | nil => intro acc; rfl
  | cons c cs ih =>
    intro acc
    have hc := h c (List.mem_cons_self _ _)
    have hc2 : 48 ≤ c := by
      simp only [isdigit, Bool.and_eq_true, decide_eq_true_eq] at hc
      exact hc.1
    simp only [atoi_digits, hc, if_true, List.foldl_cons]
    rw [← ih (fun d hd => h d (List.mem_cons_of_mem _ hd)) (acc * 10 + (c - 48))]
    congr 1
    push_cast [hc2]
    ring

theorem to_int32_mod (x : Nat) : (to_int32 x % 4294967296).toNat = x % 4294967296 := by
  unfold to_int32
  split_ifs <;> omega

theorem strtol_digits (digits : List Nat) (h : ∀ c ∈ digits, isdigit c = true) :
    strtol digits = min (digits_value digits : Int) 9223372036854775807 := by
  have hcstr : cstr digits = digits := cstr_eq_self digits (fun c hc => isdigit_ne_zero c (h c hc))
  have hm : (match (cstr digits).dropWhile isspace with
     | 45 :: rest => - atoi_digits rest 0
     | 43 :: rest => atoi_digits rest 0
     | rest => atoi_digits rest 0) = atoi_digits digits 0 := by
    rw [hcstr]
    cases digits with
    | nil => rfl
    | cons c cs =>
      have hc := h c (List.mem_cons_self _ _)
      have hc2 : 48 ≤ c ∧ c ≤ 57 := by simpa [isdigit] using hc
      have hsp : isspace c = false := by
        simp only [isspace, Bool.or_eq_false_iff, Bool.and_eq_false_iff, decide_eq_false_iff_not]
        omega
      rw [List.dropWhile_cons_of_neg (by rw [hsp]; simp)]
      split
      · rename_i heq; injection heq with h1; omega
      · rename_i heq; injection heq with h1; omega
      · rfl
  unfold strtol
  rw [hm]
  have := atoi_digits_eq digits h 0
  simp only [Nat.cast_zero] at this
  rw [this]
  unfold strtol_saturate digits_value
  split_ifs <;> omega

/-- For a string of decimal digits `atoi` gives the number the digits denote, saturated at
`LONG_MAX` and then reduced modulo 2^32. -/
theorem atoi_u32_digits (digits : List Nat) (h : ∀ c ∈ digits, isdigit c = true) :
    atoi_u32 digits = min (digits_value digits) 9223372036854775807 % 4294967296 := by
  unfold atoi_u32 atoi
  rw [to_int32_mod, strtol_digits digits h]
  omega

/-- For a string of decimal digits that denotes a number in the `uint32_t` range `atoi`
gives that number. -/
theorem atoi_u32_digits_lt (digits : List Nat) (h : ∀ c ∈ digits, isdigit c = true)
    (hlt : digits_value digits < 4294967296) : atoi_u32 digits = digits_value digits := by
  rw [atoi_u32_digits digits h]
  omega

/-- The saturation of `atoi`: the digits of 2^63 and of 2^63 - 1 both give 4294967295, the
digits of 2^32 + 1 give 1, `-1` gives 4294967295, and white space, a sign and text after
the digits are handled as `strtol` does. -/
theorem atoi_u32_saturates :
    digits_value [57, 50, 50, 51, 51, 55, 50, 48, 51, 54, 56, 53, 52, 55, 55, 53, 56, 48, 56] =
      9223372036854775808 ∧
    atoi_u32 [57, 50, 50, 51, 51, 55, 50, 48, 51, 54, 56, 53, 52, 55, 55, 53, 56, 48, 56] =
      4294967295 ∧
    atoi_u32 [57, 50, 50, 51, 51, 55, 50, 48, 51, 54, 56, 53, 52, 55, 55, 53, 56, 48, 55] =
      4294967295 ∧
    atoi_u32 [52, 50, 57, 52, 57, 54, 55, 50, 57, 55] = 1 ∧
    atoi_u32 [45, 49] = 4294967295 ∧
    atoi_u32 [32, 43, 52, 50, 120] = 42 := by
  refine ⟨by decide, by decide, by decide, by decide, by decide, by decide⟩

theorem insert_input_ne_zero (digits username email : List Nat)
    (hd : ∀ c ∈ digits, isdigit c = true) (hu : ∀ c ∈ username, identifier_char c = true)
    (he : ∀ c ∈ email, identifier_char c = true) :
    ∀ c ∈ insert_input digits username email, c ≠ 0 := by
  intro c hc
  unfold insert_input at hc
  simp only [List.mem_append, List.mem_cons, List.mem_singleton, List.not_mem_nil, or_false]
    at hc
  rcases hc with ((((((h | h | h | h | h | h) | h) | h) | h) | h) | h) | h
  any_goals omega
  · exact isdigit_ne_zero c (hd c h)
  · exact identifier_char_ne_zero c (hu c h)
  · exact identifier_char_ne_zero c (he c h)

theorem parser_init_insert (digits username email : List Nat)
    (hd : ∀ c ∈ digits, isdigit c = true) (hu : ∀ c ∈ username, identifier_char c = true)
    (he : ∀ c ∈ email, identifier_char c = true) :
    parser_init (insert_input digits username email) =
      { lexer := { input := insert_input digits username email, position := 6,
                   length := (insert_input digits username email).length },
        current_token := make_token .TOKEN_INSERT none 0 } := by
  have hcstr := cstr_eq_self _ (insert_input_ne_zero digits username email hd hu he)
  have h := lexer_next_token_word (lexer_init (insert_input digits username email)) [] []
    [73, 78, 83, 69, 82, 84] ([32] ++ digits ++ [32] ++ username ++ [32] ++ email)
    (by show cstr (insert_input digits username email) = _; rw [hcstr]; simp [insert_input])
    rfl (by simp only [lexer_init, hcstr]) (by simp) (by decide) (by decide)
    (Or.inr (by show identifier_char 32 = false; decide))
  unfold parser_init
  rw [h]
  simp only [lexer_init, hcstr]
  rfl

theorem parse_statement_of_insert_token (fresh : JoinClause) (input : List Nat)
    (h : (parser_init input).current_token.type = .TOKEN_INSERT) :
    parse_statement fresh input =
      match parse_insert (parser_init input) with
      | none => .ok none
      | some stmt => .ok (some { stmt with is_explain := false }) := by
  unfold parse_statement
  generalize parser_init input = parser at h ⊢
  obtain ⟨lexer, ⟨type, value, len⟩⟩ := parser
  simp only at h
  subst h
  cases hp : parse_insert ⟨lexer, ⟨.TOKEN_INSERT, value, len⟩⟩ with
  | none => simp [hp]
  | some stmt => simp [hp]

theorem parse_statement_insert (fresh : JoinClause) (digits username email : List Nat)
    (hd : ∀ c ∈ digits, isdigit c = true) (hu : ∀ c ∈ username, identifier_char c = true)
    (he : ∀ c ∈ email, identifier_char c = true) :
    parse_statement fresh (insert_input digits username email) =
      match parse_insert
        { lexer := { input := insert_input digits username email, position := 6,
                     length := (insert_input digits username email).length },
          current_token := make_token .TOKEN_INSERT none 0 } with
      | none => .ok none
      | some stmt => .ok (some { stmt with is_explain := false }) := by
  rw [parse_statement_of_insert_token fresh _ (by
    rw [parser_init_insert digits username email hd hu he]; rfl),
    parser_init_insert digits username email hd hu he]

theorem parser_advance_eq (parser : Parser) (token : Token) (lexer1 : Lexer)
    (h : lexer_next_token parser.lexer = (token, lexer1)) :
    parser_advance parser = { lexer := lexer1, current_token := token } := by
  unfold parser_advance
  rw [h]

theorem parse_insert_run (lexer : Lexer) (token : Token) (a digits username email : List Nat)
    (hin : lexer.input = a ++ [32] ++ digits ++ [32] ++ username ++ [32] ++ email)
    (hpos : lexer.position = a.length) (hlen : lexer.length = lexer.input.length)
    (hne : digits ≠ []) (hd : ∀ c ∈ digits, isdigit c = true)
    (hu1 : isalpha (username.headD 0) = true ∨ username.headD 0 = 95)
    (hu : ∀ c ∈ username, identifier_char c = true)
    (huk : keyword_lookup username username.length keywords = none)
    (he1 : isalpha (email.headD 0) = true ∨ email.headD 0 = 95)
    (he : ∀ c ∈ email, identifier_char c = true)
    (hek : keyword_lookup email email.length keywords = none) :
    parse_insert { lexer := lexer, current_token := token } =
      some { new_statement .STMT_INSERT with
        row_to_insert := make_row (atoi_u32 digits) username email } := by
  have hspace : ∀ c ∈ [32], isspace c = true := by decide
  have h1 : parser_advance { lexer := lexer, current_token := token } =
      { lexer := { lexer with position := a.length + 1 + digits.length },
        current_token := { type := .TOKEN_NUMBER, value := some digits,
                           length := digits.length } } :=
    parser_advance_eq _ _ _
      (lexer_next_token_number lexer a [32] digits ([32] ++ username ++ [32] ++ email)
        (by rw [hin]; simp) hpos hlen hspace hne hd
        (Or.inr (by show isdigit 32 = false; decide)))
  have h2 : parser_advance
      { lexer := { lexer with position := a.length + 1 + digits.length },
        current_token := { type := .TOKEN_NUMBER, value := some digits,
                           length := digits.length } } =
      { lexer := { lexer with
          position := (a ++ [32] ++ digits).length + 1 + username.length },
        current_token := { type := .TOKEN_IDENTIFIER, value := some username,
                           length := username.length } } :=
    parser_advance_eq _ _ _
      ((lexer_next_token_word { lexer with position := a.length + 1 + digits.length }
        (a ++ [32] ++ digits) [32] username ([32] ++ email)
        (by show lexer.input = _; rw [hin]; simp)
        (by simp only [List.length_append, List.length_cons, List.length_nil]) hlen hspace hu1
        hu (Or.inr (by show identifier_char 32 = false; decide))).trans (by rw [huk]; rfl))
  have h3 : parser_advance
      { lexer := { lexer with
          position := (a ++ [32] ++ digits).length + 1 + username.length },
        current_token := { type := .TOKEN_IDENTIFIER, value := some username,
                           length := username.length } } =
      { lexer := { lexer with
          position := (a ++ [32] ++ digits ++ [32] ++ username).length + 1 + email.length },
        current_token := { type := .TOKEN_IDENTIFIER, value := some email,
                           length := email.length } } :=
    parser_advance_eq _ _ _
      ((lexer_next_token_word
        { lexer with position := (a ++ [32] ++ digits).length + 1 + username.length }
        (a ++ [32] ++ digits ++ [32] ++ username) [32] email []
        (by show lexer.input = _; rw [hin]; simp)
        (by simp only [List.length_append, List.length_cons, List.length_nil]) hlen hspace he1
        he (Or.inl rfl)).trans (by rw [hek]; rfl))
  unfold parse_insert
  simp only [h1, h2, h3]
  simp [Parser.value, make_row, field_of_string, new_statement]
  exact ⟨rfl, rfl⟩

/-- C21, counterexample.  The user name `max` consists of identifier characters and fits
the 32 bytes of the column, but `read_identifier` returns it as the keyword token
`TOKEN_MAX`, which `parse_insert` does not accept: `parse_statement` on `INSERT 1 max m@x`
returns `NULL`. -/
theorem parse_statement_insert_keyword_username :
    input_insert_max = insert_input [49] [109, 97, 120] [109, 64, 120] ∧
    (∀ c ∈ [109, 97, 120], identifier_char c = true) ∧
    (∀ c ∈ [109, 64, 120], identifier_char c = true) ∧
    keyword_lookup [109, 97, 120] 3 keywords = some .TOKEN_MAX ∧
    ∀ fresh, parse_statement fresh input_insert_max = .ok none := by
  refine ⟨rfl, by decide, by decide, by decide, ?_⟩
  intro fresh
  unfold input_insert_max
  rw [parse_statement_insert fresh _ _ _ (by decide) (by decide) (by decide)]
  have h : parse_insert
      { lexer := { input := insert_input [49] [109, 97, 120] [109, 64, 120], position := 6,
                   length := (insert_input [49] [109, 97, 120] [109, 64, 120]).length },
        current_token := make_token .TOKEN_INSERT none 0 } = none := by decide!
  rw [h]

/-- C21, amended.  For a nonempty string of decimal digits that denotes an id in the
`uint32_t` range, a user name and an e-mail address that consist of identifier characters
(letters, digits, `_`, `@`, `.`), start with a letter or `_`, are no keyword of the lexer
and fit the column widths (32 and 255 bytes), `parse_statement` on
`INSERT <digits> <username> <email>` returns an INSERT statement whose row is `make_row` of
that id, the user name and the e-mail address: the id of the row is the number the digits
denote, both fields hold the string followed by NUL bytes up to their width, the e-mail
address reads back as the string given, and so does the user name when it is shorter than
32 bytes. -/
theorem parse_statement_insert_row (fresh : JoinClause) (digits username email : List Nat)
    (hne : digits ≠ []) (hd : ∀ c ∈ digits, isdigit c = true)
    (hid : digits_value digits < 4294967296)
    (hu1 : isalpha (username.headD 0) = true ∨ username.headD 0 = 95)
    (hu : ∀ c ∈ username, identifier_char c = true)
    (huk : keyword_lookup username username.length keywords = none)
    (hul : username.length ≤ COLUMN_USERNAME_SIZE)
    (he1 : isalpha (email.headD 0) = true ∨ email.headD 0 = 95)
    (he : ∀ c ∈ email, identifier_char c = true)
    (hek : keyword_lookup email email.length keywords = none)
    (hel : email.length ≤ COLUMN_EMAIL_SIZE) :
    ∃ stmt, parse_statement fresh (insert_input digits username email) = .ok (some stmt) ∧
      stmt = { new_statement .STMT_INSERT with
        row_to_insert := make_row (digits_value digits) username email } ∧
      stmt.type = .STMT_INSERT ∧
      stmt.row_to_insert.id = digits_value digits ∧
      stmt.row_to_insert.username =
        username ++ List.replicate (COLUMN_USERNAME_SIZE - username.length) 0 ∧
      stmt.row_to_insert.email =
        email ++ List.replicate (COLUMN_EMAIL_SIZE - email.length) 0 ∧
      cstr stmt.row_to_insert.username = username ∧
      cstr stmt.row_to_insert.email_ptr = email ∧
      (username.length < COLUMN_USERNAME_SIZE →
        cstr stmt.row_to_insert.username_ptr = username) := by
  have hcu : cstr username = username :=
    cstr_eq_self username (fun c hc => identifier_char_ne_zero c (hu c hc))
  have hce : cstr email = email :=
    cstr_eq_self email (fun c hc => identifier_char_ne_zero c (he c hc))
  have hfu : field_of_string username COLUMN_USERNAME_SIZE =
      username ++ List.replicate (COLUMN_USERNAME_SIZE - username.length) 0 := by
    unfold field_of_string
    rw [strncpy_zero_eq _ _ _ (le_refl _), hcu, List.take_of_length_le hul]
  have hfe : field_of_string email COLUMN_EMAIL_SIZE =
      email ++ List.replicate (COLUMN_EMAIL_SIZE - email.length) 0 := by
    unfold field_of_string
    rw [strncpy_zero_eq _ _ _ (le_refl _), hce, List.take_of_length_le hel]
  refine ⟨{ new_statement .STMT_INSERT with
    row_to_insert := make_row (digits_value digits) username email }, ?_, rfl, rfl,
    rfl, hfu, hfe, ?_, ?_, ?_⟩
  · rw [parse_statement_insert fresh digits username email hd hu he,
      parse_insert_run _ _ [73, 78, 83, 69, 82, 84] digits username email
        (by simp [insert_input]) rfl rfl hne hd hu1 hu huk he1 he hek,
      atoi_u32_digits_lt digits hd hid]
    rfl
  · show cstr (field_of_string username COLUMN_USERNAME_SIZE) = username
    unfold field_of_string
    rw [cstr_strncpy_zero _ _ _ (le_refl _), hcu, List.take_of_length_le hul]
  · show cstr (field_of_string email COLUMN_EMAIL_SIZE) = email
    unfold field_of_string
    rw [cstr_strncpy_zero _ _ _ (le_refl _), hce, List.take_of_length_le hel]
  · intro hlt
    show cstr (field_of_string username COLUMN_USERNAME_SIZE ++
      field_of_string email COLUMN_EMAIL_SIZE) = username
    unfold field_of_string
    rw [cstr_strncpy_short _ _ _ _ (by rw [hcu]; exact hlt), hcu]

theorem parse_statement_insert_row_witness :
    ∃ stmt, parse_statement JoinClause.zero
        (insert_input [49] [97, 108, 105, 99, 101] [97, 64, 120]) = .ok (some stmt) ∧
      stmt = { new_statement .STMT_INSERT with
        row_to_insert := make_row (digits_value [49]) [97, 108, 105, 99, 101]
          [97, 64, 120] } ∧
      stmt.type = .STMT_INSERT ∧
      stmt.row_to_insert.id = digits_value [49] ∧
      stmt.row_to_insert.username =
        [97, 108, 105, 99, 101] ++
          List.replicate (COLUMN_USERNAME_SIZE - [97, 108, 105, 99, 101].length) 0 ∧
      stmt.row_to_insert.email =
        [97, 64, 120] ++ List.replicate (COLUMN_EMAIL_SIZE - [97, 64, 120].length) 0 ∧
      cstr stmt.row_to_insert.username = [97, 108, 105, 99, 101] ∧
      cstr stmt.row_to_insert.email_ptr = [97, 64, 120] ∧
      ([97, 108, 105, 99, 101].length < COLUMN_USERNAME_SIZE →
        cstr stmt.row_to_insert.username_ptr = [97, 108, 105, 99, 101]) :=
  parse_statement_insert_row JoinClause.zero [49] [97, 108, 105, 99, 101] [97, 64, 120]
    (by decide) (by decide) (by decide) (by decide) (by decide) (by decide) (by decide)
    (by decide) (by decide) (by decide) (by decide)

/-! ## Theorems: cursor_advance -/

theorem pager_get_page_total (pager : Pager) (page_num : Nat) (h : page_num < TABLE_MAX_PAGES) :
    ∃ page pager1, pager_get_page pager page_num = .ok (page, pager1) := by
  cases hc : pager.pages.getD page_num none with
  | none => exact ⟨_, _, pager_get_page_of_miss pager page_num h hc⟩
  | some page => exact ⟨_, _, pager_get_page_of_cached pager page_num page h hc⟩

/-- C32: for a cursor on a page the pager has a slot for, `cursor_advance` returns; with
`node` the page of the cursor and `c` the cell number plus one (as a `uint32_t`): when
`c >= num_cells` and the next leaf of the node is 0, the cursor has cell number `c`, the
same page number and `end_of_table` true; when `c >= num_cells` and the next leaf is not 0,
the cursor is on page `next_leaf` at cell 0 with `end_of_table` as before; otherwise the
cursor has cell number `c` and nothing else changed.  The table afterwards differs only by
the cache miss served: root, WAL and file are the same and every page reads as before. -/
theorem cursor_advance_spec (table : Table) (cursor : Cursor)
    (hp : cursor.page_num < TABLE_MAX_PAGES) :
    ∃ node pager1 cursor1,
      pager_get_page table.pager cursor.page_num = .ok (node, pager1) ∧
      cursor_advance table cursor = .ok (cursor1, { table with pager := pager1 }) ∧
      (cursor.cell_num + 1 < 4294967296 →
        (cursor.cell_num + 1) % 4294967296 = cursor.cell_num + 1) ∧
      ((cursor.cell_num + 1) % 4294967296 ≥ leaf_node_num_cells node →
        leaf_node_next_leaf node = 0 →
        cursor1 = { page_num := cursor.page_num,
                    cell_num := (cursor.cell_num + 1) % 4294967296,
                    end_of_table := true }) ∧
      ((cursor.cell_num + 1) % 4294967296 ≥ leaf_node_num_cells node →
        leaf_node_next_leaf node ≠ 0 →
        cursor1 = { page_num := leaf_node_next_leaf node, cell_num := 0,
                    end_of_table := cursor.end_of_table }) ∧
      ((cursor.cell_num + 1) % 4294967296 < leaf_node_num_cells node →
        cursor1 = { page_num := cursor.page_num,
                    cell_num := (cursor.cell_num + 1) % 4294967296,
                    end_of_table := cursor.end_of_table }) ∧
      table_ext table { table with pager := pager1 } ∧
      pager1.file = table.pager.file ∧
      ∀ i page p1, pager_get_page table.pager i = .ok (page, p1) →
        ∃ q1, pager_get_page pager1 i = .ok (page, q1) := by
  obtain ⟨node, pager1, hg⟩ := pager_get_page_total table.pager cursor.page_num hp
  have hext : table_ext table { table with pager := pager1 } :=
    ⟨rfl, rfl, pager_get_page_cache_ext _ _ _ _ hg⟩
  have hreads := table_ext_reads _ _ hext
  by_cases h1 : (cursor.cell_num + 1) % 4294967296 ≥ leaf_node_num_cells node
  · by_cases h2 : leaf_node_next_leaf node = 0
    · refine ⟨node, pager1, _, hg, ?_, fun h => Nat.mod_eq_of_lt h, fun _ _ => rfl,
        fun _ h => absurd h2 h, fun h => absurd h1 (by omega), hext, hreads.1, hreads.2.2.2⟩
      unfold cursor_advance
      rw [hg]
      simp only
      rw [if_pos h1, if_pos h2]
    · refine ⟨node, pager1, _, hg, ?_, fun h => Nat.mod_eq_of_lt h, fun _ h => absurd h h2,
        fun _ _ => rfl, fun h => absurd h1 (by omega), hext, hreads.1, hreads.2.2.2⟩
      unfold cursor_advance
      rw [hg]
      simp only
      rw [if_pos h1, if_neg h2]
  · refine ⟨node, pager1, _, hg, ?_, fun h => Nat.mod_eq_of_lt h, fun h => absurd h h1,
      fun h => absurd h h1, fun _ => rfl, hext, hreads.1, hreads.2.2.2⟩
    unfold cursor_advance
    rw [hg]
    simp only
    rw [if_neg h1]

theorem cursor_advance_spec_witness :
    ∃ node pager1 cursor1,
      pager_get_page table_rows_1_2_8.pager 2 = .ok (node, pager1) ∧
      cursor_advance table_rows_1_2_8 { page_num := 2, cell_num := 1, end_of_table := false } =
        .ok (cursor1, { table_rows_1_2_8 with pager := pager1 }) ∧
      ((1 : Nat) + 1 < 4294967296 → (1 + 1) % 4294967296 = 1 + 1) ∧
      ((1 + 1) % 4294967296 ≥ leaf_node_num_cells node →
        leaf_node_next_leaf node = 0 →
        cursor1 = { page_num := 2, cell_num := (1 + 1) % 4294967296, end_of_table := true }) ∧
      ((1 + 1) % 4294967296 ≥ leaf_node_num_cells node →
        leaf_node_next_leaf node ≠ 0 →
        cursor1 = { page_num := leaf_node_next_leaf node, cell_num := 0,
                    end_of_table := false }) ∧
      ((1 + 1) % 4294967296 < leaf_node_num_cells node →
        cursor1 = { page_num := 2, cell_num := (1 + 1) % 4294967296,
                    end_of_table := false }) ∧
      table_ext table_rows_1_2_8 { table_rows_1_2_8 with pager := pager1 } ∧
      pager1.file = table_rows_1_2_8.pager.file ∧
      ∀ i page p1, pager_get_page table_rows_1_2_8.pager i = .ok (page, p1) →
        ∃ q1, pager_get_page pager1 i = .ok (page, q1) :=
  cursor_advance_spec table_rows_1_2_8 { page_num := 2, cell_num := 1, end_of_table := false }
    (by decide)

theorem cursor_advance_examples :
    cursor_advance table_rows_1_2_8 { page_num := 2, cell_num := 0, end_of_table := false } =
      .ok ({ page_num := 2, cell_num := 1, end_of_table := false }, table_rows_1_2_8) ∧
    cursor_advance table_rows_1_2_8 { page_num := 2, cell_num := 1, end_of_table := false } =
      .ok ({ page_num := 1, cell_num := 0, end_of_table := false }, table_rows_1_2_8) ∧
    cursor_advance table_rows_1_2_8 { page_num := 1, cell_num := 0, end_of_table := false } =
      .ok ({ page_num := 1, cell_num := 1, end_of_table := true }, table_rows_1_2_8) := by
  refine ⟨by decide!, by decide!, by decide!⟩

/-! ## Theorems: what the acceptance of a WAL frame depends on -/

theorem frame_checksum_ok_congr (f g : WALFrame) (h : frame_test_input f = frame_test_input g) :
    frame_checksum_ok f = frame_checksum_ok g := by
  simp only [frame_test_input, Prod.mk.injEq] at h
  obtain ⟨h1, h2, h3, h4⟩ := h
  unfold frame_checksum_ok
  rw [h1, h2, h3, h4]

theorem map_frame_checksum_ok_congr (fs gs : List WALFrame)
    (h : fs.map frame_test_input = gs.map frame_test_input) :
    fs.map frame_checksum_ok = gs.map frame_checksum_ok := by
  induction fs generalizing gs with
  | nil =>
    cases gs with
    | nil => rfl
    | cons g gs => simp at h
  | cons f fs ih =>
    cases gs with
    | nil => simp at h
    | cons g gs =>
      simp only [List.map_cons, List.cons.injEq] at h ⊢
      exact ⟨frame_checksum_ok_congr f g h.1, ih gs h.2⟩

theorem takeWhile_length_of_map_eq (fs gs : List WALFrame)
    (h : fs.map frame_checksum_ok = gs.map frame_checksum_ok) :
    (fs.takeWhile frame_checksum_ok).length = (gs.takeWhile frame_checksum_ok).length := by
  induction fs generalizing gs with
  | nil =>
    cases gs with
    | nil => rfl
    | cons g gs => simp at h
  | cons f fs ih =>
    cases gs with
    | nil => simp at h
    | cons g gs =>
      simp only [List.map_cons, List.cons.injEq] at h
      simp only [List.takeWhile_cons, h.1]
      split
      · simp only [List.length_cons, ih gs h.2]
      · rfl

theorem wal_recover_header_irrelevant (wal : WAL) (header : WALHeader) (pager : Pager) :
    (wal_recover { wal with header := header } pager).map (fun r => (r.1, r.2.2)) =
      (wal_recover wal pager).map (fun r => (r.1, r.2.2)) := by
  unfold wal_recover
  cases ho : wal.is_open with
  | false => rfl
  | true =>
    simp only [Bool.not_true, Bool.false_eq_true, if_false]
    cases wal_recover_loop wal.file.length (wal.file.drop WAL_HEADER_SIZE) pager 0 with
    | error f => rfl
    | ok r =>
      simp only
      unfold wal_checkpoint
      simp only [ho, Bool.not_true, Bool.false_eq_true, if_false]
      cases flush_pages_loop r.1 (List.range r.1.num_pages) with
      | error f => rfl
      | ok p => rfl

/-- C40: the checksum test of `wal_recover` reads only the page image of a frame and the
fields `salt1`, `salt2` and `checksum1` of its header: two frames that agree on these pass
it or fail it together.  For two WAL contents whose frames agree pairwise on these four
parts (and name pages the pager has slots for), whatever their page numbers, database sizes
and `checksum2` fields are, the loop of `wal_recover` returns for both, applies in each the
frames before the first one that fails the test, and these are equally many.  The header of
the WAL (its salts included) has no influence on the flag `wal_recover` returns or on the
pager it leaves. -/
theorem wal_recover_acceptance (fuel : Nat) (rest1 rest2 : List Nat) (pager1 pager2 : Pager)
    (n : Nat) (hw1 : pager_wf pager1) (hw2 : pager_wf pager2)
    (hagree : (wal_frames fuel rest1).map frame_test_input =
      (wal_frames fuel rest2).map frame_test_input)
    (hpn1 : ∀ f ∈ wal_frames fuel rest1, f.header.page_number < TABLE_MAX_PAGES)
    (hpn2 : ∀ f ∈ wal_frames fuel rest2, f.header.page_number < TABLE_MAX_PAGES) :
    (∀ f g, frame_test_input f = frame_test_input g →
      frame_checksum_ok f = frame_checksum_ok g) ∧
    (wal_frames fuel rest1).map frame_checksum_ok =
      (wal_frames fuel rest2).map frame_checksum_ok ∧
    (∃ p1 n1 p2 n2,
      wal_recover_loop fuel rest1 pager1 n = .ok (p1, n1) ∧
      wal_recover_loop fuel rest2 pager2 n = .ok (p2, n2) ∧
      p1.pages = ((wal_frames fuel rest1).takeWhile frame_checksum_ok).foldl replay_frame
        pager1.pages ∧
      p2.pages = ((wal_frames fuel rest2).takeWhile frame_checksum_ok).foldl replay_frame
        pager2.pages ∧
      ((wal_frames fuel rest1).takeWhile frame_checksum_ok).length =
        ((wal_frames fuel rest2).takeWhile frame_checksum_ok).length) ∧
    (∀ (wal : WAL) (header : WALHeader) (pager : Pager),
      (wal_recover { wal with header := header } pager).map (fun r => (r.1, r.2.2)) =
        (wal_recover wal pager).map (fun r => (r.1, r.2.2))) := by
  have hmap := map_frame_checksum_ok_congr _ _ hagree
  obtain ⟨p1, n1, e1, e2, _, _⟩ := wal_recover_loop_spec fuel rest1 pager1 n hw1
    (fun f hf => hpn1 f ((List.takeWhile_sublist _).subset hf))
  obtain ⟨p2, n2, f1, f2, _, _⟩ := wal_recover_loop_spec fuel rest2 pager2 n hw2
    (fun f hf => hpn2 f ((List.takeWhile_sublist _).subset hf))
  exact ⟨frame_checksum_ok_congr, hmap,
    ⟨p1, n1, p2, n2, e1, f1, e2, f2, takeWhile_length_of_map_eq _ _ hmap⟩,
    wal_recover_header_irrelevant⟩

theorem wal_recover_acceptance_witness :
    (∀ f g, frame_test_input f = frame_test_input g →
      frame_checksum_ok f = frame_checksum_ok g) ∧
    (wal_frames 2 (example_frame_bytes 0 1 1)).map frame_checksum_ok =
      (wal_frames 2 (example_frame_bytes 5 1 9)).map frame_checksum_ok ∧
    (∃ p1 n1 p2 n2,
      wal_recover_loop 2 (example_frame_bytes 0 1 1) empty_pager 0 = .ok (p1, n1) ∧
      wal_recover_loop 2 (example_frame_bytes 5 1 9) empty_pager 0 = .ok (p2, n2) ∧
      p1.pages = ((wal_frames 2 (example_frame_bytes 0 1 1)).takeWhile
        frame_checksum_ok).foldl replay_frame empty_pager.pages ∧
      p2.pages = ((wal_frames 2 (example_frame_bytes 5 1 9)).takeWhile
        frame_checksum_ok).foldl replay_frame empty_pager.pages ∧
      ((wal_frames 2 (example_frame_bytes 0 1 1)).takeWhile frame_checksum_ok).length =
        ((wal_frames 2 (example_frame_bytes 5 1 9)).takeWhile frame_checksum_ok).length) ∧
    (∀ (wal : WAL) (header : WALHeader) (pager : Pager),
      (wal_recover { wal with header := header } pager).map (fun r => (r.1, r.2.2)) =
        (wal_recover wal pager).map (fun r => (r.1, r.2.2))) :=
  wal_recover_acceptance 2 (example_frame_bytes 0 1 1) (example_frame_bytes 5 1 9) empty_pager
    empty_pager 0 (by decide!) (by decide!) (by decide!) (by decide!) (by decide!)

theorem example_frames_differ :
    ((wal_frames 2 (example_frame_bytes 0 1 1)).map (fun f =>
        (f.header.page_number, f.header.db_size)) = [(0, 1)]) ∧
    ((wal_frames 2 (example_frame_bytes 5 1 9)).map (fun f =>
        (f.header.page_number, f.header.db_size)) = [(5, 9)]) ∧
    (wal_frames 2 (example_frame_bytes 0 1 1)).map (fun f => f.header.checksum2) ≠
      (wal_frames 2 (example_frame_bytes 5 1 9)).map (fun f => f.header.checksum2) ∧
    (wal_frames 2 (example_frame_bytes 0 1 1)).map frame_checksum_ok = [true] := by
  refine ⟨by decide!, by decide!, by decide!, by decide!⟩

/-! ## Theorems: duplicates in a secondary index -/

theorem secondary_index_insert_length (index : SecondaryIndex) (key : List Nat) (pk : Nat) :
    (secondary_index_insert index key pk).entries.length = index.entries.length + 1 := by
  obtain ⟨e, _, _, hent⟩ := secondary_index_insert_entries index key pk
  rw [hent]
  simp only [List.length_append, List.length_cons, List.length_take, List.length_drop]
  have := insert_pos_loop_le key index.entries
  omega

theorem lookup_of_matches (index : SecondaryIndex) (key : List Nat) (hs : index_sorted index)
    (hn : index.num_entries < 2147483648) :
    secondary_index_lookup index key =
      if index_matches index key = [] then (none, 0)
      else (some (index_matches index key), (index_matches index key).length) := by
  rw [secondary_index_lookup_eq index key hs hn]
  unfold index_matches
  by_cases h : index.entries.filter (fun e => decide (strcmp e.key key = 0)) = []
  · rw [if_pos h, if_pos (by rw [h]; rfl)]
  · rw [if_neg h, if_neg (by simpa using h), List.length_map]

theorem index_matches_insert (index : SecondaryIndex) (k : List Nat) (pk : Nat) (v : List Nat)
    (hs : index_sorted index) (hk : (cstr k).length < 64) :
    index_matches (secondary_index_insert index k pk) v =
      index_matches index v ++ (if cstr k = cstr v then [pk] else []) :=
  secondary_index_insert_filter index k pk v hs hk

theorem insert_all_spec (inserts : List (List Nat × Nat)) :
    ∀ (index : SecondaryIndex), index_sorted index → index_keys_short index →
      (∀ kp ∈ inserts, (cstr kp.1).length < 64) →
      index_sorted (insert_all index inserts) ∧ index_keys_short (insert_all index inserts) ∧
      (insert_all index inserts).entries.length = index.entries.length + inserts.length ∧
      ∀ v, index_matches (insert_all index inserts) v =
        index_matches index v ++ inserted_under inserts v := by
  induction inserts with
  | nil =>
    intro index hs hk _
    exact ⟨hs, hk, rfl, fun v => by simp [insert_all, inserted_under]⟩
  | cons kp rest ih =>
    intro index hs hk hlen
    obtain ⟨hs1, hk1⟩ := secondary_index_insert_sorted index kp.1 kp.2 hs hk
    obtain ⟨a, b, c, d⟩ := ih (secondary_index_insert index kp.1 kp.2) hs1 hk1
      (fun x hx => hlen x (List.mem_cons_of_mem _ hx))
    have hkp := hlen kp (List.mem_cons_self _ _)
    refine ⟨a, b, ?_, ?_⟩
    · show (insert_all (secondary_index_insert index kp.1 kp.2) rest).entries.length = _
      rw [c, secondary_index_insert_length]
      simp only [List.length_cons]
      omega
    · intro v
      show index_matches (insert_all (secondary_index_insert index kp.1 kp.2) rest) v = _
      rw [d v, index_matches_insert index kp.1 kp.2 v hs hkp]
      unfold inserted_under
      simp only [List.filter_cons]
      by_cases h : cstr kp.1 = cstr v
      · simp [h]
      · simp [h]

/-- C36: for a sorted index (as every index built by inserts and deletes is) and a key
shorter than `INDEX_KEY_SIZE` = 64 bytes, `secondary_index_insert` puts the new entry at a
position `i` such that every entry from `i` on has a greater key, so the new entry follows
all entries with an equal key; the entries before `i` and from `i` on are the old ones in
their order and `num_entries` is one more.  `secondary_index_lookup` of the key then returns
the primary keys it returned before followed by the new one, and for every other key what
it returned before.  Hence, for pairs inserted one after the other into a new index,
`secondary_index_lookup(v)` returns the primary keys inserted under `v` in the order of
their insertion. -/
theorem secondary_index_insert_after_equal (index : SecondaryIndex) (key : List Nat)
    (primary_key : Nat) (hs : index_sorted index) (hshort : index_keys_short index)
    (hk : (cstr key).length < INDEX_KEY_SIZE)
    (hn : index.num_entries + 1 < 2147483648) :
    (∃ i e, i ≤ index.entries.length ∧
      (secondary_index_insert index key primary_key).entries =
        index.entries.take i ++ e :: index.entries.drop i ∧
      cstr e.key = cstr key ∧ e.primary_key = primary_key ∧
      (∀ a ∈ index.entries.take i, ¬ strcmp key a.key < 0) ∧
      (∀ b ∈ index.entries.drop i, strcmp key b.key < 0 ∧ strcmp b.key key ≠ 0)) ∧
    (secondary_index_insert index key primary_key).num_entries = index.num_entries + 1 ∧
    secondary_index_lookup (secondary_index_insert index key primary_key) key =
      (some (index_matches index key ++ [primary_key]), (index_matches index key).length + 1) ∧
    (∀ v, cstr v ≠ cstr key →
      secondary_index_lookup (secondary_index_insert index key primary_key) v =
        secondary_index_lookup index v) ∧
    (∀ (table_name column_name : List Nat) (inserts : List (List Nat × Nat)) (v : List Nat),
      (∀ kp ∈ inserts, (cstr kp.1).length < INDEX_KEY_SIZE) → inserts.length < 2147483648 →
      secondary_index_lookup (insert_all (new_index table_name column_name) inserts) v =
        if inserted_under inserts v = [] then (none, 0)
        else (some (inserted_under inserts v), (inserted_under inserts v).length)) := by
  have hk64 : (cstr key).length < 64 := hk
  obtain ⟨e, hekey, hepk, hent⟩ := secondary_index_insert_entries index key primary_key
  obtain ⟨hs1, _⟩ := secondary_index_insert_sorted index key primary_key hs hshort
  have hlen := secondary_index_insert_length index key primary_key
  have hn0 : index.num_entries < 2147483648 := by omega
  have hn1 : (secondary_index_insert index key primary_key).num_entries < 2147483648 := by
    show (secondary_index_insert index key primary_key).entries.length < _
    rw [hlen]
    exact hn
  refine ⟨⟨insert_pos_loop key index.entries 0, e, insert_pos_loop_le _ _, hent, ?_, hepk,
    insert_pos_loop_before key index.entries, ?_⟩, hlen, ?_, ?_, ?_⟩
  · rw [hekey]
    exact List.take_of_length_le (by omega)
  · intro b hb
    have hlt := insert_pos_loop_after key index.entries hs b hb
    refine ⟨hlt, fun h0 => ?_⟩
    have h1 := (strcmp_comm_zero b.key key).1 h0
    omega
  · have hm : index_matches (secondary_index_insert index key primary_key) key =
        index_matches index key ++ [primary_key] := by
      rw [index_matches_insert index key primary_key key hs hk64, if_pos rfl]
    rw [lookup_of_matches _ key hs1 hn1, hm, if_neg (by simp)]
    simp
  · intro v hv
    have hm : index_matches (secondary_index_insert index key primary_key) v =
        index_matches index v := by
      rw [index_matches_insert index key primary_key v hs hk64, if_neg (fun h => hv h.symm),
        List.append_nil]
    rw [lookup_of_matches _ v hs1 hn1, lookup_of_matches _ v hs hn0, hm]
  · intro table_name column_name inserts v hkeys hlen2
    have hnew_sorted : index_sorted (new_index table_name column_name) := by
      unfold index_sorted new_index
      exact List.Pairwise.nil
    have hnew_short : index_keys_short (new_index table_name column_name) := by
      intro x hx
      simp [new_index] at hx
    obtain ⟨a, _, c, d⟩ := insert_all_spec inserts (new_index table_name column_name)
      hnew_sorted hnew_short hkeys
    have hnum : (insert_all (new_index table_name column_name) inserts).num_entries
        < 2147483648 := by
      show (insert_all (new_index table_name column_name) inserts).entries.length < _
      rw [c]
      simp only [new_index, List.length_nil]
      omega
    rw [lookup_of_matches _ v a hnum, d v]
    have : index_matches (new_index table_name column_name) v = [] := rfl
    rw [this, List.nil_append]

theorem secondary_index_insert_after_equal_witness :
    (∃ i e, i ≤ example_index.entries.length ∧
      (secondary_index_insert example_index [98, 111, 98] 6).entries =
        example_index.entries.take i ++ e :: example_index.entries.drop i ∧
      cstr e.key = cstr [98, 111, 98] ∧ e.primary_key = 6 ∧
      (∀ a ∈ example_index.entries.take i, ¬ strcmp [98, 111, 98] a.key < 0) ∧
      (∀ b ∈ example_index.entries.drop i,
        strcmp [98, 111, 98] b.key < 0 ∧ strcmp b.key [98, 111, 98] ≠ 0)) ∧
    (secondary_index_insert example_index [98, 111, 98] 6).num_entries =
      example_index.num_entries + 1 ∧
    secondary_index_lookup (secondary_index_insert example_index [98, 111, 98] 6)
        [98, 111, 98] =
      (some (index_matches example_index [98, 111, 98] ++ [6]),
        (index_matches example_index [98, 111, 98]).length + 1) ∧
    (∀ v, cstr v ≠ cstr [98, 111, 98] →
      secondary_index_lookup (secondary_index_insert example_index [98, 111, 98] 6) v =
        secondary_index_lookup example_index v) ∧
    (∀ (table_name column_name : List Nat) (inserts : List (List Nat × Nat)) (v : List Nat),
      (∀ kp ∈ inserts, (cstr kp.1).length < INDEX_KEY_SIZE) → inserts.length < 2147483648 →
      secondary_index_lookup (insert_all (new_index table_name column_name) inserts) v =
        if inserted_under inserts v = [] then (none, 0)
        else (some (inserted_under inserts v), (inserted_under inserts v).length)) :=
  secondary_index_insert_after_equal example_index [98, 111, 98] 6 (by decide) (by decide)
    (by decide) (by decide)

theorem secondary_index_insert_example :
    index_matches example_index [98, 111, 98] = [1, 3] ∧
    secondary_index_lookup (secondary_index_insert example_index [98, 111, 98] 6)
      [98, 111, 98] = (some [1, 3, 6], 3) ∧
    secondary_index_lookup (insert_all (new_index str_users str_username)
        [([117], 2), ([118], 7), ([117], 1)]) [117] = (some [2, 1], 2) := by
  refine ⟨by decide, by decide, by decide⟩

/-! ## Theorems: table manager -/

theorem cstr_append_of_mem_zero (l r : List Nat) (h : 0 ∈ l) : cstr (l ++ r) = cstr l := by
  induction l with
  | nil => simp at h
  | cons c l ih =>
    unfold cstr
    by_cases hc : c = 0
    · subst hc
      simp
    · have hl : 0 ∈ l := by
        rcases List.mem_cons.1 h with h | h
        · exact absurd h.symm hc
        · exact h
      have := ih hl
      unfold cstr at this
      simp only [List.cons_append, List.takeWhile_cons]
      rw [if_pos (by simpa using hc), if_pos (by simpa using hc), this]

theorem name_mem_zero (name : List Nat) (h1 : name.length = 64) (h2 : name.getD 63 0 = 0) :
    0 ∈ name := by
  rw [List.getD_eq_getElem?_getD, List.getElem?_eq_getElem (by omega)] at h2
  simp only [Option.getD_some] at h2
  have := List.getElem_mem (l := name) (n := 63) (by omega)
  rw [h2] at this
  exact this

theorem flatten_drop_eq (names : List (List Nat)) (i : Nat) (h : i < names.length) :
    (names.drop i).flatten = names.getD i [] ++ (names.drop (i + 1)).flatten := by
  rw [List.drop_eq_getElem_cons h, List.flatten_cons, List.getD_eq_getElem?_getD,
    List.getElem?_eq_getElem h]
  rfl

theorem table_manager_get_loop_none (manager : TableManager) (table_name : List Nat) :
    ∀ (fuel i : Nat), table_manager_get_loop manager table_name fuel i = none →
      manager.num_tables ≤ i + fuel →
      ∀ j, i ≤ j → j < manager.num_tables →
        strcmp (manager.table_names.drop j).flatten table_name ≠ 0 := by
  intro fuel
  induction fuel with
  | zero => intro i _ hf j hij hj; omega
  | succ fuel ih =>
    intro i h hf j hij hj
    unfold table_manager_get_loop at h
    rw [if_pos (by omega)] at h
    split at h
    · cases h
    · rename_i hne
      rcases Nat.eq_or_lt_of_le hij with e | hlt
      · subst e; exact hne
      · exact ih (i + 1) h (by omega) j hlt hj

theorem table_manager_get_loop_lt (manager : TableManager) (table_name : List Nat) :
    ∀ (fuel i j : Nat), table_manager_get_loop manager table_name fuel i = some j →
      j < manager.num_tables := by
  intro fuel
  induction fuel with
  | zero => intro i j h; cases h
  | succ fuel ih =>
    intro i j h
    unfold table_manager_get_loop at h
    split at h
    · rename_i hi
      split at h
      · cases h; exact hi
      · exact ih (i + 1) j h
    · cases h

theorem table_manager_get_loop_found (manager : TableManager) (table_name : List Nat) (n : Nat)
    (hn : n < manager.num_tables)
    (hat : strcmp (manager.table_names.drop n).flatten table_name = 0) :
    ∀ (fuel i : Nat), i ≤ n → n < i + fuel →
      (∀ j, i ≤ j → j < n → strcmp (manager.table_names.drop j).flatten table_name ≠ 0) →
      table_manager_get_loop manager table_name fuel i = some n := by
  intro fuel
  induction fuel with
  | zero => intro i h1 h2; omega
  | succ fuel ih =>
    intro i h1 h2 hbefore
    unfold table_manager_get_loop
    rw [if_pos (by omega)]
    rcases Nat.eq_or_lt_of_le h1 with e | hlt
    · subst e; rw [if_pos hat]
    · rw [if_neg (hbefore i (le_refl _) hlt)]
      exact ih (i + 1) hlt (by omega) (fun j hj1 hj2 => hbefore j (by omega) hj2)

theorem table_manager_open_found (files : List Nat → TableFiles) (manager : TableManager)
    (table_name : List Nat) (i : Nat) (h : table_manager_get manager table_name = some i) :
    table_manager_open files manager table_name = .ok (some i, manager) := by
  unfold table_manager_open
  rw [h]

theorem table_manager_open_full (files : List Nat → TableFiles) (manager : TableManager)
    (table_name : List Nat) (h : table_manager_get manager table_name = none)
    (hfull : manager.num_tables ≥ MAX_OPEN_TABLES) :
    table_manager_open files manager table_name = .ok (none, manager) := by
  unfold table_manager_open
  rw [h]
  simp only
  rw [if_pos hfull]

theorem stored_name_cstr (old table_name rest : List Nat) (h1 : old.length = 64)
    (h2 : old.getD 63 0 = 0) (hshort : (cstr table_name).length ≤ 63) :
    cstr (strncpy old table_name 63 ++ rest) = cstr table_name := by
  have ht : (cstr table_name).take 63 = cstr table_name := List.take_of_length_le hshort
  have hdrop : old.drop 63 = [0] := by
    rw [List.drop_eq_getElem_cons (by omega)]
    rw [List.getD_eq_getElem?_getD, List.getElem?_eq_getElem (by omega)] at h2
    simp only [Option.getD_some] at h2
    rw [h2, List.drop_of_length_le (by omega)]
  simp only [strncpy, memcpy, strncpy_bytes, List.take_zero, List.nil_append, Nat.zero_add, ht]
  rw [List.take_of_length_le (by simp; omega), hdrop]
  simp only [List.append_assoc]
  apply cstr_append_of_stop _ _ (cstr_all_ne_zero table_name)
  right
  cases hk : 63 - (cstr table_name).length with
  | zero => rfl
  | succ k => rfl

theorem table_manager_get_after_open (files : List Nat → TableFiles) (manager : TableManager)
    (table_name : List Nat) (i : Nat) (manager1 : TableManager)
    (hwf : table_manager_wf manager) (hshort : (cstr table_name).length ≤ 63)
    (h : table_manager_open files manager table_name = .ok (some i, manager1)) :
    table_manager_get manager1 table_name = some i := by
  obtain ⟨hlen, hnames, hnum, hzero, hslots⟩ := hwf
  unfold table_manager_open at h
  cases hget : table_manager_get manager table_name with
  | some j =>
    rw [hget] at h
    injection h with h
    injection h with h1 h2
    injection h1 with h1
    rw [← h2, ← h1]
    exact hget
  | none =>
    rw [hget] at h
    simp only at h
    split at h
    · cases h
    · rename_i hfull
      cases hopen : table_open (files ((cstr manager.base_path ++ [46] ++
          cstr table_name).take 511)).db_file (files ((cstr manager.base_path ++ [46] ++
          cstr table_name).take 511)).fresh (files ((cstr manager.base_path ++ [46] ++
          cstr table_name).take 511)).wal_file (files ((cstr manager.base_path ++ [46] ++
          cstr table_name).take 511)).time (files ((cstr manager.base_path ++ [46] ++
          cstr table_name).take 511)).pid with
      | error f => rw [hopen] at h; cases h
      | ok table =>
        rw [hopen] at h
        injection h with h
        injection h with h1 h2
        injection h1 with h1
        subst h1
        subst h2
        have hn8 : manager.num_tables < MAX_OPEN_TABLES := by omega
        have hloop : table_manager_get_loop manager table_name manager.num_tables 0 = none := by
          unfold table_manager_get at hget
          cases hl : table_manager_get_loop manager table_name manager.num_tables 0 with
          | none => rfl
          | some j =>
            rw [hl] at hget
            simp only at hget
            have := hslots j (table_manager_get_loop_lt manager table_name _ _ _ hl)
            rw [if_pos this] at hget
            cases hget
        have hbefore := table_manager_get_loop_none manager table_name manager.num_tables 0
          hloop (by omega)
        have hold : ∀ j, j < manager.num_tables →
            cstr ((manager.table_names.set manager.num_tables
              (strncpy (manager.table_names.getD manager.num_tables []) table_name
                63)).drop j).flatten = cstr (manager.table_names.drop j).flatten := by
          intro j hj
          have hj8 : j < manager.table_names.length := by omega
          rw [flatten_drop_eq _ j (by rw [List.length_set]; exact hj8),
            flatten_drop_eq _ j hj8]
          have hsame : (manager.table_names.set manager.num_tables
              (strncpy (manager.table_names.getD manager.num_tables []) table_name 63)).getD j
                [] = manager.table_names.getD j [] := by
            rw [List.getD_eq_getElem?_getD, List.getElem?_set_ne (by omega),
              ← List.getD_eq_getElem?_getD]
          rw [hsame]
          have hmem : manager.table_names.getD j [] ∈ manager.table_names := by
            rw [List.getD_eq_getElem?_getD, List.getElem?_eq_getElem hj8]
            exact List.getElem_mem _
          have hz := name_mem_zero _ (hzero _ hmem).1 (hzero _ hmem).2
          rw [cstr_append_of_mem_zero _ _ hz, cstr_append_of_mem_zero _ _ hz]
        have hn_lt : manager.num_tables < manager.table_names.length := by omega
        have hmemn : manager.table_names.getD manager.num_tables [] ∈ manager.table_names := by
          rw [List.getD_eq_getElem?_getD, List.getElem?_eq_getElem hn_lt]
          exact List.getElem_mem _
        have hat : cstr ((manager.table_names.set manager.num_tables
              (strncpy (manager.table_names.getD manager.num_tables []) table_name
                63)).drop manager.num_tables).flatten = cstr table_name := by
          rw [flatten_drop_eq _ _ (by rw [List.length_set]; exact hn_lt),
            List.getD_eq_getElem?_getD, List.getElem?_set_self hn_lt]
          exact stored_name_cstr _ _ _ (hzero _ hmemn).1 (hzero _ hmemn).2 hshort
        unfold table_manager_get
        rw [table_manager_get_loop_found _ table_name manager.num_tables
          (Nat.lt_succ_self _) ((strcmp_eq_zero_iff _ _).2 hat) (manager.num_tables + 1) 0
          (Nat.zero_le _) (by omega) (fun j _ hj => by
            have := hbefore j (Nat.zero_le _) hj
            intro hc
            apply this
            rw [strcmp_eq_zero_iff] at hc ⊢
            rw [← hold j hj]
            exact hc)]
        simp only
        rw [getD_set_option, if_pos (⟨rfl, by omega⟩ :
          manager.num_tables = manager.num_tables ∧ manager.num_tables < manager.tables.length)]
        simp

/-- C31: when `table_manager_get` finds the name, `table_manager_open` returns that table
and the manager as it is (no slot used, `num_tables` the same), also when the manager holds
`MAX_OPEN_TABLES` = 8 tables; when the name is not found and 8 tables are held it returns
`NULL` and the manager as it is.  A name of at most 63 bytes that `table_manager_open` has
opened is found afterwards, so that opening it again returns the same table and leaves the
manager unchanged. -/
theorem table_manager_open_idempotent (files : List Nat → TableFiles) (manager : TableManager)
    (table_name : List Nat) (hwf : table_manager_wf manager)
    (hshort : (cstr table_name).length ≤ 63) :
    MAX_OPEN_TABLES = 8 ∧
    (∀ i, table_manager_get manager table_name = some i →
      table_manager_open files manager table_name = .ok (some i, manager)) ∧
    (table_manager_get manager table_name = none → manager.num_tables ≥ MAX_OPEN_TABLES →
      table_manager_open files manager table_name = .ok (none, manager)) ∧
    (∀ i manager1, table_manager_open files manager table_name = .ok (some i, manager1) →
      table_manager_get manager1 table_name = some i ∧
      ∀ files2, table_manager_open files2 manager1 table_name = .ok (some i, manager1)) :=
  ⟨rfl, fun i h => table_manager_open_found files manager table_name i h,
    fun h hfull => table_manager_open_full files manager table_name h hfull,
    fun i manager1 h =>
      ⟨table_manager_get_after_open files manager table_name i manager1 hwf hshort h,
        fun files2 => table_manager_open_found files2 manager1 table_name i
          (table_manager_get_after_open files manager table_name i manager1 hwf hshort h)⟩⟩

theorem table_manager_open_idempotent_witness :
    MAX_OPEN_TABLES = 8 ∧
    (∀ i, table_manager_get manager_users_orders str_orders = some i →
      table_manager_open no_files manager_users_orders str_orders =
        .ok (some i, manager_users_orders)) ∧
    (table_manager_get manager_users_orders str_orders = none →
      manager_users_orders.num_tables ≥ MAX_OPEN_TABLES →
      table_manager_open no_files manager_users_orders str_orders =
        .ok (none, manager_users_orders)) ∧
    (∀ i manager1,
      table_manager_open no_files manager_users_orders str_orders = .ok (some i, manager1) →
      table_manager_get manager1 str_orders = some i ∧
      ∀ files2, table_manager_open files2 manager1 str_orders = .ok (some i, manager1)) :=
  table_manager_open_idempotent no_files manager_users_orders str_orders (by decide!)
    (by decide)

theorem table_manager_open_examples :
    table_manager_wf manager_full ∧ manager_full.num_tables = MAX_OPEN_TABLES ∧
    table_manager_get manager_full [104] = some 7 ∧
    table_manager_open no_files manager_full [104] = .ok (some 7, manager_full) ∧
    table_manager_get manager_full str_orders = none ∧
    table_manager_open no_files manager_full str_orders = .ok (none, manager_full) ∧
    table_manager_get manager_users_orders str_orders = some 1 ∧
    table_manager_open no_files manager_users_orders str_orders =
      .ok (some 1, manager_users_orders) ∧
    (∃ manager1, table_manager_open no_files (table_manager_create [100, 98]) str_users =
        .ok (some 0, manager1) ∧ manager1.num_tables = 1 ∧
      table_manager_open no_files manager1 str_users = .ok (some 0, manager1)) := by
  refine ⟨by decide!, rfl, by decide!, ?_, by decide!, ?_, by decide!, ?_, ?_⟩
  · exact table_manager_open_found _ _ _ _ (by decide!)
  · exact table_manager_open_full _ _ _ (by decide!) (by decide)
  · exact table_manager_open_found _ _ _ _ (by decide!)
  · have h0 : (table_manager_open no_files (table_manager_create [100, 98]) str_users).map
        (fun r => r.1) = .ok (some 0) := by decide!
    cases h : table_manager_open no_files (table_manager_create [100, 98]) str_users with
    | error f =>
      rw [h] at h0
      cases h0
    | ok r =>
      obtain ⟨i, manager1⟩ := r
      have hi : i = some 0 := by
        rw [h] at h0
        injection h0
      subst hi
      have hnum : manager1.num_tables = 1 := by
        have : (table_manager_open no_files (table_manager_create [100, 98]) str_users).map
            (fun r => r.2.num_tables) = .ok 1 := by decide!
        rw [h] at this
        injection this
      exact ⟨manager1, rfl, hnum, table_manager_open_found _ _ _ _
        (table_manager_get_after_open no_files _ str_users 0 manager1 (by decide!) (by decide)
          h)⟩

/-! ## Theorems: progress of the lexer -/

theorem lexer_scan_ge (p : Nat → Bool) (lexer : Lexer) :
    ∀ (fuel position : Nat), position ≤ lexer_scan p lexer fuel position := by
  intro fuel
  induction fuel with
  | zero => intro position; exact le_refl _
  | succ fuel ih =>
    intro position
    unfold lexer_scan
    split
    · exact le_trans (Nat.le_succ _) (ih (position + 1))
    · exact le_refl _

theorem lexer_scan_le (p : Nat → Bool) (lexer : Lexer) :
    ∀ (fuel position : Nat), position ≤ lexer.length →
      lexer_scan p lexer fuel position ≤ lexer.length := by
  intro fuel
  induction fuel with
  | zero => intro position h; exact h
  | succ fuel ih =>
    intro position h
    unfold lexer_scan
    split
    · rename_i hc
      exact ih (position + 1) hc.1
    · exact h

theorem lexer_scan_all (p : Nat → Bool) (lexer : Lexer) :
    ∀ (fuel position j : Nat), position ≤ j → j < lexer_scan p lexer fuel position →
      p (lexer.input.getD j 0) = true := by
  intro fuel
  induction fuel with
  | zero => intro position j h1 h2; simp only [lexer_scan] at h2; omega
  | succ fuel ih =>
    intro position j h1 h2
    unfold lexer_scan at h2
    split at h2
    · rename_i hc
      rcases Nat.eq_or_lt_of_le h1 with e | hlt
      · subst e; exact hc.2
      · exact ih (position + 1) j hlt h2
    · omega

theorem lexer_scan_stop (p : Nat → Bool) (lexer : Lexer) :
    ∀ (fuel position : Nat), lexer.length ≤ position + fuel →
      lexer_scan p lexer fuel position < lexer.length →
      p (lexer.input.getD (lexer_scan p lexer fuel position) 0) = false := by
  intro fuel
  induction fuel with
  | zero => intro position h1 h2; simp only [lexer_scan] at h2; omega
  | succ fuel ih =>
    intro position h1 h2
    unfold lexer_scan at h2 ⊢
    split
    · rename_i hc
      rw [if_pos hc] at h2
      exact ih (position + 1) (by omega) h2
    · rename_i hc
      rw [if_neg hc] at h2
      cases hp : p (lexer.input.getD position 0) with
      | false => rfl
      | true => exact absurd ⟨h2, hp⟩ hc

theorem lexer_scan_first (p : Nat → Bool) (lexer : Lexer) (fuel position : Nat)
    (h1 : position < lexer.length) (h2 : p (lexer.input.getD position 0) = true) :
    position + 1 ≤ lexer_scan p lexer (fuel + 1) position := by
  unfold lexer_scan
  rw [if_pos ⟨h1, h2⟩]
  exact lexer_scan_ge p lexer fuel (position + 1)

theorem keyword_lookup_mem (value : List Nat) (length : Nat) :
    ∀ (kws : List (List Nat × TokenType)) (type : TokenType),
      keyword_lookup value length kws = some type → ∃ kw, (kw, type) ∈ kws := by
  intro kws
  induction kws with
  | nil => intro type h; cases h
  | cons kw kws ih =>
    intro type h
    obtain ⟨k, t⟩ := kw
    simp only [keyword_lookup] at h
    split at h
    · injection h with h
      subst h
      exact ⟨k, List.mem_cons_self _ _⟩
    · obtain ⟨k2, hk2⟩ := ih type h
      exact ⟨k2, List.mem_cons_of_mem _ hk2⟩

theorem keyword_lookup_ne_eof (value : List Nat) (length : Nat) (type : TokenType)
    (h : keyword_lookup value length keywords = some type) : type ≠ .TOKEN_EOF := by
  obtain ⟨kw, hkw⟩ := keyword_lookup_mem value length keywords type h
  have hall : ∀ p ∈ keywords, p.2 ≠ TokenType.TOKEN_EOF := by decide
  exact hall (kw, type) hkw

theorem read_identifier_fields (lexer : Lexer) :
    (read_identifier lexer).2.input = lexer.input ∧
      (read_identifier lexer).2.length = lexer.length := by
  unfold read_identifier
  simp only
  split <;> exact ⟨rfl, rfl⟩

theorem read_number_fields (lexer : Lexer) :
    (read_number lexer).2.input = lexer.input ∧ (read_number lexer).2.length = lexer.length :=
  ⟨rfl, rfl⟩

theorem read_string_fields (lexer : Lexer) :
    (read_string lexer).2.input = lexer.input ∧ (read_string lexer).2.length = lexer.length :=
  ⟨rfl, rfl⟩

theorem lexer_next_token_fields (lexer : Lexer) :
    (lexer_next_token lexer).2.input = lexer.input ∧
      (lexer_next_token lexer).2.length = lexer.length := by
  have hskip : skip_whitespace lexer = { lexer with
      position := lexer_scan isspace lexer (lexer.length - lexer.position) lexer.position } :=
    rfl
  generalize lexer_scan isspace lexer (lexer.length - lexer.position) lexer.position = p1
    at hskip
  unfold lexer_next_token
  rw [hskip]
  simp only
  by_cases hend : p1 ≥ lexer.length
  · rw [if_pos hend]
    exact ⟨rfl, rfl⟩
  · rw [if_neg hend]
    split_ifs
    · exact ⟨rfl, rfl⟩
    · exact ⟨rfl, rfl⟩
    · exact ⟨rfl, rfl⟩
    · exact ⟨rfl, rfl⟩
    · exact ⟨rfl, rfl⟩
    · exact ⟨rfl, rfl⟩
    · exact read_string_fields _
    · exact read_identifier_fields _
    · exact read_number_fields _
    · exact ⟨rfl, rfl⟩

theorem lexer_next_token_at_end (lexer : Lexer) (h : lexer.position ≥ lexer.length) :
    lexer_next_token lexer = (make_token .TOKEN_EOF none 0, lexer) := by
  have hs : skip_whitespace lexer = lexer := by
    unfold skip_whitespace
    rw [show lexer.length - lexer.position = 0 by omega]
    rfl
  unfold lexer_next_token
  rw [hs]
  simp only
  rw [if_pos h]

theorem lexer_next_token_step (lexer : Lexer) (h : lexer.position < lexer.length) :
    ((lexer_next_token lexer).1.type = .TOKEN_EOF ∧
      (lexer_next_token lexer).2.position = lexer.length ∧
      ∀ j, lexer.position ≤ j → j < lexer.length → isspace (lexer.input.getD j 0) = true) ∨
    ((lexer_next_token lexer).1.type ≠ .TOKEN_EOF ∧
      lexer.position < (lexer_next_token lexer).2.position) := by
  have hge := lexer_scan_ge isspace lexer (lexer.length - lexer.position) lexer.position
  have hle := lexer_scan_le isspace lexer (lexer.length - lexer.position) lexer.position
    (le_of_lt h)
  have hall := lexer_scan_all isspace lexer (lexer.length - lexer.position) lexer.position
  have hstop := lexer_scan_stop isspace lexer (lexer.length - lexer.position) lexer.position
    (by omega)
  generalize hp1 : lexer_scan isspace lexer (lexer.length - lexer.position) lexer.position = p1
    at hge hle hall hstop
  have hskip : skip_whitespace lexer = { lexer with position := p1 } := by
    unfold skip_whitespace
    rw [hp1]
  unfold lexer_next_token
  rw [hskip]
  simp only
  by_cases hend : p1 ≥ lexer.length
  · left
    rw [if_pos hend]
    have : p1 = lexer.length := by omega
    subst this
    exact ⟨rfl, rfl, fun j h1 h2 => hall j h1 h2⟩
  · right
    rw [if_neg hend]
    have hlt : p1 < lexer.length := by omega
    split_ifs with c1 c2 c3 c4 c5 c6 c7 c8 c9
    · exact ⟨by simp [make_token], by show lexer.position < p1 + 1; omega⟩
    · exact ⟨by simp [make_token], by show lexer.position < p1 + 1; omega⟩
    · exact ⟨by simp [make_token], by show lexer.position < p1 + 1; omega⟩
    · exact ⟨by simp [make_token], by show lexer.position < p1 + 1; omega⟩
    · exact ⟨by simp [make_token], by show lexer.position < p1 + 1; omega⟩
    · exact ⟨by simp [make_token], by show lexer.position < p1 + 1; omega⟩
    · refine ⟨by simp [read_string, make_token], ?_⟩
      have := lexer_scan_ge (fun c => c ≠ 39) { lexer with position := p1 }
        (lexer.length - (p1 + 1)) (p1 + 1)
      show lexer.position < lexer_scan _ _ _ _ + 1
      exact Nat.lt_succ_of_le (le_trans (by omega) this)
    · constructor
      · unfold read_identifier
        simp only
        split
        · rename_i type hk
          exact keyword_lookup_ne_eof _ _ type hk
        · simp [make_token]
      · have hfirst := lexer_scan_first (fun c => isalnum c || c = 95 || c = 64 || c = 46)
          { lexer with position := p1 } (lexer.length - p1 - 1) p1 hlt (by
            show (isalnum (lexer.input.getD p1 0) || decide (lexer.input.getD p1 0 = 95) ||
              decide (lexer.input.getD p1 0 = 64) || decide (lexer.input.getD p1 0 = 46)) = true
            rcases c8 with c8 | c8
            · simp only [isalnum, c8, Bool.true_or]
            · rw [c8]; decide)
        rw [show lexer.length - p1 - 1 + 1 = lexer.length - p1 by omega] at hfirst
        unfold read_identifier
        simp only
        split <;>
        · show lexer.position < lexer_scan _ _ _ _
          exact lt_of_lt_of_le (by omega) hfirst
    · constructor
      · simp [read_number, make_token]
      · have hfirst := lexer_scan_first isdigit { lexer with position := p1 }
          (lexer.length - p1 - 1) p1 hlt c9
        rw [show lexer.length - p1 - 1 + 1 = lexer.length - p1 by omega] at hfirst
        show lexer.position < lexer_scan _ _ _ _
        exact lt_of_lt_of_le (by omega) hfirst
    · exact ⟨by simp [make_token], by show lexer.position < p1 + 1; omega⟩

theorem lexer_reaches_eof :
    ∀ (m : Nat) (lexer : Lexer), lexer.length - lexer.position ≤ m →
      ∃ k, k ≤ m ∧ (lexer_next_token (lexer_after k lexer)).1.type = .TOKEN_EOF := by
  intro m
  induction m with
  | zero =>
    intro lexer h
    refine ⟨0, le_refl _, ?_⟩
    show (lexer_next_token lexer).1.type = _
    rw [lexer_next_token_at_end lexer (by omega)]
    rfl
  | succ m ih =>
    intro lexer h
    by_cases hpos : lexer.position < lexer.length
    · rcases lexer_next_token_step lexer hpos with ⟨h1, _⟩ | ⟨_, h2⟩
      · exact ⟨0, Nat.zero_le _, h1⟩
      · obtain ⟨k, hk, hk2⟩ := ih (lexer_next_token lexer).2 (by
          rw [(lexer_next_token_fields lexer).2]; omega)
        exact ⟨k + 1, by omega, hk2⟩
    · refine ⟨0, Nat.zero_le _, ?_⟩
      show (lexer_next_token lexer).1.type = _
      rw [lexer_next_token_at_end lexer (by omega)]
      rfl

theorem parse_columns_loop_full (fuel : Nat) (parser : Parser) (columns : List ColumnDef)
    (h : columns.length ≥ MAX_COLUMNS) :
    parse_columns_loop fuel parser columns = (columns, parser) := by
  cases fuel with
  | zero => rfl
  | succ fuel =>
    unfold parse_columns_loop
    split_ifs <;> rfl

theorem parse_columns_loop_fuel :
    ∀ (fuel1 fuel2 : Nat) (parser : Parser) (columns : List ColumnDef),
      MAX_COLUMNS < fuel1 + columns.length → MAX_COLUMNS < fuel2 + columns.length →
      parse_columns_loop fuel1 parser columns = parse_columns_loop fuel2 parser columns := by
  intro fuel1
  induction fuel1 with
  | zero =>
    intro fuel2 parser columns h1 _
    rw [parse_columns_loop_full 0 _ _ (by omega), parse_columns_loop_full fuel2 _ _ (by omega)]
  | succ fuel1 ih =>
    intro fuel2 parser columns h1 h2
    cases fuel2 with
    | zero =>
      rw [parse_columns_loop_full _ _ _ (by omega), parse_columns_loop_full 0 _ _ (by omega)]
    | succ fuel2 =>
      unfold parse_columns_loop
      split
      · split
        · rfl
        · split
          · rfl
          · exact ih _ _ _
              (by simp only [List.length_append, List.length_cons, List.length_nil]; omega)
              (by simp only [List.length_append, List.length_cons, List.length_nil]; omega)
      · rfl

/-- C39: `lexer_next_token` keeps the input and its length; at or beyond the end of the
input it returns EOF and the lexer as it is; below the end it either returns EOF with the
position at the end, all characters from the old position on being white space, or returns
a token that is not EOF with a greater position.  So for every input the call number
`k + 1` returns EOF for some `k` that is at most the length of the input.  The one loop of
the parser, over the column definitions of CREATE TABLE, leaves through one of its exits
before `MAX_COLUMNS + 1` iterations are over: more iterations allowed give the same
result. -/
theorem lexer_next_token_progress :
    (∀ lexer, (lexer_next_token lexer).2.input = lexer.input ∧
      (lexer_next_token lexer).2.length = lexer.length) ∧
    (∀ lexer, lexer.position ≥ lexer.length →
      lexer_next_token lexer = (make_token .TOKEN_EOF none 0, lexer)) ∧
    (∀ lexer, lexer.position < lexer.length →
      ((lexer_next_token lexer).1.type = .TOKEN_EOF ∧
        (lexer_next_token lexer).2.position = lexer.length ∧
        ∀ j, lexer.position ≤ j → j < lexer.length →
          isspace (lexer.input.getD j 0) = true) ∨
      ((lexer_next_token lexer).1.type ≠ .TOKEN_EOF ∧
        lexer.position < (lexer_next_token lexer).2.position)) ∧
    (∀ input, ∃ k, k ≤ (lexer_init input).length ∧
      (lexer_init input).length = (cstr input).length ∧
      (lexer_next_token (lexer_after k (lexer_init input))).1.type = .TOKEN_EOF) ∧
    (∀ fuel parser, MAX_COLUMNS + 1 ≤ fuel →
      parse_columns_loop fuel parser [] = parse_columns_loop (MAX_COLUMNS + 1) parser []) := by
  refine ⟨lexer_next_token_fields, lexer_next_token_at_end, lexer_next_token_step, ?_, ?_⟩
  · intro input
    obtain ⟨k, hk, hk2⟩ := lexer_reaches_eof (lexer_init input).length (lexer_init input)
      (Nat.sub_le _ _)
    exact ⟨k, hk, rfl, hk2⟩
  · intro fuel parser h
    exact parse_columns_loop_fuel _ _ _ _ (by simp only [List.length_nil]; omega)
      (by simp only [List.length_nil]; omega)

theorem lexer_tokens_example :
    (lexer_next_token (lexer_init input_insert_alice)).1.type = .TOKEN_INSERT ∧
    (lexer_next_token (lexer_after 1 (lexer_init input_insert_alice))).1.type = .TOKEN_NUMBER ∧
    (lexer_next_token (lexer_after 2 (lexer_init input_insert_alice))).1.type =
      .TOKEN_IDENTIFIER ∧
    (lexer_next_token (lexer_after 3 (lexer_init input_insert_alice))).1.type =
      .TOKEN_IDENTIFIER ∧
    (lexer_next_token (lexer_after 4 (lexer_init input_insert_alice))).1.type = .TOKEN_EOF ∧
    (lexer_init input_insert_alice).length = 18 := by
  refine ⟨by decide, by decide, by decide, by decide, by decide, by decide⟩

/-! ## Theorems: the scan of SELECT -/

theorem select_scan_loop_order_by (stmt : ParsedStatement) (ho : stmt.has_order_by = true)
    (fuel : Nat) :
    ∀ (t : Table) (c : Cursor) (rows : List Row) (t1 : Table) (b p : List Row) (r : Nat),
      scan_loop fuel t c = .ok (some (rows, t1)) → b.length ≤ ROWS_BUFFER_SIZE →
      select_scan_loop stmt fuel t c b p r =
        if b.length + (rows.filter (should_include stmt)).length > ROWS_BUFFER_SIZE then
          .error .out_of_bounds
        else .ok (some (b ++ rows.filter (should_include stmt), p, r, t1)) := by
  induction fuel with
  | zero => intro t c rows t1 b p r h; simp [scan_loop] at h
  | succ fuel ih =>
    intro t c rows t1 b p r h hb
    unfold scan_loop at h
    unfold select_scan_loop
    by_cases he : c.end_of_table = true
    · rw [if_pos he] at h
      rw [if_pos he]
      injection h with h
      injection h with h
      injection h with h1 h2
      subst h1
      subst h2
      simp only [List.filter_nil, List.length_nil, Nat.add_zero, List.append_nil]
      rw [if_neg (by omega)]
    · rw [if_neg he] at h
      rw [if_neg he]
      cases hv : cursor_value t c with
      | error f => rw [hv] at h; cases h
      | ok v =>
        obtain ⟨⟨page, off⟩, t2⟩ := v
        rw [hv] at h
        simp only at h ⊢
        cases ha : cursor_advance t2 c with
        | error f => rw [ha] at h; cases h
        | ok a =>
          obtain ⟨c1, t3⟩ := a
          rw [ha] at h
          simp only at h
          cases hs : scan_loop fuel t3 c1 with
          | error f => rw [hs] at h; cases h
          | ok s =>
            cases s with
            | none => rw [hs] at h; cases h
            | some s =>
              obtain ⟨rows2, t4⟩ := s
              rw [hs] at h
              injection h with h
              injection h with h
              injection h with h1 h2
              subst h1
              subst h2
              by_cases hi : should_include stmt (deserialize_row (page.drop off)) = true
              · rw [if_pos hi, if_pos ho]
                simp only [List.filter_cons, hi, if_true, List.length_cons]
                by_cases hfull : b.length ≥ ROWS_BUFFER_SIZE
                · rw [if_pos hfull, if_pos (by omega)]
                · rw [if_neg hfull]
                  rw [ih t3 c1 rows2 t4 _ p r hs (by simp only [List.length_append,
                    List.length_cons, List.length_nil]; omega)]
                  simp only [List.length_append, List.length_cons, List.length_nil,
                    List.append_assoc, List.singleton_append]
                  by_cases hover : b.length + ((rows2.filter (should_include stmt)).length + 1)
                      > ROWS_BUFFER_SIZE
                  · rw [if_pos (by omega), if_pos hover]
                  · rw [if_neg (by omega), if_neg hover]
              · rw [if_neg hi]
                simp only [List.filter_cons, hi]
                exact ih t3 c1 rows2 t4 b p r hs hb

theorem select_scan_loop_plain (stmt : ParsedStatement) (ho : stmt.has_order_by = false)
    (hl : stmt.has_limit = false) (fuel : Nat) :
    ∀ (t : Table) (c : Cursor) (rows : List Row) (t1 : Table) (b p : List Row) (r : Nat),
      scan_loop fuel t c = .ok (some (rows, t1)) → r < 4294967296 →
      select_scan_loop stmt fuel t c b p r =
        .ok (some (b, p ++ rows.filter (should_include stmt),
          (r + (rows.filter (should_include stmt)).length) % 4294967296, t1)) := by
  induction fuel with
  | zero => intro t c rows t1 b p r h; simp [scan_loop] at h
  | succ fuel ih =>
    intro t c rows t1 b p r h hr
    unfold scan_loop at h
    unfold select_scan_loop
    by_cases he : c.end_of_table = true
    · rw [if_pos he] at h
      rw [if_pos he]
      injection h with h
      injection h with h
      injection h with h1 h2
      subst h1
      subst h2
      simp only [List.filter_nil, List.length_nil, Nat.add_zero, List.append_nil]
      rw [Nat.mod_eq_of_lt hr]
    · rw [if_neg he] at h
      rw [if_neg he]
      cases hv : cursor_value t c with
      | error f => rw [hv] at h; cases h
      | ok v =>
        obtain ⟨⟨page, off⟩, t2⟩ := v
        rw [hv] at h
        simp only at h ⊢
        cases ha : cursor_advance t2 c with
        | error f => rw [ha] at h; cases h
        | ok a =>
          obtain ⟨c1, t3⟩ := a
          rw [ha] at h
          simp only at h
          cases hs : scan_loop fuel t3 c1 with
          | error f => rw [hs] at h; cases h
          | ok s =>
            cases s with
            | none => rw [hs] at h; cases h
            | some s =>
              obtain ⟨rows2, t4⟩ := s
              rw [hs] at h
              injection h with h
              injection h with h
              injection h with h1 h2
              subst h1
              subst h2
              by_cases hi : should_include stmt (deserialize_row (page.drop off)) = true
              · rw [if_pos hi, if_neg (by rw [ho]; simp), if_neg (by rw [hl]; simp)]
                simp only
                rw [ih t3 c1 rows2 t4 b _ _ hs (Nat.mod_lt _ (by decide))]
                simp only [List.filter_cons, hi, if_true, List.length_cons, List.append_assoc,
                  List.singleton_append]
                rw [Nat.mod_add_mod, Nat.add_assoc, Nat.add_comm 1]
              · rw [if_neg hi]
                simp only [List.filter_cons, hi]
                exact ih t3 c1 rows2 t4 b p r hs hr

theorem should_include_no_where (stmt : ParsedStatement) (h : stmt.where_clause = none)
    (rows : List Row) : rows.filter (should_include stmt) = rows := by
  apply List.filter_eq_self.2
  intro row _
  unfold should_include
  rw [h]

theorem full_scan_table_1001_rows :
    ∃ rows table1, full_scan 1100 table_1001_rows = .ok (some (rows, table1)) ∧
      rows.length = 1001 := by
  have hlen : (full_scan 1100 table_1001_rows).map (Option.map (fun r => r.1.length)) =
      .ok (some 1001) := by decide!
  cases h : full_scan 1100 table_1001_rows with
  | error f => rw [h] at hlen; cases hlen
  | ok r =>
    cases r with
    | none => rw [h] at hlen; cases hlen
    | some r =>
      obtain ⟨rows, table1⟩ := r
      rw [h] at hlen
      injection hlen with hlen
      injection hlen with hlen
      exact ⟨rows, table1, rfl, hlen⟩

theorem execute_select_order_by_overflow (files : List Nat → TableFiles) (fuel : Nat)
    (index_manager : Option IndexManager) (table_manager : Option TableManager)
    (stmt : ParsedStatement) (table : Table) (actual_rows : Nat) (rows : List Row)
    (table1 : Table) (hj : stmt.join_clause = none) (hagg : stmt.has_aggregation = false)
    (hw : stmt.where_clause = none) (ho : stmt.has_order_by = true)
    (hscan : full_scan fuel table = .ok (some (rows, table1)))
    (hlen : rows.length > ROWS_BUFFER_SIZE) :
    execute_select files fuel index_manager table_manager stmt table actual_rows =
      .error .out_of_bounds := by
  unfold full_scan at hscan
  cases hstart : table_start table with
  | error f => rw [hstart] at hscan; cases hscan
  | ok r =>
    obtain ⟨cursor, table2⟩ := r
    rw [hstart] at hscan
    simp only at hscan
    have hindex : select_by_index index_manager stmt table = none := by
      unfold select_by_index
      rw [hw]
    have hjoin : stmt.has_join = false := by
      unfold ParsedStatement.has_join
      rw [hj]
      rfl
    have hid : where_on_id stmt = false := by
      unfold where_on_id
      rw [hw]
    unfold execute_select
    rw [hjoin, hagg, hindex]
    simp only [Bool.false_eq_true, if_false, hid]
    rw [hstart]
    simp only
    rw [select_scan_loop_order_by stmt ho fuel table2 cursor rows table1 [] [] 0 hscan
      (Nat.zero_le _), should_include_no_where _ hw, if_pos (by
        simp only [List.length_nil, Nat.zero_add]; exact hlen)]

/-- C33, the code at the failing input.  For a SELECT with ORDER BY the scan stores every
row that passes the WHERE test into `rows_buffer` without looking at `buffer_size`: when
the scan reads rows of which more than `ROWS_BUFFER_SIZE` = 1000 pass, the store number
1001 is made at `rows_buffer[1000]`, outside the buffer.  The table `table_1001_rows` fits
the pager (78 of its 100 pages: an internal root and 77 leaves of 13 rows), its full scan
reads 1001 rows, and `SELECT * ORDER BY id` on it ends in that store. -/
theorem select_order_by_overflows_buffer :
    ROWS_BUFFER_SIZE = 1000 ∧
    (∀ stmt fuel table cursor rows table1, stmt.has_order_by = true →
      scan_loop fuel table cursor = .ok (some (rows, table1)) →
      select_scan_loop stmt fuel table cursor [] [] 0 =
        if (rows.filter (should_include stmt)).length > ROWS_BUFFER_SIZE then
          .error .out_of_bounds
        else .ok (some (rows.filter (should_include stmt), [], 0, table1))) ∧
    parse_statement JoinClause.zero input_select_order_by_id =
      .ok (some stmt_select_order_by_id) ∧
    table_1001_rows.pager.num_pages = 78 ∧ table_1001_rows.pager.pages.length = 100 ∧
    (∃ rows table1, full_scan 1100 table_1001_rows = .ok (some (rows, table1)) ∧
      rows.length = 1001) ∧
    (∀ files index_manager table_manager actual_rows,
      execute_select files 1100 index_manager table_manager stmt_select_order_by_id
        table_1001_rows actual_rows = .error .out_of_bounds) := by
  have hgen : ∀ (stmt : ParsedStatement) (fuel : Nat) (table : Table) (cursor : Cursor)
      (rows : List Row) (table1 : Table), stmt.has_order_by = true →
      scan_loop fuel table cursor = .ok (some (rows, table1)) →
      select_scan_loop stmt fuel table cursor [] [] 0 =
        if (rows.filter (should_include stmt)).length > ROWS_BUFFER_SIZE then
          .error .out_of_bounds
        else .ok (some (rows.filter (should_include stmt), [], 0, table1)) := by
    intro stmt fuel table cursor rows table1 ho hs
    rw [select_scan_loop_order_by stmt ho fuel table cursor rows table1 [] [] 0 hs
      (Nat.zero_le _)]
    simp only [List.length_nil, Nat.zero_add, List.nil_append]
  refine ⟨rfl, hgen, by decide!, rfl, by decide, full_scan_table_1001_rows, ?_⟩
  intro files index_manager table_manager actual_rows
  obtain ⟨rows, table1, hscan, hlen⟩ := full_scan_table_1001_rows
  exact execute_select_order_by_overflow files 1100 index_manager table_manager
    stmt_select_order_by_id table_1001_rows actual_rows rows table1 rfl rfl rfl rfl hscan
    (by rw [hlen]; decide)

theorem wal_checksum_loop_lt (words : List Nat) : ∀ s1 s2 : Nat, s1 < 4294967296 →
    s2 < 4294967296 →
    (wal_checksum_loop words s1 s2).1 < 4294967296 ∧
      (wal_checksum_loop words s1 s2).2 < 4294967296 := by
  induction words with
  | nil => intro s1 s2 h1 h2; exact ⟨h1, h2⟩
  | cons w ws ih =>
    intro s1 s2 _ _
    simp only [wal_checksum_loop]
    exact ih _ _ (Nat.mod_lt _ (by decide)) (Nat.mod_lt _ (by decide))

theorem wal_checksum_lt (data : List Nat) (count s1 s2 : Nat) (h1 : s1 < 4294967296)
    (h2 : s2 < 4294967296) : wal_checksum data count s1 s2 < 4294967296 := by
  unfold wal_checksum
  obtain ⟨a, b⟩ := wal_checksum_loop_lt (data.take count) s1 s2 h1 h2
  exact Nat.xor_lt_two_pow (n := 32) a b

theorem frame_header_roundtrip (h : WALFrameHeader) (h1 : h.page_number < 4294967296)
    (h2 : h.db_size < 4294967296) (h3 : h.salt1 < 4294967296) (h4 : h.salt2 < 4294967296)
    (h5 : h.checksum1 < 4294967296) (h6 : h.checksum2 < 4294967296) :
    frame_header_of_bytes (frame_header_bytes h) = h := by
  obtain ⟨a, b, c, d, e, f⟩ := h
  simp only at h1 h2 h3 h4 h5 h6
  simp only [frame_header_of_bytes, frame_header_bytes, read_u32, u32_bytes, List.cons_append,
    List.nil_append, List.getD_cons_zero, List.getD_cons_succ, WALFrameHeader.mk.injEq]
  refine ⟨?_, ?_, ?_, ?_, ?_, ?_⟩ <;> omega

theorem frame_header_bytes_length (h : WALFrameHeader) :
    (frame_header_bytes h).length = WAL_FRAME_HEADER_SIZE := by
  simp [frame_header_bytes, u32_bytes, WAL_FRAME_HEADER_SIZE]

theorem wal_frames_cons (fuel : Nat) (f : WALFrame) (rest : List Nat)
    (hr : frame_header_of_bytes (frame_header_bytes f.header) = f.header)
    (hl : f.page_data.length = PAGE_SIZE) :
    wal_frames (fuel + 1) (frame_bytes f ++ rest) = f :: wal_frames fuel rest := by
  have h24 := frame_header_bytes_length f.header
  have e1 : (frame_bytes f ++ rest).take WAL_FRAME_HEADER_SIZE = frame_header_bytes f.header := by
    unfold frame_bytes
    rw [List.append_assoc, List.take_append_of_le_length (by omega), List.take_of_length_le (by omega)]
  have e2 : ((frame_bytes f ++ rest).drop WAL_FRAME_HEADER_SIZE).take PAGE_SIZE = f.page_data := by
    unfold frame_bytes
    rw [List.append_assoc, List.drop_append_of_le_length (by omega),
      List.drop_of_length_le (by omega), List.nil_append,
      List.take_append_of_le_length (by omega), List.take_of_length_le (by omega)]
  have e3 : (frame_bytes f ++ rest).drop (WAL_FRAME_HEADER_SIZE + PAGE_SIZE) = rest := by
    have : (frame_bytes f).length = WAL_FRAME_HEADER_SIZE + PAGE_SIZE := by
      simp [frame_bytes, h24, hl]
    rw [← this, List.drop_left]
  have e4 : ¬ (frame_bytes f ++ rest).length < WAL_FRAME_HEADER_SIZE + PAGE_SIZE := by
    simp [frame_bytes, h24, hl]
  simp only [wal_frames]
  rw [if_neg e4, e1, e2, e3, hr]

theorem wal_frames_flatten (frames : List WALFrame) :
    ∀ fuel : Nat, (frames.map frame_bytes).flatten.length ≤ fuel →
      (∀ f ∈ frames, frame_header_of_bytes (frame_header_bytes f.header) = f.header ∧
        f.page_data.length = PAGE_SIZE) →
      wal_frames fuel (frames.map frame_bytes).flatten = frames := by
  induction frames with
  | nil =>
    intro fuel _ _
    exact wal_frames_nil_of_short fuel [] (by simp [WAL_FRAME_HEADER_SIZE, PAGE_SIZE])
  | cons f fs ih =>
    intro fuel hf hall
    have hlen : (frame_bytes f).length = WAL_FRAME_HEADER_SIZE + PAGE_SIZE := by
      simp [frame_bytes, frame_header_bytes_length, (hall f (List.mem_cons_self _ _)).2]
    rw [List.map_cons, List.flatten_cons, List.length_append, hlen] at hf
    cases fuel with
    | zero => simp [WAL_FRAME_HEADER_SIZE, PAGE_SIZE] at hf
    | succ fuel =>
      rw [List.map_cons, List.flatten_cons,
        wal_frames_cons fuel f _ (hall f (List.mem_cons_self _ _)).1
          (hall f (List.mem_cons_self _ _)).2,
        ih fuel (by simp only [WAL_FRAME_HEADER_SIZE, PAGE_SIZE] at hf; omega)
          (fun g hg => hall g (List.mem_cons_of_mem _ hg))]

theorem written_frame_congr (wal wal1 : WAL) (h : wal1.header = wal.header)
    (w : Nat × Page × Nat) : written_frame wal1 w = written_frame wal w := by
  simp only [written_frame, make_frame_header, h]

theorem write_frames_spec (writes : List (Nat × Page × Nat)) :
    ∀ wal : WAL, wal.is_open = true →
      (write_frames wal writes).file =
          wal.file ++ (writes.map (fun w => frame_bytes (written_frame wal w))).flatten ∧
        (write_frames wal writes).header = wal.header ∧
        (write_frames wal writes).is_open = true := by
  induction writes with
  | nil => intro wal ho; simp [write_frames, ho]
  | cons w ws ih =>
    intro wal ho
    have hstep : (wal_write_frame wal w.1 w.2.1 w.2.2).2 =
        { wal with
          file := wal.file ++ frame_bytes (written_frame wal w)
          frame_count := (wal.frame_count + 1) % 4294967296 } := by
      simp [wal_write_frame, ho, frame_bytes, written_frame, List.append_assoc]
    have hw : write_frames wal (w :: ws) =
        write_frames (wal_write_frame wal w.1 w.2.1 w.2.2).2 ws := rfl
    obtain ⟨e1, e2, e3⟩ := ih (wal_write_frame wal w.1 w.2.1 w.2.2).2 (by rw [hstep]; exact ho)
    have hh : (wal_write_frame wal w.1 w.2.1 w.2.2).2.header = wal.header := by rw [hstep]
    rw [hw, e1, e2, e3]
    refine ⟨?_, hh, rfl⟩
    rw [hstep] 
    simp only [List.map_cons, List.flatten_cons, List.append_assoc]
    have hm : ws.map (fun x => frame_bytes (written_frame
        { wal with file := wal.file ++ frame_bytes (written_frame wal w)
                   frame_count := (wal.frame_count + 1) % 4294967296 } x)) =
        ws.map (fun x => frame_bytes (written_frame wal x)) :=
      List.map_congr_left (fun x _ => congrArg frame_bytes (written_frame_congr wal _ rfl x))
    rw [hm]

theorem written_frame_ok (wal : WAL) (w : Nat × Page × Nat)
    (hs1 : wal.header.salt1 < 4294967296) (hs2 : wal.header.salt2 < 4294967296)
    (h1 : w.1 < 4294967296) (h2 : w.2.1.length = PAGE_SIZE) (h3 : w.2.2 < 4294967296) :
    frame_checksum_ok (written_frame wal w) = true ∧
      frame_header_of_bytes (frame_header_bytes (written_frame wal w).header)
        = (written_frame wal w).header ∧
      (written_frame wal w).page_data = w.2.1 ∧
      (written_frame wal w).header.page_number = w.1 := by
  have ht : w.2.1.take PAGE_SIZE = w.2.1 := List.take_of_length_le (by omega)
  refine ⟨?_, ?_, ht, rfl⟩
  · simp only [frame_checksum_ok, written_frame, make_frame_header, ht, decide_True]
  · apply frame_header_roundtrip
    · exact h1
    · exact h3
    · exact hs1
    · exact hs2
    · exact wal_checksum_lt _ _ _ _ hs1 hs2
    · exact wal_checksum_lt _ _ _ _ (wal_checksum_lt _ _ _ _ hs1 hs2) (by decide)

theorem last_image_written (wal : WAL) (writes : List (Nat × Page × Nat)) (page_num : Nat)
    (hl : ∀ w ∈ writes, w.2.1.length = PAGE_SIZE) :
    last_image (writes.map (written_frame wal)) page_num =
      ((writes.filter (fun w => decide (w.1 = page_num))).getLast?).map (fun w => w.2.1) := by
  have hf : (fun f : WALFrame => decide (f.header.page_number = page_num)) ∘ written_frame wal
      = fun w => decide (w.1 = page_num) := rfl
  unfold last_image
  rw [List.filter_map, List.getLast?_map, Option.map_map, hf]
  cases h : (writes.filter (fun w => decide (w.1 = page_num))).getLast? with
  | none => rfl
  | some w =>
    obtain ⟨ys, hys⟩ := List.getLast?_eq_some_iff.1 h
    have hm : w ∈ writes := by
      have : w ∈ writes.filter (fun w => decide (w.1 = page_num)) := by rw [hys]; simp
      exact (List.mem_filter.1 this).1
    simp only [Option.map_some', Function.comp, written_frame]
    rw [List.take_of_length_le (by rw [hl w hm])]

/-- C34, the claim as stated fails for page numbers beyond the page table: the frame that
`wal_write_frame` appends for page 101 passes the checksum test, and `wal_recover` on the
WAL that holds only this frame ends the process in `pager_get_page` instead of applying
it. -/
theorem wal_recover_exits_on_written_page_101 :
    frame_checksum_ok (written_frame example_wal_empty (101, List.replicate PAGE_SIZE 0, 1))
        = true ∧
      frames_to_replay (write_frames example_wal_empty [(101, List.replicate PAGE_SIZE 0, 1)]).file
        = [written_frame example_wal_empty (101, List.replicate PAGE_SIZE 0, 1)] ∧
      wal_recover (write_frames example_wal_empty [(101, List.replicate PAGE_SIZE 0, 1)])
        empty_pager = .error .exit_failure := by
  decide!

/-- C34, amended. Let an open WAL hold only its 32-byte header, with salts that are
`uint32_t` values, and let `wal_write_frame` be called for the triples
`(page_num, page_data, db_size)` of `writes`, page images of `PAGE_SIZE` bytes.  Every frame
appended passes the checksum test of `wal_recover`, for every page number, and the frames
`wal_recover` finds in the file and accepts are exactly the frames written, in the order
written.  When all page numbers are below `TABLE_MAX_PAGES`, `wal_recover` on a pager
within its slots returns `true` and has applied every frame: each page slot holds the last
image written for its page, and a slot no write names is as before. -/
theorem wal_written_frames_replay (wal : WAL) (pager : Pager)
    (writes : List (Nat × Page × Nat)) (ho : wal.is_open = true)
    (hfile : wal.file.length = WAL_HEADER_SIZE)
    (hs1 : wal.header.salt1 < 4294967296) (hs2 : wal.header.salt2 < 4294967296)
    (hw : pager_wf pager)
    (hwrites : ∀ w ∈ writes,
      w.1 < 4294967296 ∧ w.2.1.length = PAGE_SIZE ∧ w.2.2 < 4294967296) :
    (∀ w ∈ writes, frame_checksum_ok (written_frame wal w) = true) ∧
      frames_to_replay (write_frames wal writes).file = writes.map (written_frame wal) ∧
      ((∀ w ∈ writes, w.1 < TABLE_MAX_PAGES) →
        ∃ wal1 pager1, wal_recover (write_frames wal writes) pager = .ok (true, wal1, pager1) ∧
          pager1.pages = (writes.map (written_frame wal)).foldl replay_frame pager.pages ∧
          ∀ page_num, page_num < TABLE_MAX_PAGES →
            pager1.pages.getD page_num none =
              match (writes.filter (fun w => decide (w.1 = page_num))).getLast? with
              | some w => some w.2.1
              | none => pager.pages.getD page_num none) := by
  have hok : ∀ w ∈ writes, frame_checksum_ok (written_frame wal w) = true :=
    fun w hm => (written_frame_ok wal w hs1 hs2 (hwrites w hm).1 (hwrites w hm).2.1
      (hwrites w hm).2.2).1
  obtain ⟨e1, _, e3⟩ := write_frames_spec writes wal ho
  have hdrop : (write_frames wal writes).file.drop WAL_HEADER_SIZE =
      ((writes.map (written_frame wal)).map frame_bytes).flatten := by
    rw [e1, List.drop_left' hfile, List.map_map]
    rfl
  have hframes : wal_frames (write_frames wal writes).file.length
      ((write_frames wal writes).file.drop WAL_HEADER_SIZE) = writes.map (written_frame wal) := by
    rw [hdrop]
    apply wal_frames_flatten
    · rw [← hdrop, List.length_drop]
      omega
    · intro f hf
      obtain ⟨w, hm, rfl⟩ := List.mem_map.1 hf
      have := written_frame_ok wal w hs1 hs2 (hwrites w hm).1 (hwrites w hm).2.1
        (hwrites w hm).2.2
      exact ⟨this.2.1, by rw [this.2.2.1]; exact (hwrites w hm).2.1⟩
  have hreplay : frames_to_replay (write_frames wal writes).file =
      writes.map (written_frame wal) := by
    unfold frames_to_replay
    rw [hframes, List.takeWhile_eq_self_iff]
    intro f hf
    obtain ⟨w, hm, rfl⟩ := List.mem_map.1 hf
    exact hok w hm
  refine ⟨hok, hreplay, ?_⟩
  intro hpages
  have hpn : ∀ f ∈ (wal_frames (write_frames wal writes).file.length
      ((write_frames wal writes).file.drop WAL_HEADER_SIZE)).takeWhile frame_checksum_ok,
      f.header.page_number < TABLE_MAX_PAGES := by
    intro f hf
    have hf2 : f ∈ frames_to_replay (write_frames wal writes).file := hf
    rw [hreplay] at hf2
    obtain ⟨w, hm, rfl⟩ := List.mem_map.1 hf2
    exact hpages w hm
  obtain ⟨p1, n1, r1, r2, r3, _⟩ := wal_recover_loop_spec (write_frames wal writes).file.length
    ((write_frames wal writes).file.drop WAL_HEADER_SIZE) pager 0 hw hpn
  have r2b : p1.pages = (writes.map (written_frame wal)).foldl replay_frame pager.pages := by
    rw [r2]
    exact congrArg (fun l => List.foldl replay_frame pager.pages l) hreplay
  obtain ⟨b, w2, p2, c1, c2, _, _, _, _⟩ := wal_checkpoint_ok (write_frames wal writes) p1 r3.2.1
  refine ⟨w2, p2, ?_, by rw [c2, r2b], ?_⟩
  · simp only [wal_recover, e3, Bool.not_true, Bool.false_eq_true, if_false, r1, c1]
  · intro page_num hp
    rw [c2, r2b, foldl_replay_frame_get _ _ _ (by rw [hw.1]; exact hp)
      (fun f hf => by
        obtain ⟨w, hm, rfl⟩ := List.mem_map.1 hf
        rw [hw.1]; exact hpages w hm),
      last_image_written wal writes page_num (fun w hm => (hwrites w hm).2.1)]
    cases (writes.filter (fun w => decide (w.1 = page_num))).getLast? <;> rfl

/-- A concrete case of C34: three frames written to the WAL with the salts 7 and 9, two of
them for page 3, replayed into a pager just opened on an empty file. -/
theorem wal_written_frames_replay_witness :
    (∀ w ∈ example_writes, frame_checksum_ok (written_frame example_wal_empty w) = true) ∧
      frames_to_replay (write_frames example_wal_empty example_writes).file =
        example_writes.map (written_frame example_wal_empty) ∧
      ((∀ w ∈ example_writes, w.1 < TABLE_MAX_PAGES) →
        ∃ wal1 pager1, wal_recover (write_frames example_wal_empty example_writes) empty_pager
            = .ok (true, wal1, pager1) ∧
          pager1.pages = (example_writes.map (written_frame example_wal_empty)).foldl
            replay_frame empty_pager.pages ∧
          ∀ page_num, page_num < TABLE_MAX_PAGES →
            pager1.pages.getD page_num none =
              match (example_writes.filter (fun w => decide (w.1 = page_num))).getLast? with
              | some w => some w.2.1
              | none => empty_pager.pages.getD page_num none) :=
  wal_written_frames_replay example_wal_empty empty_pager example_writes (by decide)
    (by decide) (by decide) (by decide) (by decide!) (by decide!)

theorem example_writes_replayed :
    (wal_recover (write_frames example_wal_empty example_writes) empty_pager).map
        (fun r => (r.1, r.2.2.pages.getD 3 none, r.2.2.pages.getD 5 none,
          r.2.2.pages.getD 4 none)) =
      .ok (true, some (List.replicate PAGE_SIZE 7), some (List.replicate PAGE_SIZE 2), none) := by
  decide!

theorem lexer_scan_congr (p : Nat → Bool) (lexer lexer1 : Lexer)
    (hi : lexer.input = lexer1.input) (hl : lexer.length = lexer1.length) :
    ∀ fuel position : Nat, lexer_scan p lexer fuel position = lexer_scan p lexer1 fuel position := by
  intro fuel
  induction fuel with
  | zero => intro position; rfl
  | succ fuel ih =>
    intro position
    simp only [lexer_scan, hi, hl, ih]

theorem parser_init_explain (s : List Nat) :
    parser_init (explain_bytes ++ s) =
      { lexer := { input := explain_bytes ++ cstr s, position := 7,
                   length := (explain_bytes ++ cstr s).length },
        current_token := make_token .TOKEN_EXPLAIN none 0 } := by
  unfold parser_init lexer_init
  rw [cstr_append_left explain_bytes s (by decide)]
  have h := lexer_next_token_word
    { input := explain_bytes ++ cstr s, position := 0, length := (explain_bytes ++ cstr s).length }
    [] [] [69, 88, 80, 76, 65, 73, 78] (32 :: cstr s) rfl rfl rfl (by simp) (by decide)
    (by decide) (Or.inr (by show identifier_char 32 = false; decide))
  rw [h]
  rfl

theorem lexer_scan_shift (p : Nat → Bool) (pre : List Nat) (lexer : Lexer) :
    ∀ fuel position : Nat, lexer_scan p (lexer.shift pre) fuel (position + pre.length) =
      lexer_scan p lexer fuel position + pre.length := by
  intro fuel
  induction fuel with
  | zero => intro position; rfl
  | succ fuel ih =>
    intro position
    have hg : (pre ++ lexer.input).getD (position + pre.length) 0 = lexer.input.getD position 0 := by
      rw [List.getD_append_right _ _ _ _ (by omega), Nat.add_sub_cancel]
    simp only [lexer_scan, Lexer.shift, hg, Nat.add_lt_add_iff_right]
    split_ifs
    · have := ih (position + 1)
      simp only [Lexer.shift] at this
      rw [← this]
      congr 1
      omega
    · rfl

theorem skip_whitespace_shift (pre : List Nat) (lexer : Lexer) :
    skip_whitespace (lexer.shift pre) = (skip_whitespace lexer).shift pre := by
  have h := lexer_scan_shift isspace pre lexer (lexer.length - lexer.position) lexer.position
  have hf : (lexer.shift pre).length - (lexer.shift pre).position =
      lexer.length - lexer.position := by
    simp only [Lexer.shift]; omega
  have hp : (lexer.shift pre).position = lexer.position + pre.length := rfl
  unfold skip_whitespace
  rw [hf, hp, h]
  rfl

theorem drop_shift (pre input : List Nat) (n : Nat) :
    (pre ++ input).drop (n + pre.length) = input.drop n := by
  rw [Nat.add_comm, ← List.drop_drop, List.drop_left]

theorem read_identifier_shift (pre : List Nat) (lexer : Lexer) :
    read_identifier (lexer.shift pre) =
      ((read_identifier lexer).1, (read_identifier lexer).2.shift pre) := by
  have h := lexer_scan_shift (fun c => isalnum c || c = 95 || c = 64 || c = 46) pre lexer
    (lexer.length - lexer.position) lexer.position
  have hf : (lexer.shift pre).length - (lexer.shift pre).position =
      lexer.length - lexer.position := by
    simp only [Lexer.shift]; omega
  unfold read_identifier
  simp only [hf]
  have hp : (lexer.shift pre).position = lexer.position + pre.length := rfl
  have hi : (lexer.shift pre).input = pre ++ lexer.input := rfl
  rw [hp, h, hi, drop_shift, Nat.add_sub_add_right]
  cases keyword_lookup (lexer.input.drop lexer.position)
    (lexer_scan (fun c => isalnum c || c = 95 || c = 64 || c = 46) lexer
      (lexer.length - lexer.position) lexer.position - lexer.position) keywords <;> rfl

theorem read_number_shift (pre : List Nat) (lexer : Lexer) :
    read_number (lexer.shift pre) =
      ((read_number lexer).1, (read_number lexer).2.shift pre) := by
  have h := lexer_scan_shift isdigit pre lexer (lexer.length - lexer.position) lexer.position
  have hf : (lexer.shift pre).length - (lexer.shift pre).position =
      lexer.length - lexer.position := by
    simp only [Lexer.shift]; omega
  unfold read_number
  simp only [hf]
  have hp : (lexer.shift pre).position = lexer.position + pre.length := rfl
  have hi : (lexer.shift pre).input = pre ++ lexer.input := rfl
  rw [hp, h, hi, drop_shift, Nat.add_sub_add_right]
  rfl

theorem read_string_shift (pre : List Nat) (lexer : Lexer) :
    read_string (lexer.shift pre) =
      ((read_string lexer).1, (read_string lexer).2.shift pre) := by
  have h := lexer_scan_shift (fun c => c ≠ 39) pre lexer (lexer.length - (lexer.position + 1))
    (lexer.position + 1)
  have hf : (lexer.shift pre).length - ((lexer.shift pre).position + 1) =
      lexer.length - (lexer.position + 1) := by
    simp only [Lexer.shift]; omega
  have hp : (lexer.shift pre).position + 1 = lexer.position + 1 + pre.length := by
    simp only [Lexer.shift]; omega
  have hi : (lexer.shift pre).input = pre ++ lexer.input := rfl
  unfold read_string
  simp only [hf]
  rw [hp, h, hi, drop_shift, Nat.add_sub_add_right]
  rw [Nat.add_right_comm _ pre.length 1]
  rfl

theorem lexer_next_token_shift (pre : List Nat) (lexer : Lexer) :
    lexer_next_token (lexer.shift pre) =
      ((lexer_next_token lexer).1, (lexer_next_token lexer).2.shift pre) := by
  unfold lexer_next_token
  simp only []
  rw [skip_whitespace_shift]
  generalize skip_whitespace lexer = lexer1
  have hg : (lexer1.shift pre).input.getD (lexer1.shift pre).position 0 =
      lexer1.input.getD lexer1.position 0 := by
    simp only [Lexer.shift]
    rw [List.getD_append_right _ _ _ _ (by omega), Nat.add_sub_cancel]
  have h2 : Lexer.mk (lexer1.shift pre).input ((lexer1.shift pre).position + 1)
      (lexer1.shift pre).length =
      Lexer.shift pre (Lexer.mk lexer1.input (lexer1.position + 1) lexer1.length) := by
    unfold Lexer.shift
    simp only [Lexer.mk.injEq, true_and, and_true]
    omega
  rw [hg]
  by_cases hend : lexer1.position ≥ lexer1.length
  · have : (lexer1.shift pre).position ≥ (lexer1.shift pre).length := by
      simp only [Lexer.shift]; omega
    rw [if_pos this, if_pos hend]
  · have : ¬ (lexer1.shift pre).position ≥ (lexer1.shift pre).length := by
      simp only [Lexer.shift]; omega
    rw [if_neg this, if_neg hend]
    simp only [h2, read_string_shift, read_identifier_shift, read_number_shift]
    show _ = (fun x : Token × Lexer => (x.1, Lexer.shift pre x.2)) _
    simp only [apply_ite (fun x : Token × Lexer => (x.1, Lexer.shift pre x.2))]

theorem parser_advance_shift (pre : List Nat) (parser : Parser) :
    parser_advance (parser.shift pre) = (parser_advance parser).shift pre := by
  unfold parser_advance
  simp only [Parser.shift, lexer_next_token_shift]

theorem parser_expect_shift (pre : List Nat) (parser : Parser) (type : TokenType) :
    parser_expect (parser.shift pre) type =
      ((parser_expect parser type).1, (parser_expect parser type).2.shift pre) := by
  unfold parser_expect
  rw [parser_advance_shift]
  have : (parser.shift pre).current_token = parser.current_token := rfl
  rw [this]
  split_ifs <;> rfl

theorem Parser.shift_current_token (pre : List Nat) (parser : Parser) :
    (parser.shift pre).current_token = parser.current_token := rfl

theorem Parser.shift_value (pre : List Nat) (parser : Parser) :
    (parser.shift pre).value = parser.value := rfl

theorem ite_shift (pre : List Nat) (c : Prop) [Decidable c] (p q : Parser) :
    (if c then p.shift pre else q.shift pre) = (if c then p else q).shift pre := by
  split_ifs <;> rfl

theorem ite_shift_pair {α : Type} (pre : List Nat) (c : Prop) [Decidable c] (a b : α)
    (p q : Parser) :
    (if c then (a, p.shift pre) else (b, q.shift pre)) =
      ((if c then (a, p) else (b, q)).1, (if c then (a, p) else (b, q)).2.shift pre) := by
  split_ifs <;> rfl

theorem parse_where_clause_shift (pre : List Nat) (parser : Parser) :
    parse_where_clause (parser.shift pre) =
      ((parse_where_clause parser).1, (parse_where_clause parser).2.shift pre) := by
  unfold parse_where_clause
  simp only [parser_advance_shift, Parser.shift_current_token, Parser.shift_value]
  show _ = (fun x : Option Condition × Parser => (x.1, Parser.shift pre x.2)) _
  simp only [apply_ite (fun x : Option Condition × Parser => (x.1, Parser.shift pre x.2))]

theorem parse_insert_shift (pre : List Nat) (parser : Parser) :
    parse_insert (parser.shift pre) = parse_insert parser := by
  unfold parse_insert
  simp only [parser_advance_shift, Parser.shift_current_token, Parser.shift_value]

theorem parse_delete_shift (pre : List Nat) (parser : Parser) :
    parse_delete (parser.shift pre) = parse_delete parser := by
  unfold parse_delete
  simp only [parser_advance_shift, parse_where_clause_shift]

theorem parse_update_shift (pre : List Nat) (parser : Parser) :
    parse_update (parser.shift pre) = parse_update parser := by
  unfold parse_update
  simp only [parser_advance_shift, parser_expect_shift, parse_where_clause_shift,
    Parser.shift_current_token, Parser.shift_value]

theorem lexer_next_token_after_explain (s : List Nat) :
    lexer_next_token { input := explain_bytes ++ cstr s, position := 7,
                       length := (explain_bytes ++ cstr s).length } =
      lexer_next_token ((lexer_init s).shift explain_bytes) := by
  have hskip : skip_whitespace
      { input := explain_bytes ++ cstr s, position := 7, length := (explain_bytes ++ cstr s).length } =
      skip_whitespace ((lexer_init s).shift explain_bytes) := by
    unfold skip_whitespace
    have h1 : (explain_bytes ++ cstr s).length - 7 = (cstr s).length + 1 := by
      simp [explain_bytes]
    have h2 : ((lexer_init s).shift explain_bytes).length -
        ((lexer_init s).shift explain_bytes).position = (cstr s).length := by
      simp [Lexer.shift, lexer_init, explain_bytes]
    have h3 : (7 < (explain_bytes ++ cstr s).length ∧
        isspace ((explain_bytes ++ cstr s).getD 7 0) = true) := by
      constructor
      · simp [explain_bytes]
      · rfl
    simp only [h1, h2, lexer_scan]
    rw [if_pos h3]
    simp [Lexer.shift, lexer_init, explain_bytes]
    apply lexer_scan_congr
    · rfl
    · rfl
  unfold lexer_next_token
  simp only [hskip]

theorem parser_advance_init_explain (s : List Nat) :
    parser_advance (parser_init (explain_bytes ++ s)) = (parser_init s).shift explain_bytes := by
  rw [parser_init_explain]
  unfold parser_advance
  simp only [lexer_next_token_after_explain, lexer_next_token_shift]
  rfl

/-- C38, the claim as stated fails: for `s = EXPLAIN SELECT *` the parser returns a
statement, with `is_explain` set, and for `EXPLAIN ` followed by `s` it returns `NULL`,
because it skips one EXPLAIN token only. -/
theorem parse_statement_explain_twice :
    input_explain_select = explain_bytes ++ [83, 69, 76, 69, 67, 84, 32, 42] ∧
      ∀ fresh, parse_statement fresh input_explain_select = .ok (some stmt_explain_select) ∧
        parse_statement fresh (explain_bytes ++ input_explain_select) = .ok none :=
  ⟨rfl, fun _ => ⟨rfl, rfl⟩⟩

attribute [irreducible] Parser.shift parser_advance parser_expect parse_where_clause join_side

theorem parse_create_index_shift (pre : List Nat) (parser : Parser) :
    parse_create_index (parser.shift pre) = parse_create_index parser := by
  unfold parse_create_index
  simp only [parser_advance_shift, parser_expect_shift, ite_shift_pair,
    Parser.shift_current_token, Parser.shift_value]

theorem parse_select_tail_shift (pre : List Nat) (stmt : ParsedStatement) (parser : Parser) :
    parse_select_tail stmt (parser.shift pre) = parse_select_tail stmt parser := by
  unfold parse_select_tail
  simp only [parser_advance_shift, parser_expect_shift, ite_shift_pair, parse_where_clause_shift,
    Parser.shift_current_token, Parser.shift_value]

theorem parse_columns_loop_shift (pre : List Nat) (fuel : Nat) :
    ∀ (parser : Parser) (columns : List ColumnDef),
      parse_columns_loop fuel (parser.shift pre) columns =
        ((parse_columns_loop fuel parser columns).1,
          (parse_columns_loop fuel parser columns).2.shift pre) := by
  induction fuel with
  | zero => intro parser columns; rfl
  | succ fuel ih =>
    intro parser columns
    unfold parse_columns_loop
    simp only [parser_advance_shift, parser_expect_shift, ite_shift_pair, ite_shift,
      Parser.shift_current_token, Parser.shift_value, ih]

theorem parse_create_table_shift (pre : List Nat) (parser : Parser) :
    parse_create_table (parser.shift pre) = parse_create_table parser := by
  unfold parse_create_table
  simp only [parser_advance_shift, parser_expect_shift, parse_columns_loop_shift,
    Parser.shift_current_token, Parser.shift_value]

theorem parse_join_shift (pre : List Nat) (fresh : JoinClause) (stmt : ParsedStatement)
    (parser : Parser) :
    parse_join fresh stmt (parser.shift pre) =
      (parse_join fresh stmt parser).map (fun x => (x.1, x.2.shift pre)) := by
  unfold parse_join
  simp only [parser_advance_shift, parser_expect_shift, ite_shift_pair, ite_shift,
    Parser.shift_current_token, Parser.shift_value]
  split_ifs <;> try rfl
  all_goals (try (simp only [parser_advance_shift, parser_expect_shift,
    Parser.shift_current_token, Parser.shift_value]; split_ifs <;> first | rfl | (split <;> rfl)))
  all_goals (generalize join_side _ _ _ = js; rcases js with f | ⟨table, column⟩)
  all_goals (try rfl)
  all_goals (simp only [parser_advance_shift, parser_expect_shift,
    Parser.shift_current_token, Parser.shift_value]; split_ifs <;> first | rfl | (split <;> rfl))

attribute [irreducible] parse_join parse_select_tail parse_columns_loop

theorem parse_select_shift (pre : List Nat) (fresh : JoinClause) (parser : Parser) :
    parse_select fresh (parser.shift pre) = parse_select fresh parser := by
  unfold parse_select
  simp only [parser_advance_shift, parser_expect_shift, ite_shift_pair, ite_shift,
    Parser.shift_current_token, Parser.shift_value]
  split_ifs <;> try rfl
  all_goals simp only [parser_advance_shift, parser_expect_shift, ite_shift_pair, ite_shift,
    Parser.shift_current_token, Parser.shift_value, parse_join_shift]
  all_goals (split_ifs <;> try rfl)
  all_goals (try (simp only [parse_select_tail_shift]; done))
  all_goals (generalize parse_join _ _ _ = pj; rcases pj with f | ⟨s, p⟩)
  all_goals (try rfl)
  all_goals (simp only [Except.map, parse_select_tail_shift])

/-- C38, amended. For every input `s` whose first token is not EXPLAIN, `parse_statement` on
`EXPLAIN ` followed by `s` is `parse_statement` on `s` with `is_explain` set: it is `NULL`
exactly when `parse_statement` on `s` is `NULL`, it fails where that fails, and otherwise
the statement differs in `is_explain` only.  This covers CREATE TABLE and CREATE INDEX,
for which the parser starts again from the beginning of the input. -/
theorem parse_statement_explain (fresh : JoinClause) (s : List Nat)
    (h : (parser_init s).current_token.type ≠ .TOKEN_EXPLAIN) :
    parse_statement fresh (explain_bytes ++ s) =
        (parse_statement fresh s).map (Option.map explained) ∧
      (parse_statement fresh (explain_bytes ++ s) = .ok none ↔
        parse_statement fresh s = .ok none) ∧
      ∀ stmt, parse_statement fresh s = .ok (some stmt) →
        stmt.is_explain = false ∧
        parse_statement fresh (explain_bytes ++ s) = .ok (some { stmt with is_explain := true }) := by
  have e1 : (parser_init (explain_bytes ++ s)).current_token.type = .TOKEN_EXPLAIN := by
    rw [parser_init_explain]; rfl
  have hadv := parser_advance_init_explain s
  have hl : parse_statement fresh (explain_bytes ++ s) =
      match (match (parser_init s).current_token.type with
        | .TOKEN_CREATE =>
          if (parser_advance (parser_init s)).current_token.type = .TOKEN_TABLE then
            .ok (parse_create_table (parser_init s))
          else if (parser_advance (parser_init s)).current_token.type = .TOKEN_INDEX then
            .ok (parse_create_index (parser_init s))
          else .ok none
        | .TOKEN_SELECT => parse_select fresh (parser_init s)
        | .TOKEN_INSERT => .ok (parse_insert (parser_init s))
        | .TOKEN_UPDATE => .ok (parse_update (parser_init s))
        | .TOKEN_DELETE => .ok (parse_delete (parser_init s))
        | _ => .ok none : Except Fault (Option ParsedStatement)) with
      | .error f => .error f
      | .ok none => .ok none
      | .ok (some stmt1) => .ok (some { stmt1 with is_explain := true }) := by
    unfold parse_statement
    simp only [e1, decide_True, if_true, hadv, Parser.shift_current_token, parser_advance_shift,
      parse_create_table_shift, parse_create_index_shift, parse_select_shift, parse_insert_shift,
      parse_update_shift, parse_delete_shift]
  have hr : parse_statement fresh s =
      match (match (parser_init s).current_token.type with
        | .TOKEN_CREATE =>
          if (parser_advance (parser_init s)).current_token.type = .TOKEN_TABLE then
            .ok (parse_create_table (parser_init s))
          else if (parser_advance (parser_init s)).current_token.type = .TOKEN_INDEX then
            .ok (parse_create_index (parser_init s))
          else .ok none
        | .TOKEN_SELECT => parse_select fresh (parser_init s)
        | .TOKEN_INSERT => .ok (parse_insert (parser_init s))
        | .TOKEN_UPDATE => .ok (parse_update (parser_init s))
        | .TOKEN_DELETE => .ok (parse_delete (parser_init s))
        | _ => .ok none : Except Fault (Option ParsedStatement)) with
      | .error f => .error f
      | .ok none => .ok none
      | .ok (some stmt1) => .ok (some { stmt1 with is_explain := false }) := by
    unfold parse_statement
    simp only [h, decide_False, if_false, Bool.false_eq_true]
  rw [hl, hr]
  generalize (match (parser_init s).current_token.type with
        | .TOKEN_CREATE =>
          if (parser_advance (parser_init s)).current_token.type = .TOKEN_TABLE then
            .ok (parse_create_table (parser_init s))
          else if (parser_advance (parser_init s)).current_token.type = .TOKEN_INDEX then
            .ok (parse_create_index (parser_init s))
          else .ok none
        | .TOKEN_SELECT => parse_select fresh (parser_init s)
        | .TOKEN_INSERT => .ok (parse_insert (parser_init s))
        | .TOKEN_UPDATE => .ok (parse_update (parser_init s))
        | .TOKEN_DELETE => .ok (parse_delete (parser_init s))
        | _ => .ok none : Except Fault (Option ParsedStatement)) = result
  rcases result with f | _ | stmt1
  · exact ⟨rfl, by simp, by intro stmt hs; cases hs⟩
  · exact ⟨rfl, by simp, by intro stmt hs; cases hs⟩
  · refine ⟨rfl, by simp, ?_⟩
    intro stmt hs
    simp only [Except.ok.injEq, Option.some.injEq] at hs
    subst hs
    exact ⟨rfl, rfl⟩

/-- A concrete case of C38: `CREATE TABLE t (id INT)`, whose first token is CREATE. -/
theorem parse_statement_explain_witness :
    parse_statement JoinClause.zero (explain_bytes ++ input_create_table_t) =
        (parse_statement JoinClause.zero input_create_table_t).map (Option.map explained) ∧
      (parse_statement JoinClause.zero (explain_bytes ++ input_create_table_t) = .ok none ↔
        parse_statement JoinClause.zero input_create_table_t = .ok none) ∧
      ∀ stmt, parse_statement JoinClause.zero input_create_table_t = .ok (some stmt) →
        stmt.is_explain = false ∧
        parse_statement JoinClause.zero (explain_bytes ++ input_create_table_t) =
          .ok (some { stmt with is_explain := true }) :=
  parse_statement_explain JoinClause.zero input_create_table_t (by decide!)

theorem parse_statement_explain_create_table :
    (parse_statement JoinClause.zero (explain_bytes ++ input_create_table_t)).map
        (Option.map (fun stmt => (stmt.is_explain, cstr stmt.table_name))) =
      .ok (some (true, [116])) ∧
    (parse_statement JoinClause.zero (explain_bytes ++ input_create_table_t)).map
        (Option.map (fun stmt => stmt.columns.map (fun c => (cstr c.name, c.size)))) =
      .ok (some [([105, 100], 4)]) := by
  decide!

theorem select_index_loop_cons (primary_key : Nat) (rest : List Nat) (table : Table)
    (printed : List Row) (rows_returned : Nat) :
    select_index_loop (primary_key :: rest) table printed rows_returned =
      match probe_row table primary_key with
      | .error f => .error f
      | .ok (some row, table2) =>
        select_index_loop rest table2 (printed ++ [row]) ((rows_returned + 1) % 4294967296)
      | .ok (none, table1) => select_index_loop rest table1 printed rows_returned := by
  unfold probe_row
  rw [select_index_loop]
  cases table_find table primary_key with
  | error f => rfl
  | ok r =>
    obtain ⟨cursor, table1⟩ := r
    simp only
    by_cases he : cursor.end_of_table = true
    · simp only [he, Bool.not_true, Bool.false_eq_true, if_false]
    · simp only [Bool.not_eq_true] at he
      simp only [he, Bool.not_false, if_true]
      cases cursor_value table1 cursor with
      | error f => rfl
      | ok r2 =>
        obtain ⟨⟨page, off⟩, table2⟩ := r2
        rfl

theorem probe_row_sim (t u : Table) (key : Nat) (r : Option Row) (t1 : Table)
    (htu : table_ext t u) (h : probe_row t key = .ok (r, t1)) :
    ∃ u1, probe_row u key = .ok (r, u1) ∧ table_ext t1 u1 := by
  unfold probe_row at h ⊢
  cases hf : table_find t key with
  | error f => rw [hf] at h; cases h
  | ok x =>
    obtain ⟨cursor, t2⟩ := x
    rw [hf] at h
    obtain ⟨u2, hu2, hext2⟩ := table_find_sim t u key cursor t2 htu hf
    rw [hu2]
    simp only at h ⊢
    by_cases he : cursor.end_of_table = true
    · simp only [he, Bool.not_true, Bool.false_eq_true, if_false] at h ⊢
      injection h with h
      injection h with h1 h2
      exact ⟨u2, by rw [h1], by rw [← h2]; exact hext2⟩
    · simp only [Bool.not_eq_true] at he
      simp only [he, Bool.not_false, if_true] at h ⊢
      cases hv : cursor_value t2 cursor with
      | error f => rw [hv] at h; cases h
      | ok y =>
        obtain ⟨⟨page, off⟩, t3⟩ := y
        rw [hv] at h
        obtain ⟨u3, hu3, hext3⟩ := cursor_value_sim t2 u2 cursor (page, off) t3 hext2 hv
        rw [hu3]
        injection h with h
        injection h with h1 h2
        exact ⟨u3, by rw [← h1], by rw [← h2]; exact hext3⟩

theorem probe_row_ext (t : Table) (key : Nat) (r : Option Row) (t1 : Table)
    (h : probe_row t key = .ok (r, t1)) : table_ext t t1 := by
  unfold probe_row at h
  cases hf : table_find t key with
  | error f => rw [hf] at h; cases h
  | ok x =>
    obtain ⟨cursor, t2⟩ := x
    rw [hf] at h
    have hext2 := table_find_ext t key cursor t2 hf
    simp only at h
    by_cases he : cursor.end_of_table = true
    · simp only [he, Bool.not_true, Bool.false_eq_true, if_false] at h
      injection h with h
      injection h with h1 h2
      rw [← h2]; exact hext2
    · simp only [Bool.not_eq_true] at he
      simp only [he, Bool.not_false, if_true] at h
      cases hv : cursor_value t2 cursor with
      | error f => rw [hv] at h; cases h
      | ok y =>
        obtain ⟨⟨page, off⟩, t3⟩ := y
        rw [hv] at h
        injection h with h
        injection h with h1 h2
        rw [← h2]
        exact table_ext_trans _ _ _ hext2 (cursor_value_ext t2 cursor (page, off) t3 hv)

theorem select_index_loop_found (t0 : Table) (rows : List Row) :
    ∀ (t : Table) (printed : List Row) (n : Nat), table_ext t0 t →
      (∀ r ∈ rows, (probe_row t0 r.id).map (fun x => x.1) = .ok (some r)) →
      ∃ t2, select_index_loop (rows.map (fun r => r.id)) t printed n =
          .ok (printed ++ rows,
            if rows = [] then n else (n + rows.length) % 4294967296, t2) ∧
        table_ext t0 t2 := by
  induction rows with
  | nil =>
    intro t printed n ht _
    exact ⟨t, by simp [select_index_loop], ht⟩
  | cons r rows ih =>
    intro t printed n ht hall
    have hr := hall r (List.mem_cons_self _ _)
    cases hp : probe_row t0 r.id with
    | error f => rw [hp] at hr; cases hr
    | ok x =>
      obtain ⟨o, t1⟩ := x
      rw [hp] at hr
      have ho : o = some r := by
        injection hr with hr
      subst ho
      obtain ⟨u1, hu1, hext1⟩ := probe_row_sim t0 t r.id (some r) t1 ht hp
      have hext : table_ext t0 u1 := by
        exact table_ext_trans _ _ _ (probe_row_ext t0 r.id (some r) t1 hp) hext1
      obtain ⟨t2, h2, hext2⟩ := ih u1 (printed ++ [r]) ((n + 1) % 4294967296) hext
        (fun x hx => hall x (List.mem_cons_of_mem _ hx))
      refine ⟨t2, ?_, hext2⟩
      rw [List.map_cons, select_index_loop_cons, hu1]
      simp only
      rw [h2]
      simp only [List.append_assoc, List.singleton_append, List.length_cons, reduceCtorEq,
        if_false]
      have hcount : (if rows = [] then (n + 1) % 4294967296
          else ((n + 1) % 4294967296 + rows.length) % 4294967296) =
          (n + (rows.length + 1)) % 4294967296 := by
        split_ifs with hn
        · subst hn; rfl
        · omega
      rw [hcount]

theorem where_on_id_false (stmt : ParsedStatement) (w : Condition)
    (hw : stmt.where_clause = some w)
    (hc : strcmp w.column str_username = 0 ∨ strcmp w.column str_email = 0) :
    where_on_id stmt = false := by
  unfold where_on_id
  rw [hw]
  simp only [decide_eq_false_iff_not]
  intro h
  rw [strcmp_eq_zero_iff] at h
  rcases hc with hc | hc
  · rw [strcmp_eq_zero_iff, h] at hc
    revert hc; decide
  · rw [strcmp_eq_zero_iff, h] at hc
    revert hc; decide

/-- C35, the claim as stated fails: the table holds the rows 1, 2 and 8, all with the user
name `u`, and the index on `username` holds the ids 2, 1 and 8 under the key `u`, the order
in which the rows were inserted.  For `SELECT * WHERE username = u`, without ORDER BY and
LIMIT, the index path prints the rows 2, 1, 8 and the scan prints the rows 1, 2, 8. -/
theorem select_index_order_differs :
    full_scan 10 table_rows_1_2_8 = .ok (some ([row_u 1, row_u 2, row_u 8], table_rows_1_2_8)) ∧
      (secondary_index_lookup (manager_index_2_1_8.indexes.getD 0 default) [117]).1
        = some [2, 1, 8] ∧
      ∀ files,
        execute_select files 10 (some manager_index_2_1_8) none stmt_select_u
            table_rows_1_2_8 0 =
          .ok (some (.EXECUTE_SUCCESS, .rows [row_u 2, row_u 1, row_u 8], 3, table_rows_1_2_8,
            none)) ∧
        execute_select files 10 none none stmt_select_u table_rows_1_2_8 0 =
          .ok (some (.EXECUTE_SUCCESS, .rows [row_u 1, row_u 2, row_u 8], 3, table_rows_1_2_8,
            none)) := by
  refine ⟨by decide!, by decide!, ?_⟩
  intro files
  have hj : stmt_select_u.has_join = false := by decide
  have h1 : execute_select no_files 10 (some manager_index_2_1_8) none stmt_select_u
      table_rows_1_2_8 0 =
      .ok (some (.EXECUTE_SUCCESS, .rows [row_u 2, row_u 1, row_u 8], 3, table_rows_1_2_8,
        none)) := by decide!
  have h2 : execute_select no_files 10 none none stmt_select_u table_rows_1_2_8 0 =
      .ok (some (.EXECUTE_SUCCESS, .rows [row_u 1, row_u 2, row_u 8], 3, table_rows_1_2_8,
        none)) := by decide!
  unfold execute_select at h1 h2 ⊢
  simp only [hj, Bool.false_eq_true, if_false] at h1 h2 ⊢
  exact ⟨h1, h2⟩


theorem match_some_index (i : Nat) (F : Nat → Option (Except Fault (List Row × Nat × Table))) :
    (match some i with
      | none => none
      | some j => F j) = F i := rfl

theorem select_by_index_some (manager : IndexManager) (stmt : ParsedStatement) (table : Table)
    (w : Condition) (i : Nat) (pks : List Nat)
    (hw : stmt.where_clause = some w)
    (hi : index_manager_get manager str_users w.column = some i)
    (hidx : (secondary_index_lookup (manager.indexes.getD i default) w.value).1 = some pks) :
    select_by_index (some manager) stmt table = some (select_index_loop pks table [] 0) := by
  have h := match_some_index i (fun j =>
    match (secondary_index_lookup (manager.indexes.getD j default) w.value).1 with
    | none => none
    | some primary_keys => some (select_index_loop primary_keys table [] 0))
  unfold select_by_index
  rw [hw]
  simp only []
  rw [hi, h, hidx]


/-- C35, amended. Take a SELECT without join, aggregate, ORDER BY and LIMIT whose WHERE
clause compares `username` or `email`, an index on that column, and a table whose full scan
ends and reads `rows`.  When the index lookup for the value returns the ids of the rows the
scan keeps, in the order of the scan, and the tree search for each of these ids arrives at
that row, the secondary-index path and the full-scan path return the same rows in the same
order, and the same row count. -/
theorem select_index_path_eq_scan (files : List Nat → TableFiles) (fuel : Nat)
    (manager : IndexManager) (table_manager : Option TableManager) (stmt : ParsedStatement)
    (table : Table) (actual_rows : Nat) (w : Condition) (i : Nat) (rows : List Row)
    (table1 : Table)
    (hj : stmt.has_join = false) (ha : stmt.has_aggregation = false)
    (ho : stmt.has_order_by = false) (hl : stmt.has_limit = false)
    (hw : stmt.where_clause = some w)
    (hc : strcmp w.column str_username = 0 ∨ strcmp w.column str_email = 0)
    (hi : index_manager_get manager str_users w.column = some i)
    (hscan : full_scan fuel table = .ok (some (rows, table1)))
    (hidx : (secondary_index_lookup (manager.indexes.getD i default) w.value).1 =
      some ((rows.filter (should_include stmt)).map (fun r => r.id)))
    (hfind : ∀ r ∈ rows.filter (should_include stmt),
      (probe_row table r.id).map (fun x => x.1) = .ok (some r)) :
    ∃ table2 table3,
      execute_select files fuel (some manager) table_manager stmt table actual_rows =
        .ok (some (.EXECUTE_SUCCESS, .rows (rows.filter (should_include stmt)),
          (rows.filter (should_include stmt)).length % 4294967296, table2, table_manager)) ∧
      execute_select files fuel none table_manager stmt table actual_rows =
        .ok (some (.EXECUTE_SUCCESS, .rows (rows.filter (should_include stmt)),
          (rows.filter (should_include stmt)).length % 4294967296, table3, table_manager)) := by
  obtain ⟨t2, h2, _⟩ := select_index_loop_found table (rows.filter (should_include stmt))
    table [] 0 (table_ext_refl _) hfind
  have hcount : (if rows.filter (should_include stmt) = [] then 0
      else (0 + (rows.filter (should_include stmt)).length) % 4294967296) =
      (rows.filter (should_include stmt)).length % 4294967296 := by
    split_ifs with hn
    · rw [hn, List.length_nil, Nat.zero_mod]
    · rw [Nat.zero_add]
  rw [hcount, List.nil_append] at h2
  have hidx_path := select_by_index_some manager stmt table w i _ hw hi hidx
  have hscan_path : select_by_index none stmt table = none := by
    unfold select_by_index
    cases stmt.where_clause <;> rfl
  unfold full_scan at hscan
  cases hs : table_start table with
  | error f => rw [hs] at hscan; cases hscan
  | ok x =>
    obtain ⟨cursor, t1⟩ := x
    rw [hs] at hscan
    have hloop := select_scan_loop_plain stmt ho hl fuel t1 cursor rows table1 [] [] 0 hscan
      (by decide)
    rw [List.nil_append, Nat.zero_add] at hloop
    refine ⟨t2, table1, ?_, ?_⟩
    · unfold execute_select
      simp only [hj, ha, Bool.false_eq_true, if_false, hidx_path, h2]
    · unfold execute_select
      simp only [hj, ha, Bool.false_eq_true, if_false, hscan_path,
        where_on_id_false stmt w hw hc, hs, hloop, select_finish, ho, false_and]

/-- A concrete case of C35: the table with the rows 1, 2 and 8 and the index built by
`CREATE INDEX` from it, which lists the ids in the order of the scan. -/
theorem select_index_path_eq_scan_witness :
    ∃ table2 table3,
      execute_select no_files 10 (some manager_index_1_2_8) none stmt_select_u
          table_rows_1_2_8 0 =
        .ok (some (.EXECUTE_SUCCESS,
          .rows ([row_u 1, row_u 2, row_u 8].filter (should_include stmt_select_u)),
          ([row_u 1, row_u 2, row_u 8].filter (should_include stmt_select_u)).length
            % 4294967296, table2, none)) ∧
      execute_select no_files 10 none none stmt_select_u table_rows_1_2_8 0 =
        .ok (some (.EXECUTE_SUCCESS,
          .rows ([row_u 1, row_u 2, row_u 8].filter (should_include stmt_select_u)),
          ([row_u 1, row_u 2, row_u 8].filter (should_include stmt_select_u)).length
            % 4294967296, table3, none)) :=
  select_index_path_eq_scan no_files 10 manager_index_1_2_8 none stmt_select_u table_rows_1_2_8
    0 { column := str_username, operator := [61], value := [117] } 0
    [row_u 1, row_u 2, row_u 8] table_rows_1_2_8 (by decide) (by decide) (by decide)
    (by decide) rfl (Or.inl (by decide)) (by decide!) (by decide!) (by decide!) (by decide!)

theorem select_index_path_example :
    [row_u 1, row_u 2, row_u 8].filter (should_include stmt_select_u) =
      [row_u 1, row_u 2, row_u 8] ∧
    (secondary_index_lookup (manager_index_1_2_8.indexes.getD 0 default) [117]).1 =
      some [1, 2, 8] := by
  decide!

theorem getD_append_mid (X M N Y : List Nat) (hl : M.length = N.length) (j : Nat)
    (hj : j < X.length ∨ X.length + M.length ≤ j) :
    (X ++ M ++ Y).getD j 0 = (X ++ N ++ Y).getD j 0 := by
  simp only [List.getD_eq_getElem?_getD, List.append_assoc]
  rcases hj with hj | hj
  · rw [List.getElem?_append_left hj, List.getElem?_append_left hj]
  · rw [List.getElem?_append_right (by omega), List.getElem?_append_right (by omega),
      List.getElem?_append_right (by omega), List.getElem?_append_right (by omega), hl]

theorem read_u32_congr (a b : List Nat) (off : Nat)
    (h : ∀ j, off ≤ j → j < off + 4 → a.getD j 0 = b.getD j 0) :
    read_u32 a off = read_u32 b off := by
  unfold read_u32
  rw [h off (by omega) (by omega), h (off + 1) (by omega) (by omega),
    h (off + 2) (by omega) (by omega), h (off + 3) (by omega) (by omega)]

theorem take_drop_congr (a b : List Nat) (off n : Nat) (hl : a.length = b.length)
    (h : ∀ j, off ≤ j → j < off + n → a.getD j 0 = b.getD j 0) :
    (a.drop off).take n = (b.drop off).take n := by
  apply List.ext_getElem?
  intro i
  rw [List.getElem?_take, List.getElem?_take]
  split_ifs with hi
  · rw [List.getElem?_drop, List.getElem?_drop]
    have hj := h (off + i) (by omega) (by omega)
    rw [List.getD_eq_getElem?_getD, List.getD_eq_getElem?_getD] at hj
    by_cases hlt : off + i < a.length
    · rw [List.getElem?_eq_getElem hlt, List.getElem?_eq_getElem (by omega)] at hj ⊢
      simp only [Option.getD_some] at hj
      rw [hj]
    · rw [List.getElem?_eq_none (by omega), List.getElem?_eq_none (by omega)]
  · rfl

theorem deserialize_row_drop_congr (a b : List Nat) (off : Nat) (hl : a.length = b.length)
    (h : ∀ j, off ≤ j → j < off + 291 → a.getD j 0 = b.getD j 0) :
    deserialize_row (a.drop off) = deserialize_row (b.drop off) := by
  unfold deserialize_row
  have h1 : read_u32 (a.drop off) 0 = read_u32 (b.drop off) 0 := by
    apply read_u32_congr
    intro j _ hj
    rw [List.getD_eq_getElem?_getD, List.getD_eq_getElem?_getD, List.getElem?_drop,
      List.getElem?_drop, ← List.getD_eq_getElem?_getD, ← List.getD_eq_getElem?_getD]
    exact h (off + j) (by omega) (by omega)
  have h2 : ((a.drop off).drop ID_SIZE).take USERNAME_SIZE =
      ((b.drop off).drop ID_SIZE).take USERNAME_SIZE := by
    rw [List.drop_drop, List.drop_drop]
    apply take_drop_congr _ _ _ _ hl
    intro j hj1 hj2
    simp only [ID_SIZE, USERNAME_SIZE, COLUMN_USERNAME_SIZE] at hj1 hj2
    exact h j (by omega) (by omega)
  have h3 : ((a.drop off).drop (ID_SIZE + USERNAME_SIZE)).take EMAIL_SIZE =
      ((b.drop off).drop (ID_SIZE + USERNAME_SIZE)).take EMAIL_SIZE := by
    rw [List.drop_drop, List.drop_drop]
    apply take_drop_congr _ _ _ _ hl
    intro j hj1 hj2
    simp only [ID_SIZE, USERNAME_SIZE, EMAIL_SIZE, COLUMN_USERNAME_SIZE, COLUMN_EMAIL_SIZE]
      at hj1 hj2
    exact h j (by omega) (by omega)
  rw [h1, h2, h3]

theorem u32_bytes_read_u32 (d : List Nat) (hl : d.length = 4) (hb : ∀ b ∈ d, b < 256) :
    u32_bytes (read_u32 d 0) = d ∧ read_u32 d 0 < 4294967296 := by
  match d, hl with
  | [a, b, c, e], _ =>
    have ha := hb a (by simp)
    have hb2 := hb b (by simp)
    have hc := hb c (by simp)
    have he := hb e (by simp)
    simp only [read_u32, u32_bytes, List.getD_cons_zero, List.getD_cons_succ, List.cons.injEq,
      and_true]
    refine ⟨⟨?_, ?_, ?_, ?_⟩, ?_⟩ <;> omega

theorem strncpy_length_eq (dst src : List Nat) (n : Nat) (h : n ≤ dst.length) :
    (strncpy dst src n).length = dst.length := by
  have hb : (strncpy_bytes src n).length = n := by
    unfold strncpy_bytes
    simp only [List.length_append, List.length_replicate, List.length_take]
    omega
  unfold strncpy memcpy
  simp only [List.take_zero, List.nil_append, List.length_append, List.length_take,
    List.length_drop, hb, Nat.zero_add]
  omega


theorem updated_page_eq (page : Page) (off : Nat) (a : Assignment)
    (hlen : off + 291 ≤ page.length) (hb : ∀ b ∈ page, b < 256) :
    updated_page page off a =
        page.take (off + 4) ++
          ((if strcmp a.column str_username = 0 then
              strncpy (username_bytes page off) a.value COLUMN_USERNAME_SIZE
            else username_bytes page off) ++
           (if strcmp a.column str_username ≠ 0 ∧ strcmp a.column str_email = 0 then
              strncpy (email_bytes page off) a.value COLUMN_EMAIL_SIZE
            else email_bytes page off)) ++
          page.drop (off + 291) ∧
      page = page.take (off + 4) ++ (username_bytes page off ++ email_bytes page off) ++
          page.drop (off + 291) ∧
      deserialize_row ((updated_page page off a).drop off) =
        apply_assignment (deserialize_row (page.drop off)) a ∧
      (deserialize_row (page.drop off)).username = username_bytes page off ∧
      (deserialize_row (page.drop off)).email = email_bytes page off := by
  obtain ⟨d0, d1, d2, rest, hdst, h0, h1, h2, hrest⟩ := split_at_291 (page.drop off)
    (by rw [List.length_drop]; omega)
  have hP : (page.take off).length = off := by rw [List.length_take]; omega
  have hpage : page = page.take off ++ (d0 ++ d1 ++ d2 ++ rest) := by
    rw [← hdst, List.take_append_drop]
  have hd0b : ∀ b ∈ d0, b < 256 := by
    intro b hm
    apply hb
    rw [hpage]
    simp [hm]
  obtain ⟨hu32, hid⟩ := u32_bytes_read_u32 d0 h0 hd0b
  have e_take : page.take (off + 4) = page.take off ++ d0 := by
    rw [List.take_add, hdst]
    simp [List.take_append_of_le_length, h0, List.append_assoc]
  have e_user : username_bytes page off = d1 := by
    unfold username_bytes
    rw [← List.drop_drop, hdst]
    simp [List.append_assoc, List.drop_append_of_le_length, h0, h1,
      List.take_append_of_le_length]
  have e_email : email_bytes page off = d2 := by
    unfold email_bytes
    rw [← List.drop_drop, hdst]
    have : d0 ++ d1 ++ d2 ++ rest = (d0 ++ d1) ++ (d2 ++ rest) := by simp [List.append_assoc]
    rw [this, List.drop_append_of_le_length (by simp [h0, h1]),
      List.drop_of_length_le (by simp [h0, h1]), List.nil_append,
      List.take_append_of_le_length (by omega), List.take_of_length_le (by omega)]
  have e_drop : page.drop (off + 291) = rest := by
    rw [← List.drop_drop, ← hrest]
  have hrow : deserialize_row (page.drop off) = ⟨read_u32 d0 0, d1, d2⟩ := by
    have := deserialize_row_append ⟨read_u32 d0 0, d1, d2⟩ rest ⟨hid, h1, h2⟩
    simp only [hu32] at this
    rw [hdst, this]
  have hser : ∀ row1 : Row, row1.id = read_u32 d0 0 → row1.username.length = 32 →
      row1.email.length = 255 →
      updated_page page off a = page.take off ++ d0 ++ (row1.username ++ row1.email) ++ rest →
      deserialize_row ((updated_page page off a).drop off) = row1 := by
    intro row1 e1 e2 e3 e4
    rw [e4]
    have : page.take off ++ d0 ++ (row1.username ++ row1.email) ++ rest =
        page.take off ++ (u32_bytes row1.id ++ row1.username ++ row1.email ++ rest) := by
      rw [e1, hu32]; simp [List.append_assoc]
    rw [this, List.drop_left' hP]
    exact deserialize_row_append row1 rest ⟨by rw [e1]; exact hid, e2, e3⟩
  have hupd : ∀ row1 : Row, row1.id = read_u32 d0 0 → row1.username.length = 32 →
      row1.email.length = 255 →
      apply_assignment (deserialize_row (page.drop off)) a = row1 →
      updated_page page off a = page.take off ++ d0 ++ (row1.username ++ row1.email) ++ rest := by
    intro row1 e1 e2 e3 e4
    unfold updated_page
    rw [e4, serialize_row_eq row1 (page.drop off) e2 e3 (by rw [List.length_drop]; omega),
      ← hrest, e1, hu32]
    simp [List.append_assoc]
  have hstr1 : (strncpy d1 a.value COLUMN_USERNAME_SIZE).length = 32 := by
    rw [strncpy_length_eq _ _ _ (by rw [h1]; decide), h1]
  have hstr2 : (strncpy d2 a.value COLUMN_EMAIL_SIZE).length = 255 := by
    rw [strncpy_length_eq _ _ _ (by rw [h2]; decide), h2]
  rw [e_take, e_user, e_email, e_drop]
  refine ⟨?_, ?_, ?_, by rw [hrow], by rw [hrow]⟩
  · by_cases hu : strcmp a.column str_username = 0
    · rw [if_pos hu, if_neg (fun h => h.1 hu)]
      exact hupd ⟨read_u32 d0 0, strncpy d1 a.value COLUMN_USERNAME_SIZE, d2⟩ rfl hstr1 h2
        (by rw [hrow]; simp only [apply_assignment, if_pos hu])
    · rw [if_neg hu]
      by_cases he : strcmp a.column str_email = 0
      · rw [if_pos ⟨hu, he⟩]
        exact hupd ⟨read_u32 d0 0, d1, strncpy d2 a.value COLUMN_EMAIL_SIZE⟩ rfl h1 hstr2
          (by rw [hrow]; simp only [apply_assignment, if_neg hu, if_pos he])
      · rw [if_neg (fun h => he h.2)]
        exact hupd ⟨read_u32 d0 0, d1, d2⟩ rfl h1 h2
          (by rw [hrow]; simp only [apply_assignment, if_neg hu, if_neg he])
  · exact hpage.trans (by simp only [List.append_assoc])
  · by_cases hu : strcmp a.column str_username = 0
    · have e := hupd ⟨read_u32 d0 0, strncpy d1 a.value COLUMN_USERNAME_SIZE, d2⟩ rfl hstr1 h2
        (by rw [hrow]; simp only [apply_assignment, if_pos hu])
      rw [hser _ rfl hstr1 h2 e, hrow]
      simp only [apply_assignment, if_pos hu]
    · by_cases he : strcmp a.column str_email = 0
      · have e := hupd ⟨read_u32 d0 0, d1, strncpy d2 a.value COLUMN_EMAIL_SIZE⟩ rfl h1 hstr2
          (by rw [hrow]; simp only [apply_assignment, if_neg hu, if_pos he])
        rw [hser _ rfl h1 hstr2 e, hrow]
        simp only [apply_assignment, if_neg hu, if_pos he]
      · have e := hupd ⟨read_u32 d0 0, d1, d2⟩ rfl h1 h2
          (by rw [hrow]; simp only [apply_assignment, if_neg hu, if_neg he])
        rw [hser _ rfl h1 h2 e, hrow]
        simp only [apply_assignment, if_neg hu, if_neg he]


theorem frame_of_eq (page page1 X M N Y : List Nat) (hp : page = X ++ M ++ Y)
    (hp1 : page1 = X ++ N ++ Y) (hl : M.length = N.length) :
    page1.length = page.length ∧
      ∀ j, (j < X.length ∨ X.length + M.length ≤ j) → page1.getD j 0 = page.getD j 0 := by
  subst hp hp1
  refine ⟨by simp [hl], ?_⟩
  intro j hj
  exact (getD_append_mid X M N Y hl j hj).symm

theorem leaf_node_value_eq (k : Nat) : leaf_node_value k = 18 + k * 295 := by
  simp only [leaf_node_value, leaf_node_cell, LEAF_NODE_HEADER_SIZE, COMMON_NODE_HEADER_SIZE,
    LEAF_NODE_CELL_SIZE, LEAF_NODE_KEY_SIZE, ROW_SIZE, ID_SIZE, USERNAME_SIZE, EMAIL_SIZE,
    COLUMN_USERNAME_SIZE, COLUMN_EMAIL_SIZE]
  omega

theorem updated_page_frame (page : Page) (k : Nat) (a : Assignment)
    (hlen : page.length = PAGE_SIZE) (hb : ∀ b ∈ page, b < 256)
    (hk : k < LEAF_NODE_MAX_CELLS) :
    (updated_page page (leaf_node_value k) a).length = page.length ∧
    (∀ j, j < leaf_node_value k + 4 ∨ leaf_node_value k + 291 ≤ j →
      (updated_page page (leaf_node_value k) a).getD j 0 = page.getD j 0) ∧
    (strcmp a.column str_username = 0 → ∀ j, leaf_node_value k + 36 ≤ j →
      (updated_page page (leaf_node_value k) a).getD j 0 = page.getD j 0) ∧
    (strcmp a.column str_username ≠ 0 → ∀ j, j < leaf_node_value k + 36 →
      (updated_page page (leaf_node_value k) a).getD j 0 = page.getD j 0) ∧
    (strcmp a.column str_username ≠ 0 → strcmp a.column str_email ≠ 0 →
      updated_page page (leaf_node_value k) a = page) := by
  have hk13 : k < 13 := hk
  have hoff := leaf_node_value_eq k
  have hlen2 : page.length = 4096 := hlen
  have hle : leaf_node_value k + 291 ≤ page.length := by omega
  obtain ⟨e1, e2, _, _, _⟩ := updated_page_eq page (leaf_node_value k) a hle hb
  have hX : (page.take (leaf_node_value k + 4)).length = leaf_node_value k + 4 := by
    rw [List.length_take]; omega
  have hU : (username_bytes page (leaf_node_value k)).length = 32 := by
    unfold username_bytes
    rw [List.length_take, List.length_drop]; omega
  have hE : (email_bytes page (leaf_node_value k)).length = 255 := by
    unfold email_bytes
    rw [List.length_take, List.length_drop]; omega
  have hU1 : (strncpy (username_bytes page (leaf_node_value k)) a.value
      COLUMN_USERNAME_SIZE).length = 32 := by
    rw [strncpy_length_eq _ _ _ (by rw [hU]; decide), hU]
  have hE1 : (strncpy (email_bytes page (leaf_node_value k)) a.value
      COLUMN_EMAIL_SIZE).length = 255 := by
    rw [strncpy_length_eq _ _ _ (by rw [hE]; decide), hE]
  have hall := frame_of_eq page (updated_page page (leaf_node_value k) a) _ _ _ _ e2 e1
    (by
      simp only [List.length_append, hU, hE]
      split_ifs <;> simp only [hU1, hE1, hU, hE])
  refine ⟨hall.1, ?_, ?_, ?_, ?_⟩
  · intro j hj
    apply hall.2
    rw [hX, List.length_append, hU, hE]
    omega
  · intro hu j hj
    rw [if_pos hu, if_neg (fun h => h.1 hu)] at e1
    have e1b : updated_page page (leaf_node_value k) a =
        page.take (leaf_node_value k + 4) ++
          strncpy (username_bytes page (leaf_node_value k)) a.value COLUMN_USERNAME_SIZE ++
          (email_bytes page (leaf_node_value k) ++ page.drop (leaf_node_value k + 291)) := by
      rw [e1]; simp only [List.append_assoc]
    have e2b : page = page.take (leaf_node_value k + 4) ++
        username_bytes page (leaf_node_value k) ++
        (email_bytes page (leaf_node_value k) ++ page.drop (leaf_node_value k + 291)) := by
      exact e2.trans (by simp only [List.append_assoc])
    exact (frame_of_eq page _ _ _ _ _ e2b e1b (by rw [hU, hU1])).2 j
      (Or.inr (by rw [hX, hU]; omega))
  · intro hu j hj
    rw [if_neg hu] at e1
    have e1b : updated_page page (leaf_node_value k) a =
        (page.take (leaf_node_value k + 4) ++ username_bytes page (leaf_node_value k)) ++
          (if strcmp a.column str_username ≠ 0 ∧ strcmp a.column str_email = 0 then
            strncpy (email_bytes page (leaf_node_value k)) a.value COLUMN_EMAIL_SIZE
           else email_bytes page (leaf_node_value k)) ++
          page.drop (leaf_node_value k + 291) := by
      rw [e1]; simp only [List.append_assoc]
    have e2b : page = (page.take (leaf_node_value k + 4) ++
        username_bytes page (leaf_node_value k)) ++
        email_bytes page (leaf_node_value k) ++ page.drop (leaf_node_value k + 291) := by
      exact e2.trans (by simp only [List.append_assoc])
    exact (frame_of_eq page _ _ _ _ _ e2b e1b (by split_ifs <;> simp only [hE, hE1])).2 j
      (Or.inl (by rw [List.length_append, hX, hU]; omega))
  · intro hu he
    rw [if_neg hu, if_neg (fun h => he h.2)] at e1
    rw [e1, ← e2]

theorem updated_page_reads (page page1 : Page) (k : Nat) (hl : page1.length = page.length)
    (h : ∀ j, j < leaf_node_value k + 4 ∨ leaf_node_value k + 291 ≤ j →
      page1.getD j 0 = page.getD j 0) :
    leaf_node_num_cells page1 = leaf_node_num_cells page ∧
    leaf_node_next_leaf page1 = leaf_node_next_leaf page ∧
    (∀ c, leaf_node_key page1 c = leaf_node_key page c) ∧
    (∀ c, c ≠ k → deserialize_row (page1.drop (leaf_node_value c)) =
      deserialize_row (page.drop (leaf_node_value c))) := by
  have hoff := leaf_node_value_eq k
  refine ⟨?_, ?_, ?_, ?_⟩
  · apply read_u32_congr
    intro j h1 h2
    simp only [LEAF_NODE_NUM_CELLS_OFFSET, COMMON_NODE_HEADER_SIZE] at h1 h2
    exact h j (Or.inl (by omega))
  · apply read_u32_congr
    intro j h1 h2
    simp only [LEAF_NODE_NEXT_LEAF_OFFSET, LEAF_NODE_NUM_CELLS_OFFSET,
      COMMON_NODE_HEADER_SIZE] at h1 h2
    exact h j (Or.inl (by omega))
  · intro c
    apply read_u32_congr
    intro j h1 h2
    have hc : leaf_node_cell c = 14 + c * 295 := by
      have := leaf_node_value_eq c
      simp only [leaf_node_value, LEAF_NODE_KEY_SIZE] at this
      omega
    rw [hc] at h1 h2
    apply h j
    rcases Nat.lt_trichotomy c k with hlt | heq | hgt
    · left; omega
    · left; omega
    · right; omega
  · intro c hc
    apply deserialize_row_drop_congr _ _ _ hl
    intro j h1 h2
    have hoffc := leaf_node_value_eq c
    apply h j
    rcases Nat.lt_or_gt_of_ne hc with hlt | hgt
    · left; omega
    · right; omega


theorem execute_update_run (stmt : ParsedStatement) (table : Table) (w : Condition)
    (cursor : Cursor) (table1 : Table) (page : Page) (pager1 : Pager)
    (hw : stmt.where_clause = some w) (hid : strcmp w.column str_id = 0)
    (hfind : table_find table (atoi_u32 w.value) = .ok (cursor, table1))
    (hget : pager_get_page table1.pager cursor.page_num = .ok (page, pager1))
    (he : cursor.end_of_table = false) (hlt : cursor.cell_num < leaf_node_num_cells page)
    (hkey : leaf_node_key page cursor.cell_num = atoi_u32 w.value) :
    ∃ table2, table_ext table table2 ∧
      execute_update stmt table = .ok (.EXECUTE_SUCCESS,
        { table2 with
          pager := pager_set_page table2.pager cursor.page_num
            (updated_page page (leaf_node_value cursor.cell_num)
              (stmt.assignments.getD 0 ⟨[], []⟩)) }) := by
  have hext1 : table_ext table table1 := table_find_ext _ _ _ _ hfind
  have hc1 := pager_get_page_cache_ext _ _ _ _ hget
  obtain ⟨q1, hq1, hc2⟩ := pager_get_page_sim _ pager1 _ _ _ hc1 hget
  refine ⟨{ table1 with pager := q1 }, ?_, ?_⟩
  · exact table_ext_trans _ _ _ hext1 ⟨rfl, rfl, cache_ext_trans _ _ _ hc1 hc2⟩
  · unfold execute_update
    rw [hw]
    simp only
    rw [if_pos hid, hfind]
    simp only [he, Bool.not_false, if_true]
    rw [hget]
    simp only
    rw [if_pos ⟨hlt, hkey⟩]
    unfold cursor_value
    simp only
    rw [hq1]
    rfl

/-- C37: `execute_update` without WHERE returns `EXECUTE_SUCCESS` and leaves the table as
it is.  With `WHERE id = v`, when the search arrives at a cell of a leaf page that holds the
key `v` (the page has `PAGE_SIZE` bytes and at most `LEAF_NODE_MAX_CELLS` cells), it returns
`EXECUTE_SUCCESS` and its one store is into that page: the table is the table after the
reads of the search, with the page replaced.  In the new page every byte outside the user
name and the e-mail address of that row is as before, so the row keeps its id, every key,
the cell count and the link to the next leaf are as before, and every other row reads as
before.  The row itself reads as the old row with the assignment applied: for the column
`username` the bytes of the e-mail address are as before, for every other column the bytes
of the user name are as before, and for a column that is neither `username` nor `email` the
whole page is as before. -/
theorem execute_update_frame (stmt : ParsedStatement) (table : Table) :
    (stmt.where_clause = none → execute_update stmt table = .ok (.EXECUTE_SUCCESS, table)) ∧
    (∀ w cursor table1 page pager1, stmt.where_clause = some w → strcmp w.column str_id = 0 →
      table_find table (atoi_u32 w.value) = .ok (cursor, table1) →
      pager_get_page table1.pager cursor.page_num = .ok (page, pager1) →
      cursor.end_of_table = false → cursor.cell_num < leaf_node_num_cells page →
      leaf_node_key page cursor.cell_num = atoi_u32 w.value →
      page.length = PAGE_SIZE → (∀ b ∈ page, b < 256) →
      leaf_node_num_cells page ≤ LEAF_NODE_MAX_CELLS →
      ∃ table2 page1, table_ext table table2 ∧
        execute_update stmt table = .ok (.EXECUTE_SUCCESS,
          { table2 with pager := pager_set_page table2.pager cursor.page_num page1 }) ∧
        page1.length = page.length ∧
        (∀ j, j < leaf_node_value cursor.cell_num + 4 ∨
            leaf_node_value cursor.cell_num + 291 ≤ j → page1.getD j 0 = page.getD j 0) ∧
        leaf_node_num_cells page1 = leaf_node_num_cells page ∧
        leaf_node_next_leaf page1 = leaf_node_next_leaf page ∧
        (∀ c, leaf_node_key page1 c = leaf_node_key page c) ∧
        (∀ c, c ≠ cursor.cell_num →
          deserialize_row (page1.drop (leaf_node_value c)) =
            deserialize_row (page.drop (leaf_node_value c))) ∧
        deserialize_row (page1.drop (leaf_node_value cursor.cell_num)) =
          apply_assignment (deserialize_row (page.drop (leaf_node_value cursor.cell_num)))
            (stmt.assignments.getD 0 ⟨[], []⟩) ∧
        (deserialize_row (page1.drop (leaf_node_value cursor.cell_num))).id =
          (deserialize_row (page.drop (leaf_node_value cursor.cell_num))).id ∧
        (strcmp (stmt.assignments.getD 0 ⟨[], []⟩).column str_username = 0 →
          ∀ j, leaf_node_value cursor.cell_num + 36 ≤ j → page1.getD j 0 = page.getD j 0) ∧
        (strcmp (stmt.assignments.getD 0 ⟨[], []⟩).column str_username ≠ 0 →
          ∀ j, j < leaf_node_value cursor.cell_num + 36 → page1.getD j 0 = page.getD j 0) ∧
        (strcmp (stmt.assignments.getD 0 ⟨[], []⟩).column str_username ≠ 0 →
          strcmp (stmt.assignments.getD 0 ⟨[], []⟩).column str_email ≠ 0 → page1 = page)) := by
  refine ⟨?_, ?_⟩
  · intro hw
    unfold execute_update
    rw [hw]
  · intro w cursor table1 page pager1 hw hid hfind hget he hlt hkey hlen hb hcells
    obtain ⟨table2, hext, hrun⟩ := execute_update_run stmt table w cursor table1 page pager1
      hw hid hfind hget he hlt hkey
    have hk : cursor.cell_num < LEAF_NODE_MAX_CELLS := Nat.lt_of_lt_of_le hlt hcells
    obtain ⟨f1, f2, f3, f4, f5⟩ := updated_page_frame page cursor.cell_num
      (stmt.assignments.getD 0 ⟨[], []⟩) hlen hb hk
    obtain ⟨r1, r2, r3, r4⟩ := updated_page_reads page _ cursor.cell_num f1 f2
    have hoff := leaf_node_value_eq cursor.cell_num
    have hk13 : cursor.cell_num < 13 := hk
    have hlen2 : page.length = 4096 := hlen
    obtain ⟨_, _, g3, _, _⟩ := updated_page_eq page (leaf_node_value cursor.cell_num)
      (stmt.assignments.getD 0 ⟨[], []⟩) (by omega) hb
    refine ⟨table2, _, hext, hrun, f1, f2, r1, r2, r3, r4, g3, ?_, f3, f4, f5⟩
    rw [g3]
    unfold apply_assignment
    split_ifs <;> rfl

/-- A concrete case of C37: `UPDATE SET username = bob WHERE id = 1` on the table that holds
the row of alice in cell 0 of its root leaf. -/
theorem execute_update_frame_witness :
    ∃ table2 page1, table_ext table_with_alice table2 ∧
      execute_update stmt_update_bob table_with_alice = .ok (.EXECUTE_SUCCESS,
        { table2 with pager := pager_set_page table2.pager 0 page1 }) ∧
      page1.length = (leaf_page true 0 0 [row_alice]).length ∧
      (∀ j, j < leaf_node_value 0 + 4 ∨ leaf_node_value 0 + 291 ≤ j →
        page1.getD j 0 = (leaf_page true 0 0 [row_alice]).getD j 0) ∧
      (∀ c, leaf_node_key page1 c = leaf_node_key (leaf_page true 0 0 [row_alice]) c) ∧
      deserialize_row (page1.drop (leaf_node_value 0)) =
        apply_assignment (deserialize_row ((leaf_page true 0 0 [row_alice]).drop
          (leaf_node_value 0))) (stmt_update_bob.assignments.getD 0 ⟨[], []⟩) := by
  obtain ⟨table2, page1, h1, h2, h3, h4, _, _, h7, _, h9, _⟩ :=
    (execute_update_frame stmt_update_bob table_with_alice).2
      { column := str_id, operator := [61], value := [49] }
      { page_num := 0, cell_num := 0, end_of_table := false } table_with_alice
      (leaf_page true 0 0 [row_alice]) table_with_alice.pager rfl (by decide) (by decide!)
      (by decide!) rfl (by decide!) (by decide!) (by decide!) (by decide!) (by decide!)
  exact ⟨table2, page1, h1, h2, h3, h4, h7, h9⟩

theorem execute_update_examples :
    (execute_update stmt_update_bob table_with_alice).map
        (fun r => (r.1, r.2.pager.pages.getD 0 none)) =
      .ok (.EXECUTE_SUCCESS, some (leaf_page true 0 0
        [{ row_alice with username := [98, 111, 98] ++ List.replicate 29 0 }])) ∧
    (execute_update stmt_update_id table_with_alice).map
        (fun r => (r.1, r.2.pager.pages.getD 0 none)) =
      .ok (.EXECUTE_SUCCESS, some (leaf_page true 0 0 [row_alice])) := by
  decide!

end MiniDB
